import Mathlib

/-! MiniLang: a shallow embedding of the tree-walking evaluator

The definitions below follow `src/MiniLang.cpp`: the `Value` variant, the
`Environment` scope chain, the callable kinds, the object/class model, the
expression evaluator and statement executor, and `deepcopy_recursive`.

Conventions of the embedding.

* Every `std::shared_ptr` becomes an index into a store of the interpreter
  state (`State`); allocation appends to the store, so a fresh allocation is
  the index `length` of the store and pointer equality is index equality.
* C++ exceptions are the `throw` outcome of `Res`, which carries the state at
  the point of the throw, since side effects made before it persist.
* Recursion of the evaluator and of `deepcopy_recursive` is bounded by a fuel
  argument; the outcome `Res.outOfFuel` says the budget was too small, never
  that the program stopped.  An outcome other than `outOfFuel` is the outcome
  for every larger budget (section Fuel).
* Undefined behaviour of the host program (a null or dangling pointer
  dereferenced, a vector read past its end) is the outcome `Res.fault`.
* `int` is a 32-bit integer.  An arithmetic operation on `int` whose exact
  result is outside the range of `int` is undefined behaviour (signed
  overflow), hence the outcome `Res.fault`; so is `INT_MIN % -1`.  `double` is
  IEEE-754 binary64 with round-to-nearest-even.
* A `std::string` is a `String`, indexed by character; the two agree on ASCII
  text.  A string is held by value; the sharing of `StringData` buffers is
  not part of the state.
* The bodies of `if`, `while`, `for` and `foreach` are taken non-null (the
  source dereferences them unchecked); null statements occur in statement lists.
* Of the native functions, those listed in `NativeFn` are embedded.
-/

namespace MiniLang

/-! ## Machine numbers -/

/-- Width of the C++ type `int` on the platforms the program is built for. -/
def INT_BITS : Nat := 32

/-- Largest value of `int`. -/
def INT_MAX : Int := 2 ^ (INT_BITS - 1) - 1

/-- Smallest value of `int`. -/
def INT_MIN : Int := -(2 ^ (INT_BITS - 1))

/-- Membership in the range of `int`. -/
def inIntRange (x : Int) : Prop := INT_MIN ≤ x ∧ x ≤ INT_MAX

instance (x : Int) : Decidable (inIntRange x) :=
  inferInstanceAs (Decidable (INT_MIN ≤ x ∧ x ≤ INT_MAX))

/-- IEEE-754 binary64 datum, the `double` alternative of `Value`.  A finite
datum `fin neg m e` denotes `(-1)^neg * m * 2^e` and is kept canonical:
`m < 2^53`, `-1074 ≤ e ≤ 971`, and `m < 2^52` only when `e = -1074`. -/
inductive Double where
  | nan
  | inf (neg : Bool)
  | fin (neg : Bool) (m : Nat) (e : Int)
deriving DecidableEq, Repr

namespace Double

/-- Auxiliary for `ilog2`, structurally recursive on a budget. -/
def ilog2Aux : Nat → Nat → Nat
  | 0, _ => 0
  | f + 1, n => if n < 2 then 0 else ilog2Aux f (n / 2) + 1

/-- Position of the highest set bit: `floor (log2 n)` for `n > 0`. -/
def ilog2 (n : Nat) : Nat := ilog2Aux n n

/-- Value `floor (log2 (n / d))` for positive `n` and `d`. -/
def floorLog2 (n d : Nat) : Int :=
  let k : Int := (ilog2 n : Int) - (ilog2 d : Int)
  if 0 ≤ k then (if d * 2 ^ k.toNat ≤ n then k else k - 1)
  else (if d ≤ n * 2 ^ (-k).toNat then k else k - 1)

/-- Quotient `num / den` rounded to the nearest integer, ties to even. -/
def roundDiv (num den : Nat) : Nat :=
  let q := num / den
  let r := num % den
  if 2 * r < den then q
  else if den < 2 * r then q + 1
  else if q % 2 = 0 then q else q + 1

/-- Signed zero. -/
def zero (neg : Bool) : Double := fin neg 0 (-1074)

/-- The positive rational `n / d` (with `0 < n`, `0 < d`) rounded to binary64,
round-to-nearest-even, with gradual underflow and overflow to infinity. -/
def round (neg : Bool) (n d : Nat) : Double :=
  let k := floorLog2 n d
  let u : Int := max (k - 52) (-1074)
  let m := if 0 ≤ u then roundDiv n (d * 2 ^ u.toNat) else roundDiv (n * 2 ^ (-u).toNat) d
  let (m, u) := if m = 2 ^ 53 then (2 ^ 52, u + 1) else (m, u)
  if 971 < u then inf neg else fin neg m u

/-- The rational `m * 2^e` rounded to binary64; exact zeros keep the sign given. -/
def ofScaled (neg : Bool) (m : Nat) (e : Int) : Double :=
  if m = 0 then zero neg
  else if 0 ≤ e then round neg (m * 2 ^ e.toNat) 1 else round neg m (2 ^ (-e).toNat)

/-- Conversion `static_cast<double>(i)` of an `int`. -/
def ofInt (i : Int) : Double :=
  if i = 0 then zero false else round (decide (i < 0)) i.natAbs 1

/-- Decimal literal `n / d` as read by `std::stod`. -/
def ofRatio (n d : Nat) : Double :=
  if n = 0 then zero false else round false n d

/-- Unary minus on `double`. -/
def neg : Double → Double
  | nan => nan
  | inf s => inf (!s)
  | fin s m e => fin (!s) m e

/-- Signed mantissa of a finite datum at the common exponent `e`. -/
def scaledAt (s : Bool) (m : Nat) (e₀ e : Int) : Int :=
  let v : Int := (m : Int) * 2 ^ (e₀ - e).toNat
  if s then -v else v

/-- Operator `+` on `double`. -/
def add : Double → Double → Double
  | nan, _ => nan
  | _, nan => nan
  | inf s, inf t => if s = t then inf s else nan
  | inf s, fin _ _ _ => inf s
  | fin _ _ _, inf t => inf t
  | fin s m e, fin t n f =>
    let c := min e f
    let sum : Int := scaledAt s m e c + scaledAt t n f c
    if sum = 0 then zero (s && t) else ofScaled (decide (sum < 0)) sum.natAbs c

/-- Operator `-` on `double`. -/
def sub (a b : Double) : Double := add a (neg b)

/-- Operator `*` on `double`. -/
def mul : Double → Double → Double
  | nan, _ => nan
  | _, nan => nan
  | inf s, inf t => inf (xor s t)
  | inf s, fin t n _ => if n = 0 then nan else inf (xor s t)
  | fin s m _, inf t => if m = 0 then nan else inf (xor s t)
  | fin s m e, fin t n f => ofScaled (xor s t) (m * n) (e + f)

/-- Operator `/` on `double`. -/
def div : Double → Double → Double
  | nan, _ => nan
  | _, nan => nan
  | inf _, inf _ => nan
  | inf s, fin t _ _ => inf (xor s t)
  | fin s _ _, inf t => zero (xor s t)
  | fin s m e, fin t n f =>
    if n = 0 then (if m = 0 then nan else inf (xor s t))
    else if m = 0 then zero (xor s t)
    else if 0 ≤ e - f then round (xor s t) (m * 2 ^ (e - f).toNat) n
    else round (xor s t) m (n * 2 ^ (f - e).toNat)

/-- Comparison `a == b` on `double`: NaN is unequal to everything, the two zeros are equal. -/
def eq : Double → Double → Bool
  | nan, _ => false
  | _, nan => false
  | inf s, inf t => s == t
  | inf _, fin _ _ _ => false
  | fin _ _ _, inf _ => false
  | fin s m e, fin t n f => (m == 0 && n == 0) || (s == t && m == n && e == f)

/-- Comparison `a < b` on `double`. -/
def lt : Double → Double → Bool
  | nan, _ => false
  | _, nan => false
  | inf s, inf t => s && !t
  | inf s, fin _ _ _ => s
  | fin _ _ _, inf t => !t
  | fin s m e, fin t n f =>
    let c := min e f
    decide (scaledAt s m e c < scaledAt t n f c)

/-- Comparison `a <= b` on `double`. -/
def le (a b : Double) : Bool := lt a b || eq a b

/-- Test `v == 0.0`. -/
def isZero (a : Double) : Bool := eq a (zero false)

end Double

/-! ## Tokens, values, syntax tree -/

/-- Token kinds of the lexer (`enum class TokenType`). -/
inductive TokenType where
  | ID | INT_LITERAL | FLOAT_LITERAL | STR
  | TRUE | FALSE
  | PLUS | MINUS | STAR | SLASH | PERCENT
  | EQ | NE | LT | LE | GT | GE
  | AND | OR | NOT
  | ASSIGN
  | IF | ELSE | WHILE | FOR
  | FUNC | RETURN | VAR | BREAK | CONTINUE
  | CLASS | THIS | SUPER | EXTENDS
  | LBRACE | RBRACE | LPAREN | RPAREN | COMMA | LBRACKET | RBRACKET | COLON | DOT
  | SEMICOLON
  | INT | FLOAT | BOOL | STRING | ARRAY | DICT | OBJECT
  | END
deriving DecidableEq, Repr

/-- Source text of an operator token, as `Lexer::addToken` records it in `Token::lexeme`. -/
def TokenType.lexeme : TokenType → String
  | .PLUS => "+" | .MINUS => "-" | .STAR => "*" | .SLASH => "/" | .PERCENT => "%"
  | .EQ => "==" | .NE => "!=" | .LT => "<" | .LE => "<=" | .GT => ">" | .GE => ">="
  | .AND => "&&" | .OR => "||" | .NOT => "!" | .ASSIGN => "="
  | _ => ""

/-- Runtime datum (`class Value`, a `std::variant`).  The four pointer
alternatives hold the index of the pointee in the corresponding store of
`State`; a `FuncType` may also be the null pointer. -/
inductive Value where
  | nil
  | int (v : Int)
  | double (v : Double)
  | bool (v : Bool)
  | str (v : String)
  | func (p : Option Nat)
  | array (p : Nat)
  | dict (p : Nat)
  | object (p : Nat)
deriving DecidableEq, Repr

/-- Parameter of a function declaration (`struct ParamInfo`). -/
structure ParamInfo where
  name : String
  type : Option TokenType
deriving DecidableEq, Repr

mutual
/-- Expression nodes (`struct Expr` and its subclasses); the last field is `Expr::line`. -/
inductive Expr where
  | Assign (target value : Expr) (line : Int)
  | Literal (value : Value) (line : Int)
  | Var (name : String) (line : Int)
  | Unary (op : TokenType) (expr : Expr) (line : Int)
  | Binary (op : TokenType) (left right : Expr) (line : Int)
  | Call (callee : Expr) (args : List Expr) (line : Int)
  | ArrayLiteral (elements : List Expr) (line : Int)
  | DictLiteral (pairs : List (String × Expr)) (line : Int)
  | Index (array index : Expr) (line : Int)
  | MemberAccess (object : Expr) (member : String) (line : Int)
  | This (line : Int)
  | Super (method : String) (methodLine : Int) (line : Int)

/-- Statement nodes (`struct Stmt` and its subclasses); the last field is `Stmt::line`.
A `none` in a statement list or branch is a null `StmtPtr`. -/
inductive Stmt where
  | Block (block : BlockStmt)
  | ExprStmt (expr : Expr) (line : Int)
  | If (condition : Expr) (thenBranch : Stmt) (elseBranch : Option Stmt) (line : Int)
  | While (condition : Expr) (body : Stmt) (line : Int)
  | Func (decl : FuncStmt)
  | Class (name : String) (superclass : Option (String × Int)) (methods : List FuncStmt) (line : Int)
  | Return (expr : Option Expr) (line : Int)
  | VarDecl (name : String) (type_token : Option TokenType) (initializer : Option Expr) (line : Int)
  | ForEach (variableName : String) (iterable : Expr) (body : Stmt) (line : Int)
  | For (initializer : Option Stmt) (condition : Option Expr) (increment : Option Expr)
      (body : Stmt) (line : Int)
  | Break (line : Int)
  | Continue (line : Int)

/-- Node `struct BlockStmt`. -/
inductive BlockStmt where
  | mk (statements : List (Option Stmt)) (line : Int)

/-- Node `struct FuncStmt`. -/
inductive FuncStmt where
  | mk (name : String) (params : List ParamInfo) (body : BlockStmt) (line : Int)
end

/-- Statements of a block. -/
def BlockStmt.statements : BlockStmt → List (Option Stmt)
  | .mk ss _ => ss

/-- Line of a block. -/
def BlockStmt.line : BlockStmt → Int
  | .mk _ l => l

/-- Name of a declared function. -/
def FuncStmt.name : FuncStmt → String
  | .mk n _ _ _ => n

/-- Parameters of a declared function. -/
def FuncStmt.params : FuncStmt → List ParamInfo
  | .mk _ p _ _ => p

/-- Body of a declared function. -/
def FuncStmt.body : FuncStmt → BlockStmt
  | .mk _ _ b _ => b

/-- Line of an expression node. -/
def Expr.line : Expr → Int
  | .Assign _ _ l | .Literal _ l | .Var _ l | .Unary _ _ l | .Binary _ _ _ l | .Call _ _ l
  | .ArrayLiteral _ l | .DictLiteral _ l | .Index _ _ l | .MemberAccess _ _ l | .This l
  | .Super _ _ l => l

/-! ## Stores -/

/-- A `std::unordered_map<std::string, α>`, kept as an association list with
distinct keys; the order of the list stands for the map's iteration order. -/
abbrev StrMap (α : Type) := List (String × α)

namespace StrMap

/-- Lookup `m.find(k)`. -/
def find {α : Type} : StrMap α → String → Option α
  | [], _ => none
  | (k', v) :: rest, k => if k' = k then some v else find rest k

/-- Test `m.count(k) > 0`. -/
def contains {α : Type} (m : StrMap α) (k : String) : Bool := (m.find k).isSome

/-- Update `m[k] = v`: overwrite the entry of `k` or add one. -/
def insert {α : Type} : StrMap α → String → α → StrMap α
  | [], k, v => [(k, v)]
  | (k', v') :: rest, k, v => if k' = k then (k, v) :: rest else (k', v') :: insert rest k v

/-- Removal `m.erase(k)`. -/
def erase {α : Type} : StrMap α → String → StrMap α
  | [], _ => []
  | (k', v') :: rest, k => if k' = k then rest else (k', v') :: erase rest k

end StrMap

/-- Native functions registered by `Interpreter::defineNativeFunctions` that the model covers. -/
inductive NativeFn where
  | print | len | append | has | del | deepcopy | Object | bool | dict
deriving DecidableEq, Repr

/-- The callable kinds (`class Callable` and its three subclasses). -/
inductive Callable where
  | FunctionValue (params : List ParamInfo) (body : BlockStmt) (closure : Nat)
      (is_initializer : Bool)
  | ClassValue (name : String) (superclass : Option Nat) (prototype : Nat)
      (initializer : Option Nat)
  | NativeFunction (function : NativeFn) (arity : Int) (name : String)

/-- Record `class MutableObject`: own fields, prototype parent, class tag. -/
structure MutableObject where
  fields : StrMap Value
  parent : Option Nat
  klass : Option Nat
deriving DecidableEq, Repr

/-- Slot of a scope frame (`struct VariableInfo`). -/
structure VariableInfo where
  value : Value
  static_type : Option TokenType
deriving DecidableEq, Repr

/-- Scope frame (`class Environment`); `vars` is the member `variables`, a reserved word here. -/
structure Environment where
  vars : StrMap VariableInfo
  parent : Option Nat
deriving DecidableEq, Repr

/-- Interpreter state: one store per kind of heap cell, and the lines written by `print`
(each recorded as the argument vector of the call). -/
structure State where
  envs : List Environment
  arrays : List (List Value)
  dicts : List (StrMap Value)
  objects : List MutableObject
  callables : List Callable
  output : List (List Value)

/-- C++ exceptions that cross the evaluator. `RuntimeError` derives from
`std::runtime_error`; `other` stands for a standard exception outside that
hierarchy (such as `std::out_of_range`). -/
inductive Exn where
  | RuntimeError (line : Int) (message : String)
  | runtime_error (message : String)
  | BreakSignal
  | ContinueSignal
  | other (message : String)
deriving DecidableEq, Repr

/-- Text `e.what()`. -/
def Exn.what : Exn → String
  | .RuntimeError ln msg => "Line " ++ toString ln ++ ": " ++ msg
  | .runtime_error msg => msg
  | .other msg => msg
  | .BreakSignal => "std::exception"
  | .ContinueSignal => "std::exception"

/-- Whether `catch (const std::runtime_error&)` catches the exception. -/
def Exn.isRuntimeError : Exn → Bool
  | .RuntimeError _ _ => true
  | .runtime_error _ => true
  | _ => false

/-- Outcome of a computation on the state: normal return, a C++ exception in
flight, undefined behaviour of the host program (`fault`), or an exhausted
recursion budget. -/
inductive Res (α : Type) where
  | ok (a : α) (s : State)
  | throw (e : Exn) (s : State)
  | fault (s : State)
  | outOfFuel

/-- Computations on the interpreter state. -/
abbrev M (α : Type) := State → Res α

/-- Sequencing: an exception, a fault or an exhausted budget ends the computation. -/
def M.bind {α β : Type} (m : M α) (f : α → M β) : M β := fun s =>
  match m s with
  | .ok a s' => f a s'
  | .throw e s' => .throw e s'
  | .fault s' => .fault s'
  | .outOfFuel => .outOfFuel

instance : Monad M where
  pure a := fun s => .ok a s
  bind := M.bind

/-- Statement `throw e`. -/
def raise {α : Type} (e : Exn) : M α := fun s => .throw e s

/-- Undefined behaviour of the host program. -/
def fault {α : Type} : M α := fun s => .fault s

/-- Exhausted recursion budget. -/
def outOfFuel {α : Type} : M α := fun _ => .outOfFuel

/-- Block `try { m } catch (...) { h }` where the handler decides by the exception. -/
def tryCatch {α : Type} (m : M α) (h : Exn → M α) : M α := fun s =>
  match m s with
  | .throw e s' => h e s'
  | r => r

/-- Current state. -/
def getState : M State := fun s => .ok s s

/-- State update. -/
def modifyState (f : State → State) : M Unit := fun s => .ok () (f s)

/-! ## Values: truthiness, dynamic type, equality -/

/-- Method `Value::toBool`. -/
def Value.toBool (s : State) : Value → Bool
  | .nil => false
  | .int v => v != 0
  | .double v => !v.isZero
  | .bool v => v
  | .str v => v != ""
  | .func p => p.isSome
  | .array p => match s.arrays[p]? with
    | some elements => !elements.isEmpty
    | none => false
  | .dict p => match s.dicts[p]? with
    | some pairs => !pairs.isEmpty
    | none => false
  | .object p => match s.objects[p]? with
    | some o => !o.fields.isEmpty || o.parent.isSome
    | none => false

/-- Function `get_value_type_token`. -/
def get_value_type_token (s : State) : Value → TokenType
  | .nil => .OBJECT
  | .int _ => .INT
  | .double _ => .FLOAT
  | .bool _ => .BOOL
  | .str _ => .STRING
  | .array _ => .ARRAY
  | .dict _ => .DICT
  | .func _ => .FUNC
  | .object p => match s.objects[p]? with
    | some o => if o.klass.isSome then .ID else .OBJECT
    | none => .OBJECT

/-- Test `val.is<Value::MutableObjectType>()`. -/
def Value.isObject : Value → Bool
  | .object _ => true
  | _ => false

/-- Test `val.is<int>()`. -/
def Value.isInt : Value → Bool
  | .int _ => true
  | _ => false

/-- Function `check_type`. -/
def check_type (s : State) (expected : TokenType) (val : Value) : Bool :=
  if get_value_type_token s val = expected then true
  else if expected = .FLOAT && val.isInt then true
  else if expected = .OBJECT && (val.isObject || val = .nil) then true
  else false

/-- Operator `Value::operator==`: equality of the two variants.  Alternatives
of different kinds are unequal; `double` compares by IEEE equality, strings by
content, and the pointer alternatives by the address they hold. -/
def Value.eq : Value → Value → Bool
  | .nil, .nil => true
  | .int a, .int b => a == b
  | .double a, .double b => a.eq b
  | .bool a, .bool b => a == b
  | .str a, .str b => a == b
  | .func a, .func b => a == b
  | .array a, .array b => a == b
  | .dict a, .dict b => a == b
  | .object a, .object b => a == b
  | _, _ => false

/-- Operator `Value::operator!=`. -/
def Value.ne (a b : Value) : Bool := !a.eq b

/-! ## Allocation -/

/-- Allocation `std::make_shared<Environment>(parent)`. -/
def newEnvironment (parent : Option Nat) : M Nat := fun s =>
  .ok s.envs.length { s with envs := s.envs ++ [{ vars := [], parent := parent }] }

/-- Allocation `std::make_shared<ArrayValue>()` holding the given elements. -/
def newArray (elements : List Value) : M Nat := fun s =>
  .ok s.arrays.length { s with arrays := s.arrays ++ [elements] }

/-- Allocation `std::make_shared<DictValue>()` holding the given pairs. -/
def newDict (pairs : StrMap Value) : M Nat := fun s =>
  .ok s.dicts.length { s with dicts := s.dicts ++ [pairs] }

/-- Allocation `std::make_shared<MutableObject>(parent)` with class tag `klass`. -/
def newObject (parent klass : Option Nat) : M Nat := fun s =>
  .ok s.objects.length
    { s with objects := s.objects ++ [{ fields := [], parent := parent, klass := klass }] }

/-- Allocation of a callable. -/
def newCallable (c : Callable) : M Nat := fun s =>
  .ok s.callables.length { s with callables := s.callables ++ [c] }

/-- Dereference of an array pointer. -/
def readArray (p : Nat) : M (List Value) := fun s =>
  match s.arrays[p]? with
  | some elements => .ok elements s
  | none => .fault s

/-- Dereference of a dictionary pointer. -/
def readDict (p : Nat) : M (StrMap Value) := fun s =>
  match s.dicts[p]? with
  | some pairs => .ok pairs s
  | none => .fault s

/-- Dereference of an object pointer. -/
def readObject (p : Nat) : M MutableObject := fun s =>
  match s.objects[p]? with
  | some o => .ok o s
  | none => .fault s

/-- Dereference of a callable pointer. -/
def readCallable (p : Nat) : M Callable := fun s =>
  match s.callables[p]? with
  | some c => .ok c s
  | none => .fault s

/-- Dereference of a frame pointer. -/
def readEnv (p : Nat) : M Environment := fun s =>
  match s.envs[p]? with
  | some e => .ok e s
  | none => .fault s

/-- Store through an array pointer. -/
def writeArray (p : Nat) (elements : List Value) : M Unit := fun s =>
  if p < s.arrays.length then .ok () { s with arrays := s.arrays.set p elements } else .fault s

/-- Store through a dictionary pointer. -/
def writeDict (p : Nat) (pairs : StrMap Value) : M Unit := fun s =>
  if p < s.dicts.length then .ok () { s with dicts := s.dicts.set p pairs } else .fault s

/-- Store through an object pointer. -/
def writeObject (p : Nat) (o : MutableObject) : M Unit := fun s =>
  if p < s.objects.length then .ok () { s with objects := s.objects.set p o } else .fault s

/-- Store through a callable pointer. -/
def writeCallable (p : Nat) (c : Callable) : M Unit := fun s =>
  if p < s.callables.length then .ok () { s with callables := s.callables.set p c }
  else .fault s

/-- Store through a frame pointer. -/
def writeEnv (p : Nat) (e : Environment) : M Unit := fun s =>
  if p < s.envs.length then .ok () { s with envs := s.envs.set p e } else .fault s

/-! ## Scope chain -/

/-- Method `Environment::define`. -/
def Environment.define (env : Nat) (name : String) (value : Value)
    (type : Option TokenType) : M Unit := do
  let s ← getState
  match type with
  | some t =>
    if !check_type s t value then
      raise (.runtime_error ("Initializer type mismatch for variable '" ++ name ++ "'."))
  | none => pure ()
  let e ← readEnv env
  writeEnv env { e with vars := e.vars.insert name ({ value := value, static_type := type }) }

/-- The frame in which the recursion of `Environment::get` and
`Environment::assign` finds `name`, climbing from `env`: `some (some f)` when
frame `f` binds it, `some none` when the chain ends without a binding, `none`
when the chain does not end within the budget or leaves the store. -/
def Environment.findFrame (envs : List Environment) (name : String) :
    Nat → Nat → Option (Option Nat)
  | 0, _ => none
  | budget + 1, env =>
    match envs[env]? with
    | none => none
    | some e =>
      if e.vars.contains name then some (some env)
      else match e.parent with
        | some p => Environment.findFrame envs name budget p
        | none => some none

/-- The frame holding the slot that `Environment::get` returns a reference to;
throws `std::runtime_error` when no frame binds the name. -/
def Environment.getRef (env : Nat) (name : String) : M Nat := fun s =>
  match Environment.findFrame s.envs name s.envs.length env with
  | none => .fault s
  | some none => .throw (.runtime_error ("Undefined variable: " ++ name)) s
  | some (some f) => .ok f s

/-- Method `Environment::get`. -/
def Environment.get (env : Nat) (name : String) : M Value := do
  let f ← Environment.getRef env name
  let e ← readEnv f
  match e.vars.find name with
  | some info => pure info.value
  | none => fault

/-- Method `Environment::getThis`. -/
def Environment.getThis (env : Nat) (name : String) (line : Int) : M Value :=
  tryCatch (Environment.get env name) fun e =>
    if e.isRuntimeError then
      raise (.RuntimeError line "Cannot use 'this' outside of a class method.")
    else raise e

/-- Method `Environment::assign`; the result is `false` when no frame binds the name. -/
def Environment.assign (env : Nat) (name : String) (value : Value) : M Bool := fun s =>
  match Environment.findFrame s.envs name s.envs.length env with
  | none => .fault s
  | some none => .ok false s
  | some (some f) =>
    match s.envs[f]? with
    | none => .fault s
    | some e =>
      match e.vars.find name with
      | none => .fault s
      | some info =>
        let e' : Environment :=
          { e with vars := e.vars.insert name ({ info with value := value }) }
        match info.static_type with
        | some t =>
          if !check_type s t value then
            .throw (.runtime_error
              ("Type mismatch on assignment to static variable '" ++ name ++ "'.")) s
          else .ok true { s with envs := s.envs.set f e' }
        | none => .ok true { s with envs := s.envs.set f e' }

/-! ## Objects -/

/-- The recursion of `MutableObject::get` along the parent chain: `some (some v)`
when an object of the chain has the field, `some none` when the chain ends
without it, `none` when the chain does not end within the budget or leaves
the store. -/
def MutableObject.getChain (objects : List MutableObject) (name : String) :
    Nat → Nat → Option (Option Value)
  | 0, _ => none
  | budget + 1, obj =>
    match objects[obj]? with
    | none => none
    | some o =>
      match o.fields.find name with
      | some v => some (some v)
      | none =>
        match o.parent with
        | some p => MutableObject.getChain objects name budget p
        | none => some none

/-- Method `MutableObject::get`. -/
def MutableObject.get (obj : Nat) (name : String) : M Value := fun s =>
  match MutableObject.getChain s.objects name s.objects.length obj with
  | none => .fault s
  | some none => .throw (.runtime_error ("Undefined property '" ++ name ++ "'.")) s
  | some (some v) => .ok v s

/-- Method `MutableObject::has`. -/
def MutableObject.has (obj : Nat) (name : String) : M Bool := fun s =>
  match MutableObject.getChain s.objects name s.objects.length obj with
  | none => .fault s
  | some none => .ok false s
  | some (some _) => .ok true s

/-- Method `MutableObject::set`. -/
def MutableObject.set (obj : Nat) (name : String) (value : Value) : M Unit := do
  let o ← readObject obj
  writeObject obj { o with fields := o.fields.insert name value }

/-! ## Callables -/

/-- Cast `std::dynamic_pointer_cast<FunctionValue>(func)`: the pointer itself
when it points to a user-defined function, otherwise null. -/
def asFunctionValue (s : State) (func : Option Nat) : Option Nat :=
  match func with
  | none => none
  | some p =>
    match s.callables[p]? with
    | some (.FunctionValue _ _ _ _) => some p
    | _ => none

/-- Cast `std::dynamic_pointer_cast<ClassValue>(func)`. -/
def asClassValue (s : State) (func : Option Nat) : Option Nat :=
  match func with
  | none => none
  | some p =>
    match s.callables[p]? with
    | some (.ClassValue _ _ _ _) => some p
    | _ => none

/-- Method `FunctionValue::bind`: a new frame under the closure binds `this`,
and a new function value shares parameters and body. -/
def FunctionValue.bind (func : Nat) (instance_ : Nat) : M Nat := do
  match ← readCallable func with
  | .FunctionValue params body closure is_initializer =>
    let environment ← newEnvironment (some closure)
    Environment.define environment "this" (.object instance_) none
    newCallable (.FunctionValue params body environment is_initializer)
  | _ => fault

/-- Method `Callable::arity` of the three callable kinds. -/
def Callable.arity (s : State) : Callable → Option Int
  | .FunctionValue params _ _ _ => some params.length
  | .NativeFunction _ arity _ => some arity
  | .ClassValue _ _ _ initializer =>
    match initializer with
    | none => some 0
    | some i =>
      match s.callables[i]? with
      | some (.FunctionValue params _ _ _) => some params.length
      | _ => none

/-! ## Operators -/

/-- The `int`/`int` switch of `BinaryExpr::eval`.  `l + r`, `l - r` and `l * r`
are the exact result when it lies in the range of `int`, and undefined
behaviour (signed overflow) when it does not.  `l % r` is the truncating
remainder of C++; it is undefined behaviour when the quotient `l / r` is not
representable, which is the case of `INT_MIN % -1` (the division instruction
of x86-64 traps on it).  `static_cast<double>(l) / r` is a division of
`double`, defined on every pair with `r` non-zero. -/
def BinaryExpr.intOp (op : TokenType) (line : Int) (l r : Int) : M Value :=
  match op with
  | .PLUS => if inIntRange (l + r) then pure (.int (l + r)) else fault
  | .MINUS => if inIntRange (l - r) then pure (.int (l - r)) else fault
  | .STAR => if inIntRange (l * r) then pure (.int (l * r)) else fault
  | .SLASH =>
    if r = 0 then raise (.RuntimeError line "Division by zero.")
    else pure (.double ((Double.ofInt l).div (Double.ofInt r)))
  | .PERCENT =>
    if r = 0 then raise (.RuntimeError line "Modulo by zero.")
    else if l = INT_MIN ∧ r = -1 then fault
    else pure (.int (Int.tmod l r))
  | .EQ => pure (.bool (l == r))
  | .NE => pure (.bool (l != r))
  | .LT => pure (.bool (decide (l < r)))
  | .LE => pure (.bool (decide (l ≤ r)))
  | .GT => pure (.bool (decide (l > r)))
  | .GE => pure (.bool (decide (l ≥ r)))
  | _ => raise (.RuntimeError line "Operator not applicable to integers.")

/-- The lambda `apply_double_op` of `BinaryExpr::eval`. -/
def BinaryExpr.apply_double_op (op : TokenType) (line : Int) (l r : Double) : M Value :=
  match op with
  | .PLUS => pure (.double (l.add r))
  | .MINUS => pure (.double (l.sub r))
  | .STAR => pure (.double (l.mul r))
  | .SLASH =>
    if r.isZero then raise (.RuntimeError line "Division by zero.")
    else pure (.double (l.div r))
  | .LT => pure (.bool (l.lt r))
  | .LE => pure (.bool (l.le r))
  | .GT => pure (.bool (r.lt l))
  | .GE => pure (.bool (r.le l))
  | .EQ => pure (.bool (l.eq r))
  | .NE => pure (.bool (!l.eq r))
  | _ => raise (.RuntimeError line "Operator not applicable to float types.")

/-- The part of `BinaryExpr::eval` after both operands are evaluated (all
operators but `&&` and `||`): the `int`/`int` fast path and the visitor. -/
def BinaryExpr.apply (op : TokenType) (line : Int) (lval rval : Value) : M Value :=
  match lval, rval with
  | .int l, .int r => BinaryExpr.intOp op line l r
  | .double l, .double r => BinaryExpr.apply_double_op op line l r
  | .double l, .int r => BinaryExpr.apply_double_op op line l (Double.ofInt r)
  | .int l, .double r => BinaryExpr.apply_double_op op line (Double.ofInt l) r
  | .str l, .str r =>
    match op with
    | .PLUS => pure (.str (l ++ r))
    | .EQ => pure (.bool (l == r))
    | .NE => pure (.bool (l != r))
    | .LT => pure (.bool (decide (l < r)))
    | .LE => pure (.bool (decide (l ≤ r)))
    | .GT => pure (.bool (decide (l > r)))
    | .GE => pure (.bool (decide (l ≥ r)))
    | _ => raise (.RuntimeError line "Operator not applicable to strings.")
  | .array l, .array r =>
    match op with
    | .PLUS => do
      let le ← readArray l
      let re ← readArray r
      let newArr ← newArray (le ++ re)
      pure (.array newArr)
    | .EQ => pure (.bool (lval.eq rval))
    | .NE => pure (.bool (lval.ne rval))
    | _ => raise (.RuntimeError line ("Operator '" ++ op.lexeme ++ "' not applicable to arrays."))
  | _, _ =>
    match op with
    | .EQ => pure (.bool (lval.eq rval))
    | .NE => pure (.bool (lval.ne rval))
    | _ => raise (.RuntimeError line
        ("Invalid operands for binary operator '" ++ op.lexeme ++ "'."))

/-- The part of `UnaryExpr::eval` after the operand is evaluated.  `-v` on an
`int` is undefined behaviour when it is outside the range of `int` (signed
overflow), which is the case of `-INT_MIN`. -/
def UnaryExpr.apply (op : TokenType) (line : Int) (val : Value) : M Value := do
  let s ← getState
  if op = .NOT then pure (.bool (!val.toBool s))
  else match val with
    | .int v =>
      if op = .MINUS then (if inIntRange (-v) then pure (.int (-v)) else fault)
      else raise (.RuntimeError line "Invalid unary operator for integer.")
    | .double v =>
      if op = .MINUS then pure (.double v.neg)
      else raise (.RuntimeError line "Invalid unary operator for double.")
    | _ => raise (.RuntimeError line "Invalid unary operator for this type.")

/-! ## Deep copy -/

/-- Loop over a list threading an accumulator. -/
def forEachM {α β : Type} (f : β → α → M β) : List α → β → M β
  | [], b => pure b
  | a :: rest, b => do
    let b' ← f b a
    forEachM f rest b'

/-- The memo of `deepcopy_recursive`, a `std::unordered_map<const void*, Value>`.
The address of a pointee is represented by the pointer value itself. -/
abbrev Memo := List (Value × Value)

/-- Lookup `memo.at(ptr)` guarded by `memo.count(ptr)`. -/
def Memo.find : Memo → Value → Option Value
  | [], _ => none
  | (k, v) :: rest, key => if k = key then some v else Memo.find rest key

/-- Update `memo[ptr] = v`. -/
def Memo.insert : Memo → Value → Value → Memo
  | [], key, v => [(key, v)]
  | (k, v') :: rest, key, v =>
    if k = key then (key, v) :: rest else (k, v') :: Memo.insert rest key v

/-- Body of the element loop of `deepcopy_recursive` on an array: the copy of
the element is pushed onto the new array. `copy` is the recursive call. -/
def deepcopyElement (copy : Value → Memo → M (Value × Memo)) (newArr : Nat) (memo : Memo)
    (elem : Value) : M Memo := do
  let (c, memo) ← copy elem memo
  let cur ← readArray newArr
  writeArray newArr (cur ++ [c])
  pure memo

/-- Body of the pair loop of `deepcopy_recursive` on a dictionary: the copy of
the value is stored under the same key of the new dictionary. -/
def deepcopyPair (copy : Value → Memo → M (Value × Memo)) (newDictionary : Nat) (memo : Memo)
    (pair : String × Value) : M Memo := do
  let (c, memo) ← copy pair.2 memo
  let cur ← readDict newDictionary
  writeDict newDictionary (cur.insert pair.1 c)
  pure memo

/-- Body of the field loop of `deepcopy_recursive` on an object: the copy of
the value is stored in the same field of the new object. -/
def deepcopyField (copy : Value → Memo → M (Value × Memo)) (newObj : Nat) (memo : Memo)
    (pair : String × Value) : M Memo := do
  let (c, memo) ← copy pair.2 memo
  MutableObject.set newObj pair.1 c
  pure memo

/-- Function `deepcopy_recursive`; the first argument bounds the depth of the recursion. -/
def deepcopy_recursive : Nat → Value → Memo → M (Value × Memo)
  | 0, _, _ => outOfFuel
  | fuel + 1, val, memo =>
    match val with
    | .array arr =>
      match memo.find val with
      | some c => pure (c, memo)
      | none => do
        let elements ← readArray arr
        let newArr ← newArray []
        let memo := memo.insert val (.array newArr)
        let memo ← forEachM (deepcopyElement (deepcopy_recursive fuel) newArr) elements memo
        pure (.array newArr, memo)
    | .dict dict =>
      match memo.find val with
      | some c => pure (c, memo)
      | none => do
        let pairs ← readDict dict
        let newD ← newDict []
        let memo := memo.insert val (.dict newD)
        let memo ← forEachM (deepcopyPair (deepcopy_recursive fuel) newD) pairs memo
        pure (.dict newD, memo)
    | .object obj =>
      match memo.find val with
      | some c => pure (c, memo)
      | none => do
        let o ← readObject obj
        let (newParent, memo) ← (match o.parent with
          | some parent => do
            let (parentCopy, memo) ← deepcopy_recursive fuel (.object parent) memo
            match parentCopy with
            | .object q => pure (some q, memo)
            | _ => pure (none, memo)
          | none => pure (none, memo) : M (Option Nat × Memo))
        let newObj ← newObject newParent o.klass
        let memo := memo.insert val (.object newObj)
        let memo ← forEachM (deepcopyField (deepcopy_recursive fuel) newObj) o.fields memo
        pure (.object newObj, memo)
    | v => pure (v, memo)

/-! ## Native functions -/

/-- Arity under which `defineNativeFunctions` registers a native (`-1` is variadic). -/
def NativeFn.arity : NativeFn → Int
  | .print => -1
  | .len => 1
  | .append => 2
  | .has => 2
  | .del => 2
  | .deepcopy => 1
  | .Object => -1
  | .bool => 1
  | .dict => 0

/-- Name under which `defineNativeFunctions` registers a native. -/
def NativeFn.name : NativeFn → String
  | .print => "print"
  | .len => "len"
  | .append => "append"
  | .has => "has"
  | .del => "del"
  | .deepcopy => "deepcopy"
  | .Object => "Object"
  | .bool => "bool"
  | .dict => "dict"

/-- Element `args[i]` of an argument vector; reading past the end is undefined behaviour. -/
def argAt (args : List Value) (i : Nat) : M Value :=
  match args[i]? with
  | some v => pure v
  | none => fault

/-- Method `NativeFunction::call` for the natives of `NativeFn`.  `print`
records its argument vector as one output line; the text of the line
(`Value::toString` of each argument) is not modelled.  `fuel` bounds the
recursion of `deepcopy`, which starts `deepcopy_recursive` with a fresh memo. -/
def NativeFunction.call (fuel : Nat) (fn : NativeFn) (args : List Value) : M Value :=
  match fn with
  | .print => do
    modifyState fun s => { s with output := s.output ++ [args] }
    pure .nil
  | .len => do
    match ← argAt args 0 with
    | .str v => pure (.int v.length)
    | .array a => do let elements ← readArray a; pure (.int elements.length)
    | .dict d => do let pairs ← readDict d; pure (.int pairs.length)
    | .object o => do let obj ← readObject o; pure (.int obj.fields.length)
    | _ => raise (.runtime_error "Value has no length.")
  | .append => do
    if args.length ≠ 2 then raise (.runtime_error "append() takes exactly 2 arguments.")
    let container ← argAt args 0
    let element ← argAt args 1
    match container with
    | .array a => do
      let elements ← readArray a
      writeArray a (elements ++ [element])
      pure container
    | .str v =>
      match element with
      | .str w => pure (.str (v ++ w))
      | _ => raise (.runtime_error "Can only append a string to a string.")
    | _ => raise (.runtime_error "First argument to append must be an array or a string.")
  | .has => do
    match ← argAt args 1 with
    | .str key =>
      match ← argAt args 0 with
      | .dict d => do let pairs ← readDict d; pure (.bool (pairs.contains key))
      | .object o => do let b ← MutableObject.has o key; pure (.bool b)
      | _ => raise (.runtime_error "First argument to has() must be a dict or object.")
    | _ => raise (.runtime_error "Second argument to has() must be a string key.")
  | .del => do
    match ← argAt args 1 with
    | .str key =>
      match ← argAt args 0 with
      | .dict d => do
        let pairs ← readDict d
        writeDict d (pairs.erase key)
        pure .nil
      | .object o => do
        let obj ← readObject o
        writeObject o { obj with fields := obj.fields.erase key }
        pure .nil
      | _ => raise (.runtime_error "First argument to del() must be a dict or object.")
    | _ => raise (.runtime_error "Second argument to del() must be a string key.")
  | .deepcopy => do
    let v ← argAt args 0
    let (c, _) ← deepcopy_recursive fuel v []
    pure c
  | .Object =>
    if args.length > 1 then
      raise (.runtime_error "Object() constructor takes 0 or 1 argument.")
    else match args with
      | [] => do let o ← newObject none none; pure (.object o)
      | .object parent :: _ => do let o ← newObject (some parent) none; pure (.object o)
      | _ => raise (.runtime_error
          "Argument to Object() constructor must be another object to act as a prototype.")
  | .bool => do
    let v ← argAt args 0
    let s ← getState
    pure (.bool (v.toBool s))
  | .dict =>
    if !args.isEmpty then raise (.runtime_error "dict() takes no arguments.")
    else do let d ← newDict []; pure (.dict d)

/-! ## Indexed assignment -/

/-- Place that the reference `Value& containerRef` of `AssignExpr::eval`
designates: a variable slot of a frame, an own field of an object, or an
entry of a dictionary. -/
inductive SlotRef where
  | var (frame : Nat) (name : String)
  | field (obj : Nat) (name : String)
  | entry (dict : Nat) (key : String)

/-- Read through a slot reference. -/
def SlotRef.read : SlotRef → M Value
  | .var frame name => do
    let e ← readEnv frame
    match e.vars.find name with
    | some info => pure info.value
    | none => fault
  | .field obj name => do
    let o ← readObject obj
    match o.fields.find name with
    | some v => pure v
    | none => fault
  | .entry dict key => do
    let pairs ← readDict dict
    match pairs.find key with
    | some v => pure v
    | none => fault

/-- Write through a slot reference. -/
def SlotRef.write : SlotRef → Value → M Unit
  | .var frame name, v => do
    let e ← readEnv frame
    match e.vars.find name with
    | some info => writeEnv frame { e with vars := e.vars.insert name ({ info with value := v }) }
    | none => fault
  | .field obj name, v => do
    let o ← readObject obj
    writeObject obj { o with fields := o.fields.insert name v }
  | .entry dict key, v => do
    let pairs ← readDict dict
    writeDict dict (pairs.insert key v)

/-- The lambda `perform_set_on_ref` of `AssignExpr::eval`.  `line` is the line
of the assignment, `indexExprLine` that of the index expression node and
`indexLine` that of its index operand. -/
def perform_set_on_ref (line indexExprLine indexLine : Int) (indexVal valToAssign : Value)
    (containerRef : SlotRef) : M Unit := do
  match ← containerRef.read with
  | .array a =>
    match indexVal with
    | .int idx => do
      let arrVec ← readArray a
      if idx < 0 || idx ≥ arrVec.length then
        raise (.RuntimeError indexExprLine "Array index out of bounds for assignment.")
      else writeArray a (arrVec.set idx.toNat valToAssign)
    | _ => raise (.RuntimeError indexLine "Array index must be an integer.")
  | .str str =>
    match indexVal with
    | .int idx =>
      match valToAssign with
      | .str c =>
        if c.length ≠ 1 then
          raise (.RuntimeError line
            "Can only assign a single-character string to a string index.")
        else if idx < 0 || idx ≥ str.length then
          raise (.RuntimeError indexExprLine "String index out of bounds for assignment.")
        else containerRef.write (.str (String.mk (str.data.set idx.toNat (c.data.headD ' '))))
      | _ => raise (.RuntimeError line
          "Can only assign a single-character string to a string index.")
    | _ => raise (.RuntimeError indexLine "String index must be an integer.")
  | .dict d =>
    match indexVal with
    | .str key => do
      let pairs ← readDict d
      writeDict d (pairs.insert key valToAssign)
    | _ => raise (.RuntimeError indexLine "Dict index must be a string.")
  | .object o =>
    match indexVal with
    | .str key => MutableObject.set o key valToAssign
    | _ => raise (.RuntimeError indexLine "Object index must be a string.")
  | _ => raise (.RuntimeError indexExprLine
      "This value type does not support indexed assignment.")

/-! ## Evaluator -/

/-- Outcome of one pass through a loop body. -/
inductive LoopStep where
  | next
  | brk
  | ret (v : Value)

/-- The body of a loop under its handlers: a returned value leaves the loop
with that value, `BreakSignal` ends the loop, `ContinueSignal` ends the pass,
any other exception propagates. -/
def loopBody (body : M (Option Value)) : M LoopStep :=
  tryCatch (do
      match ← body with
      | some v => pure (.ret v)
      | none => pure .next)
    fun e =>
      match e with
      | .BreakSignal => pure .brk
      | .ContinueSignal => pure .next
      | e => raise e

/-- Handler `catch (const std::runtime_error& e) { throw RuntimeError(line, e.what()); }`. -/
def rethrowAt {α : Type} (line : Int) (m : M α) : M α :=
  tryCatch m fun e =>
    if e.isRuntimeError then raise (.RuntimeError line e.what) else raise e

/-- Evaluation of a list of expressions from left to right. -/
def evalAll (eval : Expr → M Value) : List Expr → M (List Value)
  | [] => pure []
  | e :: rest => do
    let v ← eval e
    let vs ← evalAll eval rest
    pure (v :: vs)

/-- The statement loop of `BlockStmt::exec`: null statements are skipped and
the first statement that returns a value ends the block with it. -/
def execStatements (exec : Stmt → M (Option Value)) : List (Option Stmt) → M (Option Value)
  | [] => pure none
  | none :: rest => execStatements exec rest
  | some stmt :: rest => do
    match ← exec stmt with
    | some v => pure (some v)
    | none => execStatements exec rest

/-- The parameter loop of `FunctionValue::call`. -/
def bindParams (executionEnv : Nat) : List ParamInfo → List Value → M Unit
  | [], _ => pure ()
  | _ :: _, [] => fault
  | param :: params, arg :: args => do
    match param.type with
    | some t =>
      let s ← getState
      if !check_type s t arg then
        raise (.runtime_error ("Argument type mismatch for parameter '" ++ param.name ++ "'."))
    | none => pure ()
    Environment.define executionEnv param.name arg none
    bindParams executionEnv params args

/-- The element loop of `ForEachStmt::exec`: each element is fetched when its turn comes. -/
def forEachElements (iter_body : Value → M LoopStep) : List (M Value) → M (Option Value)
  | [] => pure none
  | fetch :: rest => do
    let element ← fetch
    match ← iter_body element with
    | .ret v => pure (some v)
    | .brk => pure none
    | .next => forEachElements iter_body rest

/-- Element `i` of the array as it is when the loop reaches it. -/
def fetchElement (a i : Nat) : M Value := do
  let elements ← readArray a
  argAt elements i

/-- The part of `IndexExpr::eval` after container and index are evaluated;
`indexLine` is the line of the index operand. -/
def IndexExpr.apply (line indexLine : Int) (containerVal indexVal : Value) : M Value :=
  match containerVal with
  | .array a =>
    match indexVal with
    | .int idx => do
      let arr ← readArray a
      if idx < 0 || idx ≥ arr.length then raise (.RuntimeError line "Array index out of bounds")
      else argAt arr idx.toNat
    | _ => raise (.RuntimeError indexLine "Array index must be an integer.")
  | .str str =>
    match indexVal with
    | .int idx =>
      if idx < 0 || idx ≥ str.length then
        raise (.RuntimeError line "String index out of bounds")
      else pure (.str (String.singleton (str.data.getD idx.toNat ' ')))
    | _ => raise (.RuntimeError indexLine "String index must be an integer.")
  | .dict d =>
    match indexVal with
    | .str key => do
      let dict ← readDict d
      match dict.find key with
      | some v => pure v
      | none => raise (.RuntimeError line ("Undefined property '" ++ key ++ "'."))
    | _ => raise (.RuntimeError indexLine "Dict index must be a string.")
  | .object obj =>
    match indexVal with
    | .str key => rethrowAt line (MutableObject.get obj key)
    | _ => raise (.RuntimeError indexLine "Object index must be a string.")
  | _ => raise (.RuntimeError line
      "Index operation on a non-indexable value (must be array, string, dict, or object).")

/-- The part of `MemberAccessExpr::eval` after the object operand is evaluated. -/
def MemberAccessExpr.apply (member : String) (line : Int) (objVal : Value) : M Value :=
  match objVal with
  | .object instance_ =>
    rethrowAt line (do
      let o ← readObject instance_
      match o.fields.find member with
      | some v => pure v
      | none => do
        let potential_method ← MutableObject.get instance_ member
        match potential_method with
        | .func fp => do
          let s ← getState
          match asFunctionValue s fp with
          | some func_val => do
            let bound ← FunctionValue.bind func_val instance_
            pure (.func (some bound))
          | none => pure potential_method
        | _ => pure potential_method)
  | .dict d => do
    let dict ← readDict d
    match dict.find member with
    | some v => pure v
    | none => raise (.RuntimeError line ("Undefined property '" ++ member ++ "'."))
  | _ => raise (.RuntimeError line "Can only access properties on objects or dicts.")

/-- Method `SuperExpr::eval`; `line` is the line of the keyword, `methodLine` that of the name. -/
def SuperExpr.eval (method : String) (methodLine line : Int) (env : Nat) : M Value := do
  let this_val ← Environment.get env "this"
  match this_val with
  | .object instance_ => do
    let inst ← readObject instance_
    let superclass ← (match inst.klass with
      | none => pure none
      | some k => do
        match ← readCallable k with
        | .ClassValue _ superclass _ _ => pure superclass
        | _ => fault : M (Option Nat))
    match superclass with
    | none => raise (.RuntimeError line "Cannot use 'super' in a class with no superclass.")
    | some super_class => do
      match ← readCallable super_class with
      | .ClassValue _ _ prototype _ => do
        let method_val ← tryCatch (MutableObject.get prototype method) fun e =>
          if e.isRuntimeError then
            raise (.RuntimeError methodLine
              ("Undefined property '" ++ method ++ "' on superclass."))
          else raise e
        match method_val with
        | .func fp => do
          let s ← getState
          match asFunctionValue s fp with
          | some function => do
            let bound ← FunctionValue.bind function instance_
            pure (.func (some bound))
          | none => raise (.RuntimeError methodLine
              "Cannot call non-user-defined function with 'super'.")
        | _ => raise (.RuntimeError methodLine
            ("Property '" ++ method ++ "' on superclass is not a function."))
      | _ => fault
  | _ => raise (.runtime_error "Invalid type cast in Value::as()")

/-- The member-target branch of `AssignExpr::eval` after both operands are evaluated. -/
def AssignExpr.setMember (member : String) (memberLine : Int) (objVal valToAssign : Value) :
    M Value :=
  match objVal with
  | .object obj => do
    MutableObject.set obj member valToAssign
    pure valToAssign
  | .dict d => do
    let dict ← readDict d
    writeDict d (dict.insert member valToAssign)
    pure valToAssign
  | _ => raise (.RuntimeError memberLine "Can only set properties on objects or dicts.")

/-- The default value of a declaration without initializer (`VarDeclStmt::exec`). -/
def VarDeclStmt.defaultValue : Option TokenType → M Value
  | some .INT => pure (.int 0)
  | some .FLOAT => pure (.double (Double.zero false))
  | some .BOOL => pure (.bool false)
  | some .STRING => pure (.str "")
  | some .ARRAY => do let a ← newArray []; pure (.array a)
  | some .DICT => do let d ← newDict []; pure (.dict d)
  | some .OBJECT => do let o ← newObject none none; pure (.object o)
  | _ => pure .nil

mutual

/-- Method `Expr::eval` of each expression node; `env` is the frame it runs in. -/
def Expr.eval : Nat → Expr → Nat → M Value
  | 0, _, _ => outOfFuel
  | fuel + 1, e, env =>
    match e with
    | .Literal value _ => pure value
    | .Var name line => rethrowAt line (Environment.get env name)
    | .This line => Environment.getThis env "this" line
    | .Unary op expr line => do
      let val ← Expr.eval fuel expr env
      UnaryExpr.apply op line val
    | .Binary op left right line =>
      if op = .OR then do
        let lval ← Expr.eval fuel left env
        let s ← getState
        if lval.toBool s then pure (.bool true)
        else do
          let rval ← Expr.eval fuel right env
          let s ← getState
          pure (.bool (rval.toBool s))
      else if op = .AND then do
        let lval ← Expr.eval fuel left env
        let s ← getState
        if !lval.toBool s then pure (.bool false)
        else do
          let rval ← Expr.eval fuel right env
          let s ← getState
          pure (.bool (rval.toBool s))
      else do
        let lval ← Expr.eval fuel left env
        let rval ← Expr.eval fuel right env
        BinaryExpr.apply op line lval rval
    | .Call callee args line => do
      let calleeVal ← Expr.eval fuel callee env
      match calleeVal with
      | .func fp => do
        let arguments ← evalAll (fun a => Expr.eval fuel a env) args
        match fp with
        | none => fault
        | some func => do
          let c ← readCallable func
          let s ← getState
          match c.arity s with
          | none => fault
          | some arity =>
            if arity ≠ -1 && (arguments.length : Int) ≠ arity then
              raise (.RuntimeError line ("Expected " ++ toString arity ++
                " arguments but got " ++ toString arguments.length ++ "."))
            else
              tryCatch (Callable.call fuel func arguments) fun e =>
                match e with
                | .runtime_error msg => raise (.RuntimeError line msg)
                | e => raise e
      | _ => raise (.RuntimeError line "Can only call functions and other callables.")
    | .ArrayLiteral elements _ => do
      let newArr ← newArray []
      forEachM (fun (_ : Unit) element => do
        let v ← Expr.eval fuel element env
        let cur ← readArray newArr
        writeArray newArr (cur ++ [v])) elements ()
      pure (.array newArr)
    | .DictLiteral pairs _ => do
      let newD ← newDict []
      forEachM (fun (_ : Unit) (pair : String × Expr) => do
        let v ← Expr.eval fuel pair.2 env
        let cur ← readDict newD
        writeDict newD (cur.insert pair.1 v)) pairs ()
      pure (.dict newD)
    | .Index array index line => do
      let containerVal ← Expr.eval fuel array env
      let indexVal ← Expr.eval fuel index env
      IndexExpr.apply line index.line containerVal indexVal
    | .MemberAccess object member line => do
      let objVal ← Expr.eval fuel object env
      MemberAccessExpr.apply member line objVal
    | .Super method methodLine line => SuperExpr.eval method methodLine line env
    | .Assign target value line => do
      let valToAssign ← Expr.eval fuel value env
      match target with
      | .Var name varLine => do
        let found ← Environment.assign env name valToAssign
        if !found then raise (.RuntimeError varLine ("Undefined variable: " ++ name))
        else pure valToAssign
      | .MemberAccess object member memberLine => do
        let objVal ← Expr.eval fuel object env
        AssignExpr.setMember member memberLine objVal valToAssign
      | .Index array index indexExprLine => do
        let indexVal ← Expr.eval fuel index env
        match array with
        | .Var containerVar _ => do
          let frame ← Environment.getRef env containerVar
          perform_set_on_ref line indexExprLine index.line indexVal valToAssign
            (.var frame containerVar)
          pure valToAssign
        | .MemberAccess containerObject containerMember containerLine => do
          let objVal ← Expr.eval fuel containerObject env
          match objVal with
          | .object obj => do
            let present ← MutableObject.has obj containerMember
            if !present then
              raise (.RuntimeError containerLine
                ("Property '" ++ containerMember ++ "' does not exist."))
            else do
              let o ← readObject obj
              if !o.fields.contains containerMember then raise (.other "unordered_map::at")
              else do
                perform_set_on_ref line indexExprLine index.line indexVal valToAssign
                  (.field obj containerMember)
                pure valToAssign
          | .dict d => do
            let dict ← readDict d
            if !dict.contains containerMember then
              raise (.RuntimeError containerLine
                ("Key '" ++ containerMember ++ "' does not exist."))
            else do
              perform_set_on_ref line indexExprLine index.line indexVal valToAssign
                (.entry d containerMember)
              pure valToAssign
          | _ => raise (.RuntimeError containerLine
              "Base of indexed assignment must be an object or a dictionary.")
        | _ => raise (.RuntimeError indexExprLine
            "Left-hand side of indexed assignment must be a variable or a member access.")
      | _ => raise (.RuntimeError line "Invalid assignment target.")
termination_by structural fuel => fuel

/-- Method `Stmt::exec` of each statement node; the result is the value of a
`return` that was executed, or `none` on normal completion. -/
def Stmt.exec : Nat → Stmt → Nat → M (Option Value)
  | 0, _, _ => outOfFuel
  | fuel + 1, stmt, env =>
    match stmt with
    | .Block block => do
      let blockEnv ← newEnvironment (some env)
      execStatements (fun st => Stmt.exec fuel st blockEnv) block.statements
    | .ExprStmt expr _ => do
      let _ ← Expr.eval fuel expr env
      pure none
    | .If condition thenBranch elseBranch _ => do
      let c ← Expr.eval fuel condition env
      let s ← getState
      if c.toBool s then Stmt.exec fuel thenBranch env
      else match elseBranch with
        | some branch => Stmt.exec fuel branch env
        | none => pure none
    | .While condition body _ => WhileStmt.loop fuel condition body env
    | .Func decl => do
      let func ← newCallable (.FunctionValue decl.params decl.body env (decl.name == "init"))
      Environment.define env decl.name (.func (some func)) none
      pure none
    | .Class name superclass methods _ => do
      let superclass_val ← (match superclass with
        | some (scName, scLine) => do
          let sc_val ← rethrowAt scLine (Environment.get env scName)
          let s ← getState
          match sc_val with
          | .func fp =>
            match asClassValue s fp with
            | some c => pure (some c)
            | none => raise (.RuntimeError scLine "Superclass must be a class.")
          | _ => raise (.RuntimeError scLine "Superclass must be a class.")
        | none => pure none : M (Option Nat))
      Environment.define env name .nil none
      let class_env ← newEnvironment (some env)
      match superclass_val with
      | some sc => Environment.define class_env "super" (.func (some sc)) none
      | none => pure ()
      let protoParent ← (match superclass_val with
        | some sc => do
          match ← readCallable sc with
          | .ClassValue _ _ prototype _ => pure (some prototype)
          | _ => fault
        | none => pure none : M (Option Nat))
      let prototype ← newObject protoParent none
      let klass ← newCallable (.ClassValue name superclass_val prototype none)
      forEachM (fun (_ : Unit) (method : FuncStmt) => do
        let is_init := method.name == "init"
        let func ← newCallable (.FunctionValue method.params method.body class_env is_init)
        if is_init then
          writeCallable klass (.ClassValue name superclass_val prototype (some func))
        MutableObject.set prototype method.name (.func (some func))) methods ()
      let found ← Environment.assign env name (.func (some klass))
      if !found then raise (.runtime_error "Internal error: could not assign class value.")
      else pure none
    | .Return expr _ =>
      match expr with
      | some e => do
        let v ← Expr.eval fuel e env
        pure (some v)
      | none => pure (some .nil)
    | .VarDecl name type_token initializer _ => do
      let value ← (match initializer with
        | some init => Expr.eval fuel init env
        | none => VarDeclStmt.defaultValue type_token : M Value)
      Environment.define env name value type_token
      pure none
    | .ForEach variableName iterable body line => do
      let loopEnv ← newEnvironment (some env)
      let iterableVal ← Expr.eval fuel iterable env
      let iter_body : Value → M LoopStep := fun element => do
        Environment.define loopEnv variableName element none
        loopBody (Stmt.exec fuel body loopEnv)
      match iterableVal with
      | .array a => do
        let arr ← readArray a
        forEachElements iter_body ((List.range arr.length).map (fetchElement a))
      | .str str =>
        forEachElements iter_body
          (str.data.map fun c => (pure (.str (String.singleton c)) : M Value))
      | _ => raise (.RuntimeError line
          "Value is not iterable. Can only iterate over arrays and strings.")
    | .For initializer condition increment body _ => do
      let loopEnv ← newEnvironment (some env)
      match initializer with
      | some init => do
        let _ ← Stmt.exec fuel init loopEnv
        pure ()
      | none => pure ()
      ForStmt.loop fuel condition increment body loopEnv
    | .Break _ => raise .BreakSignal
    | .Continue _ => raise .ContinueSignal
termination_by structural fuel => fuel

/-- The loop of `WhileStmt::exec`. -/
def WhileStmt.loop : Nat → Expr → Stmt → Nat → M (Option Value)
  | 0, _, _, _ => outOfFuel
  | fuel + 1, condition, body, env => do
    let c ← Expr.eval fuel condition env
    let s ← getState
    if c.toBool s then do
      match ← loopBody (Stmt.exec fuel body env) with
      | .ret v => pure (some v)
      | .brk => pure none
      | .next => WhileStmt.loop fuel condition body env
    else pure none
termination_by structural fuel => fuel

/-- The loop `while(true)` of `ForStmt::exec`, run in the loop's own frame. -/
def ForStmt.loop : Nat → Option Expr → Option Expr → Stmt → Nat → M (Option Value)
  | 0, _, _, _, _ => outOfFuel
  | fuel + 1, condition, increment, body, loopEnv => do
    let go ← (match condition with
      | some c => do
        let v ← Expr.eval fuel c loopEnv
        let s ← getState
        pure (v.toBool s)
      | none => pure true : M Bool)
    if !go then pure none
    else do
      match ← loopBody (Stmt.exec fuel body loopEnv) with
      | .ret v => pure (some v)
      | .brk => pure none
      | .next => do
        match increment with
        | some inc => do
          let _ ← Expr.eval fuel inc loopEnv
          pure ()
        | none => pure ()
        ForStmt.loop fuel condition increment body loopEnv
termination_by structural fuel => fuel

/-- Method `Callable::call` of the callable that `func` points to:
`NativeFunction::call`, `FunctionValue::call` or `ClassValue::call`. -/
def Callable.call : Nat → Nat → List Value → M Value
  | 0, _, _ => outOfFuel
  | fuel + 1, func, args => do
    match ← readCallable func with
    | .NativeFunction function _ _ => NativeFunction.call fuel function args
    | .FunctionValue params body closure is_initializer => do
      let executionEnv ← newEnvironment (some closure)
      bindParams executionEnv params args
      let returned ← tryCatch (do
          match ← Stmt.exec fuel (.Block body) executionEnv with
          | some retVal =>
            if is_initializer then do
              let this_val ← Environment.getThis closure "this" body.line
              pure (some this_val)
            else pure (some retVal)
          | none => pure none)
        fun e =>
          match e with
          | .BreakSignal => raise (.RuntimeError body.line "Cannot 'break' from a function.")
          | .ContinueSignal =>
            raise (.RuntimeError body.line "Cannot 'continue' from a function.")
          | e => raise e
      match returned with
      | some v => pure v
      | none =>
        if is_initializer then Environment.getThis closure "this" body.line
        else pure .nil
    | .ClassValue name _ prototype initializer => do
      let instance_ ← newObject (some prototype) (some func)
      match initializer with
      | some init => do
        let bound ← FunctionValue.bind init instance_
        let _ ← Callable.call fuel bound args
        pure (.object instance_)
      | none =>
        if !args.isEmpty then
          raise (.runtime_error ("Class " ++ name ++
            " has no 'init' method and cannot be called with arguments."))
        else pure (.object instance_)
termination_by structural fuel => fuel
end

/-! ## Interpreter -/

/-- Natives in the order `defineNativeFunctions` registers them. -/
def nativeFunctions : List NativeFn :=
  [.print, .len, .bool, .append, .dict, .has, .del, .deepcopy, .Object]

/-- Bindings of the global frame: each native of the model under its name. -/
def Interpreter.globals : StrMap VariableInfo :=
  (List.range nativeFunctions.length).zipWith
    (fun i fn => (fn.name, { value := .func (some i), static_type := none }))
    nativeFunctions

/-- State after the constructor of `Interpreter`: the global frame (frame `0`)
binds each native of the model to its callable. -/
def Interpreter.initial : State where
  envs := [{ vars := Interpreter.globals, parent := none }]
  arrays := []
  dicts := []
  objects := []
  callables := nativeFunctions.map fun fn => .NativeFunction fn fn.arity fn.name
  output := []

/-- The global frame `globalEnv`. -/
def Interpreter.globalEnv : Nat := 0

/-- The statement loop of `Interpreter::interpret`, without its handlers:
top-level statements run in the global frame until one returns a value. -/
def Interpreter.run (fuel : Nat) (ast : List (Option Stmt)) : M (Option Value) :=
  execStatements (fun st => Stmt.exec fuel st Interpreter.globalEnv) ast

/-! ## Integer literals -/

/-- Number that a string of decimal digits denotes. -/
def decimalValue (lexeme : String) : Nat :=
  lexeme.data.foldl (fun acc c => 10 * acc + (c.toNat - '0'.toNat)) 0

/-- Function `std::stoi` on the lexeme of an `INT_LITERAL` token, which
`Lexer::number` makes a non-empty string of decimal digits: the number
denoted, or `std::out_of_range` when it exceeds the range of `int`. -/
def stoi (lexeme : String) : Except Exn Int :=
  if (decimalValue lexeme : Int) ≤ INT_MAX then .ok (decimalValue lexeme)
  else .error (.other "stoi")

/-- The `INT_LITERAL` case of `Parser::parsePrimary`. -/
def Parser.parsePrimaryInt (lexeme : String) (line : Int) : Except Exn Expr :=
  match stoi lexeme with
  | .ok v => .ok (.Literal (.int v) line)
  | .error e => .error e

/-! ## Vocabulary of the statements -/

/-- Numeric operand of an arithmetic operator: an `int` or a `double`. -/
inductive Num where
  | int (v : Int)
  | double (v : Double)

/-- The value holding a numeric operand. -/
def Num.toValue : Num → Value
  | .int v => .int v
  | .double v => .double v

/-- Promotion of a numeric operand to `double`. -/
def Num.toDouble : Num → Double
  | .int v => Double.ofInt v
  | .double v => v

/-- Whether a numeric operand is zero (`0`, `0.0` or `-0.0`). -/
def Num.isZero : Num → Bool
  | .int v => v == 0
  | .double v => v.isZero

/-! ## Observing outcomes -/

/-- The value of a normal outcome. -/
def Res.value? {α : Type} : Res α → Option α
  | .ok a _ => some a
  | _ => none

/-- The state of an outcome that has one. -/
def Res.state? {α : Type} : Res α → Option State
  | .ok _ s => some s
  | .throw _ s => some s
  | .fault s => some s
  | .outOfFuel => none

/-- The exception of an outcome that ends in one. -/
def Res.exn? {α : Type} : Res α → Option Exn
  | .throw e _ => some e
  | _ => none

/-- The top-level statements run from the initial state, then the expression
evaluated in the global frame. -/
def Interpreter.evalAfter (fuel : Nat) (ast : List (Option Stmt)) (e : Expr) : Res Value :=
  match Interpreter.run fuel ast Interpreter.initial with
  | .ok _ s => Expr.eval fuel e Interpreter.globalEnv s
  | .throw ex s => .throw ex s
  | .fault s => .fault s
  | .outOfFuel => .outOfFuel

/-! ## Programs of the examples

Syntax trees as `Parser` builds them; every node is given line `1`. -/

namespace Example

/-- Expression `B(5).get()`. -/
def callGetOnB5 : Expr :=
  .Call (.MemberAccess (.Call (.Var "B" 1) [.Literal (.int 5) 1] 1) "get" 1) [] 1

/-- Declaration `class A { func init(x) { this.x = x; } func get() { return this.x; } }`. -/
def classA : Stmt :=
  .Class "A" none
    [ .mk "init" [⟨"x", none⟩]
        (.mk [some (.ExprStmt (.Assign (.MemberAccess (.This 1) "x" 1) (.Var "x" 1) 1) 1)] 1) 1,
      .mk "get" [] (.mk [some (.Return (some (.MemberAccess (.This 1) "x" 1)) 1)] 1) 1 ] 1

/-- Method `func get() { return super.get() + 1; }`. -/
def getPlusOne : FuncStmt :=
  .mk "get" []
    (.mk [some (.Return (some (.Binary .PLUS (.Call (.Super "get" 1 1) [] 1)
      (.Literal (.int 1) 1) 1)) 1)] 1) 1

/-- Declaration `class B extends A { func get() { return super.get() + 1; } }`. -/
def classB : Stmt :=
  .Class "B" (some ("A", 1)) [getPlusOne] 1

/-- Declaration `class B extends A { func init(x) { super.init(x); } func get() { return super.get() + 1; } }`. -/
def classBWithInit : Stmt :=
  .Class "B" (some ("A", 1))
    [ .mk "init" [⟨"x", none⟩]
        (.mk [some (.ExprStmt (.Call (.Super "init" 1 1) [.Var "x" 1] 1) 1)] 1) 1,
      getPlusOne ] 1

end Example

namespace Example

/-- Expression `[1] == [1]`. -/
def arraysEqual : Expr :=
  .Binary .EQ (.ArrayLiteral [.Literal (.int 1) 1] 1) (.ArrayLiteral [.Literal (.int 1) 1] 1) 1

/-- Expression `[1] != [1]`. -/
def arraysUnequal : Expr :=
  .Binary .NE (.ArrayLiteral [.Literal (.int 1) 1] 1) (.ArrayLiteral [.Literal (.int 1) 1] 1) 1

/-- Expression `{"k": 1} == {"k": 1}`. -/
def dictsEqual : Expr :=
  .Binary .EQ (.DictLiteral [("k", .Literal (.int 1) 1)] 1)
    (.DictLiteral [("k", .Literal (.int 1) 1)] 1) 1

end Example

namespace Example

/-- Statement `float f = 1.5;`. -/
def declareFloatF : Stmt :=
  .VarDecl "f" (some .FLOAT) (some (.Literal (.double (Double.ofRatio 3 2)) 1)) 1

/-- Statement `f = 2;`. -/
def assignTwoToF : Stmt :=
  .ExprStmt (.Assign (.Var "f" 1) (.Literal (.int 2) 1) 1) 1

/-- A state whose global frame holds the slot of `float f = 1.5;`. -/
def floatSlotState : State where
  envs := [{ vars := [("f", { value := .double (Double.ofRatio 3 2), static_type := some .FLOAT })],
             parent := none }]
  arrays := []
  dicts := []
  objects := []
  callables := []
  output := []

/-- A state that holds the arrays `[1]` and `[2]`. -/
def twoArraysState : State where
  envs := [{ vars := [], parent := none }]
  arrays := [[.int 1], [.int 2]]
  dicts := []
  objects := []
  callables := []
  output := []

/-- A state that holds one object with the own field `x = 1`. -/
def oneObjectState : State where
  envs := [{ vars := [], parent := none }]
  arrays := []
  dicts := []
  objects := [{ fields := [("x", .int 1)], parent := none, klass := none }]
  callables := []
  output := []

/-- Declaration `func f() { return this; }`. -/
def funcReturningThis : Stmt :=
  .Func (.mk "f" [] (.mk [some (.Return (some (.This 1)) 1)] 1) 1)

/-- Statement `var o = Object();`. -/
def declareObjectO : Stmt :=
  .VarDecl "o" none (some (.Call (.Var "Object" 1) [] 1)) 1

/-- Statement `o.m = f;`. -/
def storeFInO : Stmt :=
  .ExprStmt (.Assign (.MemberAccess (.Var "o" 1) "m" 1) (.Var "f" 1) 1) 1

/-- Statement `var c = Object(o);`. -/
def declareChildC : Stmt :=
  .VarDecl "c" none (some (.Call (.Var "Object" 1) [.Var "o" 1] 1)) 1

/-- Program `func f() { return this; } var o = Object(); o.m = f; var c = Object(o);`. -/
def methodInOwnField : List (Option Stmt) :=
  [some funcReturningThis, some declareObjectO, some storeFInO, some declareChildC]

end Example

/-! ## Vocabulary of the deep-copy statements -/

/-- Values of a graph of arrays and dictionaries held in the state: pointers
to arrays and dictionaries point into the stores, and no value is an object. -/
def Value.inArrayDictGraph (s : State) : Value → Bool
  | .array p => decide (p < s.arrays.length)
  | .dict p => decide (p < s.dicts.length)
  | .object _ => false
  | _ => true

/-- The arrays and dictionaries of the state form a closed graph: every value
they hold is a value of the graph. -/
def State.ArrayDictGraph (s : State) : Prop :=
  (∀ elements ∈ s.arrays, ∀ v ∈ elements, v.inArrayDictGraph s = true)
  ∧ (∀ pairs ∈ s.dicts, ∀ kv ∈ pairs, kv.2.inArrayDictGraph s = true)

instance (s : State) : Decidable s.ArrayDictGraph := by
  unfold State.ArrayDictGraph; exact inferInstance

/-- Every key of the first memo is a key of the second. -/
def Memo.Le (m m' : Memo) : Prop := ∀ k, (m.find k).isSome → (m'.find k).isSome

/-- Addresses of the arrays and dictionaries of a state. -/
def originals (s : State) : Finset Value :=
  (Finset.range s.arrays.length).image Value.array
    ∪ (Finset.range s.dicts.length).image Value.dict

/-- Number of arrays and dictionaries of the state that the memo has no entry for. -/
def unvisited (s : State) (memo : Memo) : Nat :=
  ((originals s).filter fun k => memo.find k = none).card

/-- The state `t` extends the stores of arrays and dictionaries of `s`. -/
structure Extends (s t : State) : Prop where
  arraysLen : s.arrays.length ≤ t.arrays.length
  arraysEq : ∀ i, i < s.arrays.length → t.arrays[i]? = s.arrays[i]?
  dictsLen : s.dicts.length ≤ t.dicts.length
  dictsEq : ∀ i, i < s.dicts.length → t.dicts[i]? = s.dicts[i]?

/-- Invariant of the loops of `deepcopy_recursive`: the stores extend those of
`s` and have at least `n` arrays and `d` dictionaries, and the memo has grown. -/
def LoopInv (s : State) (memo₀ : Memo) (n d : Nat) (memo : Memo) (t : State) : Prop :=
  Extends s t ∧ n ≤ t.arrays.length ∧ d ≤ t.dicts.length ∧ Memo.Le memo₀ memo

/-- With budget `fuel`, `deepcopy_recursive` returns on every value of the
graph of `s`, from every memo that leaves fewer than `fuel` containers unvisited. -/
def CopyOk (s : State) (fuel : Nat) : Prop :=
  ∀ val memo t, Extends s t → val.inArrayDictGraph s = true → unvisited s memo < fuel →
    ∃ c memo' t', deepcopy_recursive fuel val memo t = .ok (c, memo') t'
      ∧ LoopInv s memo t.arrays.length t.dicts.length memo' t'

namespace Example

/-- Shorthand for a variable reference on line `1`. -/
def var (name : String) : Expr := .Var name 1

/-- Shorthand for `var name = e;`. -/
def declare (name : String) (e : Expr) : Option Stmt := some (.VarDecl name none (some e) 1)

/-- Program `var p = Object(); var c = Object(p); p.kid = c; var d = deepcopy(c);`:
the parent of `c` holds `c` in a field. -/
def parentPointsToChild : List (Option Stmt) :=
  [ declare "p" (.Call (var "Object") [] 1),
    declare "c" (.Call (var "Object") [var "p"] 1),
    some (.ExprStmt (.Assign (.MemberAccess (var "p") "kid" 1) (var "c") 1) 1),
    declare "d" (.Call (var "deepcopy") [var "c"] 1) ]

/-- Program `var d = {}; var a = [d]; d["a"] = a; var e = deepcopy(d);`:
a dictionary containing an array that contains the dictionary. -/
def cyclicDict : List (Option Stmt) :=
  [ declare "d" (.DictLiteral [] 1),
    declare "a" (.ArrayLiteral [var "d"] 1),
    some (.ExprStmt (.Assign (.Index (var "d") (.Literal (.str "a") 1) 1) (var "a") 1) 1),
    declare "e" (.Call (var "deepcopy") [var "d"] 1) ]

/-- A state that holds the cycle of `cyclicDict`: dictionary `0` maps `"a"` to
array `0`, whose element is dictionary `0`. -/
def cyclicDictState : State where
  envs := [{ vars := [], parent := none }]
  arrays := [[.dict 0]]
  dicts := [[("a", .array 0)]]
  objects := []
  callables := []
  output := []

end Example

/-! ## Vocabulary of the fuel statements -/

/-- The computation `m'` agrees with `m` on every state on which `m` does not
run out of fuel. -/
def M.le {α : Type} (m m' : M α) : Prop := ∀ s, m s = .outOfFuel ∨ m' s = m s

/-- The five functions of the evaluator and `deepcopy_recursive` with budget `m`
agree with those with budget `n` wherever the latter do not run out of fuel. -/
def FuelLe (n m : Nat) : Prop :=
  (∀ e env, M.le (Expr.eval n e env) (Expr.eval m e env))
  ∧ (∀ st env, M.le (Stmt.exec n st env) (Stmt.exec m st env))
  ∧ (∀ c b env, M.le (WhileStmt.loop n c b env) (WhileStmt.loop m c b env))
  ∧ (∀ c i b env, M.le (ForStmt.loop n c i b env) (ForStmt.loop m c i b env))
  ∧ (∀ f args, M.le (Callable.call n f args) (Callable.call m f args))
  ∧ (∀ val memo, M.le (deepcopy_recursive n val memo) (deepcopy_recursive m val memo))

/-! ## Vocabulary of the object statements -/

/-- The objects of `s` are objects of `s'` with the parent and the class tag
they have in `s`: objects are only added, and of an existing object only the
fields change. -/
def State.ObjectsKept (s s' : State) : Prop :=
  ∀ (p : Nat) (o : MutableObject), s.objects[p]? = some o →
    ∃ o' : MutableObject, s'.objects[p]? = some o' ∧ o'.parent = o.parent ∧ o'.klass = o.klass

/-- Whatever the outcome of the computation, its final state keeps the objects
of the state it started in. -/
class M.KeepsObjects {α : Type} (m : M α) : Prop where
  keeps : ∀ s s', (m s).state? = some s' → s.ObjectsKept s'

/-- The five functions of the evaluator with budget `n` keep the objects. -/
def KeepsObjectsAt (n : Nat) : Prop :=
  (∀ e env, (Expr.eval n e env).KeepsObjects)
  ∧ (∀ st env, (Stmt.exec n st env).KeepsObjects)
  ∧ (∀ c b env, (WhileStmt.loop n c b env).KeepsObjects)
  ∧ (∀ c i b env, (ForStmt.loop n c i b env).KeepsObjects)
  ∧ (∀ f args, (Callable.call n f args).KeepsObjects)

/-! ## Equality of syntax trees

The syntax tree types are nested inductive types, for which equality is
decided by the following tests. -/

mutual

/-- Equality test on expressions. -/
def Expr.beq : Expr → Expr → Bool
  | .Assign x0 x1 x2, .Assign x0' x1' x2' =>
    Expr.beq x0 x0' && Expr.beq x1 x1' && decide (x2 = x2')
  | .Literal x0 x1, .Literal x0' x1' =>
    decide (x0 = x0') && decide (x1 = x1')
  | .Var x0 x1, .Var x0' x1' =>
    decide (x0 = x0') && decide (x1 = x1')
  | .Unary x0 x1 x2, .Unary x0' x1' x2' =>
    decide (x0 = x0') && Expr.beq x1 x1' && decide (x2 = x2')
  | .Binary x0 x1 x2 x3, .Binary x0' x1' x2' x3' =>
    decide (x0 = x0') && Expr.beq x1 x1' && Expr.beq x2 x2' && decide (x3 = x3')
  | .Call x0 x1 x2, .Call x0' x1' x2' =>
    Expr.beq x0 x0' && Expr.beqList x1 x1' && decide (x2 = x2')
  | .ArrayLiteral x0 x1, .ArrayLiteral x0' x1' =>
    Expr.beqList x0 x0' && decide (x1 = x1')
  | .DictLiteral x0 x1, .DictLiteral x0' x1' =>
    Expr.beqPairs x0 x0' && decide (x1 = x1')
  | .Index x0 x1 x2, .Index x0' x1' x2' =>
    Expr.beq x0 x0' && Expr.beq x1 x1' && decide (x2 = x2')
  | .MemberAccess x0 x1 x2, .MemberAccess x0' x1' x2' =>
    Expr.beq x0 x0' && decide (x1 = x1') && decide (x2 = x2')
  | .This x0, .This x0' =>
    decide (x0 = x0')
  | .Super x0 x1 x2, .Super x0' x1' x2' =>
    decide (x0 = x0') && decide (x1 = x1') && decide (x2 = x2')
  | _, _ => false
termination_by structural a => a

/-- Equality test on statements. -/
def Stmt.beq : Stmt → Stmt → Bool
  | .Block x0, .Block x0' =>
    BlockStmt.beq x0 x0'
  | .ExprStmt x0 x1, .ExprStmt x0' x1' =>
    Expr.beq x0 x0' && decide (x1 = x1')
  | .If x0 x1 x2 x3, .If x0' x1' x2' x3' =>
    Expr.beq x0 x0' && Stmt.beq x1 x1' && Stmt.beqOption x2 x2' && decide (x3 = x3')
  | .While x0 x1 x2, .While x0' x1' x2' =>
    Expr.beq x0 x0' && Stmt.beq x1 x1' && decide (x2 = x2')
  | .Func x0, .Func x0' =>
    FuncStmt.beq x0 x0'
  | .Class x0 x1 x2 x3, .Class x0' x1' x2' x3' =>
    decide (x0 = x0') && decide (x1 = x1') && FuncStmt.beqList x2 x2' && decide (x3 = x3')
  | .Return x0 x1, .Return x0' x1' =>
    Expr.beqOption x0 x0' && decide (x1 = x1')
  | .VarDecl x0 x1 x2 x3, .VarDecl x0' x1' x2' x3' =>
    decide (x0 = x0') && decide (x1 = x1') && Expr.beqOption x2 x2' && decide (x3 = x3')
  | .ForEach x0 x1 x2 x3, .ForEach x0' x1' x2' x3' =>
    decide (x0 = x0') && Expr.beq x1 x1' && Stmt.beq x2 x2' && decide (x3 = x3')
  | .For x0 x1 x2 x3 x4, .For x0' x1' x2' x3' x4' =>
    Stmt.beqOption x0 x0' && Expr.beqOption x1 x1' && Expr.beqOption x2 x2' && Stmt.beq x3 x3' && decide (x4 = x4')
  | .Break x0, .Break x0' =>
    decide (x0 = x0')
  | .Continue x0, .Continue x0' =>
    decide (x0 = x0')
  | _, _ => false
termination_by structural a => a

/-- Equality test on blocks. -/
def BlockStmt.beq : BlockStmt → BlockStmt → Bool
  | .mk x0 x1, .mk x0' x1' =>
    Stmt.beqOptions x0 x0' && decide (x1 = x1')
termination_by structural a => a

/-- Equality test on function declarations. -/
def FuncStmt.beq : FuncStmt → FuncStmt → Bool
  | .mk x0 x1 x2 x3, .mk x0' x1' x2' x3' =>
    decide (x0 = x0') && decide (x1 = x1') && BlockStmt.beq x2 x2' && decide (x3 = x3')
termination_by structural a => a

/-- Equality test on lists of expressions. -/
def Expr.beqList : List Expr → List Expr → Bool
  | [], [] => true
  | a :: as, b :: bs => Expr.beq a b && Expr.beqList as bs
  | _, _ => false
termination_by structural a => a

/-- Equality test on lists of function declarations. -/
def FuncStmt.beqList : List FuncStmt → List FuncStmt → Bool
  | [], [] => true
  | a :: as, b :: bs => FuncStmt.beq a b && FuncStmt.beqList as bs
  | _, _ => false
termination_by structural a => a

/-- Equality test on statement lists. -/
def Stmt.beqOptions : List (Option Stmt) → List (Option Stmt) → Bool
  | [], [] => true
  | a :: as, b :: bs => Stmt.beqOption a b && Stmt.beqOptions as bs
  | _, _ => false
termination_by structural a => a

/-- Equality test on the pairs of a dictionary literal. -/
def Expr.beqPairs : List (String × Expr) → List (String × Expr) → Bool
  | [], [] => true
  | (k, a) :: as, (k', b) :: bs => decide (k = k') && Expr.beq a b && Expr.beqPairs as bs
  | _, _ => false
termination_by structural a => a

/-- Equality test on optional expressions. -/
def Expr.beqOption : Option Expr → Option Expr → Bool
  | none, none => true
  | some a, some b => Expr.beq a b
  | _, _ => false

/-- Equality test on optional statements. -/
def Stmt.beqOption : Option Stmt → Option Stmt → Bool
  | none, none => true
  | some a, some b => Stmt.beq a b
  | _, _ => false
termination_by structural a => a

end

namespace Example

/-- Declaration `class A { func get(n) { return 0; } }`. -/
def baseClass : Stmt :=
  .Class "A" none
    [.mk "get" [⟨"n", none⟩] (.mk [some (.Return (some (.Literal (.int 0) 1)) 1)] 1) 1] 1

/-- Declaration `class B extends A { func get(n) { if (n == 0) { return 100; }
return super.get(n - 1) + 1; } }`: the override calls `super.get`. -/
def overridingClass : Stmt :=
  .Class "B" (some ("A", 1))
    [.mk "get" [⟨"n", none⟩]
      (.mk [ some (.If (.Binary .EQ (.Var "n" 1) (.Literal (.int 0) 1) 1)
               (.Block (.mk [some (.Return (some (.Literal (.int 100) 1)) 1)] 1)) none 1),
             some (.Return (some (.Binary .PLUS
               (.Call (.Super "get" 1 1) [.Binary .MINUS (.Var "n" 1) (.Literal (.int 1) 1) 1] 1)
               (.Literal (.int 1) 1) 1)) 1) ] 1) 1] 1

/-- Declaration `class C extends B { }`. -/
def grandchildClass : Stmt := .Class "C" (some ("B", 1)) [] 1

/-- Program of the three class declarations `A`, `B extends A`, `C extends B`. -/
def threeLevels : List (Option Stmt) :=
  [some baseClass, some overridingClass, some grandchildClass]

/-- Expression `K().get(1)` for the class named `K`. -/
def getOneOn (className : String) : Expr :=
  .Call (.MemberAccess (.Call (.Var className 1) [] 1) "get" 1) [.Literal (.int 1) 1] 1

end Example

/-- The objects that the recursion of `MutableObject::get` and `MutableObject::has`
can visit from `obj` within the budget: `obj`, its parent, the parent of that,
and so on. -/
def MutableObject.chain (objects : List MutableObject) : Nat → Nat → List Nat
  | 0, _ => []
  | budget + 1, obj =>
    obj :: match objects[obj]? with
      | some o =>
        (match o.parent with
        | some p => MutableObject.chain objects budget p
        | none => [])
      | none => []

namespace Example

/-- A state of three objects: a prototype with the field `x = 1` and two
objects without fields whose parent is the prototype; the global frame binds
`o` to the first and `q` to the second of them. -/
def sharedPrototypeState : State where
  envs := [{ vars := [("o", { value := .object 1, static_type := none }),
                      ("q", { value := .object 2, static_type := none })],
             parent := none }]
  arrays := []
  dicts := []
  objects := [{ fields := [("x", .int 1)], parent := none, klass := none },
              { fields := [], parent := some 0, klass := none },
              { fields := [], parent := some 0, klass := none }]
  callables := []
  output := []

/-- Expression `o.x = 2`. -/
def assignTwoToOx : Expr :=
  .Assign (.MemberAccess (.Var "o" 1) "x" 1) (.Literal (.int 2) 1) 1

end Example

namespace Example

/-- A state without natives: one empty global frame and empty stores. -/
def bareState : State where
  envs := [{ vars := [], parent := none }]
  arrays := []
  dicts := []
  objects := []
  callables := []
  output := []

/-- Body `{ this.x = x; return 42; }` of an initializer that returns another value. -/
def initReturning42 : BlockStmt :=
  .mk [ some (.ExprStmt (.Assign (.MemberAccess (.This 1) "x" 1) (.Var "x" 1) 1) 1),
        some (.Return (some (.Literal (.int 42) 1)) 1) ] 1

/-- Declaration `class P { func init(x) { this.x = x; return 42; } }`. -/
def classP : Stmt := .Class "P" none [.mk "init" [⟨"x", none⟩] initReturning42 1] 1

/-- The state that the declaration `classP` leaves in a program without
natives: the global frame binds `P` to the class (callable `0`), whose
prototype (object `0`) holds the initializer (callable `1`), a function whose
closure is the frame of the class body (frame `1`). -/
def classPState : State where
  envs := [{ vars := [("P", { value := .func (some 0), static_type := none })], parent := none },
           { vars := [], parent := some 0 }]
  arrays := []
  dicts := []
  objects := [{ fields := [("init", .func (some 1))], parent := none, klass := none }]
  callables := [.ClassValue "P" none 0 (some 1),
                .FunctionValue [⟨"x", none⟩] initReturning42 1 true]
  output := []

end Example

namespace Example

/-- The state that the declaration `classA` leaves in a program without
natives: the global frame binds `A` to the class (callable `0`), whose
prototype (object `0`) holds `init` (callable `1`) and `get` (callable `2`),
functions whose closure is the frame of the class body (frame `1`). -/
def afterClassA : State where
  envs := [{ vars := [("A", { value := .func (some 0), static_type := none })], parent := none },
           { vars := [], parent := some 0 }]
  arrays := []
  dicts := []
  objects := [{ fields := [("init", .func (some 1)), ("get", .func (some 2))],
                parent := none, klass := none }]
  callables :=
    [.ClassValue "A" none 0 (some 1),
     .FunctionValue [⟨"x", none⟩]
       (.mk [some (.ExprStmt (.Assign (.MemberAccess (.This 1) "x" 1) (.Var "x" 1) 1) 1)] 1) 1 true,
     .FunctionValue [] (.mk [some (.Return (some (.MemberAccess (.This 1) "x" 1)) 1)] 1) 1 false]
  output := []

/-- The state that the declaration `classB` leaves when run in `afterClassA`:
`B` is bound to the class (callable `3`) whose superclass is `A`, whose
prototype (object `1`, child of the prototype of `A`) holds `get`
(callable `4`), a function whose closure is the frame of the class body
(frame `2`, which binds `super`). -/
def afterClassB : State :=
  { afterClassA with
    envs := [{ vars := [("A", { value := .func (some 0), static_type := none }),
                        ("B", { value := .func (some 3), static_type := none })],
               parent := none },
             { vars := [], parent := some 0 },
             { vars := [("super", { value := .func (some 0), static_type := none })],
               parent := some 0 }],
    objects := afterClassA.objects ++
      [{ fields := [("get", .func (some 4))], parent := some 0, klass := none }],
    callables := afterClassA.callables ++
      [.ClassValue "B" (some 0) 1 none, .FunctionValue [] getPlusOne.body 2 false] }

end Example

/-- The handlers of the `try` in `CallExpr::eval`: a `RuntimeError` is thrown
again as it is, any other `std::runtime_error` is given the line of the call. -/
def CallExpr.rethrow (line : Int) (e : Exn) : M Value :=
  match e with
  | .runtime_error msg => raise (.RuntimeError line msg)
  | e => raise e

namespace Example

/-- Body `{ print(x); }`. -/
def printX : BlockStmt :=
  .mk [some (.ExprStmt (.Call (.Var "print" 1) [.Var "x" 1] 1) 1)] 1

/-- The state after `func f(int x) { print(x); }` is declared at top level: the
global frame binds `f` to callable `9`. -/
def typedParamState : State :=
  { Interpreter.initial with
    envs := [{ vars := Interpreter.globals ++
                 [("f", { value := .func (some 9), static_type := none })],
               parent := none }],
    callables := Interpreter.initial.callables ++
      [.FunctionValue [⟨"x", some .INT⟩] printX 0 false] }

end Example

namespace Example

/-- Body `{ while (true) { if (true) { return 1; print(8); } print(9); } print(7); return 2; }`:
a return inside an `if` inside a loop, with statements after it at every level. -/
def returnInsideLoop : BlockStmt :=
  .mk [ some (.While (.Literal (.bool true) 1)
          (.Block (.mk [ some (.If (.Literal (.bool true) 1)
                           (.Block (.mk [ some (.Return (some (.Literal (.int 1) 1)) 1),
                                          some (.ExprStmt (.Call (.Var "print" 1)
                                            [.Literal (.int 8) 1] 1) 1) ] 1))
                           none 1),
                         some (.ExprStmt (.Call (.Var "print" 1) [.Literal (.int 9) 1] 1) 1) ] 1))
          1),
        some (.ExprStmt (.Call (.Var "print" 1) [.Literal (.int 7) 1] 1) 1),
        some (.Return (some (.Literal (.int 2) 1)) 1) ] 1

/-- The initial state of the interpreter with one more callable (callable `9`): a
function without parameters whose body is `returnInsideLoop` and whose closure
is the global frame. -/
def returnInsideLoopState : State :=
  { Interpreter.initial with
    callables := Interpreter.initial.callables ++ [.FunctionValue [] returnInsideLoop 0 false] }

end Example

namespace Example

/-- Expression `i = i + 1`. -/
def incrementI : Expr :=
  .Assign (.Var "i" 1) (.Binary .PLUS (.Var "i" 1) (.Literal (.int 1) 1) 1) 1

/-- Statement `for (var i = 0; i < 3; i = i + 1) { if (i == 1) continue; print(i); }`. -/
def forWithContinue : Stmt :=
  .For (some (.VarDecl "i" none (some (.Literal (.int 0) 1)) 1))
    (some (.Binary .LT (.Var "i" 1) (.Literal (.int 3) 1) 1))
    (some incrementI)
    (.Block (.mk [ some (.If (.Binary .EQ (.Var "i" 1) (.Literal (.int 1) 1) 1)
                     (.Continue 1) none 1),
                   some (.ExprStmt (.Call (.Var "print" 1) [.Var "i" 1] 1) 1) ] 1))
    1

/-- A state whose only frame binds `i` to the given integer. -/
def counterState (i : Int) : State where
  envs := [{ vars := [("i", { value := .int i, static_type := none })], parent := none }]
  arrays := []
  dicts := []
  objects := []
  callables := []
  output := []

end Example

/-! ## Vocabulary of the signal statements -/

/-- Whether the exception is one of the two loop signals. -/
def Exn.isSignal : Exn → Bool
  | .BreakSignal => true
  | .ContinueSignal => true
  | _ => false

/-- No outcome of the computation is a `BreakSignal` or `ContinueSignal` in flight. -/
class M.NoSignal {α : Type} (m : M α) : Prop where
  quiet : ∀ s e t, m s = .throw e t → e.isSignal = false

/-- With budget `n`, no signal escapes the evaluation of an expression, a
`while` or `for` loop, or a call. -/
def NoSignalAt (n : Nat) : Prop :=
  (∀ e env, (Expr.eval n e env).NoSignal)
  ∧ (∀ c b env, (WhileStmt.loop n c b env).NoSignal)
  ∧ (∀ c i b env, (ForStmt.loop n c i b env).NoSignal)
  ∧ (∀ f args, (Callable.call n f args).NoSignal)

/-- The lambda `iter_body` of `ForEachStmt::exec`: the loop variable is defined
in the loop's frame, then the body runs under the handlers of the loop. -/
def ForEachStmt.iter_body (body : M (Option Value)) (loopEnv : Nat) (variableName : String)
    (element : Value) : M LoopStep := do
  Environment.define loopEnv variableName element none
  loopBody body

namespace Example

end Example

namespace Example

/-- Program
`func f() { <stmt> } var i = 0; while (i < 3) { i = i + 1; f(); print(i); } print(9);`
for the given statement of the body of `f`. -/
def callInsideLoop (stmt : Stmt) : List (Option Stmt) :=
  [ some (.Func (.mk "f" [] (.mk [some stmt] 1) 1)),
    some (.VarDecl "i" none (some (.Literal (.int 0) 1)) 1),
    some (.While (.Binary .LT (.Var "i" 1) (.Literal (.int 3) 1) 1)
      (.Block (.mk [ some (.ExprStmt incrementI 1),
                     some (.ExprStmt (.Call (.Var "f" 1) [] 1) 1),
                     some (.ExprStmt (.Call (.Var "print" 1) [.Var "i" 1] 1) 1) ] 1)) 1),
    some (.ExprStmt (.Call (.Var "print" 1) [.Literal (.int 9) 1] 1) 1) ]

/-- The initial state of the interpreter with one more callable (callable `9`): a
function without parameters whose body is the given statement and whose
closure is the global frame. -/
def oneStatementFunctionState (stmt : Stmt) : State :=
  { Interpreter.initial with
    callables := Interpreter.initial.callables ++ [.FunctionValue [] (.mk [some stmt] 1) 0 false] }

end Example

namespace Example

/-- A state with two frames: the global frame binds `n` to `1` without a
declared type and `g` to `5` with declared type `int`; frame `1`, whose parent
is the global frame, binds `n` to `2` with declared type `int`. -/
def shadowingState : State where
  envs := [ { vars := [("n", { value := .int 1, static_type := none }),
                       ("g", { value := .int 5, static_type := some .INT })],
              parent := none },
            { vars := [("n", { value := .int 2, static_type := some .INT })],
              parent := some 0 } ]
  arrays := []
  dicts := []
  objects := []
  callables := []
  output := []

end Example

namespace Example

/-- Program `var x = 1; func set() { x = 2; } set();`. -/
def assignInBody : List (Option Stmt) :=
  [ some (.VarDecl "x" none (some (.Literal (.int 1) 1)) 1),
    some (.Func (.mk "set" []
      (.mk [ some (.ExprStmt (.Assign (.Var "x" 1) (.Literal (.int 2) 1) 1) 1) ] 1) 1)),
    some (.ExprStmt (.Call (.Var "set" 1) [] 1) 1) ]

/-- Program `var y = 1; func get() { return y; } y = 5;`. -/
def assignAfterDeclaration : List (Option Stmt) :=
  [ some (.VarDecl "y" none (some (.Literal (.int 1) 1)) 1),
    some (.Func (.mk "get" [] (.mk [ some (.Return (some (.Var "y" 1)) 1) ] 1) 1)),
    some (.ExprStmt (.Assign (.Var "y" 1) (.Literal (.int 5) 1) 1) 1) ]

/-- Program
`func make() { var n = 0; func inc() { n = n + 1; return n; } func read() { return n; } return [inc, read]; }`
`var a = make(); var b = make(); a[0](); a[0](); b[0]();`:
each call of `make` declares a new `n`, which the two functions declared
next to it share. -/
def counters : List (Option Stmt) :=
  [ some (.Func (.mk "make" []
      (.mk [ some (.VarDecl "n" none (some (.Literal (.int 0) 1)) 1),
             some (.Func (.mk "inc" []
               (.mk [ some (.ExprStmt (.Assign (.Var "n" 1)
                        (.Binary .PLUS (.Var "n" 1) (.Literal (.int 1) 1) 1) 1) 1),
                      some (.Return (some (.Var "n" 1)) 1) ] 1) 1)),
             some (.Func (.mk "read" [] (.mk [ some (.Return (some (.Var "n" 1)) 1) ] 1) 1)),
             some (.Return (some (.ArrayLiteral [.Var "inc" 1, .Var "read" 1] 1)) 1) ] 1) 1)),
    some (.VarDecl "a" none (some (.Call (.Var "make" 1) [] 1)) 1),
    some (.VarDecl "b" none (some (.Call (.Var "make" 1) [] 1)) 1),
    some (.ExprStmt (.Call (.Index (.Var "a" 1) (.Literal (.int 0) 1) 1) [] 1) 1),
    some (.ExprStmt (.Call (.Index (.Var "a" 1) (.Literal (.int 0) 1) 1) [] 1) 1),
    some (.ExprStmt (.Call (.Index (.Var "b" 1) (.Literal (.int 0) 1) 1) [] 1) 1) ]

/-- Expression `v[1]()`: what `read` of the pair held by variable `v` returns. -/
def readCounter (v : String) : Expr :=
  .Call (.Index (.Var v 1) (.Literal (.int 1) 1) 1) [] 1

/-- Program `func f() { var k = 0; k = k + 1; return k; } f();`. -/
def localInBody : List (Option Stmt) :=
  [ some (.Func (.mk "f" []
      (.mk [ some (.VarDecl "k" none (some (.Literal (.int 0) 1)) 1),
             some (.ExprStmt (.Assign (.Var "k" 1)
               (.Binary .PLUS (.Var "k" 1) (.Literal (.int 1) 1) 1) 1) 1),
             some (.Return (some (.Var "k" 1)) 1) ] 1) 1)),
    some (.ExprStmt (.Call (.Var "f" 1) [] 1) 1) ]

end Example

/-! ## Driver -/

/-- Method `Interpreter::interpret`: the statement loop under its handlers.
The result is the text written to `std::cerr`, line by line: a `RuntimeError`
is reported by `e.what()`, another `std::runtime_error` by `e.what()` after
`Runtime Error: `; any other exception leaves the method. -/
def Interpreter.interpret (fuel : Nat) (ast : List (Option Stmt)) : M (List String) :=
  tryCatch (do
      match ← Interpreter.run fuel ast with
      | some _ => pure ["Runtime Error: Cannot return from top-level code."]
      | none => pure [])
    fun e =>
      match e with
      | .RuntimeError _ _ => pure [e.what]
      | .runtime_error _ => pure ["Runtime Error: " ++ e.what]
      | e => raise e

/-- Function `main` from the construction of the interpreter on; the lexer, the
parser and the diagnostic about an empty tree, which reads the token vector,
are not modelled, `ast` is the tree the parser built.  The result is the exit
status and the text written to `std::cerr`. -/
def main (fuel : Nat) (ast : List (Option Stmt)) : Res (Int × List String) :=
  match Interpreter.interpret fuel ast Interpreter.initial with
  | .ok lines s => .ok (0, lines) s
  | .throw e s => .ok (1, ["Fatal Error: " ++ e.what]) s
  | .fault s => .fault s
  | .outOfFuel => .outOfFuel

namespace Example

/-- Program of three lines, `print(1);`, `print(1 / 0);`, `print(2);`, each
node with the number of its line. -/
def divisionByZeroProgram : List (Option Stmt) :=
  [ some (.ExprStmt (.Call (.Var "print" 1) [.Literal (.int 1) 1] 1) 1),
    some (.ExprStmt (.Call (.Var "print" 2)
      [.Binary .SLASH (.Literal (.int 1) 2) (.Literal (.int 0) 2) 2] 2) 2),
    some (.ExprStmt (.Call (.Var "print" 3) [.Literal (.int 2) 3] 3) 3) ]

/-- Program `print(1); print(2);`. -/
def printOneTwo : List (Option Stmt) :=
  [ some (.ExprStmt (.Call (.Var "print" 1) [.Literal (.int 1) 1] 1) 1),
    some (.ExprStmt (.Call (.Var "print" 1) [.Literal (.int 2) 1] 1) 1) ]

/-- Program of three lines, `print(1);`, `break;`, `print(2);`. -/
def breakAtTopLevel : List (Option Stmt) :=
  [ some (.ExprStmt (.Call (.Var "print" 1) [.Literal (.int 1) 1] 1) 1),
    some (.Break 2),
    some (.ExprStmt (.Call (.Var "print" 3) [.Literal (.int 2) 3] 3) 3) ]

end Example

namespace Example

/-- Program of one line, `int x = "a";`. -/
def declareIntWithString : List (Option Stmt) :=
  [ some (.VarDecl "x" (some .INT) (some (.Literal (.str "a") 1)) 1) ]

/-- Program of two lines, `int x = 1;` and `x = "a";`, each node with the
number of its line. -/
def assignStringToInt : List (Option Stmt) :=
  [ some (.VarDecl "x" (some .INT) (some (.Literal (.int 1) 1)) 1),
    some (.ExprStmt (.Assign (.Var "x" 2) (.Literal (.str "a") 2) 2) 2) ]

/-- Program of four lines, `func f() {`, `int x = "a";`, `}`, `f();`, each
node with the number of its line. -/
def declareInsideFunction : List (Option Stmt) :=
  [ some (.Func (.mk "f" []
      (.mk [ some (.VarDecl "x" (some .INT) (some (.Literal (.str "a") 2)) 2) ] 1) 1)),
    some (.ExprStmt (.Call (.Var "f" 4) [] 4) 4) ]

/-- Program of three lines, `var a = 1;`, `var b = 2;`, `print(y);`, each
node with the number of its line. -/
def readUndefined : List (Option Stmt) :=
  [ some (.VarDecl "a" none (some (.Literal (.int 1) 1)) 1),
    some (.VarDecl "b" none (some (.Literal (.int 2) 2)) 2),
    some (.ExprStmt (.Call (.Var "print" 3) [.Var "y" 3] 3) 3) ]

end Example

/-! ## The transpiler

`MiniLangCom_.cpp` turns a syntax tree into the text of a C++ program, which is
then compiled and run.  For a fragment of the syntax, the definitions of this
section give what the emitted text does when it runs: each clause is the text
that `Transpiler::compile` emits for the node, read with the declarations of
`CPP_PRELUDE`.  The fragment has expression statements, blocks, function
declarations, `return`, `throw` and `try`/`catch`, with literals, variables,
calls of a variable and dictionary literals as expressions.  The line of a
node is not part of the emitted text and is left out.  A program whose emitted
text is not a well-formed C++ program has no behaviour; where the model can
see this, the outcome is `fault`. -/

namespace Transpiler

/-- The literals of the fragment, emitted as `_V_NULL`, `Value(v)`,
`_V_TRUE`/`_V_FALSE` and `Value(std::string("..."))`. -/
inductive Literal where
  | null
  | int (v : Int)
  | bool (v : Bool)
  | string (v : String)
deriving DecidableEq, Repr

/-- The `Value` that the emitted literal constructs.  The class `Value` of the
prelude has the alternatives of the interpreter's `Value`; its pointer
alternatives index the stores of `Transpiler.State`. -/
def Literal.toValue : Literal → Value
  | .null => .nil
  | .int v => .int v
  | .bool v => .bool v
  | .string v => .str v

mutual

/-- Expression nodes of the fragment.  The callee of a `CallExpr` is a
`VarExpr` that does not name a class, given by its name. -/
inductive Expr where
  | LiteralExpr (value : Literal)
  | VarExpr (name : String)
  | CallExpr (callee : String) (args : ExprList)
  | DictLiteralExpr (pairs : PairList)

/-- A `std::vector<ExprPtr>`. -/
inductive ExprList where
  | nil
  | cons (head : Expr) (tail : ExprList)

/-- The pairs of a dictionary literal. -/
inductive PairList where
  | nil
  | cons (key : String) (value : Expr) (tail : PairList)

end

deriving instance DecidableEq for Expr
deriving instance DecidableEq for ExprList
deriving instance DecidableEq for PairList

mutual

/-- Statement nodes of the fragment.  The parameters of a function are given
by their names; their declared types are not part of the emitted text. -/
inductive Stmt where
  | ExprStmt (expr : Expr)
  | BlockStmt (statements : StmtList)
  | FuncStmt (name : String) (params : List String) (body : StmtList)
  | ReturnStmt (expr : Option Expr)
  | ThrowStmt (expr : Expr)
  | TryStmt (try_block : StmtList) (catch_variable : String) (catch_block : StmtList)

/-- A `StmtList`; `null` is a null `StmtPtr`, which `compile` skips. -/
inductive StmtList where
  | nil
  | null (tail : StmtList)
  | cons (head : Stmt) (tail : StmtList)

end

deriving instance DecidableEq for Stmt
deriving instance DecidableEq for StmtList

/-- Record `Transpiler::VarInfo`. -/
structure VarInfo where
  type_name : String
  is_heap_allocated : Bool
deriving DecidableEq, Repr

/-- Map `Transpiler::TypeMap`: what `compile` knows of the names in scope. -/
abbrev TypeMap := StrMap VarInfo

/-- Method `Transpiler::sanitize`: the C++ identifier of a variable. -/
def sanitize (n : String) : String := "_var_" ++ n

/-- What a C++ identifier declared by the emitted text denotes: a variable of
type `Value` (`Value _var_x = ...;`, never assigned in the fragment) or a
`std::shared_ptr<Value>` (`auto _var_x = std::make_shared<Value>(...);`). -/
inductive Local where
  | value (v : Value)
  | shared (cell : Nat)
deriving DecidableEq, Repr

/-- The C++ identifiers in scope at a point of the emitted text. -/
abbrev Scope := StrMap Local

/-- The natives that the emitted `main` registers: `print`, and `other` for
each native that the model does not cover. -/
inductive NativeFn where
  | print
  | other
deriving DecidableEq, Repr

/-- The callables of the prelude.  A `UserFunction` holds the lambda that
`compile_function_body` emits: its parameters, its body, the `TypeMap` the
body is compiled with (before the parameters are added) and the copy of the
identifiers in scope that `[=]` captures. -/
inductive Callable where
  | NativeFunction (function : NativeFn) (arity : Int) (name : String)
  | UserFunction (arity : Int) (name : String) (params : List String) (body : StmtList)
      (types : TypeMap) (captured : Scope)
deriving DecidableEq

/-- Method `Callable::arity`. -/
def Callable.arity : Callable → Int
  | .NativeFunction _ arity _ => arity
  | .UserFunction arity _ _ _ _ _ => arity

/-- State of the emitted program: the pointees of the `std::shared_ptr<Value>`
variables, the dictionaries, the callables, the map `*_global_env`, and the
lines written by `print` (each recorded as the argument vector of the call). -/
structure State where
  cells : List Value
  dicts : List (StrMap Value)
  callables : List Callable
  global_env : StrMap Value
  output : List (List Value)
deriving DecidableEq

/-- C++ exceptions that cross the emitted code: the `_ThrowSignal` of the
prelude, which carries the thrown value, and `std::runtime_error`. -/
inductive Thrown where
  | _ThrowSignal (thrown_value : Value)
  | runtime_error (what : String)
deriving DecidableEq, Repr

/-- Outcome of a computation of the emitted program: normal completion, a C++
exception in flight, no behaviour (`fault`), or an exhausted recursion budget. -/
inductive Outcome (α : Type) where
  | ok (a : α) (s : State)
  | throw (e : Thrown) (s : State)
  | fault (s : State)
  | outOfFuel
deriving DecidableEq

/-- Computations of the emitted program. -/
abbrev Run (α : Type) := State → Outcome α

/-- Sequencing: an exception, a fault or an exhausted budget ends the computation. -/
def Run.bind {α β : Type} (m : Run α) (f : α → Run β) : Run β := fun s =>
  match m s with
  | .ok a s' => f a s'
  | .throw e s' => .throw e s'
  | .fault s' => .fault s'
  | .outOfFuel => .outOfFuel

instance : Monad Run where
  pure a := fun s => .ok a s
  bind := Run.bind

/-- Statement `throw e`. -/
def Run.raise {α : Type} (e : Thrown) : Run α := fun s => .throw e s

/-- No behaviour. -/
def Run.fault {α : Type} : Run α := fun s => .fault s

/-- Exhausted recursion budget. -/
def Run.outOfFuel {α : Type} : Run α := fun _ => .outOfFuel

/-- Block `try { m } catch (...) { h }` where the handler decides by the exception. -/
def Run.tryCatch {α : Type} (m : Run α) (h : Thrown → Run α) : Run α := fun s =>
  match m s with
  | .throw e s' => h e s'
  | r => r

/-- Allocation `std::make_shared<Value>(v)`. -/
def newCell (v : Value) : Run Nat := fun s =>
  .ok s.cells.length { s with cells := s.cells ++ [v] }

/-- Allocation of a dictionary holding the given pairs. -/
def newDict (pairs : StrMap Value) : Run Nat := fun s =>
  .ok s.dicts.length { s with dicts := s.dicts ++ [pairs] }

/-- Allocation of a callable. -/
def newCallable (c : Callable) : Run Nat := fun s =>
  .ok s.callables.length { s with callables := s.callables ++ [c] }

/-- Dereference of a callable pointer. -/
def readCallable (p : Nat) : Run Callable := fun s =>
  match s.callables[p]? with
  | some c => .ok c s
  | none => .fault s

/-- The text emitted for a `VarExpr`: `(*_var_x)` or `_var_x` when the name is in
the `TypeMap`, by its `is_heap_allocated`, and `(*_global_env)["x"]` otherwise,
which adds an entry holding `nil` when the map has none. -/
def VarExpr.eval (name : String) (types : TypeMap) (scope : Scope) : Run Value := fun s =>
  match types.find name with
  | some info =>
    match scope.find (sanitize name) with
    | some (.shared cell) =>
      if info.is_heap_allocated then
        match s.cells[cell]? with
        | some v => .ok v s
        | none => .fault s
      else .fault s
    | some (.value v) => if info.is_heap_allocated then .fault s else .ok v s
    | none => .fault s
  | none =>
    match s.global_env.find name with
    | some v => .ok v s
    | none => .ok .nil { s with global_env := s.global_env.insert name .nil }

/-- The natives: `print` records its arguments and returns `nil`. -/
def NativeFunction.call (fn : NativeFn) (args : List Value) : Run Value :=
  match fn with
  | .print => fun s => .ok .nil { s with output := s.output ++ [args] }
  | .other => Run.fault

/-- The `TypeMap` of a function body: each parameter is a `Value`. -/
def bodyTypes (params : List String) (types : TypeMap) : TypeMap :=
  params.foldl (fun t p => t.insert p { type_name := "Value", is_heap_allocated := false }) types

/-- Declarations `Value _var_p = args[i];` at the start of the lambda. -/
def bindArgs : List String → List Value → Scope → Option Scope
  | [], _, scope => some scope
  | _ :: _, [], _ => none
  | p :: params, a :: args, scope => bindArgs params args (scope.insert (sanitize p) (.value a))

/-- The map that the initializer list of a dictionary literal constructs: the
pairs are inserted in order and a key that is already present is left as it is. -/
def dictOfPairs (pairs : List (String × Value)) : StrMap Value :=
  pairs.foldl (fun m p => if m.contains p.1 then m else m ++ [p]) []

mutual

/-- What the text emitted for an expression evaluates to.  A call is emitted
as `_call(callee, {args})`: the model reads the callee variable before it
evaluates the arguments; C++ leaves the order of the two open, and it decides
only which entries holding `nil` the map `*_global_env` has when an argument throws. -/
def Expr.eval : Nat → Expr → TypeMap → Scope → Run Value
  | 0, _, _, _ => Run.outOfFuel
  | fuel + 1, e, types, scope =>
    match e with
    | .LiteralExpr value => pure value.toValue
    | .VarExpr name => VarExpr.eval name types scope
    | .CallExpr callee args => do
      let calleeVal ← VarExpr.eval callee types scope
      let arguments ← ExprList.eval fuel args types scope
      match calleeVal with
      | .func (some func) => do
        let c ← readCallable func
        if c.arity ≠ -1 && c.arity ≠ (arguments.length : Int) then
          Run.raise (.runtime_error ("Expected " ++ toString c.arity ++ " args but got " ++
            toString arguments.length))
        else Callable.call fuel func arguments
      | .func none => Run.fault
      | _ => Run.raise (.runtime_error "Can only call functions.")
    | .DictLiteralExpr pairs => do
      let entries ← PairList.eval fuel pairs types scope
      let d ← newDict (dictOfPairs entries)
      pure (.dict d)
termination_by structural fuel => fuel

/-- The elements of a braced list, evaluated from left to right. -/
def ExprList.eval : Nat → ExprList → TypeMap → Scope → Run (List Value)
  | 0, _, _, _ => Run.outOfFuel
  | fuel + 1, l, types, scope =>
    match l with
    | .nil => pure []
    | .cons head tail => do
      let v ← Expr.eval fuel head types scope
      let vs ← ExprList.eval fuel tail types scope
      pure (v :: vs)
termination_by structural fuel => fuel

/-- The pairs of a dictionary literal, evaluated from left to right. -/
def PairList.eval : Nat → PairList → TypeMap → Scope → Run (List (String × Value))
  | 0, _, _, _ => Run.outOfFuel
  | fuel + 1, l, types, scope =>
    match l with
    | .nil => pure []
    | .cons key value tail => do
      let v ← Expr.eval fuel value types scope
      let vs ← PairList.eval fuel tail types scope
      pure ((key, v) :: vs)
termination_by structural fuel => fuel

/-- What the text emitted for a statement does.  The result is the value of a
`return` that was executed, if any, with the `TypeMap` and the identifiers in
scope for the statement that follows in the same block. -/
def Stmt.exec : Nat → Stmt → TypeMap → Scope → Run (Option Value × TypeMap × Scope)
  | 0, _, _, _ => Run.outOfFuel
  | fuel + 1, stmt, types, scope =>
    match stmt with
    | .ExprStmt expr => do
      let _ ← Expr.eval fuel expr types scope
      pure (none, types, scope)
    | .BlockStmt statements => do
      let r ← StmtList.exec fuel statements types scope
      pure (r, types, scope)
    | .FuncStmt name params body => do
      let types' := types.insert name { type_name := "Function", is_heap_allocated := false }
      let func ← newCallable (.UserFunction params.length name params body types' scope)
      pure (none, types', scope.insert (sanitize name) (.value (.func (some func))))
    | .ReturnStmt expr =>
      match expr with
      | some e => do
        let v ← Expr.eval fuel e types scope
        pure (some v, types, scope)
      | none => pure (some .nil, types, scope)
    | .ThrowStmt expr => do
      let v ← Expr.eval fuel expr types scope
      Run.raise (._ThrowSignal v)
    | .TryStmt try_block catch_variable catch_block =>
      Run.tryCatch (do
          let r ← StmtList.exec fuel try_block types scope
          pure (r, types, scope))
        fun e =>
          match e with
          | ._ThrowSignal thrown_value => do
            let cell ← newCell thrown_value
            let catch_types := types.insert catch_variable
              { type_name := "Value", is_heap_allocated := true }
            let r ← StmtList.exec fuel catch_block catch_types
              (scope.insert (sanitize catch_variable) (.shared cell))
            pure (r, types, scope)
          | e => Run.raise e
termination_by structural fuel => fuel

/-- The statements between the braces of an emitted block, in order; a
statement that returns ends the block. -/
def StmtList.exec : Nat → StmtList → TypeMap → Scope → Run (Option Value)
  | 0, _, _, _ => Run.outOfFuel
  | fuel + 1, l, types, scope =>
    match l with
    | .nil => pure none
    | .null tail => StmtList.exec fuel tail types scope
    | .cons head tail => do
      let r ← Stmt.exec fuel head types scope
      match r.1 with
      | some v => pure (some v)
      | none => StmtList.exec fuel tail r.2.1 r.2.2
termination_by structural fuel => fuel

/-- Function `_call` of the prelude after its checks: `func->call(args)`, for
a `UserFunction` the lambda, which declares the parameters, runs the body and
ends with `return _V_NULL;`. -/
def Callable.call : Nat → Nat → List Value → Run Value
  | 0, _, _ => Run.outOfFuel
  | fuel + 1, func, args => do
    match ← readCallable func with
    | .NativeFunction function _ _ => NativeFunction.call function args
    | .UserFunction _ _ params body types captured =>
      match bindArgs params args captured with
      | none => Run.fault
      | some scope => do
        match ← StmtList.exec fuel body (bodyTypes params types) scope with
        | some v => pure v
        | none => pure .nil
termination_by structural fuel => fuel

end

/-- The natives that the emitted `main` registers, in that order, each with its arity. -/
def natives : List (String × Int) :=
  [("print", -1), ("len", 1), ("type", 1), ("assert", -1), ("str", 1), ("int", 1), ("bool", 1),
   ("float", 1), ("append", 2), ("pop", -1), ("slice", -1), ("range", -1), ("dict", 0),
   ("keys", 1), ("has", 2), ("del", 2), ("dir", 1), ("map", 2), ("filter", 2), ("deepcopy", 1)]

/-- State of the emitted program at `// MAIN_CODE_GOES_HERE`: the map
`*_global_env` binds each native to its callable. -/
def initial : State where
  cells := []
  dicts := []
  callables := natives.map fun n =>
    .NativeFunction (if n.1 = "print" then .print else .other) n.2 n.1
  global_env := (List.range natives.length).zipWith (fun i n => (n.1, .func (some i))) natives
  output := []

/-- The first loop of `Transpiler::transpile`, from the `TypeMap` built so far:
each function declared at top level is entered. -/
def globalTypesFrom : StmtList → TypeMap → TypeMap
  | .nil, types => types
  | .null tail, types => globalTypesFrom tail types
  | .cons (.FuncStmt name _ _) tail, types =>
    globalTypesFrom tail (types.insert name { type_name := "Function", is_heap_allocated := false })
  | .cons _ tail, types => globalTypesFrom tail types

/-- The `TypeMap` `globalTypes` that the top-level statements are compiled with. -/
def globalTypes (ast : StmtList) : TypeMap := globalTypesFrom ast []

/-- The block of the emitted `main` that holds the text of the top-level
statements, run from the state after the natives are registered.  A `return`
at top level is emitted into `main`, where a `Value` cannot be returned. -/
def Program.exec (fuel : Nat) (ast : StmtList) : Outcome Unit :=
  match StmtList.exec fuel ast (globalTypes ast) [] initial with
  | .ok none s => .ok () s
  | .ok (some _) s => .fault s
  | .throw e s => .throw e s
  | .fault s => .fault s
  | .outOfFuel => .outOfFuel

/-- The state in which an outcome ends, when it has one. -/
def Outcome.state? {α : Type} : Outcome α → Option State
  | .ok _ s => some s
  | .throw _ s => some s
  | .fault s => some s
  | .outOfFuel => none

/-- A `std::vector<ExprPtr>` with the given elements. -/
def ExprList.ofList : List Expr → ExprList
  | [] => .nil
  | e :: rest => .cons e (ExprList.ofList rest)

/-- The pairs of a dictionary literal. -/
def PairList.ofList : List (String × Expr) → PairList
  | [] => .nil
  | (k, e) :: rest => .cons k e (PairList.ofList rest)

/-- A `StmtList` with the given statements, none of them null. -/
def StmtList.ofList : List Stmt → StmtList
  | [] => .nil
  | st :: rest => .cons st (StmtList.ofList rest)

namespace Example

/-- Statement `print(a₁, ..., aₙ);`. -/
def print (args : List Expr) : Stmt := .ExprStmt (.CallExpr "print" (ExprList.ofList args))

/-- Literal `"..."`. -/
def str (text : String) : Expr := .LiteralExpr (.string text)

/-- Test 1 of the test program of the transpiler, without its assertion:
`print("Test 1");`
`try { print("about to throw"); throw "This is a test exception!"; print("not printed"); }`
`catch (e) { print("Caught exception:", e); }`
`print("Test 1 Passed.");`. -/
def basicThrowAndCatch : StmtList :=
  StmtList.ofList
    [ print [str "Test 1"],
      .TryStmt
        (StmtList.ofList [ print [str "about to throw"],
                           .ThrowStmt (str "This is a test exception!"),
                           print [str "not printed"] ])
        "e"
        (StmtList.ofList [ print [str "Caught exception:", .VarExpr "e"] ]),
      print [str "Test 1 Passed."] ]

/-- Test 2 of the test program of the transpiler, without its variable:
`try { print("no throw"); } catch (e) { print("not printed"); }`
`print("Test 2 Passed.");`. -/
def noExceptionThrown : StmtList :=
  StmtList.ofList
    [ .TryStmt (StmtList.ofList [ print [str "no throw"] ]) "e"
        (StmtList.ofList [ print [str "not printed"] ]),
      print [str "Test 2 Passed."] ]

/-- Test 3 of the test program of the transpiler, without its assertions and
with the caught value printed as it is:
`try { print("outer");`
`  try { print("inner"); throw {"code": 404, "message": "Not Found"}; }`
`  catch (inner_e) { print("Inner catch caught:", inner_e); throw inner_e; }`
`  print("not printed"); }`
`catch (outer_e) { print("Outer catch caught:", outer_e); }`
`print("Test 3 Passed.");`. -/
def nestedAndRethrow : StmtList :=
  StmtList.ofList
    [ .TryStmt
        (StmtList.ofList
          [ print [str "outer"],
            .TryStmt
              (StmtList.ofList
                [ print [str "inner"],
                  .ThrowStmt (.DictLiteralExpr (PairList.ofList
                    [("code", .LiteralExpr (.int 404)), ("message", str "Not Found")])) ])
              "inner_e"
              (StmtList.ofList
                [ print [str "Inner catch caught:", .VarExpr "inner_e"],
                  .ThrowStmt (.VarExpr "inner_e") ]),
            print [str "not printed"] ])
        "outer_e"
        (StmtList.ofList [ print [str "Outer catch caught:", .VarExpr "outer_e"] ]),
      print [str "Test 3 Passed."] ]

/-- Program
`func fail(message) { { throw message; } print("not printed"); }`
`try { fail("boom"); print("not printed"); } catch (e) { print("caught", e); }`:
the `throw` is in a nested block of a function called from the `try` block. -/
def throwInCalledFunction : StmtList :=
  StmtList.ofList
    [ .FuncStmt "fail" ["message"]
        (StmtList.ofList
          [ .BlockStmt (StmtList.ofList [ .ThrowStmt (.VarExpr "message") ]),
            print [str "not printed"] ]),
      .TryStmt
        (StmtList.ofList [ .ExprStmt (.CallExpr "fail" (ExprList.ofList [str "boom"])),
                           print [str "not printed"] ])
        "e"
        (StmtList.ofList [ print [str "caught", .VarExpr "e"] ]) ]

end Example

end Transpiler

namespace Transpiler

/-- The computation `m'` agrees with `m` on every state on which `m` does not
run out of fuel. -/
def Run.le {α : Type} (m m' : Run α) : Prop := ∀ s, m s = .outOfFuel ∨ m' s = m s

/-- The functions of the emitted program with budget `m` agree with those with
budget `n` wherever the latter do not run out of fuel. -/
def BudgetLe (n m : Nat) : Prop :=
  (∀ e types scope, Run.le (Expr.eval n e types scope) (Expr.eval m e types scope))
  ∧ (∀ l types scope, Run.le (ExprList.eval n l types scope) (ExprList.eval m l types scope))
  ∧ (∀ l types scope, Run.le (PairList.eval n l types scope) (PairList.eval m l types scope))
  ∧ (∀ st types scope, Run.le (Stmt.exec n st types scope) (Stmt.exec m st types scope))
  ∧ (∀ l types scope, Run.le (StmtList.exec n l types scope) (StmtList.exec m l types scope))
  ∧ (∀ f args, Run.le (Callable.call n f args) (Callable.call m f args))

end Transpiler

namespace Transpiler

/-- Method `Callable::toString` of the prelude. -/
def Callable.toString : Callable → String
  | .NativeFunction _ _ name => "<native function: " ++ name ++ ">"
  | .UserFunction _ name _ _ _ _ => "<function: " ++ name ++ ">"

/-- Method `Value::toString` of the prelude on `nil`, integers, booleans,
strings and callables; the text of the other alternatives (a float, and an
array, dictionary or object, whose text depends on the order of a hash map or
on alternatives outside the fragment) is not modelled. -/
def toString? (s : State) : Value → Option String
  | .nil => some "nil"
  | .int v => some (toString v)
  | .bool v => some (if v then "true" else "false")
  | .str v => some v
  | .func none => some "<null function>"
  | .func (some p) => (s.callables[p]?).map Callable.toString
  | _ => none

/-- The emitted `main`: the top-level statements under its two handlers.  The
result is the exit status and the text written to `std::cerr`, line by line. -/
def main (fuel : Nat) (ast : StmtList) : Outcome (Int × List String) :=
  match Program.exec fuel ast with
  | .ok _ s => .ok (0, []) s
  | .throw (._ThrowSignal thrown_value) s =>
    match toString? s thrown_value with
    | some text => .ok (1, ["Unhandled Exception: " ++ text]) s
    | none => .fault s
  | .throw (.runtime_error what) s => .ok (1, ["Runtime Error: " ++ what]) s
  | .fault s => .fault s
  | .outOfFuel => .outOfFuel

namespace Example

/-- Program `print("before"); throw "boom"; print("after");`. -/
def uncaughtBoom : StmtList :=
  StmtList.ofList
    [ print [str "before"], .ThrowStmt (str "boom"), print [str "after"] ]

end Example

end Transpiler

/-! ## Shared string buffers

The evaluator above holds a string as a value.  The class `StringData` holds
it as a `std::shared_ptr<std::string>`; the definitions of this section are
that class on a heap of buffers, to compare the two. -/

/-- The `std::string` buffers and the live `std::shared_ptr<std::string>`s: the
member `data` of each `StringData` and the entries of `intern_pool`.  `owners`
gives the buffer each pointer points to, `none` once it is destroyed;
`intern_pool` maps a literal to the pointer the pool holds. -/
structure StringHeap where
  buffers : List String
  owners : List (Option Nat)
  intern_pool : StrMap Nat
deriving DecidableEq, Repr

/-- Value `data.use_count()` of a pointer to buffer `b`: the number of live
pointers that point to it. -/
def StringHeap.use_count (h : StringHeap) (b : Nat) : Nat := h.owners.count (some b)

/-- Every live pointer points to a buffer of the heap. -/
def StringHeap.WellFormed (h : StringHeap) : Prop :=
  ∀ (d b : Nat), h.owners[d]? = some (some b) → b < h.buffers.length

/-- Constructor `StringData(const std::string& s)`: a new buffer and the pointer to it. -/
def StringData.ofString (s : String) (h : StringHeap) : Nat × StringHeap :=
  (h.owners.length,
    { h with buffers := h.buffers ++ [s], owners := h.owners ++ [some h.buffers.length] })

/-- Copy of a `StringData`, as made by the copy of a `Value`: a new pointer to
the same buffer. -/
def StringData.copy (d : Nat) (h : StringHeap) : Option (Nat × StringHeap) :=
  match h.owners[d]? with
  | some (some b) => some (h.owners.length, { h with owners := h.owners ++ [some b] })
  | _ => none

/-- Function `StringData::from_literal`. -/
def StringData.from_literal (literal : String) (h : StringHeap) : Option (Nat × StringHeap) :=
  match h.intern_pool.find literal with
  | some pooled => StringData.copy pooled h
  | none =>
    some (h.owners.length + 1,
      { buffers := h.buffers ++ [literal]
        owners := h.owners ++ [some h.buffers.length, some h.buffers.length]
        intern_pool := h.intern_pool.insert literal h.owners.length })

/-- Method `StringData::get`. -/
def StringData.get (d : Nat) (h : StringHeap) : Option String :=
  match h.owners[d]? with
  | some (some b) => h.buffers[b]?
  | _ => none

/-- Method `StringData::writeable`: a pointer that shares its buffer is moved
to a copy of the buffer. -/
def StringData.writeable (d : Nat) (h : StringHeap) : Option StringHeap :=
  match h.owners[d]? with
  | some (some b) =>
    if h.use_count b > 1 then
      match h.buffers[b]? with
      | some s =>
        some { h with buffers := h.buffers ++ [s], owners := h.owners.set d (some h.buffers.length) }
      | none => none
    else some h
  | _ => none

/-- The string branch of `perform_set_on_ref` from the call of `writeable()`
on, for the `StringData` `d` of the slot, the index `idx` and the character
`c`: the buffer is made private, then the index is checked, then the
character is stored.  The flag is `false` when the index is out of bounds
and the runtime error is thrown. -/
def StringData.assignIndex (d : Nat) (idx : Int) (c : Char) (h : StringHeap) :
    Option (Bool × StringHeap) :=
  match StringData.writeable d h with
  | none => none
  | some h₁ =>
    match h₁.owners[d]? with
    | some (some b) =>
      match h₁.buffers[b]? with
      | some str =>
        if idx < 0 || idx ≥ str.length then some (false, h₁)
        else some (true,
          { h₁ with buffers := h₁.buffers.set b (String.mk (str.data.set idx.toNat c)) })
      | none => none
    | _ => none

namespace Example

/-- Program `var s = "abc"; var t = s; s[0] = "x";`. -/
def aliasThenIndexAssign : List (Option Stmt) :=
  [ some (.VarDecl "s" none (some (.Literal (.str "abc") 1)) 1),
    some (.VarDecl "t" none (some (.Var "s" 1)) 1),
    some (.ExprStmt (.Assign (.Index (.Var "s" 1) (.Literal (.int 0) 1) 1)
      (.Literal (.str "x") 1) 1) 1) ]

end Example

namespace Example

/-- Statement `for (var i = 0; i < 3; i = i + 1) { var x = i; n = n + x; }`. -/
def forSummingBodyVariable : Stmt :=
  .For (some (.VarDecl "i" none (some (.Literal (.int 0) 1)) 1))
    (some (.Binary .LT (.Var "i" 1) (.Literal (.int 3) 1) 1))
    (some incrementI)
    (.Block (.mk [ some (.VarDecl "x" none (some (.Var "i" 1)) 1),
                   some (.ExprStmt (.Assign (.Var "n" 1)
                     (.Binary .PLUS (.Var "n" 1) (.Var "x" 1) 1) 1) 1) ] 1))
    1

/-- Program `var n = 0; for (var i = 0; i < 3; i = i + 1) { var x = i; n = n + x; }`. -/
def sumInForLoop : List (Option Stmt) :=
  [ some (.VarDecl "n" none (some (.Literal (.int 0) 1)) 1), some forSummingBodyVariable ]

/-- Statement `for (var i = 0; i < 2; i = i + x) { var x = 1; }`. -/
def incrementReadsBodyVariable : Stmt :=
  .For (some (.VarDecl "i" none (some (.Literal (.int 0) 1)) 1))
    (some (.Binary .LT (.Var "i" 1) (.Literal (.int 2) 1) 1))
    (some (.Assign (.Var "i" 1) (.Binary .PLUS (.Var "i" 1) (.Var "x" 2) 1) 1))
    (.Block (.mk [ some (.VarDecl "x" none (some (.Literal (.int 1) 1)) 1) ] 1))
    1

/-- Statement `for (var i = 0; i == 0 or x < 2; i = i + 1) { var x = 1; }`. -/
def conditionReadsBodyVariable : Stmt :=
  .For (some (.VarDecl "i" none (some (.Literal (.int 0) 1)) 1))
    (some (.Binary .OR (.Binary .EQ (.Var "i" 1) (.Literal (.int 0) 1) 1)
      (.Binary .LT (.Var "x" 3) (.Literal (.int 2) 1) 1) 1))
    (some incrementI)
    (.Block (.mk [ some (.VarDecl "x" none (some (.Literal (.int 1) 1)) 1) ] 1))
    1

/-- Statement `for (var i = 0; i < 2; i = i + 1) { if (i == 1) print(x); var x = 5; }`. -/
def bodyReadsEarlierPass : Stmt :=
  .For (some (.VarDecl "i" none (some (.Literal (.int 0) 1)) 1))
    (some (.Binary .LT (.Var "i" 1) (.Literal (.int 2) 1) 1))
    (some incrementI)
    (.Block (.mk [ some (.If (.Binary .EQ (.Var "i" 1) (.Literal (.int 1) 1) 1)
                     (.ExprStmt (.Call (.Var "print" 1) [.Var "x" 4] 1) 1) none 1),
                   some (.VarDecl "x" none (some (.Literal (.int 5) 1)) 1) ] 1))
    1

end Example

namespace Example

/-- Program `var a = [10, 20, 30];`. -/
def declareArray : List (Option Stmt) :=
  [ some (.VarDecl "a" none
      (some (.ArrayLiteral [.Literal (.int 10) 1, .Literal (.int 20) 1, .Literal (.int 30) 1] 1))
      1) ]

/-- The state after `var a = [10, 20, 30];`. -/
def afterDeclareArray : State :=
  { Interpreter.initial with
    envs := [{ vars := Interpreter.globals.insert "a" { value := .array 0, static_type := none },
               parent := none }]
    arrays := [[.int 10, .int 20, .int 30]] }

/-- Expression `-1`, on line `2`. -/
def minusOne : Expr := .Unary .MINUS (.Literal (.int 1) 2) 2

/-- Expression `a[index]`. -/
def readA (index : Expr) : Expr := .Index (.Var "a" 1) index 1

/-- Expression `a[index] = 5`, the index expression on line `3`. -/
def assignA (index : Expr) : Expr := .Assign (.Index (.Var "a" 1) index 3) (.Literal (.int 5) 1) 1

end Example

namespace Example

/-- Body of `m` in class `A`: `{ return "A"; }`. -/
def bodyOfAm : BlockStmt := .mk [some (.Return (some (.Literal (.str "A") 1)) 1)] 1

/-- Body of `m` in class `B`: `{ if (n == 0) { return "B"; } return super.m(n - 1); }`. -/
def bodyOfBm : BlockStmt :=
  .mk [ some (.If (.Binary .EQ (.Var "n" 1) (.Literal (.int 0) 1) 1)
          (.Block (.mk [some (.Return (some (.Literal (.str "B") 1)) 1)] 1)) none 1),
        some (.Return (some (.Call (.Super "m" 1 1)
          [.Binary .MINUS (.Var "n" 1) (.Literal (.int 1) 1) 1] 1)) 1) ] 1

/-- Program `class A { func m(n) ... } class B extends A { func m(n) ... } class C extends B { }`
with the two bodies above. -/
def superChain : List (Option Stmt) :=
  [ some (.Class "A" none [.mk "m" [⟨"n", none⟩] bodyOfAm 1] 1),
    some (.Class "B" (some ("A", 1)) [.mk "m" [⟨"n", none⟩] bodyOfBm 1] 1),
    some (.Class "C" (some ("B", 1)) [] 1) ]

/-- Expression `K().m(3)` for the class named `K`. -/
def callMOn (className : String) : Expr :=
  .Call (.MemberAccess (.Call (.Var className 1) [] 1) "m" 1) [.Literal (.int 3) 1] 1

/-- The state after the three declarations and `var c = C(); var f = c.m;`, or
the initial state if the budget were too small. -/
def afterBindingM : State :=
  ((Interpreter.run 10
      (superChain ++
        [ some (.VarDecl "c" none (some (.Call (.Var "C" 1) [] 1)) 1),
          some (.VarDecl "f" none (some (.MemberAccess (.Var "c" 1) "m" 1)) 1) ])
      Interpreter.initial).state?).getD Interpreter.initial

end Example

namespace Example

/-- Program `var a = [[1, 2], [3, 4]]; func f() { return a; }`. -/
def nestedArrays : List (Option Stmt) :=
  [ some (.VarDecl "a" none
      (some (.ArrayLiteral
        [ .ArrayLiteral [.Literal (.int 1) 1, .Literal (.int 2) 1] 1,
          .ArrayLiteral [.Literal (.int 3) 1, .Literal (.int 4) 1] 1 ] 1)) 1),
    some (.Func (.mk "f" [] (.mk [some (.Return (some (.Var "a" 1)) 1)] 1) 1)) ]

/-- Expression `a[0][1] = 9`, the assigned index expression on line `2`. -/
def assignNested : Expr :=
  .Assign (.Index (.Index (.Var "a" 1) (.Literal (.int 0) 1) 1) (.Literal (.int 1) 1) 2)
    (.Literal (.int 9) 1) 1

/-- Expression `f()[0] = 9`, the assigned index expression on line `2`. -/
def assignToCallResult : Expr :=
  .Assign (.Index (.Call (.Var "f" 1) [] 1) (.Literal (.int 0) 1) 2) (.Literal (.int 9) 1) 1

/-- Program `var proto = Object(); proto.items = [1, 2]; var o = Object(proto);`. -/
def inheritedItems : List (Option Stmt) :=
  [ some (.VarDecl "proto" none (some (.Call (.Var "Object" 1) [] 1)) 1),
    some (.ExprStmt (.Assign (.MemberAccess (.Var "proto" 1) "items" 1)
      (.ArrayLiteral [.Literal (.int 1) 1, .Literal (.int 2) 1] 1) 1) 1),
    some (.VarDecl "o" none (some (.Call (.Var "Object" 1) [.Var "proto" 1] 1)) 1) ]

/-- Expression `base.items[0] = 9` for the variable named `base`. -/
def assignFirstItemOf (base : String) : Expr :=
  .Assign (.Index (.MemberAccess (.Var base 1) "items" 1) (.Literal (.int 0) 1) 1)
    (.Literal (.int 9) 1) 1

/-- Expression `has(o, "items")`. -/
def hasItems : Expr := .Call (.Var "has" 1) [.Var "o" 1, .Literal (.str "items") 1] 1

end Example

namespace Example

/-- The state after `var proto = Object(); proto.items = [1, 2]; var o = Object(proto);`,
or the initial state if the budget were too small. -/
def afterInheritedItems : State :=
  ((Interpreter.run 10 inheritedItems Interpreter.initial).state?).getD Interpreter.initial

end Example

namespace Example

/-- Program `class K { } var o = Object();`. -/
def emptyObject : List (Option Stmt) :=
  [ some (.Class "K" none [] 1),
    some (.VarDecl "o" none (some (.Call (.Var "Object" 1) [] 1)) 1) ]

/-- Program `class K { } var o = Object(); o.x = 1;`. -/
def objectWithField : List (Option Stmt) :=
  emptyObject ++
    [ some (.ExprStmt (.Assign (.MemberAccess (.Var "o" 1) "x" 1) (.Literal (.int 1) 1) 1) 1) ]

/-- Program `class K { } var o = Object(); o.x = 1; del(o, "x");`. -/
def objectAfterDel : List (Option Stmt) :=
  objectWithField ++
    [ some (.ExprStmt (.Call (.Var "del" 1) [.Var "o" 1, .Literal (.str "x") 1] 1) 1) ]

/-- Expression `bool(e)`. -/
def boolOf (e : Expr) : Expr := .Call (.Var "bool" 1) [e] 1

end Example

/-! ## Vocabulary of the scope statements -/

/-- The frames of `s` below `n` are frames of `t` with the parent and the bound
names they have in `s`, and no frame is removed: of such a frame only the
values of its bindings may differ. -/
def State.FramesKept (n : Nat) (s t : State) : Prop :=
  s.envs.length ≤ t.envs.length
  ∧ ∀ (f : Nat) (e : Environment), f < n → s.envs[f]? = some e →
      ∃ e' : Environment, t.envs[f]? = some e' ∧ e'.parent = e.parent
        ∧ ∀ name, e'.vars.contains name = e.vars.contains name

/-- Started in a state with at least `n` frames, the computation keeps the
frames below `n`, whatever its outcome. -/
class M.KeepsFrames (n : Nat) {α : Type} (m : M α) : Prop where
  keeps : ∀ s t, n ≤ s.envs.length → (m s).state? = some t → s.FramesKept n t

/-- The five functions of the evaluator with budget `m` keep the frames below
`n`; a statement or a loop does when the frame it runs in is not below `n`. -/
def KeepsFramesAt (n m : Nat) : Prop :=
  (∀ e env, (Expr.eval m e env).KeepsFrames n)
  ∧ (∀ st env [Fact (n ≤ env)], (Stmt.exec m st env).KeepsFrames n)
  ∧ (∀ c b env [Fact (n ≤ env)], (WhileStmt.loop m c b env).KeepsFrames n)
  ∧ (∀ c i b env [Fact (n ≤ env)], (ForStmt.loop m c i b env).KeepsFrames n)
  ∧ (∀ f args, (Callable.call m f args).KeepsFrames n)

namespace Example

/-- Body `{ return 5; }`. -/
def returnFive : BlockStmt := .mk [some (.Return (some (.Literal (.int 5) 1)) 1)] 2

/-- Program `func init() { return 5; }`, the body on line `2`. -/
def initReturning : List (Option Stmt) :=
  [ some (.Func (.mk "init" [] returnFive 1)) ]

/-- Program `func init() { print(1); }`, the body on line `2`. -/
def initFallingThrough : List (Option Stmt) :=
  [ some (.Func (.mk "init" []
      (.mk [some (.ExprStmt (.Call (.Var "print" 1) [.Literal (.int 1) 1] 1) 1)] 2) 1)) ]

/-- Program `func start() { return 5; }`. -/
def startReturning : List (Option Stmt) :=
  [ some (.Func (.mk "start" [] returnFive 1)) ]

/-- The state after `func init() { return 5; }`, or the initial state if the
budget were too small. -/
def afterInitReturning : State :=
  ((Interpreter.run 5 initReturning Interpreter.initial).state?).getD Interpreter.initial

end Example

namespace Example

end Example

/-! ## Vocabulary of the object store

A pointer to an object is the index of the object in the store, so an object
that exists when another one is made has the smaller index. -/

/-- The value does not point to an object outside the first `n` objects. -/
def Value.Valid (n : Nat) : Value → Prop
  | .object p => p < n
  | _ => True

/-- What it means for a datum of the evaluator to hold no pointer to an object
outside the first `n` objects. -/
class Validity (α : Type) where
  valid : Nat → α → Prop
  mono : ∀ (n m : Nat) (a : α), n ≤ m → valid n a → valid m a

instance : Validity Value where
  valid := Value.Valid
  mono := fun n m a h => by
    cases a <;> simp only [Value.Valid, imp_self]
    exact fun h' => Nat.lt_of_lt_of_le h' h

instance : Validity Unit := ⟨fun _ _ => True, fun _ _ _ _ h => h⟩

instance : Validity Bool := ⟨fun _ _ => True, fun _ _ _ _ h => h⟩

instance : Validity Nat := ⟨fun _ _ => True, fun _ _ _ _ h => h⟩

instance : Validity String := ⟨fun _ _ => True, fun _ _ _ _ h => h⟩

instance : Validity State := ⟨fun _ _ => True, fun _ _ _ _ h => h⟩

instance {α : Type} [Validity α] : Validity (Option α) where
  valid := fun n o => ∀ a, o = some a → Validity.valid n a
  mono := fun n m _ h hv a ha => Validity.mono n m a h (hv a ha)

instance {α : Type} [Validity α] : Validity (List α) where
  valid := fun n l => ∀ a ∈ l, Validity.valid n a
  mono := fun n m _ h hv a ha => Validity.mono n m a h (hv a ha)

instance {α β : Type} [Validity α] [Validity β] : Validity (α × β) where
  valid := fun n p => Validity.valid n p.1 ∧ Validity.valid n p.2
  mono := fun n m p h hv => ⟨Validity.mono n m p.1 h hv.1, Validity.mono n m p.2 h hv.2⟩

instance : Validity VariableInfo where
  valid := fun n info => Value.Valid n info.value
  mono := fun n m info h hv => Validity.mono (α := Value) n m info.value h hv

instance : Validity Environment where
  valid := fun n e => Validity.valid n e.vars
  mono := fun n m e h hv => Validity.mono n m e.vars h hv

instance : Validity MutableObject where
  valid := fun n o => Validity.valid n o.fields ∧ ∀ q, o.parent = some q → q < n
  mono := fun n m o h hv =>
    ⟨Validity.mono n m o.fields h hv.1, fun q hq => Nat.lt_of_lt_of_le (hv.2 q hq) h⟩

instance : Validity LoopStep where
  valid := fun n r => ∀ v, r = .ret v → Value.Valid n v
  mono := fun n m _ h hv v hr => Validity.mono (α := Value) n m v h (hv v hr)

mutual

/-- No literal of the expression is a pointer to an object. -/
def Expr.pointerFree : Expr → Bool
  | .Assign target value _ => Expr.pointerFree target && Expr.pointerFree value
  | .Literal value _ => !value.isObject
  | .Var _ _ => true
  | .Unary _ expr _ => Expr.pointerFree expr
  | .Binary _ left right _ => Expr.pointerFree left && Expr.pointerFree right
  | .Call callee args _ => Expr.pointerFree callee && Expr.pointerFreeList args
  | .ArrayLiteral elements _ => Expr.pointerFreeList elements
  | .DictLiteral pairs _ => Expr.pointerFreePairs pairs
  | .Index array index _ => Expr.pointerFree array && Expr.pointerFree index
  | .MemberAccess object _ _ => Expr.pointerFree object
  | .This _ => true
  | .Super _ _ _ => true
termination_by structural a => a

/-- No literal of the statement is a pointer to an object. -/
def Stmt.pointerFree : Stmt → Bool
  | .Block block => BlockStmt.pointerFree block
  | .ExprStmt expr _ => Expr.pointerFree expr
  | .If condition thenBranch elseBranch _ =>
    Expr.pointerFree condition && Stmt.pointerFree thenBranch
      && Stmt.pointerFreeOption elseBranch
  | .While condition body _ => Expr.pointerFree condition && Stmt.pointerFree body
  | .Func decl => FuncStmt.pointerFree decl
  | .Class _ _ methods _ => FuncStmt.pointerFreeList methods
  | .Return expr _ => Expr.pointerFreeOption expr
  | .VarDecl _ _ initializer _ => Expr.pointerFreeOption initializer
  | .ForEach _ iterable body _ => Expr.pointerFree iterable && Stmt.pointerFree body
  | .For initializer condition increment body _ =>
    Stmt.pointerFreeOption initializer && Expr.pointerFreeOption condition
      && Expr.pointerFreeOption increment && Stmt.pointerFree body
  | .Break _ => true
  | .Continue _ => true
termination_by structural a => a

/-- No literal of the block is a pointer to an object. -/
def BlockStmt.pointerFree : BlockStmt → Bool
  | .mk statements _ => Stmt.pointerFreeOptions statements
termination_by structural a => a

/-- No literal of the function declaration is a pointer to an object. -/
def FuncStmt.pointerFree : FuncStmt → Bool
  | .mk _ _ body _ => BlockStmt.pointerFree body
termination_by structural a => a

/-- No literal of the expressions is a pointer to an object. -/
def Expr.pointerFreeList : List Expr → Bool
  | [] => true
  | a :: as => Expr.pointerFree a && Expr.pointerFreeList as
termination_by structural a => a

/-- No literal of the function declarations is a pointer to an object. -/
def FuncStmt.pointerFreeList : List FuncStmt → Bool
  | [] => true
  | a :: as => FuncStmt.pointerFree a && FuncStmt.pointerFreeList as
termination_by structural a => a

/-- No literal of the statements is a pointer to an object. -/
def Stmt.pointerFreeOptions : List (Option Stmt) → Bool
  | [] => true
  | a :: as => Stmt.pointerFreeOption a && Stmt.pointerFreeOptions as
termination_by structural a => a

/-- No literal of the values of the pairs is a pointer to an object. -/
def Expr.pointerFreePairs : List (String × Expr) → Bool
  | [] => true
  | (_, a) :: as => Expr.pointerFree a && Expr.pointerFreePairs as
termination_by structural a => a

/-- No literal of the expression, if there is one, is a pointer to an object. -/
def Expr.pointerFreeOption : Option Expr → Bool
  | none => true
  | some a => Expr.pointerFree a

/-- No literal of the statement, if there is one, is a pointer to an object. -/
def Stmt.pointerFreeOption : Option Stmt → Bool
  | none => true
  | some a => Stmt.pointerFree a
termination_by structural a => a

end

instance : Validity Callable where
  valid := fun n c =>
    match c with
    | .FunctionValue _ body _ _ => body.pointerFree = true
    | .ClassValue _ _ prototype _ => prototype < n
    | .NativeFunction _ _ _ => True
  mono := fun n m c h hv => by
    cases c with
    | FunctionValue params body closure is_initializer => exact hv
    | ClassValue name superclass prototype initializer => exact Nat.lt_of_lt_of_le hv h
    | NativeFunction function arity name => trivial

/-- The objects, and what the stores hold, are in order: the parent of an
object is an object made before it, and no value of a frame, an array, a
dictionary or a field, and no prototype of a class, points outside the
objects; the bodies of the functions hold no pointer to an object. -/
structure State.WF (s : State) : Prop where
  parents : ∀ (p : Nat) (o : MutableObject), s.objects[p]? = some o →
    ∀ q, o.parent = some q → q < p
  objects : ∀ (p : Nat) (o : MutableObject), s.objects[p]? = some o →
    Validity.valid s.objects.length o
  envs : ∀ (f : Nat) (e : Environment), s.envs[f]? = some e →
    Validity.valid s.objects.length e
  arrays : ∀ (a : Nat) (l : List Value), s.arrays[a]? = some l →
    Validity.valid s.objects.length l
  dicts : ∀ (d : Nat) (m : StrMap Value), s.dicts[d]? = some m →
    Validity.valid s.objects.length m
  callables : ∀ (c : Nat) (x : Callable), s.callables[c]? = some x →
    Validity.valid s.objects.length x

/-- The outcome of a computation started in `s` is in order: its state is,
holds every object of `s`, and the result holds no pointer outside the
objects. -/
def Res.Sound {α : Type} [Validity α] (s : State) : Res α → Prop
  | .ok a t => t.WF ∧ s.objects.length ≤ t.objects.length ∧ Validity.valid t.objects.length a
  | .throw _ t => t.WF ∧ s.objects.length ≤ t.objects.length
  | .fault t => t.WF ∧ s.objects.length ≤ t.objects.length
  | .outOfFuel => True

/-- Started in a state in order with at least `n` objects, the computation
ends in order. -/
class M.Sound {α : Type} [Validity α] (n : Nat) (m : M α) : Prop where
  sound : ∀ s, s.WF → n ≤ s.objects.length → (m s).Sound s

/-- The five functions of the evaluator with budget `m` end in order, on code
without a literal that is a pointer to an object and on arguments that hold
no pointer outside the objects. -/
def SoundAt (m : Nat) : Prop :=
  (∀ e env k, e.pointerFree = true → (Expr.eval m e env).Sound k)
  ∧ (∀ st env k, st.pointerFree = true → (Stmt.exec m st env).Sound k)
  ∧ (∀ c b env k, c.pointerFree = true → b.pointerFree = true →
      (WhileStmt.loop m c b env).Sound k)
  ∧ (∀ c i b env k, Expr.pointerFreeOption c = true → Expr.pointerFreeOption i = true →
      b.pointerFree = true → (ForStmt.loop m c i b env).Sound k)
  ∧ (∀ f args k, Validity.valid k args → (Callable.call m f args).Sound k)

/-- The parent of each object of the store is an object made before it. -/
def State.ParentsOlder (s : State) : Prop :=
  ∀ (p : Nat) (o : MutableObject) (q : Nat), s.objects[p]? = some o → o.parent = some q → q < p

namespace Example

/-- Declaration `class A { }` on line `1`. -/
def emptyClassA : Stmt := .Class "A" none [] 1

/-- Declaration `class B extends A { }` on line `2`. -/
def emptyClassB : Stmt := .Class "B" (some ("A", 2)) [] 2

/-- Program
`class A { }  class B extends A { }  var x = B();  var o = Object(x);  var c = deepcopy(o);`,
one statement on each line. -/
def objectChain : List (Option Stmt) :=
  [ some emptyClassA,
    some emptyClassB,
    some (.VarDecl "x" none (some (.Call (.Var "B" 3) [] 3)) 3),
    some (.VarDecl "o" none (some (.Call (.Var "Object" 4) [.Var "x" 4] 4)) 4),
    some (.VarDecl "c" none (some (.Call (.Var "deepcopy" 5) [.Var "o" 5] 5)) 5) ]

/-- The state that the program `objectChain` leaves: the prototype of `A`
(object `0`), the prototype of `B` (object `1`), the instance `x` (object `2`),
the object `o` made from `x` (object `3`), and the copies that `deepcopy(o)`
makes of the four, the copy of a parent before the copy of its child
(objects `4` to `7`). -/
def afterObjectChain : State :=
  { Interpreter.initial with
    envs :=
      [ { vars :=
            ((((Interpreter.globals.insert "A" { value := .func (some 9), static_type := none }).insert
              "B" { value := .func (some 10), static_type := none }).insert
              "x" { value := .object 2, static_type := none }).insert
              "o" { value := .object 3, static_type := none }).insert
              "c" { value := .object 7, static_type := none },
          parent := none },
        { vars := [], parent := some 0 },
        { vars := [("super", { value := .func (some 9), static_type := none })],
          parent := some 0 } ],
    objects :=
      [ { fields := [], parent := none, klass := none },
        { fields := [], parent := some 0, klass := none },
        { fields := [], parent := some 1, klass := some 10 },
        { fields := [], parent := some 2, klass := none },
        { fields := [], parent := none, klass := none },
        { fields := [], parent := some 4, klass := none },
        { fields := [], parent := some 5, klass := some 10 },
        { fields := [], parent := some 6, klass := none } ],
    callables := Interpreter.initial.callables ++
      [ .ClassValue "A" none 0 none, .ClassValue "B" (some 9) 1 none ] }

end Example

/-- Lookup from every object of the store ends.  The objects that `get` and
`has` visit from the object are each older than the one before, so that none
is visited twice, and there are no more of them than the index of the object
allows, whatever the budget; the recursion of `MutableObject::get` ends with
one result under every budget beyond the index of the object, `get` returns
a value or reports the undefined property, and `has` returns. -/
def State.LookupsEnd (u : State) : Prop :=
  ∀ p, p < u.objects.length →
    (∀ b, (MutableObject.chain u.objects b p).Pairwise (fun x y => y < x)
      ∧ (MutableObject.chain u.objects b p).length ≤ p + 1)
    ∧ ∀ name,
      (∃ r, ∀ b, p < b → MutableObject.getChain u.objects name b p = some r)
      ∧ ((∃ v, MutableObject.get p name u = .ok v u)
          ∨ MutableObject.get p name u
              = .throw (.runtime_error ("Undefined property '" ++ name ++ "'.")) u)
      ∧ ∃ b, MutableObject.has p name u = .ok b u

namespace Example

/-- Expression `0 - 2147483647 - 1`, whose value is the smallest `int`. -/
def intMin : Expr :=
  .Binary .MINUS
    (.Binary .MINUS (.Literal (.int 0) 1) (.Literal (.int 2147483647) 1) 1)
    (.Literal (.int 1) 1) 1

/-- Expression `(0 - 2147483647 - 1) % -1`. -/
def intMinModMinusOne : Expr :=
  .Binary .PERCENT intMin (.Unary .MINUS (.Literal (.int 1) 1) 1) 1

end Example

/-! # Properties -/

/-! ## The monad -/

@[simp] theorem pure_apply {α : Type} (a : α) (s : State) : (pure a : M α) s = .ok a s := rfl

@[simp] theorem raise_apply {α : Type} (e : Exn) (s : State) :
    (raise e : M α) s = .throw e s := rfl

@[simp] theorem fault_apply {α : Type} (s : State) : (fault : M α) s = .fault s := rfl

@[simp] theorem getState_apply (s : State) : getState s = .ok s s := rfl

theorem bind_apply {α β : Type} (m : M α) (f : α → M β) (s : State) :
    (m >>= f) s = match m s with
      | .ok a s' => f a s'
      | .throw e s' => .throw e s'
      | .fault s' => .fault s'
      | .outOfFuel => .outOfFuel := rfl

/-! ## Fuel

The budget only bounds the recursion: an outcome other than `outOfFuel` is the
outcome for every larger budget. -/

theorem M.le_rfl {α : Type} (m : M α) : M.le m m := fun _ => Or.inr rfl

theorem M.le_bind {α β : Type} {m m' : M α} {f f' : α → M β} (hm : M.le m m')
    (hf : ∀ a, M.le (f a) (f' a)) : M.le (m >>= f) (m' >>= f') := by
  intro s
  simp only [bind_apply]
  rcases hm s with h | h
  · left; rw [h]
  · rw [h]
    cases hr : m s with
    | ok a s' => exact hf a s'
    | throw e s' => right; rfl
    | fault s' => right; rfl
    | outOfFuel => left; rfl

theorem M.le_tryCatch {α : Type} {m m' : M α} {h h' : Exn → M α} (hm : M.le m m')
    (hh : ∀ e, M.le (h e) (h' e)) : M.le (tryCatch m h) (tryCatch m' h') := by
  intro s
  simp only [tryCatch]
  rcases hm s with hs | hs
  · left; rw [hs]
  · rw [hs]
    cases hr : m s with
    | ok a s' => right; rfl
    | throw e s' => exact hh e s'
    | fault s' => right; rfl
    | outOfFuel => left; rfl

theorem M.le_forEachM {α β : Type} {f f' : β → α → M β} (hf : ∀ b a, M.le (f b a) (f' b a)) :
    ∀ (l : List α) (b : β), M.le (forEachM f l b) (forEachM f' l b) := by
  intro l
  induction l with
  | nil => intro b; exact M.le_rfl _
  | cons a rest ih =>
    intro b
    simp only [forEachM]
    exact M.le_bind (hf b a) (fun b' => ih b')

theorem M.le_evalAll {f f' : Expr → M Value} (hf : ∀ e, M.le (f e) (f' e)) :
    ∀ (l : List Expr), M.le (evalAll f l) (evalAll f' l) := by
  intro l
  induction l with
  | nil => exact M.le_rfl _
  | cons a rest ih =>
    simp only [evalAll]
    exact M.le_bind (hf a) (fun _ => M.le_bind ih (fun _ => M.le_rfl _))

theorem M.le_execStatements {f f' : Stmt → M (Option Value)} (hf : ∀ e, M.le (f e) (f' e)) :
    ∀ (l : List (Option Stmt)), M.le (execStatements f l) (execStatements f' l) := by
  intro l
  induction l with
  | nil => exact M.le_rfl _
  | cons a rest ih =>
    cases a with
    | none => simpa only [execStatements] using ih
    | some st =>
      simp only [execStatements]
      refine M.le_bind (hf st) (fun r => ?_)
      cases r with
      | none => exact ih
      | some v => exact M.le_rfl _

theorem M.le_loopBody {m m' : M (Option Value)} (hm : M.le m m') :
    M.le (loopBody m) (loopBody m') := by
  unfold loopBody
  exact M.le_tryCatch (M.le_bind hm (fun _ => M.le_rfl _)) (fun _ => M.le_rfl _)

theorem M.le_forEachElements {f f' : Value → M LoopStep} (hf : ∀ v, M.le (f v) (f' v)) :
    ∀ (l : List (M Value)), M.le (forEachElements f l) (forEachElements f' l) := by
  intro l
  induction l with
  | nil => exact M.le_rfl _
  | cons a rest ih =>
    simp only [forEachElements]
    refine M.le_bind (M.le_rfl _) (fun v => M.le_bind (hf v) (fun r => ?_))
    cases r with
    | next => exact ih
    | brk => exact M.le_rfl _
    | ret v => exact M.le_rfl _

theorem fuelLe_zero (m : Nat) : FuelLe 0 m := by
  refine ⟨?_, ?_, ?_, ?_, ?_, ?_⟩ <;> intros <;> intro s <;> left <;> rfl

theorem eval_step_le (n m : Nat) (ih : FuelLe n m) :
    ∀ e env, M.le (Expr.eval (n + 1) e env) (Expr.eval (m + 1) e env) := by
  obtain ⟨ihE, ihS, ihW, ihF, ihC, ihD⟩ := ih
  intro e env
  cases e <;> simp only [Expr.eval] <;>
    repeat (first
      | exact M.le_rfl _
      | exact ihE _ _
      | exact ihS _ _
      | exact ihW _ _ _
      | exact ihF _ _ _ _
      | exact ihC _ _
      | refine M.le_bind ?_ (fun _ => ?_)
      | refine M.le_tryCatch ?_ (fun _ => ?_)
      | refine M.le_loopBody ?_
      | refine M.le_forEachM (fun _ _ => ?_) _ _
      | refine M.le_evalAll (fun _ => ?_) _
      | refine M.le_execStatements (fun _ => ?_) _
      | refine M.le_forEachElements (fun _ => ?_) _
      | split)


theorem exec_step_le (n m : Nat) (ih : FuelLe n m) :
    ∀ st env, M.le (Stmt.exec (n + 1) st env) (Stmt.exec (m + 1) st env) := by
  obtain ⟨ihE, ihS, ihW, ihF, ihC, ihD⟩ := ih
  intro st env
  cases st <;> simp only [Stmt.exec] <;>
    repeat (first
      | exact M.le_rfl _
      | exact ihE _ _
      | exact ihS _ _
      | exact ihW _ _ _
      | exact ihF _ _ _ _
      | exact ihC _ _
      | refine M.le_bind ?_ (fun _ => ?_)
      | refine M.le_tryCatch ?_ (fun _ => ?_)
      | refine M.le_loopBody ?_
      | refine M.le_forEachM (fun _ _ => ?_) _ _
      | refine M.le_evalAll (fun _ => ?_) _
      | refine M.le_execStatements (fun _ => ?_) _
      | refine M.le_forEachElements (fun _ => ?_) _
      | split)

theorem while_step_le (n m : Nat) (ih : FuelLe n m) :
    ∀ c b env, M.le (WhileStmt.loop (n + 1) c b env) (WhileStmt.loop (m + 1) c b env) := by
  obtain ⟨ihE, ihS, ihW, ihF, ihC, ihD⟩ := ih
  intro c b env
  simp only [WhileStmt.loop]
  repeat (first
      | exact M.le_rfl _
      | exact ihE _ _
      | exact ihS _ _
      | exact ihW _ _ _
      | exact ihF _ _ _ _
      | exact ihC _ _
      | refine M.le_bind ?_ (fun _ => ?_)
      | refine M.le_tryCatch ?_ (fun _ => ?_)
      | refine M.le_loopBody ?_
      | refine M.le_forEachM (fun _ _ => ?_) _ _
      | refine M.le_evalAll (fun _ => ?_) _
      | refine M.le_execStatements (fun _ => ?_) _
      | refine M.le_forEachElements (fun _ => ?_) _
      | split)

theorem for_step_le (n m : Nat) (ih : FuelLe n m) :
    ∀ c i b env, M.le (ForStmt.loop (n + 1) c i b env) (ForStmt.loop (m + 1) c i b env) := by
  obtain ⟨ihE, ihS, ihW, ihF, ihC, ihD⟩ := ih
  intro c i b env
  simp only [ForStmt.loop]
  repeat (first
      | exact M.le_rfl _
      | exact ihE _ _
      | exact ihS _ _
      | exact ihW _ _ _
      | exact ihF _ _ _ _
      | exact ihC _ _
      | refine M.le_bind ?_ (fun _ => ?_)
      | refine M.le_tryCatch ?_ (fun _ => ?_)
      | refine M.le_loopBody ?_
      | refine M.le_forEachM (fun _ _ => ?_) _ _
      | refine M.le_evalAll (fun _ => ?_) _
      | refine M.le_execStatements (fun _ => ?_) _
      | refine M.le_forEachElements (fun _ => ?_) _
      | split)

theorem M.le_deepcopyElement {copy copy' : Value → Memo → M (Value × Memo)}
    (h : ∀ v memo, M.le (copy v memo) (copy' v memo)) (newArr : Nat) (memo : Memo)
    (elem : Value) :
    M.le (deepcopyElement copy newArr memo elem) (deepcopyElement copy' newArr memo elem) := by
  unfold deepcopyElement
  exact M.le_bind (h _ _) (fun _ => M.le_rfl _)

theorem M.le_deepcopyPair {copy copy' : Value → Memo → M (Value × Memo)}
    (h : ∀ v memo, M.le (copy v memo) (copy' v memo)) (newD : Nat) (memo : Memo)
    (pair : String × Value) :
    M.le (deepcopyPair copy newD memo pair) (deepcopyPair copy' newD memo pair) := by
  unfold deepcopyPair
  exact M.le_bind (h _ _) (fun _ => M.le_rfl _)

theorem M.le_deepcopyField {copy copy' : Value → Memo → M (Value × Memo)}
    (h : ∀ v memo, M.le (copy v memo) (copy' v memo)) (newObj : Nat) (memo : Memo)
    (pair : String × Value) :
    M.le (deepcopyField copy newObj memo pair) (deepcopyField copy' newObj memo pair) := by
  unfold deepcopyField
  exact M.le_bind (h _ _) (fun _ => M.le_rfl _)

theorem deepcopy_step_le (n m : Nat)
    (ihD : ∀ val memo, M.le (deepcopy_recursive n val memo) (deepcopy_recursive m val memo)) :
    ∀ val memo, M.le (deepcopy_recursive (n + 1) val memo)
      (deepcopy_recursive (m + 1) val memo) := by
  intro val memo
  cases val <;> simp only [deepcopy_recursive] <;>
    repeat (first
      | exact M.le_rfl _
      | exact ihD _ _
      | refine M.le_bind ?_ (fun _ => ?_)
      | refine M.le_forEachM (fun _ _ => ?_) _ _
      | exact M.le_deepcopyElement ihD _ _ _
      | exact M.le_deepcopyPair ihD _ _ _
      | exact M.le_deepcopyField ihD _ _ _
      | split)

theorem native_le (n m : Nat)
    (ihD : ∀ val memo, M.le (deepcopy_recursive n val memo) (deepcopy_recursive m val memo))
    (fn : NativeFn) (args : List Value) :
    M.le (NativeFunction.call n fn args) (NativeFunction.call m fn args) := by
  cases fn <;> simp only [NativeFunction.call] <;>
    repeat (first
      | exact M.le_rfl _
      | exact ihD _ _
      | refine M.le_bind ?_ (fun _ => ?_)
      | split)

theorem call_step_le (n m : Nat) (ih : FuelLe n m) :
    ∀ f args, M.le (Callable.call (n + 1) f args) (Callable.call (m + 1) f args) := by
  obtain ⟨ihE, ihS, ihW, ihF, ihC, ihD⟩ := ih
  intro f args
  simp only [Callable.call]
  repeat (first
    | exact M.le_rfl _
    | exact native_le n m ihD _ _
    | exact ihE _ _
    | exact ihS _ _
    | exact ihW _ _ _
    | exact ihF _ _ _ _
    | exact ihC _ _
    | refine M.le_bind ?_ (fun _ => ?_)
    | refine M.le_tryCatch ?_ (fun _ => ?_)
    | refine M.le_loopBody ?_
    | refine M.le_forEachM (fun _ _ => ?_) _ _
    | refine M.le_evalAll (fun _ => ?_) _
    | refine M.le_execStatements (fun _ => ?_) _
    | refine M.le_forEachElements (fun _ => ?_) _
    | split)

theorem fuelLe_succ (n m : Nat) (ih : FuelLe n m) : FuelLe (n + 1) (m + 1) :=
  ⟨eval_step_le n m ih, exec_step_le n m ih, while_step_le n m ih, for_step_le n m ih,
    call_step_le n m ih, deepcopy_step_le n m ih.2.2.2.2.2⟩

theorem fuelLe_add (n k : Nat) : FuelLe n (n + k) := by
  induction n with
  | zero => exact fuelLe_zero _
  | succ n ih =>
    have := fuelLe_succ n (n + k) ih
    rwa [show n + 1 + k = n + k + 1 by omega]

/-- A larger budget does not change an evaluation that did not run out of fuel. -/
theorem Expr.eval_mono {n m : Nat} (h : n ≤ m) (e : Expr) (env : Nat) (s : State)
    (hr : Expr.eval n e env s ≠ .outOfFuel) : Expr.eval m e env s = Expr.eval n e env s := by
  obtain ⟨k, rfl⟩ := Nat.exists_eq_add_of_le h
  rcases (fuelLe_add n k).1 e env s with h' | h'
  · exact absurd h' hr
  · exact h'

/-- A larger budget does not change a statement that did not run out of fuel. -/
theorem Stmt.exec_mono {n m : Nat} (h : n ≤ m) (st : Stmt) (env : Nat) (s : State)
    (hr : Stmt.exec n st env s ≠ .outOfFuel) : Stmt.exec m st env s = Stmt.exec n st env s := by
  obtain ⟨k, rfl⟩ := Nat.exists_eq_add_of_le h
  rcases (fuelLe_add n k).2.1 st env s with h' | h'
  · exact absurd h' hr
  · exact h'

/-- A larger budget does not change a call that did not run out of fuel. -/
theorem Callable.call_mono {n m : Nat} (h : n ≤ m) (f : Nat) (args : List Value) (s : State)
    (hr : Callable.call n f args s ≠ .outOfFuel) :
    Callable.call m f args s = Callable.call n f args s := by
  obtain ⟨k, rfl⟩ := Nat.exists_eq_add_of_le h
  rcases (fuelLe_add n k).2.2.2.2.1 f args s with h' | h'
  · exact absurd h' hr
  · exact h'

theorem Interpreter.evalAfter_le (n k : Nat) (ast : List (Option Stmt)) (e : Expr) :
    Interpreter.evalAfter n ast e = .outOfFuel
      ∨ Interpreter.evalAfter (n + k) ast e = Interpreter.evalAfter n ast e := by
  have hle := fuelLe_add n k
  have hrun : M.le (Interpreter.run n ast) (Interpreter.run (n + k) ast) :=
    M.le_execStatements (fun st => hle.2.1 st _) ast
  unfold Interpreter.evalAfter
  rcases hrun Interpreter.initial with h | h
  · left; rw [h]
  · rw [h]
    cases hr : Interpreter.run n ast Interpreter.initial with
    | ok a s' => exact hle.1 e _ s'
    | throw ex s' => right; rfl
    | fault s' => right; rfl
    | outOfFuel => left; rfl

/-- Once a program and expression are evaluated without running out of fuel,
every larger budget gives the same outcome. -/
theorem Interpreter.evalAfter_add (n k : Nat) (ast : List (Option Stmt)) (e : Expr)
    (h : Interpreter.evalAfter n ast e ≠ .outOfFuel) :
    Interpreter.evalAfter (n + k) ast e = Interpreter.evalAfter n ast e := by
  rcases Interpreter.evalAfter_le n k ast e with h' | h'
  · exact absurd h' h
  · exact h'

/-- Once a program and expression are evaluated without running out of fuel,
every budget either runs out of fuel or gives the same outcome. -/
theorem Interpreter.evalAfter_stable (n : Nat) (ast : List (Option Stmt)) (e : Expr)
    (h : Interpreter.evalAfter n ast e ≠ .outOfFuel) (fuel : Nat) :
    Interpreter.evalAfter fuel ast e = .outOfFuel
      ∨ Interpreter.evalAfter fuel ast e = Interpreter.evalAfter n ast e := by
  rcases Nat.le_total fuel n with hle | hle
  · obtain ⟨k, rfl⟩ := Nat.exists_eq_add_of_le hle
    rcases Interpreter.evalAfter_le fuel k ast e with h' | h'
    · exact Or.inl h'
    · exact Or.inr h'.symm
  · obtain ⟨k, rfl⟩ := Nat.exists_eq_add_of_le hle
    exact Or.inr (Interpreter.evalAfter_add n k ast e h)

theorem Res.ne_outOfFuel_of_value {α : Type} {r : Res α} {a : α} (h : r.value? = some a) :
    r ≠ .outOfFuel := by
  intro hr; rw [hr] at h; cases h

theorem Res.ne_outOfFuel_of_exn {α : Type} {r : Res α} {e : Exn} (h : r.exn? = some e) :
    r ≠ .outOfFuel := by
  intro hr; rw [hr] at h; cases h

/-- The value of a program and expression does not depend on the budget:
every larger budget returns it, and no budget returns another value. -/
theorem Interpreter.value_stable (n : Nat) (ast : List (Option Stmt)) (e : Expr) (v : Value)
    (h : (Interpreter.evalAfter n ast e).value? = some v) :
    (∀ k, (Interpreter.evalAfter (n + k) ast e).value? = some v)
    ∧ ∀ fuel w, (Interpreter.evalAfter fuel ast e).value? = some w → w = v := by
  have hne := Res.ne_outOfFuel_of_value h
  refine ⟨fun k => by rw [Interpreter.evalAfter_add n k ast e hne]; exact h, ?_⟩
  intro fuel w hw
  rcases Interpreter.evalAfter_stable n ast e hne fuel with h' | h'
  · rw [h'] at hw; cases hw
  · rw [h', h] at hw; cases hw; rfl

/-- The exception of a program and expression does not depend on the budget:
every larger budget raises it, and no budget returns a value. -/
theorem Interpreter.exn_stable (n : Nat) (ast : List (Option Stmt)) (e : Expr) (ex : Exn)
    (h : (Interpreter.evalAfter n ast e).exn? = some ex) :
    (∀ k, (Interpreter.evalAfter (n + k) ast e).exn? = some ex)
    ∧ ∀ fuel, (Interpreter.evalAfter fuel ast e).value? = none := by
  have hne := Res.ne_outOfFuel_of_exn h
  refine ⟨fun k => by rw [Interpreter.evalAfter_add n k ast e hne]; exact h, ?_⟩
  intro fuel
  rcases Interpreter.evalAfter_stable n ast e hne fuel with h' | h'
  · rw [h']; rfl
  · rw [h']
    cases hr : Interpreter.evalAfter n ast e with
    | ok a s' => rw [hr] at h; cases h
    | throw ex' s' => rfl
    | fault s' => rfl
    | outOfFuel => rfl

/-! ## Nodes

How the evaluation of a node reduces to the function that embeds its
non-recursive part. -/

/-- A binary node other than `&&` and `||` evaluates its operands from left to
right and applies the operator to the two values. -/
theorem Expr.eval_binary (n : Nat) (op : TokenType) (left right : Expr) (line : Int)
    (env : Nat) (s s₁ s₂ : State) (l r : Value) (hor : op ≠ .OR) (hand : op ≠ .AND)
    (hl : Expr.eval n left env s = .ok l s₁) (hr : Expr.eval n right env s₁ = .ok r s₂) :
    Expr.eval (n + 1) (.Binary op left right line) env s = BinaryExpr.apply op line l r s₂ := by
  simp [Expr.eval, hor, hand, bind_apply, hl, hr]

/-- A member access evaluates its object operand and resolves the member on the value. -/
theorem Expr.eval_memberAccess (n : Nat) (object : Expr) (member : String) (line : Int)
    (env : Nat) (s s₁ : State) (v : Value) (hobj : Expr.eval n object env s = .ok v s₁) :
    Expr.eval (n + 1) (.MemberAccess object member line) env s
      = MemberAccessExpr.apply member line v s₁ := by
  simp [Expr.eval, bind_apply, hobj]

/-- An index expression evaluates the container, then the index, and reads the element. -/
theorem Expr.eval_index (n : Nat) (array index : Expr) (line : Int) (env : Nat)
    (s s₁ s₂ : State) (c i : Value) (hc : Expr.eval n array env s = .ok c s₁)
    (hi : Expr.eval n index env s₁ = .ok i s₂) :
    Expr.eval (n + 1) (.Index array index line) env s
      = IndexExpr.apply line index.line c i s₂ := by
  simp [Expr.eval, bind_apply, hc, hi]

/-! ## Machine numbers -/

namespace Double

theorem two_pow_ilog2Aux_le (f : Nat) : ∀ n, 0 < n → n ≤ f → 2 ^ ilog2Aux f n ≤ n := by
  induction f with
  | zero => intro n hn hf; omega
  | succ f ih =>
    intro n hn hf
    unfold ilog2Aux
    by_cases h : n < 2
    · simp [h]; omega
    · simp only [h, if_false]
      have h2 : 2 ^ ilog2Aux f (n / 2) ≤ n / 2 := ih (n / 2) (by omega) (by omega)
      rw [pow_succ]
      omega

theorem two_pow_ilog2_le (n : Nat) (hn : 0 < n) : 2 ^ ilog2 n ≤ n :=
  two_pow_ilog2Aux_le n n hn (le_refl n)

theorem le_roundDiv (num den : Nat) : num / den ≤ roundDiv num den := by
  unfold roundDiv
  simp only
  split
  · exact le_refl _
  · split
    · omega
    · split <;> omega

theorem floorLog2_one_le (n : Nat) : floorLog2 n 1 ≤ (ilog2 n : Int) := by
  unfold floorLog2
  have h1 : ilog2 1 = 0 := by decide
  simp only [h1]
  split
  · split <;> omega
  · split <;> omega

theorem isZero_fin (s : Bool) (m : Nat) (e : Int) (hm : m ≠ 0) : isZero (fin s m e) = false := by
  simp [isZero, zero, eq, hm]

theorem isZero_inf (s : Bool) : isZero (inf s) = false := by
  simp [isZero, zero, eq]

/-- A positive integer rounds to a non-zero `double`. -/
theorem isZero_round_int (s : Bool) (n : Nat) (hn : 0 < n) : isZero (round s n 1) = false := by
  unfold round
  simp only
  have hk := floorLog2_one_le n
  have hp := two_pow_ilog2_le n hn
  generalize floorLog2 n 1 = k at hk ⊢
  have hm : 1 ≤ (if 0 ≤ max (k - 52) (-1074) then roundDiv n (1 * 2 ^ (max (k - 52) (-1074)).toNat)
      else roundDiv (n * 2 ^ (-(max (k - 52) (-1074))).toNat) 1) := by
    split
    · rename_i hu
      have hU : (max (k - 52) (-1074)).toNat ≤ ilog2 n := by omega
      have : 2 ^ (max (k - 52) (-1074)).toNat ≤ n :=
        le_trans (Nat.pow_le_pow_right (by norm_num) hU) hp
      have hq : 1 ≤ n / (1 * 2 ^ (max (k - 52) (-1074)).toNat) := by
        rw [one_mul]
        exact (Nat.one_le_div_iff (by positivity)).mpr this
      exact le_trans hq (le_roundDiv _ _)
    · have hq : 1 ≤ (n * 2 ^ (-(max (k - 52) (-1074))).toNat) / 1 := by
        rw [Nat.div_one]
        exact Nat.one_le_iff_ne_zero.mpr (by positivity)
      exact le_trans hq (le_roundDiv _ _)
  generalize (if 0 ≤ max (k - 52) (-1074) then roundDiv n (1 * 2 ^ (max (k - 52) (-1074)).toNat)
      else roundDiv (n * 2 ^ (-(max (k - 52) (-1074))).toNat) 1) = m at hm ⊢
  have hfin : ∀ (m' : Nat) (u' : Int), m' ≠ 0 →
      isZero (if 971 < u' then inf s else fin s m' u') = false := by
    intro m' u' h'
    split
    · exact isZero_inf _
    · exact isZero_fin _ _ _ h'
  by_cases h53 : m = 2 ^ 53
  · simp only [h53, if_true]
    exact hfin _ _ (by norm_num)
  · simp only [h53, if_false]
    exact hfin _ _ (by omega)

/-- The conversion of an `int` to `double` is zero exactly for the integer zero. -/
theorem isZero_ofInt (i : Int) : isZero (ofInt i) = decide (i = 0) := by
  unfold ofInt
  by_cases h : i = 0
  · simp [h, isZero, zero, eq]
  · simp only [h, if_false, decide_False]
    exact isZero_round_int _ _ (by omega)

end Double

/-! ## Arithmetic operators (C4, C5, C6) -/

/-- The truncating remainder lies between the dividend and zero. -/
theorem Int.tmod_between (a b : Int) :
    (0 ≤ a → 0 ≤ a.tmod b ∧ a.tmod b ≤ a) ∧ (a ≤ 0 → a ≤ a.tmod b ∧ a.tmod b ≤ 0) := by
  rcases a with m | m <;> rcases b with n | n
  · have h := Nat.mod_le m n
    simp only [Int.tmod, Int.ofNat_eq_coe]
    omega
  · have h := Nat.mod_le m (n + 1)
    simp only [Int.tmod, Int.ofNat_eq_coe, Nat.succ_eq_add_one]
    omega
  · have h := Nat.mod_le (m + 1) n
    simp only [Int.tmod, Int.ofNat_eq_coe, Nat.succ_eq_add_one, Int.negSucc_eq]
    omega
  · have h := Nat.mod_le (m + 1) (n + 1)
    simp only [Int.tmod, Int.ofNat_eq_coe, Nat.succ_eq_add_one, Int.negSucc_eq]
    omega

/-- The remainder of an `int` is an `int`. -/
theorem inIntRange_tmod (a b : Int) (ha : inIntRange a) : inIntRange (a.tmod b) := by
  have h := Int.tmod_between a b
  unfold inIntRange INT_MIN INT_MAX INT_BITS at ha ⊢
  norm_num at ha ⊢
  omega

/-- C4, which fails on one pair of operands.  For numeric operands `l` and
`r` in any mix of `int` and `double`, `l / r` raises the runtime error
"Division by zero." exactly when `r` is zero and otherwise returns the
`double` quotient of the promoted operands.  For `int` operands `a % b`
raises "Modulo by zero." exactly when `b = 0`, and returns the `int`
remainder on every other pair but one: `INT_MIN % -1` is undefined behaviour
of `l % r`, so that `(0 - 2147483647 - 1) % -1` neither raises a runtime
error nor returns a value, whatever the budget.  `1/0` and `1.0/0` raise and
`5%2` is the `int` 1. -/
theorem modulo_of_int_min_by_minus_one_is_undefined (line : Int) (l r : Num) (a b : Int)
    (env : Nat) (s : State) (ha : inIntRange a) (hb : inIntRange b) :
    BinaryExpr.apply .SLASH line l.toValue r.toValue s =
      (if r.isZero then Res.throw (.RuntimeError line "Division by zero.") s
       else Res.ok (.double (l.toDouble.div r.toDouble)) s)
    ∧ BinaryExpr.apply .PERCENT line (.int a) (.int b) s =
      (if b = 0 then Res.throw (.RuntimeError line "Modulo by zero.") s
       else if a = INT_MIN ∧ b = -1 then Res.fault s
       else Res.ok (.int (a.tmod b)) s)
    ∧ inIntRange (a.tmod b)
    ∧ inIntRange INT_MIN ∧ inIntRange (-1)
    ∧ BinaryExpr.apply .PERCENT line (.int INT_MIN) (.int (-1)) s = Res.fault s
    ∧ Expr.eval 4 Example.intMinModMinusOne env s = Res.fault s
    ∧ (∀ fuel, Expr.eval fuel Example.intMinModMinusOne env s = Res.outOfFuel
        ∨ Expr.eval fuel Example.intMinModMinusOne env s = Res.fault s)
    ∧ Expr.eval 2 (.Binary .SLASH (.Literal (.int 1) line) (.Literal (.int 0) line) line) env s
        = Res.throw (.RuntimeError line "Division by zero.") s
    ∧ Expr.eval 2 (.Binary .SLASH (.Literal (.double (Double.ofInt 1)) line)
          (.Literal (.int 0) line) line) env s
        = Res.throw (.RuntimeError line "Division by zero.") s
    ∧ Expr.eval 2 (.Binary .PERCENT (.Literal (.int 5) line) (.Literal (.int 2) line) line) env s
        = Res.ok (.int 1) s := by
  have h4 : Expr.eval 4 Example.intMinModMinusOne env s = Res.fault s := rfl
  refine ⟨?_, ?_, inIntRange_tmod a b ha, by decide, by decide, rfl, h4, ?_, rfl, rfl, rfl⟩
  · cases l <;> cases r <;>
      simp [Num.toValue, Num.isZero, Num.toDouble, BinaryExpr.apply, BinaryExpr.intOp,
        BinaryExpr.apply_double_op, Double.isZero_ofInt, ite_apply]
  · by_cases h0 : b = 0
    · simp [BinaryExpr.apply, BinaryExpr.intOp, h0, raise_apply]
    · by_cases h1 : a = INT_MIN ∧ b = -1
      · simp only [BinaryExpr.apply, BinaryExpr.intOp, h0, h1, if_false]
        rfl
      · simp only [BinaryExpr.apply, BinaryExpr.intOp, h0, h1, if_false]
        rfl
  · intro fuel
    rcases Nat.le_total fuel 4 with h | h
    · by_cases hr : Expr.eval fuel Example.intMinModMinusOne env s = Res.outOfFuel
      · exact Or.inl hr
      · exact Or.inr ((Expr.eval_mono h _ env s hr).symm.trans h4)
    · exact Or.inr ((Expr.eval_mono h _ env s (by rw [h4]; exact fun h' => nomatch h')).trans h4)

/-- Witness of `modulo_of_int_min_by_minus_one_is_undefined`: the operands
`INT_MIN` and `-1`. -/
theorem modulo_of_int_min_by_minus_one_is_undefined_witness :
    inIntRange INT_MIN ∧ inIntRange (-1)
    ∧ BinaryExpr.apply .PERCENT 1 (.int INT_MIN) (.int (-1)) Interpreter.initial
        = Res.fault Interpreter.initial
    ∧ Expr.eval 4 Example.intMinModMinusOne 0 Interpreter.initial
        = Res.fault Interpreter.initial :=
  have h := modulo_of_int_min_by_minus_one_is_undefined 1 (.int 1) (.int 1) INT_MIN (-1)
    0 Interpreter.initial (by decide) (by decide)
  ⟨by decide, by decide, h.2.1.trans rfl, h.2.2.2.2.2.2.1⟩

/-- C5, the claim as stated fails: `5.0 % 2` has a `double` operand and a
non-zero right operand, yet it raises a runtime error instead of returning a
`double`. -/
theorem float_modulo_raises :
    BinaryExpr.apply .PERCENT 1 (.double (Double.ofInt 5)) (.int 2) Interpreter.initial
      = Res.throw (.RuntimeError 1 "Operator not applicable to float types.")
          Interpreter.initial
    ∧ ¬ ∃ d s', BinaryExpr.apply .PERCENT 1 (.double (Double.ofInt 5)) (.int 2)
          Interpreter.initial = Res.ok (.double d) s' := by
  have h : BinaryExpr.apply .PERCENT 1 (.double (Double.ofInt 5)) (.int 2) Interpreter.initial
      = Res.throw (.RuntimeError 1 "Operator not applicable to float types.")
          Interpreter.initial := rfl
  refine ⟨h, ?_⟩
  rintro ⟨d, s', h'⟩
  rw [h] at h'
  cases h'

/-- C5, amended. For `int` operands `+`, `-` and `*` return the exact result,
an `int`, whenever it lies in the range of `int`, and are undefined behaviour
when it does not; `%` returns the remainder, an `int`, for every non-zero
divisor but in `INT_MIN % -1`, which is undefined; `/` returns a `double`
for every non-zero divisor, `5/2` being `2.5`.  When at least one operand is
a `double`, `+`, `-`, `*` return the `double` result on the promoted operands
and so does `/` for a non-zero right operand, while `%` raises the runtime
error "Operator not applicable to float types.". -/
theorem numeric_promotion (line : Int) (a b : Int) (x : Double) (n : Num) (s : State)
    (ha : inIntRange a) (hb : inIntRange b) :
    BinaryExpr.apply .PLUS line (.int a) (.int b) s =
      (if inIntRange (a + b) then Res.ok (.int (a + b)) s else Res.fault s)
    ∧ BinaryExpr.apply .MINUS line (.int a) (.int b) s =
      (if inIntRange (a - b) then Res.ok (.int (a - b)) s else Res.fault s)
    ∧ BinaryExpr.apply .STAR line (.int a) (.int b) s =
      (if inIntRange (a * b) then Res.ok (.int (a * b)) s else Res.fault s)
    ∧ BinaryExpr.apply .PERCENT line (.int a) (.int b) s =
        (if b = 0 then Res.throw (.RuntimeError line "Modulo by zero.") s
         else if a = INT_MIN ∧ b = -1 then Res.fault s
         else Res.ok (.int (a.tmod b)) s)
    ∧ inIntRange (a.tmod b)
    ∧ BinaryExpr.apply .SLASH line (.int a) (.int b) s =
        (if b = 0 then Res.throw (.RuntimeError line "Division by zero.") s
         else Res.ok (.double ((Double.ofInt a).div (Double.ofInt b))) s)
    ∧ BinaryExpr.apply .SLASH line (.int 5) (.int 2) s
        = .ok (.double (.fin false (5 * 2 ^ 50) (-51))) s
    ∧ BinaryExpr.apply .PLUS line (.double x) n.toValue s
        = .ok (.double (x.add n.toDouble)) s
    ∧ BinaryExpr.apply .PLUS line n.toValue (.double x) s
        = .ok (.double (n.toDouble.add x)) s
    ∧ BinaryExpr.apply .MINUS line (.double x) n.toValue s
        = .ok (.double (x.sub n.toDouble)) s
    ∧ BinaryExpr.apply .MINUS line n.toValue (.double x) s
        = .ok (.double (n.toDouble.sub x)) s
    ∧ BinaryExpr.apply .STAR line (.double x) n.toValue s
        = .ok (.double (x.mul n.toDouble)) s
    ∧ BinaryExpr.apply .STAR line n.toValue (.double x) s
        = .ok (.double (n.toDouble.mul x)) s
    ∧ BinaryExpr.apply .SLASH line (.double x) n.toValue s =
        (if n.isZero then Res.throw (.RuntimeError line "Division by zero.") s
         else Res.ok (.double (x.div n.toDouble)) s)
    ∧ BinaryExpr.apply .SLASH line n.toValue (.double x) s =
        (if x.isZero then Res.throw (.RuntimeError line "Division by zero.") s
         else Res.ok (.double (n.toDouble.div x)) s)
    ∧ BinaryExpr.apply .PERCENT line (.double x) n.toValue s
        = .throw (.RuntimeError line "Operator not applicable to float types.") s
    ∧ BinaryExpr.apply .PERCENT line n.toValue (.double x) s
        = .throw (.RuntimeError line "Operator not applicable to float types.") s := by
  refine ⟨?_, ?_, ?_, ?_, inIntRange_tmod a b ha, ?_, ?_, ?_, ?_, ?_, ?_, ?_, ?_, ?_, ?_, ?_,
    ?_⟩
  · by_cases h : inIntRange (a + b) <;>
      simp only [BinaryExpr.apply, BinaryExpr.intOp, h, if_true, if_false] <;> rfl
  · by_cases h : inIntRange (a - b) <;>
      simp only [BinaryExpr.apply, BinaryExpr.intOp, h, if_true, if_false] <;> rfl
  · by_cases h : inIntRange (a * b) <;>
      simp only [BinaryExpr.apply, BinaryExpr.intOp, h, if_true, if_false] <;> rfl
  · by_cases h0 : b = 0
    · simp [BinaryExpr.apply, BinaryExpr.intOp, h0, raise_apply]
    · by_cases h1 : a = INT_MIN ∧ b = -1
      · simp only [BinaryExpr.apply, BinaryExpr.intOp, h0, h1, if_false]
        rfl
      · simp only [BinaryExpr.apply, BinaryExpr.intOp, h0, h1, if_false]
        rfl
  · simp [BinaryExpr.apply, BinaryExpr.intOp, ite_apply]
  · have h : (Double.ofInt 5).div (Double.ofInt 2) = .fin false (5 * 2 ^ 50) (-51) := by decide
    simp [BinaryExpr.apply, BinaryExpr.intOp, h]
  · cases n <;> rfl
  · cases n <;> rfl
  · cases n <;> rfl
  · cases n <;> rfl
  · cases n <;> rfl
  · cases n <;> rfl
  · cases n <;>
      simp [Num.toValue, Num.isZero, Num.toDouble, BinaryExpr.apply,
        BinaryExpr.apply_double_op, Double.isZero_ofInt, ite_apply]
  · cases n <;>
      simp [Num.toValue, Num.isZero, Num.toDouble, BinaryExpr.apply,
        BinaryExpr.apply_double_op, Double.isZero_ofInt, ite_apply]
  · cases n <;> rfl
  · cases n <;> rfl

/-- Witness of `numeric_promotion`: the `int` operands `5` and `2`. -/
theorem numeric_promotion_witness :
    inIntRange 5 ∧ inIntRange 2
    ∧ BinaryExpr.apply .PLUS 1 (.int 5) (.int 2) Interpreter.initial
        = .ok (.int 7) Interpreter.initial
    ∧ BinaryExpr.apply .PERCENT 1 (.int 5) (.int 2) Interpreter.initial
        = .ok (.int 1) Interpreter.initial
    ∧ BinaryExpr.apply .SLASH 1 (.int 5) (.int 2) Interpreter.initial
        = .ok (.double (.fin false (5 * 2 ^ 50) (-51))) Interpreter.initial :=
  have h := numeric_promotion 1 5 2 (Double.ofInt 1) (.int 1) Interpreter.initial
    (by decide) (by decide)
  ⟨by decide, by decide, h.1.trans rfl, h.2.2.2.1.trans rfl, h.2.2.2.2.2.2.1⟩

/-- C6, the claim as stated fails: the literal `3000000000` and the sum
`2147483647 + 1` lie in the 64-bit range, yet the literal is rejected by
`std::stoi`, and the sum overflows `int`, which is undefined behaviour:
the operator does not return the exact result. -/
theorem int_is_not_64_bit :
    ((decimalValue "3000000000" : Int) ≤ 2 ^ 63 - 1
      ∧ ¬ ∃ e, Parser.parsePrimaryInt "3000000000" 1 = .ok e)
    ∧ ((2147483647 : Int) + 1 ≤ 2 ^ 63 - 1
      ∧ BinaryExpr.apply .PLUS 1 (.int 2147483647) (.int 1) Interpreter.initial
          = .fault Interpreter.initial
      ∧ ¬ ∃ s', BinaryExpr.apply .PLUS 1 (.int 2147483647) (.int 1) Interpreter.initial
          = .ok (.int (2147483647 + 1)) s') := by
  have hs : BinaryExpr.apply .PLUS 1 (.int 2147483647) (.int 1) Interpreter.initial
      = .fault Interpreter.initial := rfl
  refine ⟨⟨by decide, ?_⟩, by decide, hs, ?_⟩
  · rintro ⟨e, h⟩
    have h' : Parser.parsePrimaryInt "3000000000" 1 = .error (.other "stoi") := rfl
    rw [h'] at h
    cases h
  · rintro ⟨s', h⟩
    rw [hs] at h
    cases h

/-- C6, amended. `int` has 32-bit signed semantics.  For `int` operands, the
operator `+` returns the exact sum whenever the sum lies in
`[-2^31, 2^31 - 1]`, the operator `-` the exact difference whenever the
difference does, and the operator `*` the exact product whenever the product
does, each independently of the other two.  An integer literal, a non-empty
string of decimal digits, that denotes a number up to `2^31 - 1` is parsed
to a literal that evaluates to that number; one that denotes a larger number
is rejected by `std::stoi`. -/
theorem int_is_32_bit (line : Int) (a b : Int) (lexeme : String) (env : Nat) (s : State)
    (ha : inIntRange a) (hb : inIntRange b)
    (hdigits : lexeme.data ≠ [] ∧ ∀ c ∈ lexeme.data, c.isDigit = true) :
    (inIntRange (a + b) →
      BinaryExpr.apply .PLUS line (.int a) (.int b) s = .ok (.int (a + b)) s)
    ∧ (inIntRange (a - b) →
      BinaryExpr.apply .MINUS line (.int a) (.int b) s = .ok (.int (a - b)) s)
    ∧ (inIntRange (a * b) →
      BinaryExpr.apply .STAR line (.int a) (.int b) s = .ok (.int (a * b)) s)
    ∧ ((decimalValue lexeme : Int) ≤ INT_MAX →
      inIntRange (decimalValue lexeme)
      ∧ Parser.parsePrimaryInt lexeme line = .ok (.Literal (.int (decimalValue lexeme)) line)
      ∧ Expr.eval 1 (.Literal (.int (decimalValue lexeme)) line) env s
          = .ok (.int (decimalValue lexeme)) s)
    ∧ (INT_MAX < (decimalValue lexeme : Int) →
      Parser.parsePrimaryInt lexeme line = .error (.other "stoi")) := by
  refine ⟨fun h => ?_, fun h => ?_, fun h => ?_, fun h => ⟨?_, ?_, rfl⟩, fun h => ?_⟩
  · simp only [BinaryExpr.apply, BinaryExpr.intOp, h, if_true]
    rfl
  · simp only [BinaryExpr.apply, BinaryExpr.intOp, h, if_true]
    rfl
  · simp only [BinaryExpr.apply, BinaryExpr.intOp, h, if_true]
    rfl
  · refine ⟨?_, h⟩
    have h0 : (0 : Int) ≤ (decimalValue lexeme : Int) := Int.ofNat_nonneg _
    unfold INT_MIN INT_BITS
    norm_num
    omega
  · simp [Parser.parsePrimaryInt, stoi, h]
  · have h' : ¬ (decimalValue lexeme : Int) ≤ INT_MAX := not_le.mpr h
    simp [Parser.parsePrimaryInt, stoi, h']

/-- Witness of `int_is_32_bit`: the operands `100000` and `100000`, whose sum
lies in the range of `int` while their product does not, and the literal
`2147483647`. -/
theorem int_is_32_bit_witness :
    inIntRange 100000
    ∧ ("2147483647".data ≠ [] ∧ ∀ c ∈ "2147483647".data, c.isDigit = true)
    ∧ inIntRange (100000 + 100000) ∧ ¬ inIntRange (100000 * 100000)
    ∧ BinaryExpr.apply .PLUS 1 (.int 100000) (.int 100000) Interpreter.initial
        = .ok (.int (100000 + 100000)) Interpreter.initial
    ∧ BinaryExpr.apply .MINUS 1 (.int 100000) (.int 100000) Interpreter.initial
        = .ok (.int (100000 - 100000)) Interpreter.initial
    ∧ Parser.parsePrimaryInt "2147483647" 1
        = .ok (.Literal (.int (decimalValue "2147483647")) 1)
    ∧ Expr.eval 1 (.Literal (.int (decimalValue "2147483647")) 1) 0 Interpreter.initial
        = .ok (.int (decimalValue "2147483647")) Interpreter.initial :=
  have h := int_is_32_bit 1 100000 100000 "2147483647" 0 Interpreter.initial
    (by decide) (by decide) (by decide)
  ⟨by decide, by decide, by decide, by decide, h.1 (by decide), h.2.1 (by decide),
    (h.2.2.2.1 (by decide)).2.1, (h.2.2.2.1 (by decide)).2.2⟩

/-! ## Classes (C1) -/

/-- C1, the claim as stated fails: with `B` declaring no initializer of its
own, `B(5)` is rejected by the arity check of the call, so `B(5).get()`
raises a runtime error, and no budget makes it return `6`. -/
theorem subclass_without_init_rejects_argument :
    (Interpreter.evalAfter 20 [some Example.classA, some Example.classB]
        Example.callGetOnB5).exn?
      = some (.RuntimeError 1 "Expected 0 arguments but got 1.")
    ∧ ¬ ∃ fuel, (Interpreter.evalAfter fuel [some Example.classA, some Example.classB]
        Example.callGetOnB5).value? = some (.int 6) := by
  have h : (Interpreter.evalAfter 20 [some Example.classA, some Example.classB]
      Example.callGetOnB5).exn?
      = some (.RuntimeError 1 "Expected 0 arguments but got 1.") := by decide!
  refine ⟨h, ?_⟩
  rintro ⟨fuel, hf⟩
  rw [(Interpreter.exn_stable 20 _ _ _ h).2 fuel] at hf
  cases hf

/-- C1, amended. For the classes `A` and `B` of the claim, `B(5).get()` raises
the runtime error "Expected 0 arguments but got 1.", since a class without
an `init` of its own has arity 0; when `B` also declares
`init(x) { super.init(x); }`, `B(5).get()` returns the integer `6`.  Both hold
for every budget of at least 20. -/
theorem super_get_plus_one (k : Nat) :
    (Interpreter.evalAfter (20 + k) [some Example.classA, some Example.classB]
        Example.callGetOnB5).exn?
      = some (.RuntimeError 1 "Expected 0 arguments but got 1.")
    ∧ (Interpreter.evalAfter (20 + k) [some Example.classA, some Example.classBWithInit]
        Example.callGetOnB5).value? = some (.int 6) :=
  ⟨(Interpreter.exn_stable 20 _ _ _ (by decide!)).1 k,
   (Interpreter.value_stable 20 _ _ _ (by decide!)).1 k⟩

/-! ## Equality of containers (C2) -/

/-- C2, the code at the failing input. `==` on two arrays, and on two
dictionaries, compares the pointers only, whatever the contents: the result
is `true` exactly when both operands are the same storage.  So `[1] == [1]`,
two arrays in distinct storage with equal elements, is `false`, `[1] != [1]`
is `true`, and `{"k": 1} == {"k": 1}` is `false`, for every budget of at
least 3. -/
theorem container_equality_is_identity (line : Int) (a b : Nat) (s : State) (k : Nat) :
    BinaryExpr.apply .EQ line (.array a) (.array b) s = .ok (.bool (a == b)) s
    ∧ BinaryExpr.apply .NE line (.array a) (.array b) s = .ok (.bool (!(a == b))) s
    ∧ BinaryExpr.apply .EQ line (.dict a) (.dict b) s = .ok (.bool (a == b)) s
    ∧ BinaryExpr.apply .NE line (.dict a) (.dict b) s = .ok (.bool (!(a == b))) s
    ∧ (Interpreter.evalAfter (3 + k) [] Example.arraysEqual).value? = some (.bool false)
    ∧ ((Interpreter.evalAfter (3 + k) [] Example.arraysEqual).state?.map fun s' => s'.arrays)
        = some [[.int 1], [.int 1]]
    ∧ (Interpreter.evalAfter (3 + k) [] Example.arraysUnequal).value? = some (.bool true)
    ∧ (Interpreter.evalAfter (3 + k) [] Example.dictsEqual).value? = some (.bool false)
    ∧ ((Interpreter.evalAfter (3 + k) [] Example.dictsEqual).state?.map fun s' => s'.dicts)
        = some [[("k", .int 1)], [("k", .int 1)]] := by
  have h₁ : (Interpreter.evalAfter 3 [] Example.arraysEqual).value? = some (.bool false) := by
    decide!
  have h₂ : (Interpreter.evalAfter 3 [] Example.arraysUnequal).value? = some (.bool true) := by
    decide!
  have h₃ : (Interpreter.evalAfter 3 [] Example.dictsEqual).value? = some (.bool false) := by
    decide!
  rw [Interpreter.evalAfter_add 3 k _ _ (Res.ne_outOfFuel_of_value h₁),
    Interpreter.evalAfter_add 3 k _ _ (Res.ne_outOfFuel_of_value h₂),
    Interpreter.evalAfter_add 3 k _ _ (Res.ne_outOfFuel_of_value h₃)]
  refine ⟨rfl, rfl, rfl, rfl, h₁, ?_, h₂, h₃, ?_⟩ <;> decide!

/-! ## Maps and frames -/

namespace StrMap

theorem find_insert_self {α : Type} (m : StrMap α) (k : String) (v : α) :
    (m.insert k v).find k = some v := by
  induction m with
  | nil => simp [insert, find]
  | cons p rest ih =>
    obtain ⟨k', v'⟩ := p
    by_cases h : k' = k
    · simp [insert, find, h]
    · simp [insert, find, h, ih]

theorem find_insert_ne {α : Type} (m : StrMap α) (k k' : String) (v : α) (h : k' ≠ k) :
    (m.insert k v).find k' = m.find k' := by
  induction m with
  | nil => simp [insert, find, Ne.symm h]
  | cons p rest ih =>
    obtain ⟨k₀, v₀⟩ := p
    by_cases h0 : k₀ = k
    · subst h0
      simp [insert, find, Ne.symm h]
    · by_cases h1 : k₀ = k'
      · subst h1
        simp [insert, find, h0]
      · simp [insert, find, h0, h1, ih]

theorem contains_insert_self {α : Type} (m : StrMap α) (k : String) (v : α) :
    (m.insert k v).contains k = true := by
  simp [contains, find_insert_self]

theorem contains_insert_ne {α : Type} (m : StrMap α) (k k' : String) (v : α) (h : k' ≠ k) :
    (m.insert k v).contains k' = m.contains k' := by
  simp [contains, find_insert_ne m k k' v h]

end StrMap

theorem getElem?_lt_length {α : Type} (l : List α) (i : Nat) (a : α) (h : l[i]? = some a) :
    i < l.length := by
  rcases Nat.lt_or_ge i l.length with h' | h'
  · exact h'
  · rw [List.getElem?_eq_none h'] at h; cases h

theorem set_length_append_singleton {α : Type} (l : List α) (x y : α) :
    (l ++ [x]).set l.length y = l ++ [y] := by
  induction l with
  | nil => rfl
  | cons a l ih => simp [List.set, ih]

/-- Replacing a frame by one with the same parent that binds `name` exactly
when the old one did leaves the frame search for `name` unchanged. -/
theorem Environment.findFrame_set (envs : List Environment) (name : String) (f : Nat)
    (e e' : Environment) (he : envs[f]? = some e) (hpar : e'.parent = e.parent)
    (hc : e'.vars.contains name = e.vars.contains name) :
    ∀ budget env, Environment.findFrame (envs.set f e') name budget env
      = Environment.findFrame envs name budget env := by
  intro budget
  induction budget with
  | zero => intro env; rfl
  | succ n ih =>
    intro env
    unfold Environment.findFrame
    by_cases hfe : f = env
    · subst hfe
      have hlt : f < envs.length := getElem?_lt_length _ _ _ he
      simp only [List.getElem?_set_self hlt, he, hc, hpar]
      split
      · rfl
      · split
        · exact ih _
        · rfl
    · simp only [List.getElem?_set_ne hfe]
      split
      · rfl
      · split
        · rfl
        · split
          · exact ih _
          · rfl

/-- The frame that the search returns is in the store and binds the name. -/
theorem Environment.findFrame_found (envs : List Environment) (name : String) :
    ∀ budget env f, Environment.findFrame envs name budget env = some (some f) →
      ∃ e, envs[f]? = some e ∧ e.vars.contains name = true := by
  intro budget
  induction budget with
  | zero => intro env f h; simp [Environment.findFrame] at h
  | succ n ih =>
    intro env f h
    unfold Environment.findFrame at h
    split at h
    · cases h
    · rename_i e he
      split at h
      · rename_i hc
        simp only [Option.some.injEq] at h
        subst h
        exact ⟨e, he, hc⟩
      · split at h
        · exact ih _ _ h
        · cases h

/-! ## Declared types (C3) -/

/-- C3, the claim as stated fails: after `float f = 1.5; f = 2;` the value read
from `f` is the `int` 2, and no budget makes the read return a `double`. -/
theorem float_slot_read_is_int :
    (Interpreter.evalAfter 5 [some Example.declareFloatF, some Example.assignTwoToF]
        (.Var "f" 1)).value? = some (.int 2)
    ∧ ¬ ∃ fuel d, (Interpreter.evalAfter fuel
        [some Example.declareFloatF, some Example.assignTwoToF] (.Var "f" 1)).value?
          = some (.double d) := by
  have h : (Interpreter.evalAfter 5 [some Example.declareFloatF, some Example.assignTwoToF]
        (.Var "f" 1)).value? = some (.int 2) := by decide!
  refine ⟨h, ?_⟩
  rintro ⟨fuel, d, hd⟩
  have := (Interpreter.value_stable 5 _ _ _ h).2 fuel _ hd
  cases this

/-- C3, amended. For every variable whose innermost binding is declared with
type `float`, assigning an `int` succeeds and the value subsequently read from
the variable is that `int`, unconverted (its dynamic type token is `INT`);
assigning a string raises an error and leaves the state as it was. -/
theorem float_slot_accepts_int_unconverted (env : Nat) (name : String) (n : Int)
    (str : String) (s : State) (f : Nat) (e : Environment) (info : VariableInfo)
    (hfind : Environment.findFrame s.envs name s.envs.length env = some (some f))
    (he : s.envs[f]? = some e) (hinfo : e.vars.find name = some info)
    (hty : info.static_type = some .FLOAT) :
    ∃ s', Environment.assign env name (.int n) s = .ok true s'
      ∧ Environment.get env name s' = .ok (.int n) s'
      ∧ get_value_type_token s' (.int n) = .INT
      ∧ Environment.assign env name (.str str) s
          = .throw (.runtime_error
              ("Type mismatch on assignment to static variable '" ++ name ++ "'.")) s := by
  have hlt : f < s.envs.length := getElem?_lt_length _ _ _ he
  have hcontains : e.vars.contains name = true := by simp [StrMap.contains, hinfo]
  let e' : Environment := { e with vars := e.vars.insert name ({ info with value := .int n }) }
  refine ⟨{ s with envs := s.envs.set f e' }, ?_, ?_, rfl, ?_⟩
  · simp [Environment.assign, hfind, he, hinfo, hty, check_type, get_value_type_token,
      Value.isInt, e']
  · have hff := Environment.findFrame_set s.envs name f e e' he rfl
      (by simp [StrMap.contains_insert_self, hcontains]) s.envs.length env
    simp [Environment.get, Environment.getRef, bind_apply, List.length_set, hff, hfind,
      readEnv, List.getElem?_set_self hlt, StrMap.find_insert_self]
  · simp [Environment.assign, hfind, he, hinfo, hty, check_type, get_value_type_token,
      Value.isInt, Value.isObject]

/-- Witness of `float_slot_accepts_int_unconverted`: the slot of `float f = 1.5;`. -/
theorem float_slot_accepts_int_unconverted_witness :
    ∃ s', Environment.assign 0 "f" (.int 2) Example.floatSlotState = .ok true s'
      ∧ Environment.get 0 "f" s' = .ok (.int 2) s'
      ∧ get_value_type_token s' (.int 2) = .INT
      ∧ Environment.assign 0 "f" (.str "two") Example.floatSlotState
          = .throw (.runtime_error
              ("Type mismatch on assignment to static variable '" ++ "f" ++ "'."))
              Example.floatSlotState :=
  float_slot_accepts_int_unconverted 0 "f" 2 "two" Example.floatSlotState 0
    { vars := [("f", { value := .double (Double.ofRatio 3 2), static_type := some .FLOAT })],
      parent := none }
    { value := .double (Double.ofRatio 3 2), static_type := some .FLOAT }
    (by decide) rfl (by decide) rfl

/-! ## Array concatenation (C7) -/

/-- Indexed assignment through a slot that holds an array pointer changes that array only. -/
theorem perform_set_on_ref_array_frame (line indexExprLine indexLine : Int)
    (indexVal v : Value) (ref : SlotRef) (c : Nat) (s₁ s₂ : State)
    (hread : ref.read s₁ = .ok (.array c) s₁)
    (hset : perform_set_on_ref line indexExprLine indexLine indexVal v ref s₁ = .ok () s₂) :
    ∀ p, p ≠ c → s₂.arrays[p]? = s₁.arrays[p]? := by
  intro p hp
  unfold perform_set_on_ref at hset
  simp only [bind_apply, hread] at hset
  cases indexVal <;> simp only [raise_apply] at hset <;> try (cases hset)
  rename_i idx
  simp only [bind_apply, readArray] at hset
  split at hset <;> try (cases hset)
  rename_i arrVec s' harr
  split at harr <;> try (cases harr)
  split at hset
  · cases hset
  · simp only [writeArray] at hset
    split at hset
    · cases hset
      simp [List.getElem?_set_ne (Ne.symm hp)]
    · cases hset

/-- C7. For arrays `a` and `b` holding `A` and `B`, `a + b` returns an array
in new storage (the next free index, different from `a` and `b`) that holds
`A ++ B`, of length `len A + len B`; every array that existed before, `a` and
`b` among them, is unchanged; and a later indexed assignment through any slot
that holds the result changes neither `a` nor `b`. -/
theorem array_concat_is_fresh_copy (line : Int) (a b : Nat) (s : State) (A B : List Value)
    (ha : s.arrays[a]? = some A) (hb : s.arrays[b]? = some B) :
    ∃ s', BinaryExpr.apply .PLUS line (.array a) (.array b) s = .ok (.array s.arrays.length) s'
      ∧ s.arrays.length ≠ a ∧ s.arrays.length ≠ b
      ∧ s'.arrays[s.arrays.length]? = some (A ++ B)
      ∧ (A ++ B).length = A.length + B.length
      ∧ (∀ p, p < s.arrays.length → s'.arrays[p]? = s.arrays[p]?)
      ∧ s'.arrays[a]? = some A ∧ s'.arrays[b]? = some B
      ∧ ∀ (l₁ l₂ l₃ : Int) (indexVal v : Value) (ref : SlotRef) (s₁ s₂ : State),
          ref.read s₁ = .ok (.array s.arrays.length) s₁ →
          perform_set_on_ref l₁ l₂ l₃ indexVal v ref s₁ = .ok () s₂ →
          s₂.arrays[a]? = s₁.arrays[a]? ∧ s₂.arrays[b]? = s₁.arrays[b]? := by
  have hla := getElem?_lt_length _ _ _ ha
  have hlb := getElem?_lt_length _ _ _ hb
  refine ⟨{ s with arrays := s.arrays ++ [A ++ B] }, ?_, by omega, by omega, ?_, ?_, ?_, ?_,
    ?_, ?_⟩
  · simp [BinaryExpr.apply, bind_apply, readArray, ha, hb, newArray]
  · simp
  · simp
  · intro p hp
    simp [List.getElem?_append_left hp]
  · simp [List.getElem?_append_left hla, ha]
  · simp [List.getElem?_append_left hlb, hb]
  · intro l₁ l₂ l₃ indexVal v ref s₁ s₂ hread hset
    have h := perform_set_on_ref_array_frame l₁ l₂ l₃ indexVal v ref _ s₁ s₂ hread hset
    exact ⟨h a (by omega), h b (by omega)⟩

/-- Witness of `array_concat_is_fresh_copy`: the arrays `[1]` and `[2]`. -/
theorem array_concat_is_fresh_copy_witness :
    ∃ s', BinaryExpr.apply .PLUS 1 (.array 0) (.array 1) Example.twoArraysState
        = .ok (.array Example.twoArraysState.arrays.length) s'
      ∧ Example.twoArraysState.arrays.length ≠ 0 ∧ Example.twoArraysState.arrays.length ≠ 1
      ∧ s'.arrays[Example.twoArraysState.arrays.length]? = some ([.int 1] ++ [.int 2])
      ∧ ([Value.int 1] ++ [Value.int 2]).length = [Value.int 1].length + [Value.int 2].length
      ∧ (∀ p, p < Example.twoArraysState.arrays.length →
          s'.arrays[p]? = Example.twoArraysState.arrays[p]?)
      ∧ s'.arrays[0]? = some [.int 1] ∧ s'.arrays[1]? = some [.int 2]
      ∧ ∀ (l₁ l₂ l₃ : Int) (indexVal v : Value) (ref : SlotRef) (s₁ s₂ : State),
          ref.read s₁ = .ok (.array Example.twoArraysState.arrays.length) s₁ →
          perform_set_on_ref l₁ l₂ l₃ indexVal v ref s₁ = .ok () s₂ →
          s₂.arrays[0]? = s₁.arrays[0]? ∧ s₂.arrays[1]? = s₁.arrays[1]? :=
  array_concat_is_fresh_copy 1 0 1 Example.twoArraysState [.int 1] [.int 2] rfl rfl

/-! ## Member access (C10) -/

/-- C10, the claim as stated fails: after `func f() { return this; }
var o = Object(); o.m = f;` the function is found in the own fields of `o`,
and `o.m` is the function `f` itself, not a function bound to `o`: calling
`o.m()` finds no `this` and raises, whatever the budget. -/
theorem own_field_function_is_not_bound :
    (Interpreter.evalAfter 20 Example.methodInOwnField (.MemberAccess (.Var "o" 1) "m" 1)).value?
      = (Interpreter.evalAfter 20 Example.methodInOwnField (.Var "f" 1)).value?
    ∧ (Interpreter.evalAfter 20 Example.methodInOwnField
        (.Call (.MemberAccess (.Var "o" 1) "m" 1) [] 1)).exn?
      = some (.RuntimeError 1 "Cannot use 'this' outside of a class method.")
    ∧ ¬ ∃ fuel v, (Interpreter.evalAfter fuel Example.methodInOwnField
        (.Call (.MemberAccess (.Var "o" 1) "m" 1) [] 1)).value? = some v := by
  have h : (Interpreter.evalAfter 20 Example.methodInOwnField
        (.Call (.MemberAccess (.Var "o" 1) "m" 1) [] 1)).exn?
      = some (.RuntimeError 1 "Cannot use 'this' outside of a class method.") := by decide!
  refine ⟨by decide!, h, ?_⟩
  rintro ⟨fuel, v, hv⟩
  rw [(Interpreter.exn_stable 20 _ _ _ h).2 fuel] at hv
  cases hv

/-- C10, amended. Evaluating `o.n` on an object `o` looks `n` up first in the
own fields of `o` and then along the parent chain, and raises a runtime error
when no object of the chain has it.  A value found in the own fields of `o`
is returned as it is, even when it is a user-defined function; a value found
on an ancestor is returned bound to `o` when it is a user-defined function
(a new function value with the same parameters and body whose closure is a new
frame under the function's closure binding `this` to `o`) and as it is otherwise. -/
theorem member_access_resolution (member : String) (line : Int) (o : Nat)
    (obj : MutableObject) (s : State) (ho : s.objects[o]? = some obj) :
    (∀ budget, MutableObject.getChain s.objects member (budget + 1) o =
        match obj.fields.find member with
        | some v => some (some v)
        | none =>
          match obj.parent with
          | some p => MutableObject.getChain s.objects member budget p
          | none => some none)
    ∧ (∀ v, obj.fields.find member = some v →
        MemberAccessExpr.apply member line (.object o) s = .ok v s)
    ∧ (obj.fields.find member = none →
        (MutableObject.getChain s.objects member s.objects.length o = some none →
          MemberAccessExpr.apply member line (.object o) s
            = .throw (.RuntimeError line ("Undefined property '" ++ member ++ "'.")) s)
        ∧ (∀ f params body closure init,
            MutableObject.getChain s.objects member s.objects.length o
              = some (some (.func (some f))) →
            s.callables[f]? = some (.FunctionValue params body closure init) →
            MemberAccessExpr.apply member line (.object o) s
              = .ok (.func (some s.callables.length))
                  { s with
                    envs := s.envs ++
                      [{ vars := [("this", { value := .object o, static_type := none })],
                         parent := some closure }],
                    callables := s.callables ++
                      [.FunctionValue params body s.envs.length init] })
        ∧ (∀ v, MutableObject.getChain s.objects member s.objects.length o = some (some v) →
            (∀ f, v = .func (some f) → asFunctionValue s (some f) = none) →
            MemberAccessExpr.apply member line (.object o) s = .ok v s)) := by
  refine ⟨?_, ?_, ?_⟩
  · intro budget
    simp only [MutableObject.getChain, ho]
  · intro v hv
    simp [MemberAccessExpr.apply, rethrowAt, tryCatch, bind_apply, readObject, ho, hv]
  · intro hnone
    refine ⟨?_, ?_, ?_⟩
    · intro hchain
      simp [MemberAccessExpr.apply, rethrowAt, tryCatch, bind_apply, readObject, ho, hnone,
        MutableObject.get, hchain, Exn.isRuntimeError, Exn.what]
    · intro f params body closure init hchain hf
      simp [MemberAccessExpr.apply, rethrowAt, tryCatch, bind_apply, readObject, ho, hnone,
        MutableObject.get, hchain, asFunctionValue, hf, FunctionValue.bind, readCallable,
        newEnvironment, Environment.define, readEnv, writeEnv, newCallable, StrMap.insert,
        set_length_append_singleton]
    · intro v hchain hnf
      cases v with
      | func fp =>
        cases fp with
        | none =>
          simp [MemberAccessExpr.apply, rethrowAt, tryCatch, bind_apply, readObject, ho, hnone,
            MutableObject.get, hchain, asFunctionValue]
        | some f =>
          have := hnf f rfl
          simp [MemberAccessExpr.apply, rethrowAt, tryCatch, bind_apply, readObject, ho, hnone,
            MutableObject.get, hchain, this]
      | _ =>
        simp [MemberAccessExpr.apply, rethrowAt, tryCatch, bind_apply, readObject, ho, hnone,
          MutableObject.get, hchain]

/-- Witness of `member_access_resolution`: an object with the own field `x = 1`,
read through `o.x` and through the missing member `o.y`. -/
theorem member_access_resolution_witness :
    Example.oneObjectState.objects[0]? = some { fields := [("x", .int 1)], parent := none, klass := none }
    ∧ MemberAccessExpr.apply "x" 1 (.object 0) Example.oneObjectState
        = .ok (.int 1) Example.oneObjectState
    ∧ MemberAccessExpr.apply "y" 1 (.object 0) Example.oneObjectState
        = .throw (.RuntimeError 1 ("Undefined property '" ++ "y" ++ "'."))
            Example.oneObjectState :=
  ⟨rfl,
   (member_access_resolution "x" 1 0 _ Example.oneObjectState rfl).2.1 (.int 1) (by decide),
   ((member_access_resolution "y" 1 0 _ Example.oneObjectState rfl).2.2 (by decide)).1
     (by decide)⟩

/-! ## Deep copy (C8, C9) -/

theorem forEachM_ok {α β : Type} (f : β → α → M β) (I : β → State → Prop) (l : List α)
    (hstep : ∀ a ∈ l, ∀ b t, I b t → ∃ b' t', f b a t = .ok b' t' ∧ I b' t') :
    ∀ b t, I b t → ∃ b' t', forEachM f l b t = .ok b' t' ∧ I b' t' := by
  induction l with
  | nil => intro b t h; exact ⟨b, t, rfl, h⟩
  | cons a rest ih =>
    intro b t h
    obtain ⟨b₁, t₁, h₁, hI₁⟩ := hstep a (List.mem_cons_self _ _) b t h
    obtain ⟨b₂, t₂, h₂, hI₂⟩ :=
      ih (fun a' ha' => hstep a' (List.mem_cons_of_mem _ ha')) b₁ t₁ hI₁
    refine ⟨b₂, t₂, ?_, hI₂⟩
    simp only [forEachM, bind_apply, h₁, h₂]

namespace Memo

theorem find_insert_key (m : Memo) (k v : Value) : (m.insert k v).find k = some v := by
  induction m with
  | nil => simp [insert, find]
  | cons p rest ih =>
    obtain ⟨k', v'⟩ := p
    by_cases h : k' = k
    · simp [insert, find, h]
    · simp [insert, find, h, ih]

theorem find_insert_other (m : Memo) (k k' v : Value) (h : k' ≠ k) :
    (m.insert k v).find k' = m.find k' := by
  induction m with
  | nil => simp [insert, find, Ne.symm h]
  | cons p rest ih =>
    obtain ⟨k₀, v₀⟩ := p
    by_cases h0 : k₀ = k
    · subst h0
      simp [insert, find, Ne.symm h]
    · by_cases h1 : k₀ = k'
      · subst h1
        simp [insert, find, h0]
      · simp [insert, find, h0, h1, ih]

theorem le_same (m : Memo) : Le m m := fun _ h => h

theorem le_chain {a b c : Memo} (h₁ : Le a b) (h₂ : Le b c) : Le a c :=
  fun k h => h₂ k (h₁ k h)

theorem le_insert (m : Memo) (k v : Value) : Le m (m.insert k v) := by
  intro k' h
  by_cases hk : k' = k
  · subst hk; simp [find_insert_key]
  · rw [find_insert_other m k k' v hk]; exact h

end Memo

theorem unvisited_mono (s : State) {m m' : Memo} (h : Memo.Le m m') :
    unvisited s m' ≤ unvisited s m := by
  apply Finset.card_le_card
  intro k hk
  simp only [Finset.mem_filter] at hk ⊢
  refine ⟨hk.1, ?_⟩
  by_contra hne
  have := h k (Option.isSome_iff_ne_none.mpr hne)
  rw [hk.2] at this
  cases this

theorem unvisited_insert_lt (s : State) (m : Memo) (k v : Value) (hk : k ∈ originals s)
    (hnone : m.find k = none) : unvisited s (m.insert k v) < unvisited s m := by
  apply Finset.card_lt_card
  rw [Finset.ssubset_iff_of_subset]
  · refine ⟨k, ?_, ?_⟩
    · simp [Finset.mem_filter, hk, hnone]
    · simp [Finset.mem_filter, Memo.find_insert_key]
  · intro k' hk'
    simp only [Finset.mem_filter] at hk' ⊢
    refine ⟨hk'.1, ?_⟩
    by_contra hne
    have := Memo.le_insert m k v k' (Option.isSome_iff_ne_none.mpr hne)
    rw [hk'.2] at this
    cases this

theorem unvisited_nil_le (s : State) : unvisited s [] ≤ s.arrays.length + s.dicts.length := by
  unfold unvisited
  calc ((originals s).filter fun k => Memo.find [] k = none).card
      ≤ (originals s).card := Finset.card_filter_le _ _
    _ ≤ ((Finset.range s.arrays.length).image Value.array).card
        + ((Finset.range s.dicts.length).image Value.dict).card := Finset.card_union_le _ _
    _ ≤ (Finset.range s.arrays.length).card + (Finset.range s.dicts.length).card :=
        Nat.add_le_add Finset.card_image_le Finset.card_image_le
    _ = s.arrays.length + s.dicts.length := by simp

theorem extends_self (s : State) : Extends s s :=
  ⟨Nat.le_refl _, fun _ _ => rfl, Nat.le_refl _, fun _ _ => rfl⟩


theorem mem_originals_array (s : State) (p : Nat) (h : p < s.arrays.length) :
    Value.array p ∈ originals s := by
  simp [originals, h]

theorem mem_originals_dict (s : State) (p : Nat) (h : p < s.dicts.length) :
    Value.dict p ∈ originals s := by
  simp [originals, h]

theorem deepcopyElement_ok (s : State) (fuel : Nat) (memo₀ : Memo) (newArr n d : Nat)
    (hnew : s.arrays.length ≤ newArr) (hn : newArr < n) (hfuel : unvisited s memo₀ < fuel)
    (ih : CopyOk s fuel)
    (elem : Value) (helem : elem.inArrayDictGraph s = true) (memo : Memo) (t : State)
    (hI : LoopInv s memo₀ n d memo t) :
    ∃ memo' t', deepcopyElement (deepcopy_recursive fuel) newArr memo elem t = .ok memo' t'
      ∧ LoopInv s memo₀ n d memo' t' := by
  obtain ⟨hext, hlt, hltd, hle⟩ := hI
  have hf : unvisited s memo < fuel := lt_of_le_of_lt (unvisited_mono s hle) hfuel
  obtain ⟨c, memo', t', hrec, hext', hlen, hlend, hle'⟩ := ih elem memo t hext helem hf
  have hlt' : newArr < t'.arrays.length := by omega
  obtain ⟨cur, hcur⟩ : ∃ cur, t'.arrays[newArr]? = some cur :=
    ⟨t'.arrays[newArr], List.getElem?_eq_getElem hlt'⟩
  refine ⟨memo', { t' with arrays := t'.arrays.set newArr (cur ++ [c]) }, ?_, ?_, ?_, ?_, ?_⟩
  · simp [deepcopyElement, bind_apply, hrec, readArray, hcur, writeArray, hlt']
  · refine ⟨by simpa using hext'.arraysLen, ?_, hext'.dictsLen, hext'.dictsEq⟩
    intro i hi
    have : newArr ≠ i := by omega
    simpa [List.getElem?_set_ne this] using hext'.arraysEq i hi
  · simp; omega
  · simp; omega
  · exact Memo.le_chain hle hle'

theorem deepcopyPair_ok (s : State) (fuel : Nat) (memo₀ : Memo) (newD n d : Nat)
    (hnew : s.dicts.length ≤ newD) (hd : newD < d) (hfuel : unvisited s memo₀ < fuel)
    (ih : CopyOk s fuel)
    (pair : String × Value) (hpair : pair.2.inArrayDictGraph s = true) (memo : Memo) (t : State)
    (hI : LoopInv s memo₀ n d memo t) :
    ∃ memo' t', deepcopyPair (deepcopy_recursive fuel) newD memo pair t = .ok memo' t'
      ∧ LoopInv s memo₀ n d memo' t' := by
  obtain ⟨hext, hlt, hltd, hle⟩ := hI
  have hf : unvisited s memo < fuel := lt_of_le_of_lt (unvisited_mono s hle) hfuel
  obtain ⟨c, memo', t', hrec, hext', hlen, hlend, hle'⟩ := ih pair.2 memo t hext hpair hf
  have hlt' : newD < t'.dicts.length := by omega
  obtain ⟨cur, hcur⟩ : ∃ cur, t'.dicts[newD]? = some cur :=
    ⟨t'.dicts[newD], List.getElem?_eq_getElem hlt'⟩
  refine ⟨memo', { t' with dicts := t'.dicts.set newD (cur.insert pair.1 c) }, ?_, ?_, ?_, ?_, ?_⟩
  · simp [deepcopyPair, bind_apply, hrec, readDict, hcur, writeDict, hlt']
  · refine ⟨hext'.arraysLen, hext'.arraysEq, by simpa using hext'.dictsLen, ?_⟩
    intro i hi
    have : newD ≠ i := by omega
    simpa [List.getElem?_set_ne this] using hext'.dictsEq i hi
  · simp; omega
  · simp; omega
  · exact Memo.le_chain hle hle'

/-- On a closed graph of arrays and dictionaries, `deepcopy_recursive` returns
whenever its budget exceeds the number of containers not yet in the memo. -/
theorem deepcopy_recursive_ok (s : State) (hs : s.ArrayDictGraph) :
    ∀ fuel, CopyOk s fuel := by
  intro fuel
  induction fuel with
  | zero => intro val memo t _ _ h; omega
  | succ fuel ih =>
    intro val memo t hext hval hfuel
    cases val with
    | array p =>
      simp only [Value.inArrayDictGraph, decide_eq_true_eq] at hval
      cases hfind : memo.find (.array p) with
      | some c =>
        exact ⟨c, memo, t, by simp [deepcopy_recursive, hfind], hext, Nat.le_refl _, Nat.le_refl _,
          Memo.le_same _⟩
      | none =>
        obtain ⟨els, hels⟩ : ∃ els, s.arrays[p]? = some els :=
          ⟨s.arrays[p], List.getElem?_eq_getElem hval⟩
        have hread : t.arrays[p]? = some els := by rw [hext.arraysEq p hval, hels]
        have hlt : unvisited s (memo.insert (.array p) (.array t.arrays.length)) < fuel := by
          have := unvisited_insert_lt s memo (.array p) (.array t.arrays.length)
            (mem_originals_array s p hval) hfind
          omega
        obtain ⟨memo', t', hloop, hext', hlen, hlend, hle'⟩ :=
          forEachM_ok (deepcopyElement (deepcopy_recursive fuel) t.arrays.length)
            (LoopInv s (memo.insert (.array p) (.array t.arrays.length))
              (t.arrays.length + 1) t.dicts.length) els
            (fun a ha b t₂ hI => deepcopyElement_ok s fuel _ t.arrays.length _ _
              hext.arraysLen (Nat.lt_succ_self _) hlt ih a (hs.1 els (List.getElem?_mem hels) a ha) b t₂ hI)
            (memo.insert (.array p) (.array t.arrays.length))
            { t with arrays := t.arrays ++ [[]] }
            ⟨⟨by simp; exact Nat.le_succ_of_le hext.arraysLen,
                fun i hi => by
                  simp [List.getElem?_append_left (lt_of_lt_of_le hi hext.arraysLen)]
                  exact hext.arraysEq i hi,
                hext.dictsLen, hext.dictsEq⟩, by simp, Nat.le_refl _, Memo.le_same _⟩
        refine ⟨.array t.arrays.length, memo', t', ?_, hext', by omega, hlend,
          Memo.le_chain (Memo.le_insert _ _ _) hle'⟩
        simp [deepcopy_recursive, hfind, bind_apply, readArray, hread, newArray, hloop]
    | dict p =>
      simp only [Value.inArrayDictGraph, decide_eq_true_eq] at hval
      cases hfind : memo.find (.dict p) with
      | some c =>
        exact ⟨c, memo, t, by simp [deepcopy_recursive, hfind], hext, Nat.le_refl _, Nat.le_refl _,
          Memo.le_same _⟩
      | none =>
        obtain ⟨pairs, hpairs⟩ : ∃ pairs, s.dicts[p]? = some pairs :=
          ⟨s.dicts[p], List.getElem?_eq_getElem hval⟩
        have hread : t.dicts[p]? = some pairs := by rw [hext.dictsEq p hval, hpairs]
        have hlt : unvisited s (memo.insert (.dict p) (.dict t.dicts.length)) < fuel := by
          have := unvisited_insert_lt s memo (.dict p) (.dict t.dicts.length)
            (mem_originals_dict s p hval) hfind
          omega
        obtain ⟨memo', t', hloop, hext', hlen, hlend, hle'⟩ :=
          forEachM_ok (deepcopyPair (deepcopy_recursive fuel) t.dicts.length)
            (LoopInv s (memo.insert (.dict p) (.dict t.dicts.length))
              t.arrays.length (t.dicts.length + 1)) pairs
            (fun a ha b t₂ hI => deepcopyPair_ok s fuel _ t.dicts.length _ _
              hext.dictsLen (Nat.lt_succ_self _) hlt ih a (hs.2 pairs (List.getElem?_mem hpairs) a ha) b t₂ hI)
            (memo.insert (.dict p) (.dict t.dicts.length))
            { t with dicts := t.dicts ++ [[]] }
            ⟨⟨hext.arraysLen, hext.arraysEq,
                by simp; exact Nat.le_succ_of_le hext.dictsLen,
                fun i hi => by
                  simp [List.getElem?_append_left (lt_of_lt_of_le hi hext.dictsLen)]
                  exact hext.dictsEq i hi⟩, Nat.le_refl _, by simp, Memo.le_same _⟩
        refine ⟨.dict t.dicts.length, memo', t', ?_, hext', hlen, by omega,
          Memo.le_chain (Memo.le_insert _ _ _) hle'⟩
        simp [deepcopy_recursive, hfind, bind_apply, readDict, hread, newDict, hloop]
    | object p => exact absurd hval (by simp [Value.inArrayDictGraph])
    | _ =>
      exact ⟨_, memo, t, rfl, hext, Nat.le_refl _, Nat.le_refl _, Memo.le_same _⟩

/-- C8, the code at the failing input. After `var p = Object(); var c = Object(p);
p.kid = c;`, `deepcopy(c)` makes two clones of `c`: the objects are `p` (0),
`c` (1), the clone of `p` (2) whose field `kid` is the first clone of `c` (3),
and the second clone of `c` (4), which is the result.  The reference to `c` in
the clone of `p` does not point at the clone that is returned.  This is the
outcome for every budget of at least 20. -/
theorem deepcopy_clones_child_twice (k : Nat) :
    (Interpreter.evalAfter (20 + k) Example.parentPointsToChild (Example.var "c")).value?
      = some (.object 1)
    ∧ (Interpreter.evalAfter (20 + k) Example.parentPointsToChild (Example.var "d")).value?
      = some (.object 4)
    ∧ ((Interpreter.evalAfter (20 + k) Example.parentPointsToChild
        (Example.var "d")).state?.map fun s => s.objects)
      = some [ { fields := [("kid", .object 1)], parent := none, klass := none },
               { fields := [], parent := some 0, klass := none },
               { fields := [("kid", .object 3)], parent := none, klass := none },
               { fields := [], parent := some 2, klass := none },
               { fields := [], parent := some 2, klass := none } ] := by
  have h₁ : (Interpreter.evalAfter 20 Example.parentPointsToChild (Example.var "c")).value?
      = some (.object 1) := by decide!
  have h₂ : (Interpreter.evalAfter 20 Example.parentPointsToChild (Example.var "d")).value?
      = some (.object 4) := by decide!
  rw [Interpreter.evalAfter_add 20 k _ _ (Res.ne_outOfFuel_of_value h₁),
    Interpreter.evalAfter_add 20 k _ _ (Res.ne_outOfFuel_of_value h₂)]
  exact ⟨h₁, h₂, by decide!⟩

/-- The copy of a dictionary whose only entry holds an array whose only
element is the dictionary, in any state and with any budget of at least 3. -/
theorem deepcopy_recursive_direct_cycle (s : State) (d a : Nat) (k : String) (n : Nat)
    (hd : s.dicts[d]? = some [(k, .array a)]) (ha : s.arrays[a]? = some [.dict d]) :
    deepcopy_recursive (n + 3) (.dict d) [] s
      = .ok (.dict s.dicts.length,
          [(.dict d, .dict s.dicts.length), (.array a, .array s.arrays.length)])
        { s with arrays := s.arrays ++ [[.dict s.dicts.length]],
                 dicts := s.dicts ++ [[(k, .array s.arrays.length)]] } := by
  have hdl := getElem?_lt_length _ _ _ hd
  have hal := getElem?_lt_length _ _ _ ha
  simp [bind_apply, deepcopy_recursive, Memo.find, Memo.insert, readDict, hd,
    newDict, forEachM, deepcopyPair, deepcopyElement, readArray, ha, newArray, writeArray,
    writeDict, List.getElem?_append_left hal, List.getElem?_append_left hdl,
    set_length_append_singleton, StrMap.insert]

/-- C9. For a dictionary `d` whose entry `k` holds an array `a` whose element
is `d` itself, in any state `t`, the native `deepcopy(d)` returns a dictionary
in new storage (the next free index, different from `d`) whose entry `k` is a
new array (different from `a`) whose element is the new dictionary itself, not
`d`; the arrays and dictionaries that existed before are unchanged.  So the
program `var d = {}; var a = [d]; d["a"] = a; var e = deepcopy(d);` leaves `e`
the dictionary 1 holding array 1 holding dictionary 1.  More generally, on
every closed graph of arrays and dictionaries the native `deepcopy` returns a
value as soon as the budget exceeds the number of arrays and dictionaries:
the recursion ends although the graph may be cyclic. -/
theorem deepcopy_terminates_on_cycles (s : State) (val : Value) (t : State) (d a : Nat)
    (k : String) (n : Nat) (hs : s.ArrayDictGraph) (hval : val.inArrayDictGraph s = true)
    (hd : t.dicts[d]? = some [(k, .array a)]) (ha : t.arrays[a]? = some [.dict d]) :
    (∃ c s', NativeFunction.call (s.arrays.length + s.dicts.length + 1 + n) .deepcopy [val] s
        = .ok c s')
    ∧ NativeFunction.call (3 + n) .deepcopy [.dict d] t = .ok (.dict t.dicts.length)
        { t with arrays := t.arrays ++ [[.dict t.dicts.length]],
                 dicts := t.dicts ++ [[(k, .array t.arrays.length)]] }
    ∧ t.dicts.length ≠ d ∧ t.arrays.length ≠ a
    ∧ (t.dicts ++ [[(k, Value.array t.arrays.length)]])[t.dicts.length]?
        = some [(k, .array t.arrays.length)]
    ∧ (t.arrays ++ [[Value.dict t.dicts.length]])[t.arrays.length]?
        = some [.dict t.dicts.length]
    ∧ (t.dicts ++ [[(k, Value.array t.arrays.length)]])[d]? = some [(k, .array a)]
    ∧ (t.arrays ++ [[Value.dict t.dicts.length]])[a]? = some [.dict d]
    ∧ (Interpreter.evalAfter (20 + n) Example.cyclicDict (Example.var "d")).value?
        = some (.dict 0)
    ∧ (Interpreter.evalAfter (20 + n) Example.cyclicDict (Example.var "e")).value?
        = some (.dict 1)
    ∧ ((Interpreter.evalAfter (20 + n) Example.cyclicDict (Example.var "e")).state?.map
        fun s' => (s'.dicts, s'.arrays))
      = some ([[("a", .array 0)], [("a", .array 1)]], [[.dict 0], [.dict 1]]) := by
  have hdl := getElem?_lt_length _ _ _ hd
  have hal := getElem?_lt_length _ _ _ ha
  have h₁ : (Interpreter.evalAfter 20 Example.cyclicDict (Example.var "d")).value?
      = some (.dict 0) := by decide!
  have h₂ : (Interpreter.evalAfter 20 Example.cyclicDict (Example.var "e")).value?
      = some (.dict 1) := by decide!
  refine ⟨?_, ?_, by omega, by omega, by simp, by simp, ?_, ?_,
    (Interpreter.value_stable 20 _ _ _ h₁).1 n, (Interpreter.value_stable 20 _ _ _ h₂).1 n, ?_⟩
  · have hfuel : unvisited s [] < s.arrays.length + s.dicts.length + 1 + n := by
      have := unvisited_nil_le s
      omega
    obtain ⟨c, memo', t', h, _⟩ :=
      deepcopy_recursive_ok s hs _ val [] s (extends_self s) hval hfuel
    exact ⟨c, t', by simp [NativeFunction.call, argAt, bind_apply, h]⟩
  · have h := deepcopy_recursive_direct_cycle t d a k n hd ha
    rw [show n + 3 = 3 + n by omega] at h
    simp only [NativeFunction.call, argAt, bind_apply, h, pure_apply, List.getElem?_cons_zero]
  · simp [List.getElem?_append_left hdl, hd]
  · simp [List.getElem?_append_left hal, ha]
  · rw [Interpreter.evalAfter_add 20 n _ _ (Res.ne_outOfFuel_of_value h₂)]
    decide!

/-- Witness of `deepcopy_terminates_on_cycles`: the state that holds the cycle
of dictionary 0 and array 0, and the dictionary as the value to copy. -/
theorem deepcopy_terminates_on_cycles_witness :
    Example.cyclicDictState.ArrayDictGraph
    ∧ (Value.dict 0).inArrayDictGraph Example.cyclicDictState = true
    ∧ Example.cyclicDictState.dicts[0]? = some [("a", .array 0)]
    ∧ Example.cyclicDictState.arrays[0]? = some [.dict 0]
    ∧ (∃ c s', NativeFunction.call
          (Example.cyclicDictState.arrays.length + Example.cyclicDictState.dicts.length + 1 + 0)
          .deepcopy [.dict 0] Example.cyclicDictState = .ok c s')
    ∧ NativeFunction.call (3 + 0) .deepcopy [.dict 0] Example.cyclicDictState
        = .ok (.dict Example.cyclicDictState.dicts.length)
          { Example.cyclicDictState with
            arrays := Example.cyclicDictState.arrays
              ++ [[.dict Example.cyclicDictState.dicts.length]],
            dicts := Example.cyclicDictState.dicts
              ++ [[("a", .array Example.cyclicDictState.arrays.length)]] } :=
  ⟨by decide, by decide, rfl, rfl,
   (deepcopy_terminates_on_cycles Example.cyclicDictState (.dict 0) Example.cyclicDictState
      0 0 "a" 0 (by decide) (by decide) rfl rfl).1,
   (deepcopy_terminates_on_cycles Example.cyclicDictState (.dict 0) Example.cyclicDictState
      0 0 "a" 0 (by decide) (by decide) rfl rfl).2.1⟩

/-! ## Objects keep their parent and class tag

No step of the evaluator removes an object or changes the parent or the class
tag of one: `MutableObject::parent` is set by the constructor, `klass` right
after it, and afterwards only `fields` is written. -/

namespace State.ObjectsKept

theorem kept_refl (s : State) : s.ObjectsKept s := by
  unfold State.ObjectsKept
  intro p o h
  exact ⟨o, h, rfl, rfl⟩

theorem kept_trans {s t u : State} (h₁ : s.ObjectsKept t) (h₂ : t.ObjectsKept u) :
    s.ObjectsKept u := by
  unfold State.ObjectsKept
  intro p o h
  obtain ⟨o', h', hp, hk⟩ := h₁ p o h
  obtain ⟨o'', h'', hp', hk'⟩ := h₂ p o' h'
  exact ⟨o'', h'', hp'.trans hp, hk'.trans hk⟩

theorem kept_of_objects_eq {s s' : State} (h : s'.objects = s.objects) : s.ObjectsKept s' := by
  unfold State.ObjectsKept
  intro p o ho
  exact ⟨o, by rw [h]; exact ho, rfl, rfl⟩

theorem kept_of_append (s : State) (l : List MutableObject) {s' : State}
    (h : s'.objects = s.objects ++ l) : s.ObjectsKept s' := by
  unfold State.ObjectsKept
  intro p o ho
  refine ⟨o, ?_, rfl, rfl⟩
  rw [h, List.getElem?_append_left (getElem?_lt_length _ _ _ ho)]
  exact ho

theorem kept_of_set_fields (s : State) (q : Nat) (obj : MutableObject) (fields : StrMap Value)
    (hq : s.objects[q]? = some obj) {s' : State}
    (h : s'.objects = s.objects.set q { obj with fields := fields }) : s.ObjectsKept s' := by
  unfold State.ObjectsKept
  intro p o ho
  rw [h]
  by_cases hpq : q = p
  · subst hpq
    rw [hq] at ho
    cases ho
    exact ⟨_, List.getElem?_set_self (getElem?_lt_length _ _ _ hq), rfl, rfl⟩
  · exact ⟨o, by rw [List.getElem?_set_ne hpq]; exact ho, rfl, rfl⟩

end State.ObjectsKept

namespace M.KeepsObjects

instance keeps_pure {α : Type} (a : α) : (pure a : M α).KeepsObjects :=
  ⟨fun s s' h => by cases h; exact State.ObjectsKept.kept_refl _⟩

instance keeps_raise {α : Type} (e : Exn) : (raise e : M α).KeepsObjects :=
  ⟨fun s s' h => by cases h; exact State.ObjectsKept.kept_refl _⟩

instance keeps_fault {α : Type} : (fault : M α).KeepsObjects :=
  ⟨fun s s' h => by cases h; exact State.ObjectsKept.kept_refl _⟩

instance keeps_outOfFuel {α : Type} : (outOfFuel : M α).KeepsObjects :=
  ⟨fun s s' h => by cases h⟩

instance keeps_getState : getState.KeepsObjects :=
  ⟨fun s s' h => by cases h; exact State.ObjectsKept.kept_refl _⟩

theorem keeps_bind {α β : Type} {m : M α} {f : α → M β} (hm : m.KeepsObjects)
    (hf : ∀ a, (f a).KeepsObjects) : (m >>= f).KeepsObjects := by
  refine ⟨fun s s' h => ?_⟩
  rw [bind_apply] at h
  cases hr : m s with
  | ok a t =>
    rw [hr] at h
    exact (hm.keeps s t (by rw [hr]; rfl)).kept_trans ((hf a).keeps t s' h)
  | throw e t =>
    rw [hr] at h
    exact hm.keeps s s' (by rw [hr]; exact h)
  | fault t =>
    rw [hr] at h
    exact hm.keeps s s' (by rw [hr]; exact h)
  | outOfFuel => rw [hr] at h; cases h

instance keeps_bind_inst {α β : Type} {m : M α} {f : α → M β} [hm : m.KeepsObjects]
    [hf : ∀ a, (f a).KeepsObjects] : (m >>= f).KeepsObjects := keeps_bind hm hf

theorem keeps_tryCatch {α : Type} {m : M α} {h : Exn → M α} (hm : m.KeepsObjects)
    (hh : ∀ e, (h e).KeepsObjects) : (tryCatch m h).KeepsObjects := by
  refine ⟨fun s s' hs => ?_⟩
  unfold tryCatch at hs
  cases hr : m s with
  | ok a t =>
    rw [hr] at hs
    exact hm.keeps s s' (by rw [hr]; exact hs)
  | throw e t =>
    rw [hr] at hs
    exact (hm.keeps s t (by rw [hr]; rfl)).kept_trans ((hh e).keeps t s' hs)
  | fault t =>
    rw [hr] at hs
    exact hm.keeps s s' (by rw [hr]; exact hs)
  | outOfFuel => rw [hr] at hs; cases hs

instance keeps_tryCatch_inst {α : Type} {m : M α} {h : Exn → M α} [hm : m.KeepsObjects]
    [hh : ∀ e, (h e).KeepsObjects] : (tryCatch m h).KeepsObjects := keeps_tryCatch hm hh

instance keeps_ite {α : Type} (c : Prop) [Decidable c] {a b : M α} [ha : a.KeepsObjects]
    [hb : b.KeepsObjects] : (if c then a else b).KeepsObjects := by
  split
  · exact ha
  · exact hb

instance keeps_print (args : List Value) :
    (modifyState fun s => { s with output := s.output ++ [args] }).KeepsObjects :=
  ⟨fun s s' h => by cases h; exact State.ObjectsKept.kept_of_objects_eq rfl⟩

instance keeps_newEnvironment (parent : Option Nat) : (newEnvironment parent).KeepsObjects :=
  ⟨fun s s' h => by cases h; exact State.ObjectsKept.kept_of_objects_eq rfl⟩

instance keeps_newArray (elements : List Value) : (newArray elements).KeepsObjects :=
  ⟨fun s s' h => by cases h; exact State.ObjectsKept.kept_of_objects_eq rfl⟩

instance keeps_newDict (pairs : StrMap Value) : (newDict pairs).KeepsObjects :=
  ⟨fun s s' h => by cases h; exact State.ObjectsKept.kept_of_objects_eq rfl⟩

instance keeps_newCallable (c : Callable) : (newCallable c).KeepsObjects :=
  ⟨fun s s' h => by cases h; exact State.ObjectsKept.kept_of_objects_eq rfl⟩

instance keeps_newObject (parent klass : Option Nat) : (newObject parent klass).KeepsObjects :=
  ⟨fun s s' h => by cases h; exact State.ObjectsKept.kept_of_append s [_] rfl⟩

instance keeps_readArray (p : Nat) : (readArray p).KeepsObjects := by
  refine ⟨fun s s' h => ?_⟩
  unfold readArray at h
  repeat' split at h
  all_goals cases h
  all_goals exact State.ObjectsKept.kept_refl _

instance keeps_readDict (p : Nat) : (readDict p).KeepsObjects := by
  refine ⟨fun s s' h => ?_⟩
  unfold readDict at h
  repeat' split at h
  all_goals cases h
  all_goals exact State.ObjectsKept.kept_refl _

instance keeps_readObject (p : Nat) : (readObject p).KeepsObjects := by
  refine ⟨fun s s' h => ?_⟩
  unfold readObject at h
  repeat' split at h
  all_goals cases h
  all_goals exact State.ObjectsKept.kept_refl _

instance keeps_readCallable (p : Nat) : (readCallable p).KeepsObjects := by
  refine ⟨fun s s' h => ?_⟩
  unfold readCallable at h
  repeat' split at h
  all_goals cases h
  all_goals exact State.ObjectsKept.kept_refl _

instance keeps_readEnv (p : Nat) : (readEnv p).KeepsObjects := by
  refine ⟨fun s s' h => ?_⟩
  unfold readEnv at h
  repeat' split at h
  all_goals cases h
  all_goals exact State.ObjectsKept.kept_refl _

instance keeps_writeArray (p : Nat) (elements : List Value) :
    (writeArray p elements).KeepsObjects := by
  refine ⟨fun s s' h => ?_⟩
  unfold writeArray at h
  repeat' split at h
  all_goals cases h
  all_goals exact State.ObjectsKept.kept_refl _

instance keeps_writeDict (p : Nat) (pairs : StrMap Value) : (writeDict p pairs).KeepsObjects := by
  refine ⟨fun s s' h => ?_⟩
  unfold writeDict at h
  repeat' split at h
  all_goals cases h
  all_goals exact State.ObjectsKept.kept_refl _

instance keeps_writeCallable (p : Nat) (c : Callable) : (writeCallable p c).KeepsObjects := by
  refine ⟨fun s s' h => ?_⟩
  unfold writeCallable at h
  repeat' split at h
  all_goals cases h
  all_goals exact State.ObjectsKept.kept_refl _

instance keeps_writeEnv (p : Nat) (e : Environment) : (writeEnv p e).KeepsObjects := by
  refine ⟨fun s s' h => ?_⟩
  unfold writeEnv at h
  repeat' split at h
  all_goals cases h
  all_goals exact State.ObjectsKept.kept_refl _

instance keeps_get (obj : Nat) (name : String) : (MutableObject.get obj name).KeepsObjects := by
  refine ⟨fun s s' h => ?_⟩
  unfold MutableObject.get at h
  repeat' split at h
  all_goals cases h
  all_goals exact State.ObjectsKept.kept_refl _

instance keeps_has (obj : Nat) (name : String) : (MutableObject.has obj name).KeepsObjects := by
  refine ⟨fun s s' h => ?_⟩
  unfold MutableObject.has at h
  repeat' split at h
  all_goals cases h
  all_goals exact State.ObjectsKept.kept_refl _

instance keeps_getRef (env : Nat) (name : String) :
    (Environment.getRef env name).KeepsObjects := by
  refine ⟨fun s s' h => ?_⟩
  unfold Environment.getRef at h
  repeat' split at h
  all_goals cases h
  all_goals exact State.ObjectsKept.kept_refl _

instance keeps_assign (env : Nat) (name : String) (value : Value) :
    (Environment.assign env name value).KeepsObjects := by
  refine ⟨fun s s' h => ?_⟩
  unfold Environment.assign at h
  repeat' split at h
  all_goals cases h
  all_goals exact State.ObjectsKept.kept_refl _

/-- Reading an object and storing it back with other fields keeps the objects. -/
instance keeps_updateFields {α : Type} (p : Nat) (g : MutableObject → StrMap Value)
    (k : Unit → M α) [hk : ∀ u, (k u).KeepsObjects] :
    (readObject p >>= fun o => writeObject p { o with fields := g o } >>= k).KeepsObjects := by
  refine ⟨fun s s' h => ?_⟩
  simp only [bind_apply, readObject, writeObject] at h
  cases ho : s.objects[p]? with
  | none => simp only [ho] at h; cases h; exact State.ObjectsKept.kept_refl _
  | some o =>
    have hlt := getElem?_lt_length _ _ _ ho
    simp only [ho, hlt, if_true] at h
    exact (State.ObjectsKept.kept_of_set_fields s p o (g o) ho rfl).kept_trans
      ((hk ()).keeps _ s' h)

instance keeps_set (obj : Nat) (name : String) (value : Value) :
    (MutableObject.set obj name value).KeepsObjects := by
  have h := keeps_updateFields obj (fun o => o.fields.insert name value)
    (fun _ => (pure () : M Unit))
  refine ⟨fun s s' hs => h.keeps s s' ?_⟩
  simp only [MutableObject.set, bind_apply] at hs ⊢
  cases hr : readObject obj s <;> simp only [hr] at hs ⊢ <;> try exact hs
  rename_i a t
  cases hw : writeObject obj { a with fields := a.fields.insert name value } t <;>
    simp only [hw] at hs ⊢ <;> exact hs

instance keeps_argAt (args : List Value) (i : Nat) : (argAt args i).KeepsObjects := by
  unfold argAt
  repeat (first
    | infer_instance
    | with_reducible refine keeps_bind ?_ (fun _ => ?_)
    | with_reducible refine keeps_tryCatch ?_ (fun _ => ?_)
    | split)

instance keeps_define (env : Nat) (name : String) (value : Value) (type : Option TokenType) :
    (Environment.define env name value type).KeepsObjects := by
  unfold Environment.define
  repeat (first
    | infer_instance
    | with_reducible refine keeps_bind ?_ (fun _ => ?_)
    | with_reducible refine keeps_tryCatch ?_ (fun _ => ?_)
    | split)

instance keeps_envGet (env : Nat) (name : String) : (Environment.get env name).KeepsObjects := by
  unfold Environment.get
  repeat (first
    | infer_instance
    | with_reducible refine keeps_bind ?_ (fun _ => ?_)
    | with_reducible refine keeps_tryCatch ?_ (fun _ => ?_)
    | split)

instance keeps_getThis (env : Nat) (name : String) (line : Int) :
    (Environment.getThis env name line).KeepsObjects := by
  unfold Environment.getThis
  repeat (first
    | infer_instance
    | with_reducible refine keeps_bind ?_ (fun _ => ?_)
    | with_reducible refine keeps_tryCatch ?_ (fun _ => ?_)
    | split)

instance keeps_rethrowAt {α : Type} (line : Int) {m : M α} [hm : m.KeepsObjects] :
    (rethrowAt line m).KeepsObjects := by
  unfold rethrowAt
  repeat (first
    | infer_instance
    | with_reducible refine keeps_bind ?_ (fun _ => ?_)
    | with_reducible refine keeps_tryCatch ?_ (fun _ => ?_)
    | split)

instance keeps_functionBind (func instance_ : Nat) :
    (FunctionValue.bind func instance_).KeepsObjects := by
  unfold FunctionValue.bind
  repeat (first
    | infer_instance
    | with_reducible refine keeps_bind ?_ (fun _ => ?_)
    | with_reducible refine keeps_tryCatch ?_ (fun _ => ?_)
    | split)

instance keeps_intOp (op : TokenType) (line : Int) (l r : Int) :
    (BinaryExpr.intOp op line l r).KeepsObjects := by
  unfold BinaryExpr.intOp
  repeat (first
    | infer_instance
    | with_reducible refine keeps_bind ?_ (fun _ => ?_)
    | with_reducible refine keeps_tryCatch ?_ (fun _ => ?_)
    | split)

instance keeps_doubleOp (op : TokenType) (line : Int) (l r : Double) :
    (BinaryExpr.apply_double_op op line l r).KeepsObjects := by
  unfold BinaryExpr.apply_double_op
  repeat (first
    | infer_instance
    | with_reducible refine keeps_bind ?_ (fun _ => ?_)
    | with_reducible refine keeps_tryCatch ?_ (fun _ => ?_)
    | split)

instance keeps_binaryApply (op : TokenType) (line : Int) (l r : Value) :
    (BinaryExpr.apply op line l r).KeepsObjects := by
  unfold BinaryExpr.apply
  repeat (first
    | infer_instance
    | with_reducible refine keeps_bind ?_ (fun _ => ?_)
    | with_reducible refine keeps_tryCatch ?_ (fun _ => ?_)
    | split)

instance keeps_unaryApply (op : TokenType) (line : Int) (v : Value) :
    (UnaryExpr.apply op line v).KeepsObjects := by
  unfold UnaryExpr.apply
  repeat (first
    | infer_instance
    | with_reducible refine keeps_bind ?_ (fun _ => ?_)
    | with_reducible refine keeps_tryCatch ?_ (fun _ => ?_)
    | split)

instance keeps_slotRead (ref : SlotRef) : ref.read.KeepsObjects := by
  unfold SlotRef.read
  repeat (first
    | infer_instance
    | with_reducible refine keeps_bind ?_ (fun _ => ?_)
    | with_reducible refine keeps_tryCatch ?_ (fun _ => ?_)
    | split)

instance keeps_slotWrite (ref : SlotRef) (v : Value) : (ref.write v).KeepsObjects := by
  cases ref with
  | var frame name =>
    unfold SlotRef.write
    repeat (first
      | infer_instance
      | with_reducible refine keeps_bind ?_ (fun _ => ?_)
      | with_reducible refine keeps_tryCatch ?_ (fun _ => ?_)
      | split)
  | field obj name => exact keeps_set obj name v
  | entry dict key =>
    unfold SlotRef.write
    repeat (first
      | infer_instance
      | with_reducible refine keeps_bind ?_ (fun _ => ?_)
      | with_reducible refine keeps_tryCatch ?_ (fun _ => ?_)
      | split)

instance keeps_perform_set_on_ref (line indexExprLine indexLine : Int) (indexVal v : Value)
    (ref : SlotRef) :
    (perform_set_on_ref line indexExprLine indexLine indexVal v ref).KeepsObjects := by
  unfold perform_set_on_ref
  repeat (first
    | infer_instance
    | with_reducible refine keeps_bind ?_ (fun _ => ?_)
    | with_reducible refine keeps_tryCatch ?_ (fun _ => ?_)
    | with_reducible refine @keeps_rethrowAt _ _ _ ?_
    | split)

instance keeps_indexApply (line indexLine : Int) (c i : Value) :
    (IndexExpr.apply line indexLine c i).KeepsObjects := by
  unfold IndexExpr.apply
  repeat (first
    | infer_instance
    | with_reducible refine keeps_bind ?_ (fun _ => ?_)
    | with_reducible refine keeps_tryCatch ?_ (fun _ => ?_)
    | with_reducible refine @keeps_rethrowAt _ _ _ ?_
    | split)

instance keeps_memberApply (member : String) (line : Int) (v : Value) :
    (MemberAccessExpr.apply member line v).KeepsObjects := by
  unfold MemberAccessExpr.apply
  repeat (first
    | infer_instance
    | with_reducible refine keeps_bind ?_ (fun _ => ?_)
    | with_reducible refine keeps_tryCatch ?_ (fun _ => ?_)
    | with_reducible refine @keeps_rethrowAt _ _ _ ?_
    | split)

instance keeps_superEval (method : String) (methodLine line : Int) (env : Nat) :
    (SuperExpr.eval method methodLine line env).KeepsObjects := by
  unfold SuperExpr.eval
  repeat (first
    | infer_instance
    | with_reducible refine keeps_bind ?_ (fun _ => ?_)
    | with_reducible refine keeps_tryCatch ?_ (fun _ => ?_)
    | with_reducible refine @keeps_rethrowAt _ _ _ ?_
    | split)

instance keeps_setMember (member : String) (line : Int) (o v : Value) :
    (AssignExpr.setMember member line o v).KeepsObjects := by
  unfold AssignExpr.setMember
  repeat (first
    | infer_instance
    | with_reducible refine keeps_bind ?_ (fun _ => ?_)
    | with_reducible refine keeps_tryCatch ?_ (fun _ => ?_)
    | with_reducible refine @keeps_rethrowAt _ _ _ ?_
    | split)

instance keeps_defaultValue (t : Option TokenType) : (VarDeclStmt.defaultValue t).KeepsObjects := by
  unfold VarDeclStmt.defaultValue
  repeat (first
    | infer_instance
    | with_reducible refine keeps_bind ?_ (fun _ => ?_)
    | with_reducible refine keeps_tryCatch ?_ (fun _ => ?_)
    | with_reducible refine @keeps_rethrowAt _ _ _ ?_
    | split)

instance keeps_fetchElement (a i : Nat) : (fetchElement a i).KeepsObjects := by
  unfold fetchElement
  repeat (first
    | infer_instance
    | with_reducible refine keeps_bind ?_ (fun _ => ?_)
    | with_reducible refine keeps_tryCatch ?_ (fun _ => ?_)
    | with_reducible refine @keeps_rethrowAt _ _ _ ?_
    | split)

instance keeps_forEachM {α β : Type} {f : β → α → M β} [hf : ∀ b a, (f b a).KeepsObjects]
    (l : List α) (b : β) : (forEachM f l b).KeepsObjects := by
  induction l generalizing b with
  | nil => exact keeps_pure _
  | cons a rest ih =>
    simp only [forEachM]
    exact keeps_bind (hf b a) (fun b' => ih b')

instance keeps_evalAll {f : Expr → M Value} [hf : ∀ e, (f e).KeepsObjects] (l : List Expr) :
    (evalAll f l).KeepsObjects := by
  induction l with
  | nil => exact keeps_pure _
  | cons a rest ih =>
    simp only [evalAll]
    exact keeps_bind (hf a) (fun _ => keeps_bind ih (fun _ => keeps_pure _))

instance keeps_execStatements {f : Stmt → M (Option Value)} [hf : ∀ st, (f st).KeepsObjects]
    (l : List (Option Stmt)) : (execStatements f l).KeepsObjects := by
  induction l with
  | nil => exact keeps_pure _
  | cons a rest ih =>
    cases a with
    | none => simpa only [execStatements] using ih
    | some st =>
      simp only [execStatements]
      refine keeps_bind (hf st) (fun r => ?_)
      cases r with
      | none => exact ih
      | some v => exact keeps_pure _

instance keeps_loopBody {m : M (Option Value)} [hm : m.KeepsObjects] :
    (loopBody m).KeepsObjects := by
  unfold loopBody
  refine keeps_tryCatch (keeps_bind hm (fun r => ?_)) (fun e => ?_)
  · cases r <;> exact keeps_pure _
  · cases e <;> first | exact keeps_pure _ | exact keeps_raise _

theorem keeps_forEachElements {f : Value → M LoopStep} (hf : ∀ v, (f v).KeepsObjects) :
    ∀ (l : List (M Value)), (∀ m ∈ l, m.KeepsObjects) → (forEachElements f l).KeepsObjects := by
  intro l
  induction l with
  | nil => intro _; exact keeps_pure _
  | cons a rest ih =>
    intro hl
    simp only [forEachElements]
    refine keeps_bind (hl a (List.mem_cons_self _ _)) (fun v => keeps_bind (hf v) (fun r => ?_))
    cases r with
    | next => exact ih (fun m hm => hl m (List.mem_cons_of_mem _ hm))
    | brk => exact keeps_pure _
    | ret v => exact keeps_pure _

instance keeps_bindParams (executionEnv : Nat) (params : List ParamInfo) (args : List Value) :
    (bindParams executionEnv params args).KeepsObjects := by
  induction params generalizing args with
  | nil => exact keeps_pure _
  | cons p rest ih =>
    cases args with
    | nil => exact keeps_fault
    | cons a as =>
      simp only [bindParams]
      repeat (first
        | infer_instance
        | exact ih _
        | with_reducible refine keeps_bind ?_ (fun _ => ?_)
        | with_reducible refine keeps_tryCatch ?_ (fun _ => ?_)
        | with_reducible refine @keeps_rethrowAt _ _ _ ?_
        | with_reducible refine @keeps_loopBody _ ?_
        | with_reducible refine @keeps_forEachM _ _ _ (fun _ _ => ?_) _ _
        | with_reducible refine @keeps_evalAll _ (fun _ => ?_) _
        | with_reducible refine @keeps_execStatements _ (fun _ => ?_) _
        | split)

instance keeps_deepcopyElement {copy : Value → Memo → M (Value × Memo)}
    [h : ∀ v memo, (copy v memo).KeepsObjects] (newArr : Nat) (memo : Memo) (elem : Value) :
    (deepcopyElement copy newArr memo elem).KeepsObjects := by
  unfold deepcopyElement
  repeat (first
    | infer_instance
    | with_reducible refine keeps_bind ?_ (fun _ => ?_)
    | with_reducible refine keeps_tryCatch ?_ (fun _ => ?_)
    | with_reducible refine @keeps_rethrowAt _ _ _ ?_
    | with_reducible refine @keeps_loopBody _ ?_
    | with_reducible refine @keeps_forEachM _ _ _ (fun _ _ => ?_) _ _
    | with_reducible refine @keeps_evalAll _ (fun _ => ?_) _
    | with_reducible refine @keeps_execStatements _ (fun _ => ?_) _
    | split)

instance keeps_deepcopyPair {copy : Value → Memo → M (Value × Memo)}
    [h : ∀ v memo, (copy v memo).KeepsObjects] (newD : Nat) (memo : Memo)
    (pair : String × Value) : (deepcopyPair copy newD memo pair).KeepsObjects := by
  unfold deepcopyPair
  repeat (first
    | infer_instance
    | with_reducible refine keeps_bind ?_ (fun _ => ?_)
    | with_reducible refine keeps_tryCatch ?_ (fun _ => ?_)
    | with_reducible refine @keeps_rethrowAt _ _ _ ?_
    | with_reducible refine @keeps_loopBody _ ?_
    | with_reducible refine @keeps_forEachM _ _ _ (fun _ _ => ?_) _ _
    | with_reducible refine @keeps_evalAll _ (fun _ => ?_) _
    | with_reducible refine @keeps_execStatements _ (fun _ => ?_) _
    | split)

instance keeps_deepcopyField {copy : Value → Memo → M (Value × Memo)}
    [h : ∀ v memo, (copy v memo).KeepsObjects] (newObj : Nat) (memo : Memo)
    (pair : String × Value) : (deepcopyField copy newObj memo pair).KeepsObjects := by
  unfold deepcopyField
  repeat (first
    | infer_instance
    | with_reducible refine keeps_bind ?_ (fun _ => ?_)
    | with_reducible refine keeps_tryCatch ?_ (fun _ => ?_)
    | with_reducible refine @keeps_rethrowAt _ _ _ ?_
    | with_reducible refine @keeps_loopBody _ ?_
    | with_reducible refine @keeps_forEachM _ _ _ (fun _ _ => ?_) _ _
    | with_reducible refine @keeps_evalAll _ (fun _ => ?_) _
    | with_reducible refine @keeps_execStatements _ (fun _ => ?_) _
    | split)

instance keeps_deepcopy_recursive (fuel : Nat) (val : Value) (memo : Memo) :
    (deepcopy_recursive fuel val memo).KeepsObjects := by
  induction fuel generalizing val memo with
  | zero => exact keeps_outOfFuel
  | succ n ih =>
    cases val <;> simp only [deepcopy_recursive] <;>
      repeat (first
        | infer_instance
        | with_reducible refine keeps_bind ?_ (fun _ => ?_)
        | with_reducible refine keeps_tryCatch ?_ (fun _ => ?_)
        | with_reducible refine @keeps_rethrowAt _ _ _ ?_
        | with_reducible refine @keeps_loopBody _ ?_
        | with_reducible refine @keeps_forEachM _ _ _ (fun _ _ => ?_) _ _
        | with_reducible refine @keeps_evalAll _ (fun _ => ?_) _
        | with_reducible refine @keeps_execStatements _ (fun _ => ?_) _
        | split)

instance keeps_native (fuel : Nat) (fn : NativeFn) (args : List Value) :
    (NativeFunction.call fuel fn args).KeepsObjects := by
  cases fn <;> simp only [NativeFunction.call] <;>
    repeat (first
      | infer_instance
      | with_reducible refine keeps_bind ?_ (fun _ => ?_)
      | with_reducible refine keeps_tryCatch ?_ (fun _ => ?_)
      | with_reducible refine @keeps_rethrowAt _ _ _ ?_
      | with_reducible refine @keeps_loopBody _ ?_
      | with_reducible refine @keeps_forEachM _ _ _ (fun _ _ => ?_) _ _
      | with_reducible refine @keeps_evalAll _ (fun _ => ?_) _
      | with_reducible refine @keeps_execStatements _ (fun _ => ?_) _
      | split)

theorem keeps_at_zero : KeepsObjectsAt 0 := by
  refine ⟨?_, ?_, ?_, ?_, ?_⟩ <;> intros <;> exact keeps_outOfFuel

theorem keeps_eval_step (n : Nat) (ih : KeepsObjectsAt n) :
    ∀ e env, (Expr.eval (n + 1) e env).KeepsObjects := by
  obtain ⟨ihE, ihS, ihW, ihF, ihC⟩ := ih
  intro e env
  cases e <;> simp only [Expr.eval] <;>
    repeat (first
      | infer_instance
      | with_reducible refine keeps_bind ?_ (fun _ => ?_)
      | with_reducible refine keeps_tryCatch ?_ (fun _ => ?_)
      | with_reducible refine @keeps_rethrowAt _ _ _ ?_
      | with_reducible refine @keeps_loopBody _ ?_
      | with_reducible refine @keeps_forEachM _ _ _ (fun _ _ => ?_) _ _
      | with_reducible refine @keeps_evalAll _ (fun _ => ?_) _
      | with_reducible refine @keeps_execStatements _ (fun _ => ?_) _
      | split)

theorem keeps_fetchList (a : Nat) (l : List Nat) :
    ∀ m ∈ l.map (fetchElement a), m.KeepsObjects := by
  intro m hm
  obtain ⟨i, _, rfl⟩ := List.mem_map.1 hm
  exact keeps_fetchElement a i

theorem keeps_charList (l : List Char) :
    ∀ m ∈ l.map (fun c => (pure (.str (String.singleton c)) : M Value)), m.KeepsObjects := by
  intro m hm
  obtain ⟨c, _, rfl⟩ := List.mem_map.1 hm
  exact keeps_pure _

theorem keeps_exec_step (n : Nat) (ih : KeepsObjectsAt n) :
    ∀ st env, (Stmt.exec (n + 1) st env).KeepsObjects := by
  obtain ⟨ihE, ihS, ihW, ihF, ihC⟩ := ih
  intro st env
  cases st <;> simp only [Stmt.exec] <;>
    repeat (first
      | infer_instance
      | exact keeps_forEachElements (fun _ => inferInstance) _ (keeps_fetchList _ _)
      | exact keeps_forEachElements (fun _ => inferInstance) _ (keeps_charList _)
      | with_reducible refine keeps_bind ?_ (fun _ => ?_)
      | with_reducible refine keeps_tryCatch ?_ (fun _ => ?_)
      | with_reducible refine @keeps_rethrowAt _ _ _ ?_
      | with_reducible refine @keeps_loopBody _ ?_
      | with_reducible refine @keeps_forEachM _ _ _ (fun _ _ => ?_) _ _
      | with_reducible refine @keeps_evalAll _ (fun _ => ?_) _
      | with_reducible refine @keeps_execStatements _ (fun _ => ?_) _
      | split)

theorem keeps_while_step (n : Nat) (ih : KeepsObjectsAt n) :
    ∀ c b env, (WhileStmt.loop (n + 1) c b env).KeepsObjects := by
  obtain ⟨ihE, ihS, ihW, ihF, ihC⟩ := ih
  intro c b env
  simp only [WhileStmt.loop]
  repeat (first
    | infer_instance
    | with_reducible refine keeps_bind ?_ (fun _ => ?_)
    | with_reducible refine keeps_tryCatch ?_ (fun _ => ?_)
    | with_reducible refine @keeps_rethrowAt _ _ _ ?_
    | with_reducible refine @keeps_loopBody _ ?_
    | with_reducible refine @keeps_forEachM _ _ _ (fun _ _ => ?_) _ _
    | with_reducible refine @keeps_evalAll _ (fun _ => ?_) _
    | with_reducible refine @keeps_execStatements _ (fun _ => ?_) _
    | split)

theorem keeps_for_step (n : Nat) (ih : KeepsObjectsAt n) :
    ∀ c i b env, (ForStmt.loop (n + 1) c i b env).KeepsObjects := by
  obtain ⟨ihE, ihS, ihW, ihF, ihC⟩ := ih
  intro c i b env
  simp only [ForStmt.loop]
  repeat (first
    | infer_instance
    | with_reducible refine keeps_bind ?_ (fun _ => ?_)
    | with_reducible refine keeps_tryCatch ?_ (fun _ => ?_)
    | with_reducible refine @keeps_rethrowAt _ _ _ ?_
    | with_reducible refine @keeps_loopBody _ ?_
    | with_reducible refine @keeps_forEachM _ _ _ (fun _ _ => ?_) _ _
    | with_reducible refine @keeps_evalAll _ (fun _ => ?_) _
    | with_reducible refine @keeps_execStatements _ (fun _ => ?_) _
    | split)

theorem keeps_call_step (n : Nat) (ih : KeepsObjectsAt n) :
    ∀ f args, (Callable.call (n + 1) f args).KeepsObjects := by
  obtain ⟨ihE, ihS, ihW, ihF, ihC⟩ := ih
  intro f args
  simp only [Callable.call]
  repeat (first
    | infer_instance
    | with_reducible refine keeps_bind ?_ (fun _ => ?_)
    | with_reducible refine keeps_tryCatch ?_ (fun _ => ?_)
    | with_reducible refine @keeps_rethrowAt _ _ _ ?_
    | with_reducible refine @keeps_loopBody _ ?_
    | with_reducible refine @keeps_forEachM _ _ _ (fun _ _ => ?_) _ _
    | with_reducible refine @keeps_evalAll _ (fun _ => ?_) _
    | with_reducible refine @keeps_execStatements _ (fun _ => ?_) _
    | split)

end M.KeepsObjects

/-- With every budget the evaluator keeps the objects, their parents and their class tags. -/
theorem keepsObjectsAt (n : Nat) : KeepsObjectsAt n := by
  induction n with
  | zero => exact M.KeepsObjects.keeps_at_zero
  | succ n ih =>
    exact ⟨M.KeepsObjects.keeps_eval_step n ih, M.KeepsObjects.keeps_exec_step n ih,
      M.KeepsObjects.keeps_while_step n ih, M.KeepsObjects.keeps_for_step n ih,
      M.KeepsObjects.keeps_call_step n ih⟩

/-! ## Equality of syntax trees is decided by the tests -/

mutual

theorem Expr.expr_eq_of_beq (a b : Expr) (h : Expr.beq a b = true) : a = b := by
  cases a with
  | Assign x0 x1 x2 =>
    cases b with
    | Assign x0' x1' x2' =>
      have h' : (Expr.beq x0 x0' && Expr.beq x1 x1' && decide (x2 = x2')) = true := h
      simp only [Bool.and_eq_true, decide_eq_true_eq] at h'
      obtain ⟨⟨h0, h1⟩, h2⟩ := h'
      have e0 := Expr.expr_eq_of_beq x0 x0' h0
      have e1 := Expr.expr_eq_of_beq x1 x1' h1
      have e2 := h2
      subst e0 e1 e2
      rfl
    | _ => exact Bool.noConfusion h
  | Literal x0 x1 =>
    cases b with
    | Literal x0' x1' =>
      have h' : (decide (x0 = x0') && decide (x1 = x1')) = true := h
      simp only [Bool.and_eq_true, decide_eq_true_eq] at h'
      obtain ⟨h0, h1⟩ := h'
      have e0 := h0
      have e1 := h1
      subst e0 e1
      rfl
    | _ => exact Bool.noConfusion h
  | Var x0 x1 =>
    cases b with
    | Var x0' x1' =>
      have h' : (decide (x0 = x0') && decide (x1 = x1')) = true := h
      simp only [Bool.and_eq_true, decide_eq_true_eq] at h'
      obtain ⟨h0, h1⟩ := h'
      have e0 := h0
      have e1 := h1
      subst e0 e1
      rfl
    | _ => exact Bool.noConfusion h
  | Unary x0 x1 x2 =>
    cases b with
    | Unary x0' x1' x2' =>
      have h' : (decide (x0 = x0') && Expr.beq x1 x1' && decide (x2 = x2')) = true := h
      simp only [Bool.and_eq_true, decide_eq_true_eq] at h'
      obtain ⟨⟨h0, h1⟩, h2⟩ := h'
      have e0 := h0
      have e1 := Expr.expr_eq_of_beq x1 x1' h1
      have e2 := h2
      subst e0 e1 e2
      rfl
    | _ => exact Bool.noConfusion h
  | Binary x0 x1 x2 x3 =>
    cases b with
    | Binary x0' x1' x2' x3' =>
      have h' : (decide (x0 = x0') && Expr.beq x1 x1' && Expr.beq x2 x2' && decide (x3 = x3')) = true := h
      simp only [Bool.and_eq_true, decide_eq_true_eq] at h'
      obtain ⟨⟨⟨h0, h1⟩, h2⟩, h3⟩ := h'
      have e0 := h0
      have e1 := Expr.expr_eq_of_beq x1 x1' h1
      have e2 := Expr.expr_eq_of_beq x2 x2' h2
      have e3 := h3
      subst e0 e1 e2 e3
      rfl
    | _ => exact Bool.noConfusion h
  | Call x0 x1 x2 =>
    cases b with
    | Call x0' x1' x2' =>
      have h' : (Expr.beq x0 x0' && Expr.beqList x1 x1' && decide (x2 = x2')) = true := h
      simp only [Bool.and_eq_true, decide_eq_true_eq] at h'
      obtain ⟨⟨h0, h1⟩, h2⟩ := h'
      have e0 := Expr.expr_eq_of_beq x0 x0' h0
      have e1 := Expr.expr_eq_of_beqList x1 x1' h1
      have e2 := h2
      subst e0 e1 e2
      rfl
    | _ => exact Bool.noConfusion h
  | ArrayLiteral x0 x1 =>
    cases b with
    | ArrayLiteral x0' x1' =>
      have h' : (Expr.beqList x0 x0' && decide (x1 = x1')) = true := h
      simp only [Bool.and_eq_true, decide_eq_true_eq] at h'
      obtain ⟨h0, h1⟩ := h'
      have e0 := Expr.expr_eq_of_beqList x0 x0' h0
      have e1 := h1
      subst e0 e1
      rfl
    | _ => exact Bool.noConfusion h
  | DictLiteral x0 x1 =>
    cases b with
    | DictLiteral x0' x1' =>
      have h' : (Expr.beqPairs x0 x0' && decide (x1 = x1')) = true := h
      simp only [Bool.and_eq_true, decide_eq_true_eq] at h'
      obtain ⟨h0, h1⟩ := h'
      have e0 := Expr.expr_eq_of_beqPairs x0 x0' h0
      have e1 := h1
      subst e0 e1
      rfl
    | _ => exact Bool.noConfusion h
  | Index x0 x1 x2 =>
    cases b with
    | Index x0' x1' x2' =>
      have h' : (Expr.beq x0 x0' && Expr.beq x1 x1' && decide (x2 = x2')) = true := h
      simp only [Bool.and_eq_true, decide_eq_true_eq] at h'
      obtain ⟨⟨h0, h1⟩, h2⟩ := h'
      have e0 := Expr.expr_eq_of_beq x0 x0' h0
      have e1 := Expr.expr_eq_of_beq x1 x1' h1
      have e2 := h2
      subst e0 e1 e2
      rfl
    | _ => exact Bool.noConfusion h
  | MemberAccess x0 x1 x2 =>
    cases b with
    | MemberAccess x0' x1' x2' =>
      have h' : (Expr.beq x0 x0' && decide (x1 = x1') && decide (x2 = x2')) = true := h
      simp only [Bool.and_eq_true, decide_eq_true_eq] at h'
      obtain ⟨⟨h0, h1⟩, h2⟩ := h'
      have e0 := Expr.expr_eq_of_beq x0 x0' h0
      have e1 := h1
      have e2 := h2
      subst e0 e1 e2
      rfl
    | _ => exact Bool.noConfusion h
  | This x0 =>
    cases b with
    | This x0' =>
      have h' : (decide (x0 = x0')) = true := h
      simp only [Bool.and_eq_true, decide_eq_true_eq] at h'
      have h0 := h'
      have e0 := h0
      subst e0
      rfl
    | _ => exact Bool.noConfusion h
  | Super x0 x1 x2 =>
    cases b with
    | Super x0' x1' x2' =>
      have h' : (decide (x0 = x0') && decide (x1 = x1') && decide (x2 = x2')) = true := h
      simp only [Bool.and_eq_true, decide_eq_true_eq] at h'
      obtain ⟨⟨h0, h1⟩, h2⟩ := h'
      have e0 := h0
      have e1 := h1
      have e2 := h2
      subst e0 e1 e2
      rfl
    | _ => exact Bool.noConfusion h

theorem Stmt.stmt_eq_of_beq (a b : Stmt) (h : Stmt.beq a b = true) : a = b := by
  cases a with
  | Block x0 =>
    cases b with
    | Block x0' =>
      have h' : (BlockStmt.beq x0 x0') = true := h
      simp only [Bool.and_eq_true, decide_eq_true_eq] at h'
      have h0 := h'
      have e0 := BlockStmt.blockStmt_eq_of_beq x0 x0' h0
      subst e0
      rfl
    | _ => exact Bool.noConfusion h
  | ExprStmt x0 x1 =>
    cases b with
    | ExprStmt x0' x1' =>
      have h' : (Expr.beq x0 x0' && decide (x1 = x1')) = true := h
      simp only [Bool.and_eq_true, decide_eq_true_eq] at h'
      obtain ⟨h0, h1⟩ := h'
      have e0 := Expr.expr_eq_of_beq x0 x0' h0
      have e1 := h1
      subst e0 e1
      rfl
    | _ => exact Bool.noConfusion h
  | If x0 x1 x2 x3 =>
    cases b with
    | If x0' x1' x2' x3' =>
      have h' : (Expr.beq x0 x0' && Stmt.beq x1 x1' && Stmt.beqOption x2 x2' && decide (x3 = x3')) = true := h
      simp only [Bool.and_eq_true, decide_eq_true_eq] at h'
      obtain ⟨⟨⟨h0, h1⟩, h2⟩, h3⟩ := h'
      have e0 := Expr.expr_eq_of_beq x0 x0' h0
      have e1 := Stmt.stmt_eq_of_beq x1 x1' h1
      have e2 := Stmt.stmt_eq_of_beqOption x2 x2' h2
      have e3 := h3
      subst e0 e1 e2 e3
      rfl
    | _ => exact Bool.noConfusion h
  | While x0 x1 x2 =>
    cases b with
    | While x0' x1' x2' =>
      have h' : (Expr.beq x0 x0' && Stmt.beq x1 x1' && decide (x2 = x2')) = true := h
      simp only [Bool.and_eq_true, decide_eq_true_eq] at h'
      obtain ⟨⟨h0, h1⟩, h2⟩ := h'
      have e0 := Expr.expr_eq_of_beq x0 x0' h0
      have e1 := Stmt.stmt_eq_of_beq x1 x1' h1
      have e2 := h2
      subst e0 e1 e2
      rfl
    | _ => exact Bool.noConfusion h
  | Func x0 =>
    cases b with
    | Func x0' =>
      have h' : (FuncStmt.beq x0 x0') = true := h
      simp only [Bool.and_eq_true, decide_eq_true_eq] at h'
      have h0 := h'
      have e0 := FuncStmt.funcStmt_eq_of_beq x0 x0' h0
      subst e0
      rfl
    | _ => exact Bool.noConfusion h
  | Class x0 x1 x2 x3 =>
    cases b with
    | Class x0' x1' x2' x3' =>
      have h' : (decide (x0 = x0') && decide (x1 = x1') && FuncStmt.beqList x2 x2' && decide (x3 = x3')) = true := h
      simp only [Bool.and_eq_true, decide_eq_true_eq] at h'
      obtain ⟨⟨⟨h0, h1⟩, h2⟩, h3⟩ := h'
      have e0 := h0
      have e1 := h1
      have e2 := FuncStmt.funcStmt_eq_of_beqList x2 x2' h2
      have e3 := h3
      subst e0 e1 e2 e3
      rfl
    | _ => exact Bool.noConfusion h
  | Return x0 x1 =>
    cases b with
    | Return x0' x1' =>
      have h' : (Expr.beqOption x0 x0' && decide (x1 = x1')) = true := h
      simp only [Bool.and_eq_true, decide_eq_true_eq] at h'
      obtain ⟨h0, h1⟩ := h'
      have e0 := Expr.expr_eq_of_beqOption x0 x0' h0
      have e1 := h1
      subst e0 e1
      rfl
    | _ => exact Bool.noConfusion h
  | VarDecl x0 x1 x2 x3 =>
    cases b with
    | VarDecl x0' x1' x2' x3' =>
      have h' : (decide (x0 = x0') && decide (x1 = x1') && Expr.beqOption x2 x2' && decide (x3 = x3')) = true := h
      simp only [Bool.and_eq_true, decide_eq_true_eq] at h'
      obtain ⟨⟨⟨h0, h1⟩, h2⟩, h3⟩ := h'
      have e0 := h0
      have e1 := h1
      have e2 := Expr.expr_eq_of_beqOption x2 x2' h2
      have e3 := h3
      subst e0 e1 e2 e3
      rfl
    | _ => exact Bool.noConfusion h
  | ForEach x0 x1 x2 x3 =>
    cases b with
    | ForEach x0' x1' x2' x3' =>
      have h' : (decide (x0 = x0') && Expr.beq x1 x1' && Stmt.beq x2 x2' && decide (x3 = x3')) = true := h
      simp only [Bool.and_eq_true, decide_eq_true_eq] at h'
      obtain ⟨⟨⟨h0, h1⟩, h2⟩, h3⟩ := h'
      have e0 := h0
      have e1 := Expr.expr_eq_of_beq x1 x1' h1
      have e2 := Stmt.stmt_eq_of_beq x2 x2' h2
      have e3 := h3
      subst e0 e1 e2 e3
      rfl
    | _ => exact Bool.noConfusion h
  | For x0 x1 x2 x3 x4 =>
    cases b with
    | For x0' x1' x2' x3' x4' =>
      have h' : (Stmt.beqOption x0 x0' && Expr.beqOption x1 x1' && Expr.beqOption x2 x2' && Stmt.beq x3 x3' && decide (x4 = x4')) = true := h
      simp only [Bool.and_eq_true, decide_eq_true_eq] at h'
      obtain ⟨⟨⟨⟨h0, h1⟩, h2⟩, h3⟩, h4⟩ := h'
      have e0 := Stmt.stmt_eq_of_beqOption x0 x0' h0
      have e1 := Expr.expr_eq_of_beqOption x1 x1' h1
      have e2 := Expr.expr_eq_of_beqOption x2 x2' h2
      have e3 := Stmt.stmt_eq_of_beq x3 x3' h3
      have e4 := h4
      subst e0 e1 e2 e3 e4
      rfl
    | _ => exact Bool.noConfusion h
  | Break x0 =>
    cases b with
    | Break x0' =>
      have h' : (decide (x0 = x0')) = true := h
      simp only [Bool.and_eq_true, decide_eq_true_eq] at h'
      have h0 := h'
      have e0 := h0
      subst e0
      rfl
    | _ => exact Bool.noConfusion h
  | Continue x0 =>
    cases b with
    | Continue x0' =>
      have h' : (decide (x0 = x0')) = true := h
      simp only [Bool.and_eq_true, decide_eq_true_eq] at h'
      have h0 := h'
      have e0 := h0
      subst e0
      rfl
    | _ => exact Bool.noConfusion h

theorem BlockStmt.blockStmt_eq_of_beq (a b : BlockStmt) (h : BlockStmt.beq a b = true) : a = b := by
  cases a with
  | mk x0 x1 =>
    cases b with
    | mk x0' x1' =>
      have h' : (Stmt.beqOptions x0 x0' && decide (x1 = x1')) = true := h
      simp only [Bool.and_eq_true, decide_eq_true_eq] at h'
      obtain ⟨h0, h1⟩ := h'
      have e0 := Stmt.stmt_eq_of_beqOptions x0 x0' h0
      have e1 := h1
      subst e0 e1
      rfl

theorem FuncStmt.funcStmt_eq_of_beq (a b : FuncStmt) (h : FuncStmt.beq a b = true) : a = b := by
  cases a with
  | mk x0 x1 x2 x3 =>
    cases b with
    | mk x0' x1' x2' x3' =>
      have h' : (decide (x0 = x0') && decide (x1 = x1') && BlockStmt.beq x2 x2' && decide (x3 = x3')) = true := h
      simp only [Bool.and_eq_true, decide_eq_true_eq] at h'
      obtain ⟨⟨⟨h0, h1⟩, h2⟩, h3⟩ := h'
      have e0 := h0
      have e1 := h1
      have e2 := BlockStmt.blockStmt_eq_of_beq x2 x2' h2
      have e3 := h3
      subst e0 e1 e2 e3
      rfl

theorem Expr.expr_eq_of_beqList (a b : List Expr) (h : Expr.beqList a b = true) : a = b := by
  cases a with
  | nil =>
    cases b with
    | nil => rfl
    | cons y ys => exact Bool.noConfusion h
  | cons x xs =>
    cases b with
    | nil => exact Bool.noConfusion h
    | cons y ys =>
      have h' : (Expr.beq x y && Expr.beqList xs ys) = true := h
      simp only [Bool.and_eq_true] at h'
      have e0 := Expr.expr_eq_of_beq x y h'.1
      have e1 := Expr.expr_eq_of_beqList xs ys h'.2
      subst e0 e1
      rfl

theorem FuncStmt.funcStmt_eq_of_beqList (a b : List FuncStmt) (h : FuncStmt.beqList a b = true) : a = b := by
  cases a with
  | nil =>
    cases b with
    | nil => rfl
    | cons y ys => exact Bool.noConfusion h
  | cons x xs =>
    cases b with
    | nil => exact Bool.noConfusion h
    | cons y ys =>
      have h' : (FuncStmt.beq x y && FuncStmt.beqList xs ys) = true := h
      simp only [Bool.and_eq_true] at h'
      have e0 := FuncStmt.funcStmt_eq_of_beq x y h'.1
      have e1 := FuncStmt.funcStmt_eq_of_beqList xs ys h'.2
      subst e0 e1
      rfl

theorem Stmt.stmt_eq_of_beqOptions (a b : List (Option Stmt)) (h : Stmt.beqOptions a b = true) : a = b := by
  cases a with
  | nil =>
    cases b with
    | nil => rfl
    | cons y ys => exact Bool.noConfusion h
  | cons x xs =>
    cases b with
    | nil => exact Bool.noConfusion h
    | cons y ys =>
      have h' : (Stmt.beqOption x y && Stmt.beqOptions xs ys) = true := h
      simp only [Bool.and_eq_true] at h'
      have e0 := Stmt.stmt_eq_of_beqOption x y h'.1
      have e1 := Stmt.stmt_eq_of_beqOptions xs ys h'.2
      subst e0 e1
      rfl

theorem Expr.expr_eq_of_beqPairs (a b : List (String × Expr)) (h : Expr.beqPairs a b = true) : a = b := by
  cases a with
  | nil =>
    cases b with
    | nil => rfl
    | cons y ys => exact Bool.noConfusion h
  | cons x xs =>
    cases b with
    | nil => exact Bool.noConfusion h
    | cons y ys =>
      obtain ⟨k, x⟩ := x
      obtain ⟨k', y⟩ := y
      have h' : (decide (k = k') && Expr.beq x y && Expr.beqPairs xs ys) = true := h
      simp only [Bool.and_eq_true, decide_eq_true_eq] at h'
      obtain ⟨⟨h0, h1⟩, h2⟩ := h'
      have e1 := Expr.expr_eq_of_beq x y h1
      have e2 := Expr.expr_eq_of_beqPairs xs ys h2
      subst h0 e1 e2
      rfl

theorem Expr.expr_eq_of_beqOption (a b : Option Expr) (h : Expr.beqOption a b = true) : a = b := by
  cases a with
  | none =>
    cases b with
    | none => rfl
    | some y => exact Bool.noConfusion h
  | some x =>
    cases b with
    | none => exact Bool.noConfusion h
    | some y =>
      have e0 := Expr.expr_eq_of_beq x y h
      subst e0
      rfl

theorem Stmt.stmt_eq_of_beqOption (a b : Option Stmt) (h : Stmt.beqOption a b = true) : a = b := by
  cases a with
  | none =>
    cases b with
    | none => rfl
    | some y => exact Bool.noConfusion h
  | some x =>
    cases b with
    | none => exact Bool.noConfusion h
    | some y =>
      have e0 := Stmt.stmt_eq_of_beq x y h
      subst e0
      rfl

end

mutual

theorem Expr.expr_beq_refl (a : Expr) : Expr.beq a a = true := by
  cases a with
  | Assign x0 x1 x2 =>
    show (Expr.beq x0 x0 && Expr.beq x1 x1 && decide (x2 = x2)) = true
    simp [Expr.expr_beq_refl x0, Expr.expr_beq_refl x1]
  | Literal x0 x1 =>
    show (decide (x0 = x0) && decide (x1 = x1)) = true
    simp
  | Var x0 x1 =>
    show (decide (x0 = x0) && decide (x1 = x1)) = true
    simp
  | Unary x0 x1 x2 =>
    show (decide (x0 = x0) && Expr.beq x1 x1 && decide (x2 = x2)) = true
    simp [Expr.expr_beq_refl x1]
  | Binary x0 x1 x2 x3 =>
    show (decide (x0 = x0) && Expr.beq x1 x1 && Expr.beq x2 x2 && decide (x3 = x3)) = true
    simp [Expr.expr_beq_refl x1, Expr.expr_beq_refl x2]
  | Call x0 x1 x2 =>
    show (Expr.beq x0 x0 && Expr.beqList x1 x1 && decide (x2 = x2)) = true
    simp [Expr.expr_beq_refl x0, Expr.expr_beqList_refl x1]
  | ArrayLiteral x0 x1 =>
    show (Expr.beqList x0 x0 && decide (x1 = x1)) = true
    simp [Expr.expr_beqList_refl x0]
  | DictLiteral x0 x1 =>
    show (Expr.beqPairs x0 x0 && decide (x1 = x1)) = true
    simp [Expr.expr_beqPairs_refl x0]
  | Index x0 x1 x2 =>
    show (Expr.beq x0 x0 && Expr.beq x1 x1 && decide (x2 = x2)) = true
    simp [Expr.expr_beq_refl x0, Expr.expr_beq_refl x1]
  | MemberAccess x0 x1 x2 =>
    show (Expr.beq x0 x0 && decide (x1 = x1) && decide (x2 = x2)) = true
    simp [Expr.expr_beq_refl x0]
  | This x0 =>
    show (decide (x0 = x0)) = true
    simp
  | Super x0 x1 x2 =>
    show (decide (x0 = x0) && decide (x1 = x1) && decide (x2 = x2)) = true
    simp

theorem Stmt.stmt_beq_refl (a : Stmt) : Stmt.beq a a = true := by
  cases a with
  | Block x0 =>
    show (BlockStmt.beq x0 x0) = true
    simp [BlockStmt.blockStmt_beq_refl x0]
  | ExprStmt x0 x1 =>
    show (Expr.beq x0 x0 && decide (x1 = x1)) = true
    simp [Expr.expr_beq_refl x0]
  | If x0 x1 x2 x3 =>
    show (Expr.beq x0 x0 && Stmt.beq x1 x1 && Stmt.beqOption x2 x2 && decide (x3 = x3)) = true
    simp [Expr.expr_beq_refl x0, Stmt.stmt_beq_refl x1, Stmt.stmt_beqOption_refl x2]
  | While x0 x1 x2 =>
    show (Expr.beq x0 x0 && Stmt.beq x1 x1 && decide (x2 = x2)) = true
    simp [Expr.expr_beq_refl x0, Stmt.stmt_beq_refl x1]
  | Func x0 =>
    show (FuncStmt.beq x0 x0) = true
    simp [FuncStmt.funcStmt_beq_refl x0]
  | Class x0 x1 x2 x3 =>
    show (decide (x0 = x0) && decide (x1 = x1) && FuncStmt.beqList x2 x2 && decide (x3 = x3)) = true
    simp [FuncStmt.funcStmt_beqList_refl x2]
  | Return x0 x1 =>
    show (Expr.beqOption x0 x0 && decide (x1 = x1)) = true
    simp [Expr.expr_beqOption_refl x0]
  | VarDecl x0 x1 x2 x3 =>
    show (decide (x0 = x0) && decide (x1 = x1) && Expr.beqOption x2 x2 && decide (x3 = x3)) = true
    simp [Expr.expr_beqOption_refl x2]
  | ForEach x0 x1 x2 x3 =>
    show (decide (x0 = x0) && Expr.beq x1 x1 && Stmt.beq x2 x2 && decide (x3 = x3)) = true
    simp [Expr.expr_beq_refl x1, Stmt.stmt_beq_refl x2]
  | For x0 x1 x2 x3 x4 =>
    show (Stmt.beqOption x0 x0 && Expr.beqOption x1 x1 && Expr.beqOption x2 x2 && Stmt.beq x3 x3 && decide (x4 = x4)) = true
    simp [Stmt.stmt_beqOption_refl x0, Expr.expr_beqOption_refl x1, Expr.expr_beqOption_refl x2, Stmt.stmt_beq_refl x3]
  | Break x0 =>
    show (decide (x0 = x0)) = true
    simp
  | Continue x0 =>
    show (decide (x0 = x0)) = true
    simp

theorem BlockStmt.blockStmt_beq_refl (a : BlockStmt) : BlockStmt.beq a a = true := by
  cases a with
  | mk x0 x1 =>
    show (Stmt.beqOptions x0 x0 && decide (x1 = x1)) = true
    simp [Stmt.stmt_beqOptions_refl x0]

theorem FuncStmt.funcStmt_beq_refl (a : FuncStmt) : FuncStmt.beq a a = true := by
  cases a with
  | mk x0 x1 x2 x3 =>
    show (decide (x0 = x0) && decide (x1 = x1) && BlockStmt.beq x2 x2 && decide (x3 = x3)) = true
    simp [BlockStmt.blockStmt_beq_refl x2]

theorem Expr.expr_beqList_refl (a : List Expr) : Expr.beqList a a = true := by
  cases a with
  | nil => rfl
  | cons x xs =>
    show (Expr.beq x x && Expr.beqList xs xs) = true
    simp [Expr.expr_beq_refl x, Expr.expr_beqList_refl xs]

theorem FuncStmt.funcStmt_beqList_refl (a : List FuncStmt) : FuncStmt.beqList a a = true := by
  cases a with
  | nil => rfl
  | cons x xs =>
    show (FuncStmt.beq x x && FuncStmt.beqList xs xs) = true
    simp [FuncStmt.funcStmt_beq_refl x, FuncStmt.funcStmt_beqList_refl xs]

theorem Stmt.stmt_beqOptions_refl (a : List (Option Stmt)) : Stmt.beqOptions a a = true := by
  cases a with
  | nil => rfl
  | cons x xs =>
    show (Stmt.beqOption x x && Stmt.beqOptions xs xs) = true
    simp [Stmt.stmt_beqOption_refl x, Stmt.stmt_beqOptions_refl xs]

theorem Expr.expr_beqPairs_refl (a : List (String × Expr)) : Expr.beqPairs a a = true := by
  cases a with
  | nil => rfl
  | cons x xs =>
    obtain ⟨k, x⟩ := x
    show (decide (k = k) && Expr.beq x x && Expr.beqPairs xs xs) = true
    simp [Expr.expr_beq_refl x, Expr.expr_beqPairs_refl xs]

theorem Expr.expr_beqOption_refl (a : Option Expr) : Expr.beqOption a a = true := by
  cases a with
  | none => rfl
  | some x => exact Expr.expr_beq_refl x

theorem Stmt.stmt_beqOption_refl (a : Option Stmt) : Stmt.beqOption a a = true := by
  cases a with
  | none => rfl
  | some x => exact Stmt.stmt_beq_refl x

end


instance : DecidableEq Expr := fun a b =>
  if h : Expr.beq a b = true then isTrue (Expr.expr_eq_of_beq a b h)
  else isFalse (fun e => h (e ▸ Expr.expr_beq_refl a))

instance : DecidableEq Stmt := fun a b =>
  if h : Stmt.beq a b = true then isTrue (Stmt.stmt_eq_of_beq a b h)
  else isFalse (fun e => h (e ▸ Stmt.stmt_beq_refl a))

instance : DecidableEq BlockStmt := fun a b =>
  if h : BlockStmt.beq a b = true then isTrue (BlockStmt.blockStmt_eq_of_beq a b h)
  else isFalse (fun e => h (e ▸ BlockStmt.blockStmt_beq_refl a))

instance : DecidableEq FuncStmt := fun a b =>
  if h : FuncStmt.beq a b = true then isTrue (FuncStmt.funcStmt_eq_of_beq a b h)
  else isFalse (fun e => h (e ▸ FuncStmt.funcStmt_beq_refl a))

deriving instance DecidableEq for Callable

deriving instance DecidableEq for State

deriving instance DecidableEq for Res

/-! ## The keyword super (C11) -/

/-- C11, the code at the failing input. With `class A { func get(n) { return 0; } }`,
`class B extends A { func get(n) { if (n == 0) { return 100; } return super.get(n - 1) + 1; } }`
and `class C extends B { }`: on an instance of `B` the override runs the
overridden definition, `B().get(1)` is `0 + 1 = 1`; on an instance of `C`,
which inherits the override, `super.get` inside `B.get` is looked up on the
superclass of the class of `this`, which is `B`, so the override runs itself:
`C().get(1)` is `100 + 1 = 101`, and no budget makes it the `1` that the
overridden definition gives.  Both values are returned with every budget of
at least 20. -/
theorem super_runs_the_override_again (k : Nat) :
    (Interpreter.evalAfter (20 + k) Example.threeLevels (Example.getOneOn "B")).value?
      = some (.int 1)
    ∧ (Interpreter.evalAfter (20 + k) Example.threeLevels (Example.getOneOn "C")).value?
      = some (.int 101)
    ∧ ¬ ∃ fuel, (Interpreter.evalAfter fuel Example.threeLevels (Example.getOneOn "C")).value?
      = some (.int 1) := by
  have h₁ : (Interpreter.evalAfter 20 Example.threeLevels (Example.getOneOn "B")).value?
      = some (.int 1) := by decide!
  have h₂ : (Interpreter.evalAfter 20 Example.threeLevels (Example.getOneOn "C")).value?
      = some (.int 101) := by decide!
  refine ⟨(Interpreter.value_stable 20 _ _ _ h₁).1 k, (Interpreter.value_stable 20 _ _ _ h₂).1 k,
    ?_⟩
  rintro ⟨fuel, hf⟩
  have := (Interpreter.value_stable 20 _ _ _ h₂).2 fuel _ hf
  cases this

/-! ## Assignment to a member (C12) -/

/-- Replacing an object that the lookup from `o'` does not visit leaves the lookup unchanged. -/
theorem MutableObject.getChain_set (objects : List MutableObject) (q : Nat) (x : MutableObject)
    (name : String) :
    ∀ budget o', q ∉ MutableObject.chain objects budget o' →
      MutableObject.getChain (objects.set q x) name budget o'
        = MutableObject.getChain objects name budget o' := by
  intro budget
  induction budget with
  | zero => intro o' _; rfl
  | succ n ih =>
    intro o' h
    unfold MutableObject.chain at h
    have hne : q ≠ o' := fun hq => h (by rw [hq]; exact List.mem_cons_self _ _)
    unfold MutableObject.getChain
    rw [List.getElem?_set_ne hne]
    cases ho : objects[o']? with
    | none => rfl
    | some ob =>
      simp only
      cases hf : ob.fields.find name with
      | some v => rfl
      | none =>
        cases hp : ob.parent with
        | none => rfl
        | some p =>
          simp only
          refine ih p (fun hq => h ?_)
          simp only [ho, hp]
          exact List.mem_cons_of_mem _ hq

/-- C12. An assignment `object.member = value` whose value evaluates to `v`
and whose object operand then evaluates to the object `o` returns `v` and
stores `v` in the own field `member` of `o`: the other fields of `o`, its
parent and its class tag are kept, every other object (the parent of `o`,
every other ancestor, a class prototype) is unchanged, and so are the other
stores.  Afterwards `o.member` resolves to `v`, whatever the ancestors of `o`
define, and for every object whose lookup chain does not pass through `o`
(the ancestors of `o`, and the objects that share an ancestor with `o` without
inheriting from `o`) every member lookup gives what it gave before. -/
theorem member_assignment_writes_own_field (n : Nat) (object value : Expr) (member : String)
    (memberLine line : Int) (env : Nat) (s s₁ s₂ : State) (o : Nat) (obj : MutableObject)
    (v : Value) (hv : Expr.eval n value env s = .ok v s₁)
    (hobj : Expr.eval n object env s₁ = .ok (.object o) s₂)
    (ho : s₂.objects[o]? = some obj) :
    ∃ s₃, Expr.eval (n + 1) (.Assign (.MemberAccess object member memberLine) value line) env s
        = .ok v s₃
      ∧ s₃.objects[o]? = some { obj with fields := obj.fields.insert member v }
      ∧ (obj.fields.insert member v).find member = some v
      ∧ (∀ name, name ≠ member → (obj.fields.insert member v).find name = obj.fields.find name)
      ∧ (∀ p, p ≠ o → s₃.objects[p]? = s₂.objects[p]?)
      ∧ s₃.objects.length = s₂.objects.length
      ∧ s₃.envs = s₂.envs ∧ s₃.arrays = s₂.arrays ∧ s₃.dicts = s₂.dicts
      ∧ s₃.callables = s₂.callables ∧ s₃.output = s₂.output
      ∧ (∀ l, MemberAccessExpr.apply member l (.object o) s₃ = .ok v s₃)
      ∧ (∀ o' name, o ∉ MutableObject.chain s₂.objects s₂.objects.length o' →
          MutableObject.getChain s₃.objects name s₃.objects.length o'
            = MutableObject.getChain s₂.objects name s₂.objects.length o') := by
  have hlt : o < s₂.objects.length := getElem?_lt_length _ _ _ ho
  refine ⟨{ s₂ with objects := s₂.objects.set o { obj with fields := obj.fields.insert member v } },
    ?_, ?_, StrMap.find_insert_self _ _ _, fun name h => StrMap.find_insert_ne _ _ _ _ h, ?_, ?_,
    rfl, rfl, rfl, rfl, rfl, ?_, ?_⟩
  · simp [Expr.eval, bind_apply, hv, hobj, AssignExpr.setMember, MutableObject.set, readObject,
      ho, writeObject, hlt]
  · simp [List.getElem?_set_self hlt]
  · intro p hp
    simp [List.getElem?_set_ne (Ne.symm hp)]
  · simp
  · intro l
    simp [MemberAccessExpr.apply, rethrowAt, tryCatch, bind_apply, readObject,
      List.getElem?_set_self hlt, StrMap.find_insert_self]
  · intro o' name h
    simp only [List.length_set]
    exact MutableObject.getChain_set _ _ _ _ _ _ h

/-- Witness of `member_assignment_writes_own_field`: `o.x = 2` where `o` and `q`
share a prototype that defines `x = 1`; afterwards `o.x` is `2`, the prototype
still holds `x = 1`, and the lookup of `x` from `q` still finds `1`. -/
theorem member_assignment_writes_own_field_witness :
    Expr.eval 1 (.Literal (.int 2) 1) 0 Example.sharedPrototypeState
        = .ok (.int 2) Example.sharedPrototypeState
    ∧ Expr.eval 1 (.Var "o" 1) 0 Example.sharedPrototypeState
        = .ok (.object 1) Example.sharedPrototypeState
    ∧ ∃ s₃, Expr.eval 2 Example.assignTwoToOx 0 Example.sharedPrototypeState = .ok (.int 2) s₃
      ∧ s₃.objects[1]? = some { fields := [("x", .int 2)], parent := some 0, klass := none }
      ∧ s₃.objects[0]? = some { fields := [("x", .int 1)], parent := none, klass := none }
      ∧ MemberAccessExpr.apply "x" 1 (.object 1) s₃ = .ok (.int 2) s₃
      ∧ MutableObject.getChain s₃.objects "x" s₃.objects.length 2 = some (some (.int 1)) := by
  refine ⟨rfl, rfl, ?_⟩
  obtain ⟨s₃, h₁, h₂, _, _, h₅, _, _, _, _, _, _, h₁₂, h₁₃⟩ :=
    member_assignment_writes_own_field 1 (.Var "o" 1) (.Literal (.int 2) 1) "x" 1 1 0
      Example.sharedPrototypeState Example.sharedPrototypeState Example.sharedPrototypeState 1
      { fields := [], parent := some 0, klass := none } (.int 2) rfl rfl rfl
  refine ⟨s₃, h₁, h₂, ?_, h₁₂ 1, ?_⟩
  · rw [h₅ 0 (by decide)]; rfl
  · rw [h₁₃ 2 "x" (by decide)]; rfl

/-! ## Calling a class (C13) -/

/-- C13. Calling the class `func` makes a new object, at the next free index of
the object store, whose parent is the prototype of the class and whose class
tag is the class.  Without an initializer the call, with no arguments, returns
that object and changes nothing else.  With an initializer, the initializer is
bound to the new object (a new function value with the parameters and body of
the initializer, whose closure is a new frame binding `this` to the object)
and called with the arguments of the call; whenever that call returns, with
whatever value `r`, the call of the class returns the new object, which in the
final state still has the prototype as parent and the class as class tag. -/
theorem class_call_returns_new_instance (fuel : Nat) (func : Nat) (args : List Value)
    (s : State) (name : String) (sc : Option Nat) (proto : Nat) (init : Option Nat)
    (hc : s.callables[func]? = some (.ClassValue name sc proto init)) :
    s.objects[s.objects.length]? = none
    ∧ (init = none → args = [] →
        Callable.call (fuel + 1) func args s = .ok (.object s.objects.length)
          { s with objects := s.objects ++
              [{ fields := [], parent := some proto, klass := some func }] })
    ∧ (∀ i params body closure isInit, init = some i →
        s.callables[i]? = some (.FunctionValue params body closure isInit) →
        ∀ r t,
          Callable.call fuel s.callables.length args
            { s with
              objects := s.objects ++ [{ fields := [], parent := some proto, klass := some func }],
              envs := s.envs ++
                [{ vars := [("this", { value := .object s.objects.length, static_type := none })],
                   parent := some closure }],
              callables := s.callables ++ [.FunctionValue params body s.envs.length isInit] }
            = .ok r t →
          Callable.call (fuel + 1) func args s = .ok (.object s.objects.length) t
          ∧ ∃ o, t.objects[s.objects.length]? = some o ∧ o.parent = some proto
              ∧ o.klass = some func) := by
  refine ⟨by simp, ?_, ?_⟩
  · intro hinit hargs
    subst hinit hargs
    simp [Callable.call, bind_apply, readCallable, hc, newObject]
  · intro i params body closure isInit hinit hi r t hcall
    subst hinit
    constructor
    · simp [Callable.call, bind_apply, readCallable, hc, newObject, FunctionValue.bind, hi,
        newEnvironment, Environment.define, readEnv, writeEnv, newCallable, StrMap.insert,
        set_length_append_singleton, hcall]
    · have hk := ((keepsObjectsAt fuel).2.2.2.2 s.callables.length args).keeps _ t
        (by rw [hcall]; rfl)
      obtain ⟨o, ho, hp, hkl⟩ := hk s.objects.length
        { fields := [], parent := some proto, klass := some func } (by simp)
      exact ⟨o, ho, hp, hkl⟩

/-- The state `classPState` is the one that the declaration of `P` leaves. -/
theorem Example.classPState_spec :
    (Stmt.exec 5 Example.classP 0 Example.bareState).state? = some Example.classPState := by
  decide!

/-- Witness of `class_call_returns_new_instance`: the class
`class P { func init(x) { this.x = x; return 42; } }` called as `P(7)`; the
initializer returns, and the call of the class returns the new object `1`,
an instance of `P` with the field `x = 7`, not the `42` of the `return`. -/
theorem class_call_returns_new_instance_witness :
    Example.classPState.callables[0]? = some (.ClassValue "P" none 0 (some 1))
    ∧ ∃ t, Callable.call 6 0 [.int 7] Example.classPState = .ok (.object 1) t
      ∧ (∃ o, t.objects[1]? = some o ∧ o.parent = some 0 ∧ o.klass = some 0)
      ∧ t.objects[1]? = some { fields := [("x", .int 7)], parent := some 0, klass := some 0 } := by
  refine ⟨rfl, ?_⟩
  have h := (class_call_returns_new_instance 5 0 [.int 7] Example.classPState "P" none 0 (some 1)
    rfl).2.2 1 [⟨"x", none⟩] Example.initReturning42 1 true rfl rfl _ _ rfl
  exact ⟨_, h.1, h.2, rfl⟩

/-! ## Inversion of sequencing, and class declarations -/
theorem bind_eq_ok {α β : Type} {m : M α} {f : α → M β} {s s' : State} {b : β}
    (h : (m >>= f) s = .ok b s') : ∃ a t, m s = .ok a t ∧ f a t = .ok b s' := by
  rw [bind_apply] at h
  cases hr : m s with
  | ok a t => rw [hr] at h; exact ⟨a, t, rfl, h⟩
  | throw e t => rw [hr] at h; cases h
  | fault t => rw [hr] at h; cases h
  | outOfFuel => rw [hr] at h; cases h

/-- After a successful `Environment::assign` the variable reads as the value assigned. -/
theorem Environment.assign_get (env : Nat) (name : String) (v : Value) (s t : State)
    (h : Environment.assign env name v s = .ok true t) :
    Environment.get env name t = .ok v t ∧ t.callables = s.callables
      ∧ t.objects = s.objects := by
  unfold Environment.assign at h
  split at h
  · cases h
  · cases h
  · rename_i f hfind
    split at h
    · cases h
    · rename_i e he
      have hlt : f < s.envs.length := getElem?_lt_length _ _ _ he
      obtain ⟨e₀, he₀, hc⟩ := Environment.findFrame_found _ _ _ _ _ hfind
      rw [he] at he₀
      cases he₀
      split at h
      · cases h
      · rename_i info hinfo
        let e' : Environment := { e with vars := e.vars.insert name ({ info with value := v }) }
        have key : Environment.get env name { s with envs := s.envs.set f e' }
            = .ok v { s with envs := s.envs.set f e' } := by
          have hff := Environment.findFrame_set s.envs name f e e' he rfl
            (by simp [e', StrMap.contains_insert_self, hc]) s.envs.length env
          simp [Environment.get, Environment.getRef, bind_apply, List.length_set, hff, hfind,
            readEnv, List.getElem?_set_self hlt, StrMap.find_insert_self, e']
        dsimp only at h
        split at h
        · split at h
          · cases h
          · cases h
            exact ⟨key, rfl, rfl⟩
        · cases h
          exact ⟨key, rfl, rfl⟩


/-- The method loop of `ClassStmt::exec` over methods none of which is named
`init` leaves every callable that existed before as it was. -/
theorem ClassStmt.methods_keep_callables (name : String) (superclass_val : Option Nat)
    (prototype klass class_env : Nat) (methods : List FuncStmt)
    (hm : ∀ m ∈ methods, m.name ≠ "init") :
    ∀ (s s' : State) (u : Unit),
      forEachM (fun (_ : Unit) (method : FuncStmt) => do
        let is_init := method.name == "init"
        let func ← newCallable (.FunctionValue method.params method.body class_env is_init)
        if is_init then
          writeCallable klass (.ClassValue name superclass_val prototype (some func))
        MutableObject.set prototype method.name (.func (some func))) methods () s = .ok u s' →
      ∀ (p : Nat) (c : Callable), s.callables[p]? = some c → s'.callables[p]? = some c := by
  induction methods with
  | nil =>
    intro s s' u h p c hc
    cases h
    exact hc
  | cons m rest ih =>
    intro s s' u h p c hc
    simp only [forEachM] at h
    obtain ⟨_, t, hstep, hrest⟩ := bind_eq_ok h
    refine ih (fun m' hm' => hm m' (List.mem_cons_of_mem _ hm')) t s' u hrest p c ?_
    have hne : (m.name == "init") = false := by
      simpa using hm m (List.mem_cons_self _ _)
    simp only [hne] at hstep
    obtain ⟨func, t₁, h₁, hstep⟩ := bind_eq_ok hstep
    cases h₁
    obtain ⟨_, t₂, h₂, hstep⟩ := bind_eq_ok hstep
    simp only [Bool.false_eq_true, if_false, pure_apply] at h₂
    cases h₂
    simp only [MutableObject.set] at hstep
    obtain ⟨o, t₃, h₃, hstep⟩ := bind_eq_ok hstep
    simp only [readObject] at h₃
    split at h₃
    · cases h₃
      simp only [writeObject] at hstep
      split at hstep
      · cases hstep
        simp [List.getElem?_append_left (getElem?_lt_length _ _ _ hc), hc]
      · cases hstep
    · cases h₃

/-- A class declaration whose methods do not include `init` binds the name to
a class value without initializer. -/
theorem ClassStmt.exec_without_init (fuel : Nat) (name : String)
    (superclass : Option (String × Int)) (methods : List FuncStmt) (line : Int) (env : Nat)
    (s s' : State) (r : Option Value) (hm : ∀ m ∈ methods, m.name ≠ "init")
    (h : Stmt.exec (fuel + 1) (.Class name superclass methods line) env s = .ok r s') :
    ∃ klass sc proto, Environment.get env name s' = .ok (.func (some klass)) s'
      ∧ s'.callables[klass]? = some (.ClassValue name sc proto none) := by
  simp only [Stmt.exec] at h
  obtain ⟨sc, t₁, _, h⟩ := bind_eq_ok h
  obtain ⟨_, t₂, _, h⟩ := bind_eq_ok h
  obtain ⟨class_env, t₃, _, h⟩ := bind_eq_ok h
  have rest : ∀ (t₄ : State) (r : Option Value),
      (do
        let protoParent ← (match sc with
          | some sc => do
            match ← readCallable sc with
            | .ClassValue _ _ prototype _ => pure (some prototype)
            | _ => fault
          | none => pure none : M (Option Nat))
        let prototype ← newObject protoParent none
        let klass ← newCallable (.ClassValue name sc prototype none)
        forEachM (fun (_ : Unit) (method : FuncStmt) => do
          let is_init := method.name == "init"
          let func ← newCallable (.FunctionValue method.params method.body class_env is_init)
          if is_init then
            writeCallable klass (.ClassValue name sc prototype (some func))
          MutableObject.set prototype method.name (.func (some func))) methods ()
        let found ← Environment.assign env name (.func (some klass))
        if !found then raise (.runtime_error "Internal error: could not assign class value.")
        else pure none : M (Option Value)) t₄ = .ok r s' →
      ∃ klass sc proto, Environment.get env name s' = .ok (.func (some klass)) s'
        ∧ s'.callables[klass]? = some (.ClassValue name sc proto none) := by
    intro t₄ r h
    obtain ⟨protoParent, t₅, _, h⟩ := bind_eq_ok h
    obtain ⟨prototype, t₆, _, h⟩ := bind_eq_ok h
    obtain ⟨klass, t₇, hk, h⟩ := bind_eq_ok h
    obtain ⟨u, t₈, hloop, h⟩ := bind_eq_ok h
    obtain ⟨found, t₉, hassign, h⟩ := bind_eq_ok h
    cases hk
    have hk₇ : (t₆.callables ++ [Callable.ClassValue name sc prototype none])[t₆.callables.length]?
        = some (.ClassValue name sc prototype none) := by simp
    have hk₈ := ClassStmt.methods_keep_callables name sc prototype t₆.callables.length class_env
      methods hm _ t₈ u hloop _ _ hk₇
    cases found with
    | false => simp at h
    | true =>
      simp only [Bool.not_true, Bool.false_eq_true, if_false, pure_apply] at h
      cases h
      obtain ⟨hget, hcal, _⟩ := Environment.assign_get env name _ t₈ _ hassign
      exact ⟨_, sc, prototype, hget, by rw [hcal]; exact hk₈⟩
  split at h
  · obtain ⟨_, t₄, _, h⟩ := bind_eq_ok h
    exact rest t₄ r h
  · obtain ⟨_, t₄, _, h⟩ := bind_eq_ok h
    exact rest t₄ r h


/-- A call evaluates the callee, then the arguments from left to right, checks
the number of arguments against the arity of the callee unless that is `-1`,
and calls it; a `std::runtime_error` of the call is given the line of the call. -/
theorem Expr.eval_call (n : Nat) (callee : Expr) (args : List Expr) (line : Int) (env : Nat)
    (s s₁ s₂ : State) (func : Nat) (vals : List Value) (c : Callable) (arity : Int)
    (hcallee : Expr.eval n callee env s = .ok (.func (some func)) s₁)
    (hargs : evalAll (fun a => Expr.eval n a env) args s₁ = .ok vals s₂)
    (hc : s₂.callables[func]? = some c) (ha : c.arity s₂ = some arity) :
    Expr.eval (n + 1) (.Call callee args line) env s =
      if arity ≠ -1 ∧ (vals.length : Int) ≠ arity then
        .throw (.RuntimeError line ("Expected " ++ toString arity ++ " arguments but got " ++
          toString vals.length ++ ".")) s₂
      else
        tryCatch (Callable.call n func vals) (CallExpr.rethrow line) s₂ := by
  simp only [Expr.eval, bind_apply, hcallee, hargs, readCallable, hc, getState_apply, ha]
  by_cases h1 : arity = -1
  · simp [h1]
    rfl
  · by_cases h2 : (vals.length : Int) = arity
    · simp [h1, h2]
      rfl
    · simp [h1, h2]


/-! ## A class without initializer (C14) -/

/-- A variable reference evaluates to what the frame chain binds the name to. -/
theorem Expr.eval_var (n : Nat) (name : String) (line : Int) (env : Nat) (s : State) (v : Value)
    (h : Environment.get env name s = .ok v s) :
    Expr.eval (n + 1) (.Var name line) env s = .ok v s := by
  simp [Expr.eval, rethrowAt, tryCatch, h]

/-- C14. When a class declaration whose methods do not include `init` has
run, the name of the class is bound to a class value without initializer,
whatever the superclass is and declares.  In every state in which that class
value is called, its arity is 0; a call with one or more arguments raises the
runtime error "Expected 0 arguments but got k." after the arguments are
evaluated and calls nothing; a call without arguments returns a new object
whose parent is the prototype and whose class tag is the class, and changes
nothing else: no frame, no function value and no output is made, so no
initializer has run. -/
theorem class_without_init_takes_no_arguments (fuel : Nat) (name : String)
    (superclass : Option (String × Int)) (methods : List FuncStmt) (declLine : Int) (env : Nat)
    (s s' : State) (r : Option Value) (hm : ∀ m ∈ methods, m.name ≠ "init")
    (hdecl : Stmt.exec (fuel + 1) (.Class name superclass methods declLine) env s = .ok r s') :
    ∃ klass sc proto,
      Environment.get env name s' = .ok (.func (some klass)) s'
      ∧ s'.callables[klass]? = some (.ClassValue name sc proto none)
      ∧ ∀ (n : Nat) (callee : Expr) (args : List Expr) (line : Int) (env' : Nat)
          (t t₁ t₂ : State) (vals : List Value),
          Expr.eval (n + 1) callee env' t = .ok (.func (some klass)) t₁ →
          evalAll (fun a => Expr.eval (n + 1) a env') args t₁ = .ok vals t₂ →
          t₂.callables[klass]? = some (.ClassValue name sc proto none) →
          Callable.arity t₂ (.ClassValue name sc proto none) = some 0
          ∧ (vals ≠ [] → Expr.eval (n + 2) (.Call callee args line) env' t
              = .throw (.RuntimeError line
                  ("Expected 0 arguments but got " ++ toString vals.length ++ ".")) t₂)
          ∧ (vals = [] → Expr.eval (n + 2) (.Call callee args line) env' t
              = .ok (.object t₂.objects.length)
                  { t₂ with objects := t₂.objects ++
                      [{ fields := [], parent := some proto, klass := some klass }] }) := by
  obtain ⟨klass, sc, proto, hget, hk⟩ :=
    ClassStmt.exec_without_init fuel name superclass methods declLine env s s' r hm hdecl
  refine ⟨klass, sc, proto, hget, hk, ?_⟩
  intro n callee args line env' t t₁ t₂ vals hcallee hargs hc
  have hcall := Expr.eval_call (n + 1) callee args line env' t t₁ t₂ klass vals _ 0 hcallee hargs
    hc rfl
  refine ⟨rfl, ?_, ?_⟩
  · intro hne
    have hlen : (vals.length : Int) ≠ 0 := by
      cases vals with
      | nil => exact absurd rfl hne
      | cons a as => simp only [List.length_cons]; omega
    rw [hcall, if_pos ⟨by decide, hlen⟩]
    rfl
  · intro hnil
    subst hnil
    rw [hcall, if_neg (by simp)]
    simp [tryCatch, Callable.call, bind_apply, readCallable, hc, newObject]

/-- The state `afterClassA` is the one that the declaration of `A` leaves. -/
theorem Example.afterClassA_spec :
    (Stmt.exec 5 Example.classA 0 Example.bareState).state? = some Example.afterClassA := by
  decide!

/-- Witness of `class_without_init_takes_no_arguments`: after
`class A { func init(x) { this.x = x; } func get() { return this.x; } }`, the
declaration `class B extends A { func get() { return super.get() + 1; } }`
binds `B` to a class without initializer; `B(5)` raises the arity error and
`B()` returns a new object without running the `init` of `A`. -/
theorem class_without_init_takes_no_arguments_witness :
    (∀ m ∈ [Example.getPlusOne], m.name ≠ "init")
    ∧ Stmt.exec 6 Example.classB 0 Example.afterClassA = .ok none Example.afterClassB
    ∧ ∃ klass sc proto,
        Example.afterClassB.callables[klass]? = some (.ClassValue "B" sc proto none)
        ∧ Expr.eval 3 (.Call (.Var "B" 1) [.Literal (.int 5) 1] 1) 0 Example.afterClassB
          = .throw (.RuntimeError 1 ("Expected 0 arguments but got " ++ toString 1 ++ "."))
              Example.afterClassB
        ∧ Expr.eval 3 (.Call (.Var "B" 1) [] 1) 0 Example.afterClassB
          = .ok (.object 2)
              { Example.afterClassB with objects := Example.afterClassB.objects ++
                  [{ fields := [], parent := some proto, klass := some klass }] } := by
  have hm : ∀ m ∈ [Example.getPlusOne], m.name ≠ "init" := by
    intro m h
    rw [List.mem_singleton.1 h]
    decide
  have hdecl : Stmt.exec 6 Example.classB 0 Example.afterClassA = .ok none Example.afterClassB := by
    decide!
  refine ⟨hm, hdecl, ?_⟩
  obtain ⟨klass, sc, proto, hget, hk, hcalls⟩ :=
    class_without_init_takes_no_arguments 5 "B" (some ("A", 1)) [Example.getPlusOne] 1 0
      Example.afterClassA Example.afterClassB none hm hdecl
  have hvar := Expr.eval_var 1 "B" 1 0 _ _ hget
  refine ⟨klass, sc, proto, hk, ?_, ?_⟩
  · exact (hcalls 1 (.Var "B" 1) [.Literal (.int 5) 1] 1 0 Example.afterClassB
      Example.afterClassB Example.afterClassB [.int 5] hvar rfl hk).2.1 (by simp)
  · exact (hcalls 1 (.Var "B" 1) [] 1 0 Example.afterClassB Example.afterClassB
      Example.afterClassB [] hvar rfl hk).2.2 rfl

/-! ## Return (C15) -/

/-- C15. A call of a user-defined function that is not an initializer and
whose arguments are bound without error returns the value that the body
returns, in the state the body leaves, and `nil` when the body completes
without returning.  A `return` statement returns the value of its expression,
`nil` without one.  A value returned by a statement leaves every enclosing
construct at once, in the state in which the `return` was executed: a block
returns it whatever statements follow, an `if` returns what its branch
returns, and a `while`, `for` or `foreach` loop whose body returns it returns
it without testing the condition, evaluating the increment or fetching an
element again. -/
theorem call_returns_first_return (fuel : Nat) (func : Nat) (args : List Value) (s s₁ : State)
    (params : List ParamInfo) (body : BlockStmt) (closure : Nat)
    (hc : s.callables[func]? = some (.FunctionValue params body closure false))
    (hb : bindParams s.envs.length params args
        { s with envs := s.envs ++ [{ vars := [], parent := some closure }] } = .ok () s₁) :
    (∀ v s₂, Stmt.exec fuel (.Block body) s.envs.length s₁ = .ok (some v) s₂ →
        Callable.call (fuel + 1) func args s = .ok v s₂)
    ∧ (∀ s₂, Stmt.exec fuel (.Block body) s.envs.length s₁ = .ok none s₂ →
        Callable.call (fuel + 1) func args s = .ok .nil s₂)
    ∧ (∀ line env t, Stmt.exec (fuel + 1) (.Return none line) env t = .ok (some .nil) t)
    ∧ (∀ e line env t v t', Expr.eval fuel e env t = .ok v t' →
        Stmt.exec (fuel + 1) (.Return (some e) line) env t = .ok (some v) t')
    ∧ (∀ pre st post line env t t₁ v t₂,
        execStatements (fun x => Stmt.exec fuel x t.envs.length) pre
          { t with envs := t.envs ++ [{ vars := [], parent := some env }] } = .ok none t₁ →
        Stmt.exec fuel st t.envs.length t₁ = .ok (some v) t₂ →
        Stmt.exec (fuel + 1) (.Block (.mk (pre ++ some st :: post) line)) env t
          = .ok (some v) t₂)
    ∧ (∀ cond thenBranch elseBranch line env t c t₁ v t₂,
        Expr.eval fuel cond env t = .ok c t₁ → c.toBool t₁ = true →
        Stmt.exec fuel thenBranch env t₁ = .ok (some v) t₂ →
        Stmt.exec (fuel + 1) (.If cond thenBranch elseBranch line) env t = .ok (some v) t₂)
    ∧ (∀ cond thenBranch elseBranch line env t c t₁ v t₂,
        Expr.eval fuel cond env t = .ok c t₁ → c.toBool t₁ = false →
        Stmt.exec fuel elseBranch env t₁ = .ok (some v) t₂ →
        Stmt.exec (fuel + 1) (.If cond thenBranch (some elseBranch) line) env t
          = .ok (some v) t₂)
    ∧ (∀ (m : M (Option Value)) t v t', m t = .ok (some v) t' →
        loopBody m t = .ok (.ret v) t')
    ∧ (∀ cond body line env t c t₁ v t₂,
        Expr.eval fuel cond env t = .ok c t₁ → c.toBool t₁ = true →
        Stmt.exec fuel body env t₁ = .ok (some v) t₂ →
        Stmt.exec (fuel + 2) (.While cond body line) env t = .ok (some v) t₂)
    ∧ (∀ cond increment body loopEnv t c t₁ v t₂,
        Expr.eval fuel cond loopEnv t = .ok c t₁ → c.toBool t₁ = true →
        Stmt.exec fuel body loopEnv t₁ = .ok (some v) t₂ →
        ForStmt.loop (fuel + 1) (some cond) increment body loopEnv t = .ok (some v) t₂)
    ∧ (∀ increment body loopEnv t v t₂,
        Stmt.exec fuel body loopEnv t = .ok (some v) t₂ →
        ForStmt.loop (fuel + 1) none increment body loopEnv t = .ok (some v) t₂)
    ∧ (∀ (iter_body : Value → M LoopStep) (fetch : M Value) (rest : List (M Value))
        t element t₁ v t₂,
        fetch t = .ok element t₁ → iter_body element t₁ = .ok (.ret v) t₂ →
        forEachElements iter_body (fetch :: rest) t = .ok (some v) t₂) := by
  have hloop : ∀ (m : M (Option Value)) t v t', m t = .ok (some v) t' →
      loopBody m t = .ok (.ret v) t' := by
    intro m t v t' h
    simp [loopBody, tryCatch, bind_apply, h]
  refine ⟨?_, ?_, ?_, ?_, ?_, ?_, ?_, hloop, ?_, ?_, ?_, ?_⟩
  · intro v s₂ h
    simp [Callable.call, bind_apply, readCallable, hc, newEnvironment, hb, tryCatch, h]
  · intro s₂ h
    simp [Callable.call, bind_apply, readCallable, hc, newEnvironment, hb, tryCatch, h]
  · intro line env t
    simp [Stmt.exec]
  · intro e line env t v t' h
    simp [Stmt.exec, bind_apply, h]
  · intro pre st post line env t t₁ v t₂ hpre hst
    simp only [Stmt.exec, bind_apply, newEnvironment, BlockStmt.statements]
    revert hpre
    generalize ({ t with envs := t.envs ++ [{ vars := [], parent := some env }] } : State) = u
    induction pre generalizing u with
    | nil =>
      intro hpre
      cases hpre
      simp [execStatements, bind_apply, hst]
    | cons a rest ih =>
      intro hpre
      cases a with
      | none =>
        simp only [execStatements] at hpre
        simpa [execStatements] using ih u hpre
      | some x =>
        simp only [execStatements] at hpre
        obtain ⟨r, u', hx, hrest⟩ := bind_eq_ok hpre
        cases r with
        | some w => cases hrest
        | none =>
          simp only [List.cons_append, execStatements, bind_apply, hx]
          exact ih u' hrest
  · intro cond thenBranch elseBranch line env t c t₁ v t₂ hc' htrue h
    simp [Stmt.exec, bind_apply, hc', htrue, h]
  · intro cond thenBranch elseBranch line env t c t₁ v t₂ hc' hfalse h
    simp [Stmt.exec, bind_apply, hc', hfalse, h]
  · intro cond body line env t c t₁ v t₂ hc' htrue h
    have hb' := hloop (Stmt.exec fuel body env) t₁ v t₂ h
    simp [Stmt.exec, WhileStmt.loop, bind_apply, hc', htrue, hb']
  · intro cond increment body loopEnv t c t₁ v t₂ hc' htrue h
    have hb' := hloop (Stmt.exec fuel body loopEnv) t₁ v t₂ h
    simp [ForStmt.loop, bind_apply, hc', htrue, hb']
  · intro increment body loopEnv t v t₂ h
    have hb' := hloop (Stmt.exec fuel body loopEnv) t v t₂ h
    simp [ForStmt.loop, bind_apply, hb']
  · intro iter_body fetch rest t element t₁ v t₂ hf hi
    simp [forEachElements, bind_apply, hf, hi]

/-- Witness of `call_returns_first_return`: a function whose body is
`{ while (true) { if (true) { return 1; print(8); } print(9); } print(7); return 2; }`
returns `1` and prints nothing. -/
theorem call_returns_first_return_witness :
    Example.returnInsideLoopState.callables[9]?
        = some (.FunctionValue [] Example.returnInsideLoop 0 false)
    ∧ ∃ s₂, Callable.call 10 9 [] Example.returnInsideLoopState = .ok (.int 1) s₂
        ∧ s₂.output = [] := by
  refine ⟨by decide!, _, (call_returns_first_return 9 9 [] Example.returnInsideLoopState
      { Example.returnInsideLoopState with
        envs := Example.returnInsideLoopState.envs ++ [{ vars := [], parent := some 0 }] }
      [] Example.returnInsideLoop 0 (by decide!) (by decide!)).1 (.int 1)
      ((Stmt.exec 9 (.Block Example.returnInsideLoop) 1
        { Example.returnInsideLoopState with
          envs := Example.returnInsideLoopState.envs ++
            [{ vars := [], parent := some 0 }] }).state?.getD Interpreter.initial)
      (by decide!), by decide!⟩

/-! ## Arity and parameter types (C16) -/

/-- The result of `check_type` depends on the state only through the objects. -/
theorem check_type_congr (s s' : State) (h : s'.objects = s.objects) (t : TokenType)
    (v : Value) : check_type s' t v = check_type s t v := by
  unfold check_type get_value_type_token
  cases v <;> simp only [h]

/-- Storing back the element a list holds at an index leaves the list as it is. -/
theorem set_getElem?_eq_self {α : Type} (l : List α) (i : Nat) (a : α) (h : l[i]? = some a) :
    l.set i a = l := by
  apply List.ext_getElem?
  intro j
  by_cases hij : i = j
  · subst hij
    rw [List.getElem?_set_self (getElem?_lt_length _ _ _ h), h]
  · rw [List.getElem?_set_ne hij]

/-- When an argument fails the declared type of its parameter, the parameter
loop of `FunctionValue::call` throws at the first such parameter, having
changed nothing but the frame it binds the earlier parameters in. -/
theorem bindParams_mismatch (env : Nat) :
    ∀ (params : List ParamInfo) (args : List Value) (s : State) (e : Environment),
      s.envs[env]? = some e → args.length = params.length →
      (∃ (i : Nat) (p : ParamInfo) (a : Value) (t : TokenType), params[i]? = some p ∧ args[i]? = some a ∧ p.type = some t
        ∧ check_type s t a = false) →
      ∃ name e', bindParams env params args s
          = .throw (.runtime_error ("Argument type mismatch for parameter '" ++ name ++ "'."))
              { s with envs := s.envs.set env e' }
        ∧ e'.parent = e.parent := by
  intro params
  induction params with
  | nil =>
    intro args s e _ _ hfail
    obtain ⟨i, p, a, t, hp, _⟩ := hfail
    simp at hp
  | cons p ps ih =>
    intro args s e he hlen hfail
    have hlt : env < s.envs.length := getElem?_lt_length _ _ _ he
    cases args with
    | nil => simp at hlen
    | cons a as =>
      simp only [List.length_cons, Nat.add_right_cancel_iff] at hlen
      have hself : s = { s with envs := s.envs.set env e } := by
        cases s
        simp only [State.mk.injEq, and_true, true_and]
        exact (set_getElem?_eq_self _ _ _ he).symm
      cases hty : p.type with
      | some t =>
        by_cases hck : check_type s t a = true
        · -- this parameter passes: the failure is further on
          obtain ⟨i, p', a', t', hp, ha, hpt, hcheck⟩ := hfail
          cases i with
          | zero =>
            simp only [List.getElem?_cons_zero, Option.some.injEq] at hp ha
            subst hp ha
            rw [hty] at hpt
            cases hpt
            rw [hck] at hcheck
            cases hcheck
          | succ j =>
            simp only [List.getElem?_cons_succ] at hp ha
            let e₁ : Environment :=
              { e with vars := e.vars.insert p.name ({ value := a, static_type := none }) }
            have hstep : Environment.define env p.name a none s
                = .ok () { s with envs := s.envs.set env e₁ } := by
              simp [Environment.define, bind_apply, readEnv, he, writeEnv, hlt, e₁]
            obtain ⟨name, e', hrec, hpar⟩ := ih as { s with envs := s.envs.set env e₁ } e₁
              (by simp [List.getElem?_set_self hlt]) hlen
              ⟨j, p', a', t', hp, ha, hpt,
                (check_type_congr s { s with envs := s.envs.set env e₁ } rfl t' a').trans hcheck⟩
            refine ⟨name, e', ?_, hpar⟩
            simp [bindParams, hty, bind_apply, hck, hstep, hrec]
        · refine ⟨p.name, e, ?_, rfl⟩
          have hck' : check_type s t a = false := by simpa using hck
          rw [← hself]
          simp [bindParams, hty, bind_apply, hck']
      | none =>
        obtain ⟨i, p', a', t', hp, ha, hpt, hcheck⟩ := hfail
        cases i with
        | zero =>
          simp only [List.getElem?_cons_zero, Option.some.injEq] at hp
          subst hp
          rw [hty] at hpt
          cases hpt
        | succ j =>
          simp only [List.getElem?_cons_succ] at hp ha
          let e₁ : Environment :=
            { e with vars := e.vars.insert p.name ({ value := a, static_type := none }) }
          have hstep : Environment.define env p.name a none s
              = .ok () { s with envs := s.envs.set env e₁ } := by
            simp [Environment.define, bind_apply, readEnv, he, writeEnv, hlt, e₁]
          obtain ⟨name, e', hrec, hpar⟩ := ih as { s with envs := s.envs.set env e₁ } e₁
            (by simp [List.getElem?_set_self hlt]) hlen
            ⟨j, p', a', t', hp, ha, hpt,
                (check_type_congr s { s with envs := s.envs.set env e₁ } rfl t' a').trans hcheck⟩
          refine ⟨name, e', ?_, hpar⟩
          simp [bindParams, hty, bind_apply, hstep, hrec]

/-- C16. A call expression whose callee evaluates to a callable of arity
`arity` and whose arguments evaluate to `vals`: when the arity is not `-1` and
differs from the number of arguments, the call raises the runtime error
"Expected arity arguments but got k." in the state the arguments left, the
callee not being called; otherwise the callee is called with the arguments.
When the callee is a user-defined function and an argument fails `check_type`
against the declared type of its parameter, the call raises the runtime error
"Argument type mismatch for parameter 'name'." and the state differs from the
one the arguments left only by the frame made for the call: no statement of
the body has run. -/
theorem call_checks_arity_and_types (n : Nat) (callee : Expr) (args : List Expr) (line : Int)
    (env : Nat) (s s₁ s₂ : State) (func : Nat) (vals : List Value) (c : Callable) (arity : Int)
    (hcallee : Expr.eval (n + 1) callee env s = .ok (.func (some func)) s₁)
    (hargs : evalAll (fun a => Expr.eval (n + 1) a env) args s₁ = .ok vals s₂)
    (hc : s₂.callables[func]? = some c) (ha : c.arity s₂ = some arity) :
    (arity ≠ -1 → (vals.length : Int) ≠ arity →
      Expr.eval (n + 2) (.Call callee args line) env s
        = .throw (.RuntimeError line ("Expected " ++ toString arity ++ " arguments but got " ++
            toString vals.length ++ ".")) s₂)
    ∧ ((arity = -1 ∨ (vals.length : Int) = arity) →
      Expr.eval (n + 2) (.Call callee args line) env s
        = tryCatch (Callable.call (n + 1) func vals) (CallExpr.rethrow line) s₂)
    ∧ (∀ params body closure isInit, c = .FunctionValue params body closure isInit →
        (∃ (i : Nat) (p : ParamInfo) (a : Value) (t : TokenType), params[i]? = some p ∧ vals[i]? = some a ∧ p.type = some t
          ∧ check_type s₂ t a = false) →
        (vals.length : Int) = arity →
        ∃ name frame, Expr.eval (n + 2) (.Call callee args line) env s
            = .throw (.RuntimeError line
                ("Argument type mismatch for parameter '" ++ name ++ "'."))
                { s₂ with envs := s₂.envs ++ [frame] }
          ∧ frame.parent = some closure) := by
  have hcall := Expr.eval_call (n + 1) callee args line env s s₁ s₂ func vals c arity hcallee
    hargs hc ha
  refine ⟨?_, ?_, ?_⟩
  · intro h1 h2
    rw [hcall, if_pos ⟨h1, h2⟩]
  · intro h
    rw [hcall, if_neg (by intro ⟨h1, h2⟩; rcases h with h | h <;> contradiction)]
  · intro params body closure isInit hfn hfail hlen
    subst hfn
    simp only [Callable.arity, Option.some.injEq] at ha
    have hlen' : vals.length = params.length := by omega
    rw [hcall, if_neg (by intro ⟨_, h2⟩; exact h2 hlen)]
    obtain ⟨name, e', hbind, hpar⟩ := bindParams_mismatch s₂.envs.length params vals
      { s₂ with envs := s₂.envs ++ [{ vars := [], parent := some closure }] }
      { vars := [], parent := some closure } (by simp) hlen'
      (by
        obtain ⟨i, p, a, t, h1, h2, h3, h4⟩ := hfail
        exact ⟨i, p, a, t, h1, h2, h3, (check_type_congr s₂
          { s₂ with envs := s₂.envs ++ [{ vars := [], parent := some closure }] } rfl t a).trans
          h4⟩)
    refine ⟨name, e', ?_, hpar⟩
    simp [tryCatch, Callable.call, bind_apply, readCallable, hc, newEnvironment, hbind,
      set_length_append_singleton, CallExpr.rethrow]

/-- Witness of `call_checks_arity_and_types`: with `func f(int x) { print(x); }`,
the call `f()` raises the arity error, and the call `f("a")` raises the type
error of the parameter `x` and prints nothing. -/
theorem call_checks_arity_and_types_witness :
    Expr.eval 2 (.Var "f" 1) 0 Example.typedParamState
        = .ok (.func (some 9)) Example.typedParamState
    ∧ Expr.eval 3 (.Call (.Var "f" 1) [] 1) 0 Example.typedParamState
        = .throw (.RuntimeError 1 ("Expected " ++ toString (1 : Int) ++ " arguments but got " ++
            toString 0 ++ ".")) Example.typedParamState
    ∧ ∃ name frame, Expr.eval 3 (.Call (.Var "f" 1) [.Literal (.str "a") 1] 1) 0
          Example.typedParamState
        = .throw (.RuntimeError 1 ("Argument type mismatch for parameter '" ++ name ++ "'."))
            { Example.typedParamState with envs := Example.typedParamState.envs ++ [frame] }
      ∧ frame.parent = some 0 :=
  ⟨by decide!,
   (call_checks_arity_and_types 1 (.Var "f" 1) [] 1 0 Example.typedParamState
      Example.typedParamState Example.typedParamState 9 []
      (.FunctionValue [⟨"x", some .INT⟩] Example.printX 0 false) 1
      (by decide!) (by decide!) (by decide!) (by decide!)).1 (by decide) (by decide),
   (call_checks_arity_and_types 1 (.Var "f" 1) [.Literal (.str "a") 1] 1 0
      Example.typedParamState Example.typedParamState Example.typedParamState 9 [.str "a"]
      (.FunctionValue [⟨"x", some .INT⟩] Example.printX 0 false) 1
      (by decide!) (by decide!) (by decide!) (by decide!)).2.2 _ _ _ _ rfl
      ⟨0, ⟨"x", some .INT⟩, .str "a", .INT, rfl, rfl, rfl, by decide!⟩ (by decide)⟩

/-! ## Continue in a for loop (C17) -/

/-- C17. In a `for` loop with an increment clause, a pass whose body raises
`continue` is followed by one evaluation of the increment, in the state the
body left, and then by the rest of the loop, which starts with the test of
the condition: the loop from the state before the pass is the loop from the
state after the increment.  This holds with a condition that evaluated to a
true value and without a condition.  The program
`for (var i = 0; i < 3; i = i + 1) { if (i == 1) continue; print(i); }` prints
`0`, then `2`, and ends, with every budget of at least 20. -/
theorem for_continue_runs_increment (fuel : Nat) (c inc : Expr) (body : Stmt) (loopEnv : Nat)
    (t t₁ t₂ t₃ : State) (v w : Value) (k : Nat)
    (hc : Expr.eval fuel c loopEnv t = .ok v t₁) (htrue : v.toBool t₁ = true)
    (hbody : Stmt.exec fuel body loopEnv t₁ = .throw .ContinueSignal t₂)
    (hinc : Expr.eval fuel inc loopEnv t₂ = .ok w t₃) :
    ForStmt.loop (fuel + 1) (some c) (some inc) body loopEnv t
      = ForStmt.loop fuel (some c) (some inc) body loopEnv t₃
    ∧ ForStmt.loop (fuel + 1) none (some inc) body loopEnv t₁
      = ForStmt.loop fuel none (some inc) body loopEnv t₃
    ∧ (Interpreter.evalAfter (20 + k) [some Example.forWithContinue] (.Literal .nil 1)).value?
      = some .nil
    ∧ ((Interpreter.evalAfter (20 + k) [some Example.forWithContinue]
        (.Literal .nil 1)).state?.map fun s => s.output) = some [[.int 0], [.int 2]] := by
  have hloop : loopBody (Stmt.exec fuel body loopEnv) t₁ = .ok .next t₂ := by
    simp [loopBody, tryCatch, bind_apply, hbody]
  have h₁ : (Interpreter.evalAfter 20 [some Example.forWithContinue] (.Literal .nil 1)).value?
      = some .nil := by decide!
  refine ⟨?_, ?_, (Interpreter.value_stable 20 _ _ _ h₁).1 k, ?_⟩
  · simp [ForStmt.loop, bind_apply, hc, htrue, hloop, hinc]
  · simp [ForStmt.loop, bind_apply, hloop, hinc]
  · rw [Interpreter.evalAfter_add 20 k _ _ (Res.ne_outOfFuel_of_value h₁)]
    decide!

/-- Witness of `for_continue_runs_increment`: the loop
`for (; i < 3; i = i + 1) continue;` started with `i = 1` goes on as the loop
started with `i = 2`. -/
theorem for_continue_runs_increment_witness :
    Stmt.exec 3 (.Continue 1) 0 (Example.counterState 1)
        = .throw .ContinueSignal (Example.counterState 1)
    ∧ Expr.eval 3 Example.incrementI 0 (Example.counterState 1)
        = .ok (.int 2) (Example.counterState 2)
    ∧ ForStmt.loop 4 (some (.Binary .LT (.Var "i" 1) (.Literal (.int 3) 1) 1))
        (some Example.incrementI) (.Continue 1) 0 (Example.counterState 1)
      = ForStmt.loop 3 (some (.Binary .LT (.Var "i" 1) (.Literal (.int 3) 1) 1))
        (some Example.incrementI) (.Continue 1) 0 (Example.counterState 2) :=
  ⟨by decide!, by decide!,
   (for_continue_runs_increment 3 (.Binary .LT (.Var "i" 1) (.Literal (.int 3) 1) 1)
      Example.incrementI (.Continue 1) 0 (Example.counterState 1) (Example.counterState 1)
      (Example.counterState 1) (Example.counterState 2) (.bool true) (.int 2) 0
      (by decide!) (by decide!) (by decide!) (by decide!)).1⟩

/-! ## No signal escapes an expression, a loop or a call

`BreakSignal` and `ContinueSignal` are thrown by the `break` and `continue`
statements only; the loops catch them around their body and
`FunctionValue::call` around the body of the function. -/

namespace M.NoSignal

instance noSignal_pure {α : Type} (a : α) : (pure a : M α).NoSignal :=
  ⟨fun s e t h => by cases h⟩

instance noSignal_fault {α : Type} : (fault : M α).NoSignal :=
  ⟨fun s e t h => by cases h⟩

instance noSignal_outOfFuel {α : Type} : (outOfFuel : M α).NoSignal :=
  ⟨fun s e t h => by cases h⟩

instance noSignal_getState : getState.NoSignal :=
  ⟨fun s e t h => by cases h⟩

instance noSignal_modifyState (f : State → State) : (modifyState f).NoSignal :=
  ⟨fun s e t h => by cases h⟩

theorem noSignal_raise_of {α : Type} {e : Exn} (he : e.isSignal = false) :
    (raise e : M α).NoSignal :=
  ⟨fun s e' t h => by cases h; exact he⟩

theorem noSignal_raise_other {α : Type} {e : Exn} (hb : e = .BreakSignal → False)
    (hc : e = .ContinueSignal → False) : (raise e : M α).NoSignal :=
  noSignal_raise_of (by
    cases e with
    | BreakSignal => exact absurd rfl hb
    | ContinueSignal => exact absurd rfl hc
    | _ => rfl)

instance noSignal_raise_RuntimeError {α : Type} (line : Int) (message : String) :
    (raise (.RuntimeError line message) : M α).NoSignal := noSignal_raise_of rfl

instance noSignal_raise_runtime_error {α : Type} (message : String) :
    (raise (.runtime_error message) : M α).NoSignal := noSignal_raise_of rfl

instance noSignal_raise_std {α : Type} (message : String) :
    (raise (.other message) : M α).NoSignal := noSignal_raise_of rfl

theorem noSignal_bind {α β : Type} {m : M α} {f : α → M β} (hm : m.NoSignal)
    (hf : ∀ a, (f a).NoSignal) : (m >>= f).NoSignal := by
  refine ⟨fun s e t h => ?_⟩
  rw [bind_apply] at h
  cases hr : m s with
  | ok a u =>
    rw [hr] at h
    exact (hf a).quiet u e t h
  | throw e' u =>
    rw [hr] at h
    cases h
    exact hm.quiet s _ _ hr
  | fault u => rw [hr] at h; cases h
  | outOfFuel => rw [hr] at h; cases h

instance noSignal_bind_inst {α β : Type} {m : M α} {f : α → M β} [hm : m.NoSignal]
    [hf : ∀ a, (f a).NoSignal] : (m >>= f).NoSignal := noSignal_bind hm hf

/-- A `try` whose block throws no signal and whose handlers throw none for an
exception that is none. -/
theorem noSignal_tryCatch {α : Type} {m : M α} {h : Exn → M α} (hm : m.NoSignal)
    (hh : ∀ e, e.isSignal = false → (h e).NoSignal) : (tryCatch m h).NoSignal := by
  refine ⟨fun s e t hs => ?_⟩
  unfold tryCatch at hs
  cases hr : m s with
  | ok a u => rw [hr] at hs; cases hs
  | throw e' u =>
    rw [hr] at hs
    exact (hh e' (hm.quiet s _ _ hr)).quiet u e t hs
  | fault u => rw [hr] at hs; cases hs
  | outOfFuel => rw [hr] at hs; cases hs

/-- A `try` whose handlers throw no signal, whatever the block throws. -/
theorem noSignal_tryCatch_total {α : Type} {m : M α} {h : Exn → M α}
    (hh : ∀ e, (h e).NoSignal) : (tryCatch m h).NoSignal := by
  refine ⟨fun s e t hs => ?_⟩
  unfold tryCatch at hs
  cases hr : m s with
  | ok a u => rw [hr] at hs; cases hs
  | throw e' u =>
    rw [hr] at hs
    exact (hh e').quiet u e t hs
  | fault u => rw [hr] at hs; cases hs
  | outOfFuel => rw [hr] at hs; cases hs

instance noSignal_ite {α : Type} (c : Prop) [Decidable c] {a b : M α} [ha : a.NoSignal]
    [hb : b.NoSignal] : (if c then a else b).NoSignal := by
  split
  · exact ha
  · exact hb

instance noSignal_newEnvironment (parent : Option Nat) : (newEnvironment parent).NoSignal :=
  ⟨fun s e t h => by cases h⟩

instance noSignal_newArray (elements : List Value) : (newArray elements).NoSignal :=
  ⟨fun s e t h => by cases h⟩

instance noSignal_newDict (pairs : StrMap Value) : (newDict pairs).NoSignal :=
  ⟨fun s e t h => by cases h⟩

instance noSignal_newCallable (c : Callable) : (newCallable c).NoSignal :=
  ⟨fun s e t h => by cases h⟩

instance noSignal_newObject (parent klass : Option Nat) : (newObject parent klass).NoSignal :=
  ⟨fun s e t h => by cases h⟩

instance noSignal_readArray (p : Nat) : (readArray p).NoSignal := by
  refine ⟨fun s e t h => ?_⟩
  unfold readArray at h
  repeat' split at h
  all_goals cases h

instance noSignal_readDict (p : Nat) : (readDict p).NoSignal := by
  refine ⟨fun s e t h => ?_⟩
  unfold readDict at h
  repeat' split at h
  all_goals cases h

instance noSignal_readObject (p : Nat) : (readObject p).NoSignal := by
  refine ⟨fun s e t h => ?_⟩
  unfold readObject at h
  repeat' split at h
  all_goals cases h

instance noSignal_readCallable (p : Nat) : (readCallable p).NoSignal := by
  refine ⟨fun s e t h => ?_⟩
  unfold readCallable at h
  repeat' split at h
  all_goals cases h

instance noSignal_readEnv (p : Nat) : (readEnv p).NoSignal := by
  refine ⟨fun s e t h => ?_⟩
  unfold readEnv at h
  repeat' split at h
  all_goals cases h

instance noSignal_writeArray (p : Nat) (elements : List Value) : (writeArray p elements).NoSignal := by
  refine ⟨fun s e t h => ?_⟩
  unfold writeArray at h
  repeat' split at h
  all_goals cases h

instance noSignal_writeDict (p : Nat) (pairs : StrMap Value) : (writeDict p pairs).NoSignal := by
  refine ⟨fun s e t h => ?_⟩
  unfold writeDict at h
  repeat' split at h
  all_goals cases h

instance noSignal_writeObject (p : Nat) (o : MutableObject) : (writeObject p o).NoSignal := by
  refine ⟨fun s e t h => ?_⟩
  unfold writeObject at h
  repeat' split at h
  all_goals cases h

instance noSignal_writeCallable (p : Nat) (c : Callable) : (writeCallable p c).NoSignal := by
  refine ⟨fun s e t h => ?_⟩
  unfold writeCallable at h
  repeat' split at h
  all_goals cases h

instance noSignal_writeEnv (p : Nat) (e : Environment) : (writeEnv p e).NoSignal := by
  refine ⟨fun s e t h => ?_⟩
  unfold writeEnv at h
  repeat' split at h
  all_goals cases h

instance noSignal_get (obj : Nat) (name : String) : (MutableObject.get obj name).NoSignal := by
  refine ⟨fun s e t h => ?_⟩
  unfold MutableObject.get at h
  repeat' split at h
  all_goals (cases h <;> rfl)

instance noSignal_has (obj : Nat) (name : String) : (MutableObject.has obj name).NoSignal := by
  refine ⟨fun s e t h => ?_⟩
  unfold MutableObject.has at h
  repeat' split at h
  all_goals cases h

instance noSignal_getRef (env : Nat) (name : String) : (Environment.getRef env name).NoSignal := by
  refine ⟨fun s e t h => ?_⟩
  unfold Environment.getRef at h
  repeat' split at h
  all_goals (cases h <;> rfl)

instance noSignal_assign (env : Nat) (name : String) (value : Value) :
    (Environment.assign env name value).NoSignal := by
  refine ⟨fun s e t h => ?_⟩
  unfold Environment.assign at h
  repeat' split at h
  all_goals (cases h <;> rfl)

instance noSignal_argAt (args : List Value) (i : Nat) : (argAt args i).NoSignal := by
  unfold argAt
  repeat (first
    | infer_instance
    | exact noSignal_raise_of ‹_›
    | with_reducible refine noSignal_bind ?_ (fun _ => ?_)
    | with_reducible refine noSignal_tryCatch ?_ (fun _ _ => ?_)
    | split)

instance noSignal_set (obj : Nat) (name : String) (value : Value) :
    (MutableObject.set obj name value).NoSignal := by
  unfold MutableObject.set
  repeat (first
    | infer_instance
    | exact noSignal_raise_of ‹_›
    | with_reducible refine noSignal_bind ?_ (fun _ => ?_)
    | with_reducible refine noSignal_tryCatch ?_ (fun _ _ => ?_)
    | split)

instance noSignal_define (env : Nat) (name : String) (value : Value) (type : Option TokenType) :
    (Environment.define env name value type).NoSignal := by
  unfold Environment.define
  repeat (first
    | infer_instance
    | exact noSignal_raise_of ‹_›
    | with_reducible refine noSignal_bind ?_ (fun _ => ?_)
    | with_reducible refine noSignal_tryCatch ?_ (fun _ _ => ?_)
    | split)

instance noSignal_envGet (env : Nat) (name : String) : (Environment.get env name).NoSignal := by
  unfold Environment.get
  repeat (first
    | infer_instance
    | exact noSignal_raise_of ‹_›
    | with_reducible refine noSignal_bind ?_ (fun _ => ?_)
    | with_reducible refine noSignal_tryCatch ?_ (fun _ _ => ?_)
    | split)

instance noSignal_getThis (env : Nat) (name : String) (line : Int) :
    (Environment.getThis env name line).NoSignal := by
  unfold Environment.getThis
  repeat (first
    | infer_instance
    | exact noSignal_raise_of ‹_›
    | with_reducible refine noSignal_bind ?_ (fun _ => ?_)
    | with_reducible refine noSignal_tryCatch ?_ (fun _ _ => ?_)
    | split)

instance noSignal_rethrowAt {α : Type} (line : Int) {m : M α} [hm : m.NoSignal] :
    (rethrowAt line m).NoSignal := by
  unfold rethrowAt
  repeat (first
    | infer_instance
    | exact noSignal_raise_of ‹_›
    | with_reducible refine noSignal_bind ?_ (fun _ => ?_)
    | with_reducible refine noSignal_tryCatch ?_ (fun _ _ => ?_)
    | split)

instance noSignal_functionBind (func instance_ : Nat) :
    (FunctionValue.bind func instance_).NoSignal := by
  unfold FunctionValue.bind
  repeat (first
    | infer_instance
    | exact noSignal_raise_of ‹_›
    | with_reducible refine noSignal_bind ?_ (fun _ => ?_)
    | with_reducible refine noSignal_tryCatch ?_ (fun _ _ => ?_)
    | split)

instance noSignal_intOp (op : TokenType) (line : Int) (l r : Int) :
    (BinaryExpr.intOp op line l r).NoSignal := by
  unfold BinaryExpr.intOp
  repeat (first
    | infer_instance
    | exact noSignal_raise_of ‹_›
    | with_reducible refine noSignal_bind ?_ (fun _ => ?_)
    | with_reducible refine noSignal_tryCatch ?_ (fun _ _ => ?_)
    | split)

instance noSignal_doubleOp (op : TokenType) (line : Int) (l r : Double) :
    (BinaryExpr.apply_double_op op line l r).NoSignal := by
  unfold BinaryExpr.apply_double_op
  repeat (first
    | infer_instance
    | exact noSignal_raise_of ‹_›
    | with_reducible refine noSignal_bind ?_ (fun _ => ?_)
    | with_reducible refine noSignal_tryCatch ?_ (fun _ _ => ?_)
    | split)

instance noSignal_binaryApply (op : TokenType) (line : Int) (l r : Value) :
    (BinaryExpr.apply op line l r).NoSignal := by
  unfold BinaryExpr.apply
  repeat (first
    | infer_instance
    | exact noSignal_raise_of ‹_›
    | with_reducible refine noSignal_bind ?_ (fun _ => ?_)
    | with_reducible refine noSignal_tryCatch ?_ (fun _ _ => ?_)
    | split)

instance noSignal_unaryApply (op : TokenType) (line : Int) (v : Value) :
    (UnaryExpr.apply op line v).NoSignal := by
  unfold UnaryExpr.apply
  repeat (first
    | infer_instance
    | exact noSignal_raise_of ‹_›
    | with_reducible refine noSignal_bind ?_ (fun _ => ?_)
    | with_reducible refine noSignal_tryCatch ?_ (fun _ _ => ?_)
    | split)

instance noSignal_slotRead (ref : SlotRef) : ref.read.NoSignal := by
  unfold SlotRef.read
  repeat (first
    | infer_instance
    | exact noSignal_raise_of ‹_›
    | with_reducible refine noSignal_bind ?_ (fun _ => ?_)
    | with_reducible refine noSignal_tryCatch ?_ (fun _ _ => ?_)
    | split)

instance noSignal_slotWrite (ref : SlotRef) (v : Value) : (ref.write v).NoSignal := by
  unfold SlotRef.write
  repeat (first
    | infer_instance
    | exact noSignal_raise_of ‹_›
    | with_reducible refine noSignal_bind ?_ (fun _ => ?_)
    | with_reducible refine noSignal_tryCatch ?_ (fun _ _ => ?_)
    | split)

instance noSignal_forEachM {α β : Type} {f : β → α → M β} [hf : ∀ b a, (f b a).NoSignal]
    (l : List α) (b : β) : (forEachM f l b).NoSignal := by
  induction l generalizing b with
  | nil => exact noSignal_pure _
  | cons a rest ih =>
    simp only [forEachM]
    exact noSignal_bind (hf b a) (fun b' => ih b')

instance noSignal_evalAll {f : Expr → M Value} [hf : ∀ e, (f e).NoSignal] (l : List Expr) :
    (evalAll f l).NoSignal := by
  induction l with
  | nil => exact noSignal_pure _
  | cons a rest ih =>
    simp only [evalAll]
    exact noSignal_bind (hf a) (fun _ => noSignal_bind ih (fun _ => noSignal_pure _))

/-- The body of a loop under its handlers throws no signal, whatever the body does. -/
instance noSignal_loopBody (m : M (Option Value)) : (loopBody m).NoSignal := by
  unfold loopBody
  refine noSignal_tryCatch_total (fun e => ?_)
  cases e <;> first | exact noSignal_pure _ | exact noSignal_raise_of rfl

instance noSignal_perform_set_on_ref (line indexExprLine indexLine : Int) (indexVal v : Value)
    (ref : SlotRef) :
    (perform_set_on_ref line indexExprLine indexLine indexVal v ref).NoSignal := by
  unfold perform_set_on_ref
  repeat (first
    | infer_instance
    | exact noSignal_raise_of ‹_›
    | exact noSignal_raise_other ‹_› ‹_›
    | with_reducible refine noSignal_bind ?_ (fun _ => ?_)
    | with_reducible refine noSignal_tryCatch ?_ (fun _ _ => ?_)
    | with_reducible refine @noSignal_rethrowAt _ _ _ ?_
    | with_reducible refine @noSignal_forEachM _ _ _ (fun _ _ => ?_) _ _
    | with_reducible refine @noSignal_evalAll _ (fun _ => ?_) _
    | split)

instance noSignal_indexApply (line indexLine : Int) (c i : Value) :
    (IndexExpr.apply line indexLine c i).NoSignal := by
  unfold IndexExpr.apply
  repeat (first
    | infer_instance
    | exact noSignal_raise_of ‹_›
    | exact noSignal_raise_other ‹_› ‹_›
    | with_reducible refine noSignal_bind ?_ (fun _ => ?_)
    | with_reducible refine noSignal_tryCatch ?_ (fun _ _ => ?_)
    | with_reducible refine @noSignal_rethrowAt _ _ _ ?_
    | with_reducible refine @noSignal_forEachM _ _ _ (fun _ _ => ?_) _ _
    | with_reducible refine @noSignal_evalAll _ (fun _ => ?_) _
    | split)

instance noSignal_memberApply (member : String) (line : Int) (v : Value) :
    (MemberAccessExpr.apply member line v).NoSignal := by
  unfold MemberAccessExpr.apply
  repeat (first
    | infer_instance
    | exact noSignal_raise_of ‹_›
    | exact noSignal_raise_other ‹_› ‹_›
    | with_reducible refine noSignal_bind ?_ (fun _ => ?_)
    | with_reducible refine noSignal_tryCatch ?_ (fun _ _ => ?_)
    | with_reducible refine @noSignal_rethrowAt _ _ _ ?_
    | with_reducible refine @noSignal_forEachM _ _ _ (fun _ _ => ?_) _ _
    | with_reducible refine @noSignal_evalAll _ (fun _ => ?_) _
    | split)

instance noSignal_superEval (method : String) (methodLine line : Int) (env : Nat) :
    (SuperExpr.eval method methodLine line env).NoSignal := by
  unfold SuperExpr.eval
  repeat (first
    | infer_instance
    | exact noSignal_raise_of ‹_›
    | exact noSignal_raise_other ‹_› ‹_›
    | with_reducible refine noSignal_bind ?_ (fun _ => ?_)
    | with_reducible refine noSignal_tryCatch ?_ (fun _ _ => ?_)
    | with_reducible refine @noSignal_rethrowAt _ _ _ ?_
    | with_reducible refine @noSignal_forEachM _ _ _ (fun _ _ => ?_) _ _
    | with_reducible refine @noSignal_evalAll _ (fun _ => ?_) _
    | split)

instance noSignal_setMember (member : String) (line : Int) (o v : Value) :
    (AssignExpr.setMember member line o v).NoSignal := by
  unfold AssignExpr.setMember
  repeat (first
    | infer_instance
    | exact noSignal_raise_of ‹_›
    | exact noSignal_raise_other ‹_› ‹_›
    | with_reducible refine noSignal_bind ?_ (fun _ => ?_)
    | with_reducible refine noSignal_tryCatch ?_ (fun _ _ => ?_)
    | with_reducible refine @noSignal_rethrowAt _ _ _ ?_
    | with_reducible refine @noSignal_forEachM _ _ _ (fun _ _ => ?_) _ _
    | with_reducible refine @noSignal_evalAll _ (fun _ => ?_) _
    | split)

instance noSignal_defaultValue (t : Option TokenType) : (VarDeclStmt.defaultValue t).NoSignal := by
  unfold VarDeclStmt.defaultValue
  repeat (first
    | infer_instance
    | exact noSignal_raise_of ‹_›
    | exact noSignal_raise_other ‹_› ‹_›
    | with_reducible refine noSignal_bind ?_ (fun _ => ?_)
    | with_reducible refine noSignal_tryCatch ?_ (fun _ _ => ?_)
    | with_reducible refine @noSignal_rethrowAt _ _ _ ?_
    | with_reducible refine @noSignal_forEachM _ _ _ (fun _ _ => ?_) _ _
    | with_reducible refine @noSignal_evalAll _ (fun _ => ?_) _
    | split)

instance noSignal_fetchElement (a i : Nat) : (fetchElement a i).NoSignal := by
  unfold fetchElement
  repeat (first
    | infer_instance
    | exact noSignal_raise_of ‹_›
    | exact noSignal_raise_other ‹_› ‹_›
    | with_reducible refine noSignal_bind ?_ (fun _ => ?_)
    | with_reducible refine noSignal_tryCatch ?_ (fun _ _ => ?_)
    | with_reducible refine @noSignal_rethrowAt _ _ _ ?_
    | with_reducible refine @noSignal_forEachM _ _ _ (fun _ _ => ?_) _ _
    | with_reducible refine @noSignal_evalAll _ (fun _ => ?_) _
    | split)

instance noSignal_bindParams (executionEnv : Nat) (params : List ParamInfo)
    (args : List Value) : (bindParams executionEnv params args).NoSignal := by
  induction params generalizing args with
  | nil => exact noSignal_pure _
  | cons p rest ih =>
    cases args with
    | nil => exact noSignal_fault
    | cons a as =>
      simp only [bindParams]
      repeat (first
        | infer_instance
        | exact ih _
        | exact noSignal_raise_of ‹_›
        | exact noSignal_raise_other ‹_› ‹_›
        | with_reducible refine noSignal_bind ?_ (fun _ => ?_)
        | with_reducible refine noSignal_tryCatch ?_ (fun _ _ => ?_)
        | with_reducible refine @noSignal_rethrowAt _ _ _ ?_
        | with_reducible refine @noSignal_forEachM _ _ _ (fun _ _ => ?_) _ _
        | with_reducible refine @noSignal_evalAll _ (fun _ => ?_) _
        | split)

instance noSignal_deepcopyElement {copy : Value → Memo → M (Value × Memo)}
    [h : ∀ v memo, (copy v memo).NoSignal] (newArr : Nat) (memo : Memo) (elem : Value) :
    (deepcopyElement copy newArr memo elem).NoSignal := by
  unfold deepcopyElement
  repeat (first
    | infer_instance
    | exact noSignal_raise_of ‹_›
    | exact noSignal_raise_other ‹_› ‹_›
    | with_reducible refine noSignal_bind ?_ (fun _ => ?_)
    | with_reducible refine noSignal_tryCatch ?_ (fun _ _ => ?_)
    | with_reducible refine @noSignal_rethrowAt _ _ _ ?_
    | with_reducible refine @noSignal_forEachM _ _ _ (fun _ _ => ?_) _ _
    | with_reducible refine @noSignal_evalAll _ (fun _ => ?_) _
    | split)

instance noSignal_deepcopyPair {copy : Value → Memo → M (Value × Memo)}
    [h : ∀ v memo, (copy v memo).NoSignal] (newD : Nat) (memo : Memo)
    (pair : String × Value) : (deepcopyPair copy newD memo pair).NoSignal := by
  unfold deepcopyPair
  repeat (first
    | infer_instance
    | exact noSignal_raise_of ‹_›
    | exact noSignal_raise_other ‹_› ‹_›
    | with_reducible refine noSignal_bind ?_ (fun _ => ?_)
    | with_reducible refine noSignal_tryCatch ?_ (fun _ _ => ?_)
    | with_reducible refine @noSignal_rethrowAt _ _ _ ?_
    | with_reducible refine @noSignal_forEachM _ _ _ (fun _ _ => ?_) _ _
    | with_reducible refine @noSignal_evalAll _ (fun _ => ?_) _
    | split)

instance noSignal_deepcopyField {copy : Value → Memo → M (Value × Memo)}
    [h : ∀ v memo, (copy v memo).NoSignal] (newObj : Nat) (memo : Memo)
    (pair : String × Value) : (deepcopyField copy newObj memo pair).NoSignal := by
  unfold deepcopyField
  repeat (first
    | infer_instance
    | exact noSignal_raise_of ‹_›
    | exact noSignal_raise_other ‹_› ‹_›
    | with_reducible refine noSignal_bind ?_ (fun _ => ?_)
    | with_reducible refine noSignal_tryCatch ?_ (fun _ _ => ?_)
    | with_reducible refine @noSignal_rethrowAt _ _ _ ?_
    | with_reducible refine @noSignal_forEachM _ _ _ (fun _ _ => ?_) _ _
    | with_reducible refine @noSignal_evalAll _ (fun _ => ?_) _
    | split)

instance noSignal_deepcopy_recursive (fuel : Nat) (val : Value) (memo : Memo) :
    (deepcopy_recursive fuel val memo).NoSignal := by
  induction fuel generalizing val memo with
  | zero => exact noSignal_outOfFuel
  | succ n ih =>
    cases val <;> simp only [deepcopy_recursive] <;>
      repeat (first
        | infer_instance
        | exact noSignal_raise_of ‹_›
        | exact noSignal_raise_other ‹_› ‹_›
        | with_reducible refine noSignal_bind ?_ (fun _ => ?_)
        | with_reducible refine noSignal_tryCatch ?_ (fun _ _ => ?_)
        | with_reducible refine @noSignal_rethrowAt _ _ _ ?_
        | with_reducible refine @noSignal_forEachM _ _ _ (fun _ _ => ?_) _ _
        | with_reducible refine @noSignal_evalAll _ (fun _ => ?_) _
        | split)

instance noSignal_native (fuel : Nat) (fn : NativeFn) (args : List Value) :
    (NativeFunction.call fuel fn args).NoSignal := by
  cases fn <;> simp only [NativeFunction.call] <;>
    repeat (first
      | infer_instance
      | exact noSignal_raise_of ‹_›
      | exact noSignal_raise_other ‹_› ‹_›
      | with_reducible refine noSignal_bind ?_ (fun _ => ?_)
      | with_reducible refine noSignal_tryCatch ?_ (fun _ _ => ?_)
      | with_reducible refine @noSignal_rethrowAt _ _ _ ?_
      | with_reducible refine @noSignal_forEachM _ _ _ (fun _ _ => ?_) _ _
      | with_reducible refine @noSignal_evalAll _ (fun _ => ?_) _
      | split)

theorem noSignal_at_zero : NoSignalAt 0 := by
  refine ⟨?_, ?_, ?_, ?_⟩ <;> intros <;> exact noSignal_outOfFuel

theorem noSignal_eval_step (n : Nat) (ih : NoSignalAt n) :
    ∀ e env, (Expr.eval (n + 1) e env).NoSignal := by
  obtain ⟨ihE, ihW, ihF, ihC⟩ := ih
  intro e env
  cases e <;> simp only [Expr.eval] <;>
    repeat (first
      | infer_instance
      | exact noSignal_raise_of ‹_›
      | exact noSignal_raise_other ‹_› ‹_›
      | with_reducible refine noSignal_bind ?_ (fun _ => ?_)
      | with_reducible refine noSignal_tryCatch ?_ (fun _ _ => ?_)
      | with_reducible refine @noSignal_rethrowAt _ _ _ ?_
      | with_reducible refine @noSignal_forEachM _ _ _ (fun _ _ => ?_) _ _
      | with_reducible refine @noSignal_evalAll _ (fun _ => ?_) _
      | split)

theorem noSignal_while_step (n : Nat) (ih : NoSignalAt n) :
    ∀ c b env, (WhileStmt.loop (n + 1) c b env).NoSignal := by
  obtain ⟨ihE, ihW, ihF, ihC⟩ := ih
  intro c b env
  simp only [WhileStmt.loop]
  repeat (first
    | infer_instance
    | exact noSignal_raise_of ‹_›
    | exact noSignal_raise_other ‹_› ‹_›
    | with_reducible refine noSignal_bind ?_ (fun _ => ?_)
    | with_reducible refine noSignal_tryCatch ?_ (fun _ _ => ?_)
    | with_reducible refine @noSignal_rethrowAt _ _ _ ?_
    | with_reducible refine @noSignal_forEachM _ _ _ (fun _ _ => ?_) _ _
    | with_reducible refine @noSignal_evalAll _ (fun _ => ?_) _
    | split)

theorem noSignal_for_step (n : Nat) (ih : NoSignalAt n) :
    ∀ c i b env, (ForStmt.loop (n + 1) c i b env).NoSignal := by
  obtain ⟨ihE, ihW, ihF, ihC⟩ := ih
  intro c i b env
  simp only [ForStmt.loop]
  repeat (first
    | infer_instance
    | exact noSignal_raise_of ‹_›
    | exact noSignal_raise_other ‹_› ‹_›
    | with_reducible refine noSignal_bind ?_ (fun _ => ?_)
    | with_reducible refine noSignal_tryCatch ?_ (fun _ _ => ?_)
    | with_reducible refine @noSignal_rethrowAt _ _ _ ?_
    | with_reducible refine @noSignal_forEachM _ _ _ (fun _ _ => ?_) _ _
    | with_reducible refine @noSignal_evalAll _ (fun _ => ?_) _
    | split)

theorem noSignal_call_step (n : Nat) (ih : NoSignalAt n) :
    ∀ f args, (Callable.call (n + 1) f args).NoSignal := by
  obtain ⟨ihE, ihW, ihF, ihC⟩ := ih
  intro f args
  simp only [Callable.call]
  repeat (first
    | infer_instance
    | exact noSignal_raise_of ‹_›
    | exact noSignal_raise_other ‹_› ‹_›
    | with_reducible refine noSignal_bind ?_ (fun _ => ?_)
    | with_reducible refine noSignal_tryCatch_total (fun _ => ?_)
    | with_reducible refine @noSignal_rethrowAt _ _ _ ?_
    | with_reducible refine @noSignal_forEachM _ _ _ (fun _ _ => ?_) _ _
    | with_reducible refine @noSignal_evalAll _ (fun _ => ?_) _
    | split)

end M.NoSignal

/-- With every budget, no signal escapes an expression, a `while` or `for` loop, or a call. -/
theorem noSignalAt (n : Nat) : NoSignalAt n := by
  induction n with
  | zero => exact M.NoSignal.noSignal_at_zero
  | succ n ih =>
    exact ⟨M.NoSignal.noSignal_eval_step n ih, M.NoSignal.noSignal_while_step n ih,
      M.NoSignal.noSignal_for_step n ih, M.NoSignal.noSignal_call_step n ih⟩

/-! ## Break, continue and return in while and foreach loops (C18) -/

theorem Exn.ne_signal_of_isSignal {e : Exn} (h : e.isSignal = false) :
    e ≠ .BreakSignal ∧ e ≠ .ContinueSignal := by
  cases e <;> simp [Exn.isSignal] at h ⊢

/-- C19. A call of a user-defined function whose arguments are bound without
error and whose body throws the `break` signal, that is, executes `break`
outside every loop of the body, throws the runtime error
`Cannot 'break' from a function.` at the line of the body, in the state the
body left; with the `continue` signal the error is
`Cannot 'continue' from a function.`.  No call, with any budget, callable,
arguments and state, and no evaluation of an expression ever throws a `break`
or `continue` signal, and the body of a loop that throws a runtime error makes
the pass of the loop throw that error.  The programs
`func f() { break; } var i = 0; while (i < 3) { i = i + 1; f(); print(i); } print(9);`
and the same with `continue` in `f` end with that runtime error, with every
budget of at least 20, and print nothing: the loop around the call is
neither ended nor continued. -/
theorem signal_at_function_boundary_is_error (fuel : Nat) (func : Nat) (args : List Value)
    (s s₁ : State) (params : List ParamInfo) (body : BlockStmt) (closure : Nat)
    (is_initializer : Bool) (k : Nat)
    (hc : s.callables[func]? = some (.FunctionValue params body closure is_initializer))
    (hb : bindParams s.envs.length params args
        { s with envs := s.envs ++ [{ vars := [], parent := some closure }] } = .ok () s₁) :
    (∀ s₂, Stmt.exec fuel (.Block body) s.envs.length s₁ = .throw .BreakSignal s₂ →
        Callable.call (fuel + 1) func args s
          = .throw (.RuntimeError body.line "Cannot 'break' from a function.") s₂)
    ∧ (∀ s₂, Stmt.exec fuel (.Block body) s.envs.length s₁ = .throw .ContinueSignal s₂ →
        Callable.call (fuel + 1) func args s
          = .throw (.RuntimeError body.line "Cannot 'continue' from a function.") s₂)
    ∧ (∀ n f a u e u', Callable.call n f a u = .throw e u' →
        e ≠ .BreakSignal ∧ e ≠ .ContinueSignal)
    ∧ (∀ n e env u ex u', Expr.eval n e env u = .throw ex u' →
        ex ≠ .BreakSignal ∧ ex ≠ .ContinueSignal)
    ∧ (∀ (m : M (Option Value)) t line message t', m t = .throw (.RuntimeError line message) t' →
        loopBody m t = .throw (.RuntimeError line message) t')
    ∧ (Interpreter.evalAfter (20 + k) (Example.callInsideLoop (.Break 1)) (.Literal .nil 1)).exn?
        = some (.RuntimeError 1 "Cannot 'break' from a function.")
    ∧ ((Interpreter.evalAfter (20 + k) (Example.callInsideLoop (.Break 1))
        (.Literal .nil 1)).state?.map fun s => s.output) = some []
    ∧ (Interpreter.evalAfter (20 + k) (Example.callInsideLoop (.Continue 1))
        (.Literal .nil 1)).exn? = some (.RuntimeError 1 "Cannot 'continue' from a function.")
    ∧ ((Interpreter.evalAfter (20 + k) (Example.callInsideLoop (.Continue 1))
        (.Literal .nil 1)).state?.map fun s => s.output) = some [] := by
  have h₁ : (Interpreter.evalAfter 20 (Example.callInsideLoop (.Break 1))
      (.Literal .nil 1)).exn? = some (.RuntimeError 1 "Cannot 'break' from a function.") := by
    decide!
  have h₂ : (Interpreter.evalAfter 20 (Example.callInsideLoop (.Continue 1))
      (.Literal .nil 1)).exn? = some (.RuntimeError 1 "Cannot 'continue' from a function.") := by
    decide!
  refine ⟨?_, ?_, ?_, ?_, ?_, (Interpreter.exn_stable 20 _ _ _ h₁).1 k, ?_,
    (Interpreter.exn_stable 20 _ _ _ h₂).1 k, ?_⟩
  · intro s₂ h
    simp [Callable.call, bind_apply, readCallable, hc, newEnvironment, hb, tryCatch, h]
  · intro s₂ h
    simp [Callable.call, bind_apply, readCallable, hc, newEnvironment, hb, tryCatch, h]
  · intro n f a u e u' h
    exact Exn.ne_signal_of_isSignal (((noSignalAt n).2.2.2 f a).quiet u e u' h)
  · intro n e env u ex u' h
    exact Exn.ne_signal_of_isSignal (((noSignalAt n).1 e env).quiet u ex u' h)
  · intro m t line message t' h
    simp [loopBody, tryCatch, bind_apply, h]
  · rw [Interpreter.evalAfter_add 20 k _ _ (Res.ne_outOfFuel_of_exn h₁)]
    decide!
  · rw [Interpreter.evalAfter_add 20 k _ _ (Res.ne_outOfFuel_of_exn h₂)]
    decide!

/-- Witness of `signal_at_function_boundary_is_error`: the call of a function
whose body is `{ break; }` throws the runtime error in the state that has the
frame of the call and the frame of the block. -/
theorem signal_at_function_boundary_is_error_witness :
    (Example.oneStatementFunctionState (.Break 1)).callables[9]?
        = some (.FunctionValue [] (.mk [some (.Break 1)] 1) 0 false)
    ∧ Callable.call 3 9 [] (Example.oneStatementFunctionState (.Break 1))
        = .throw (.RuntimeError 1 "Cannot 'break' from a function.")
            { Example.oneStatementFunctionState (.Break 1) with
              envs := (Example.oneStatementFunctionState (.Break 1)).envs ++
                [{ vars := [], parent := some 0 }, { vars := [], parent := some 1 }] } :=
  ⟨by decide!,
   (signal_at_function_boundary_is_error 2 9 [] (Example.oneStatementFunctionState (.Break 1))
      { Example.oneStatementFunctionState (.Break 1) with
        envs := (Example.oneStatementFunctionState (.Break 1)).envs ++
          [{ vars := [], parent := some 0 }] }
      [] (.mk [some (.Break 1)] 1) 0 false 0 (by decide!) (by decide!)).1 _ (by decide!)⟩

/-! ## Default values of declarations (C20) -/

/-- C20. A declaration without initializer, executed in a frame that exists,
completes normally with every type a declaration can carry, and leaves the
name bound in that frame with the declared type and the default value: `0`
for `int`, `+0.0` for `float`, `false` for `bool`, the empty string for
`string`, a newly allocated empty array for `array`, a newly allocated empty
dictionary for `dict`, a newly allocated object without fields, parent and
class for `object`, and `nil` without a declared type.  Nothing else in the
state changes. -/
theorem declaration_without_initializer_binds_default (fuel : Nat) (name : String) (line : Int)
    (env : Nat) (s : State) (frame : Environment) (hf : s.envs[env]? = some frame) :
    Stmt.exec (fuel + 1) (.VarDecl name (some .INT) none line) env s
      = .ok none { s with envs := s.envs.set env { frame with
          vars := frame.vars.insert name { value := .int 0, static_type := some .INT } } }
    ∧ Stmt.exec (fuel + 1) (.VarDecl name (some .FLOAT) none line) env s
      = .ok none { s with envs := s.envs.set env { frame with
          vars := frame.vars.insert name
            { value := .double (Double.zero false), static_type := some .FLOAT } } }
    ∧ Stmt.exec (fuel + 1) (.VarDecl name (some .BOOL) none line) env s
      = .ok none { s with envs := s.envs.set env { frame with
          vars := frame.vars.insert name { value := .bool false, static_type := some .BOOL } } }
    ∧ Stmt.exec (fuel + 1) (.VarDecl name (some .STRING) none line) env s
      = .ok none { s with envs := s.envs.set env { frame with
          vars := frame.vars.insert name { value := .str "", static_type := some .STRING } } }
    ∧ Stmt.exec (fuel + 1) (.VarDecl name (some .ARRAY) none line) env s
      = .ok none { s with
          arrays := s.arrays ++ [[]]
          envs := s.envs.set env { frame with
            vars := frame.vars.insert name
              { value := .array s.arrays.length, static_type := some .ARRAY } } }
    ∧ Stmt.exec (fuel + 1) (.VarDecl name (some .DICT) none line) env s
      = .ok none { s with
          dicts := s.dicts ++ [[]]
          envs := s.envs.set env { frame with
            vars := frame.vars.insert name
              { value := .dict s.dicts.length, static_type := some .DICT } } }
    ∧ Stmt.exec (fuel + 1) (.VarDecl name (some .OBJECT) none line) env s
      = .ok none { s with
          objects := s.objects ++ [{ fields := [], parent := none, klass := none }]
          envs := s.envs.set env { frame with
            vars := frame.vars.insert name
              { value := .object s.objects.length, static_type := some .OBJECT } } }
    ∧ Stmt.exec (fuel + 1) (.VarDecl name none none line) env s
      = .ok none { s with envs := s.envs.set env { frame with
          vars := frame.vars.insert name { value := .nil, static_type := none } } } := by
  have hlt : env < s.envs.length := getElem?_lt_length _ _ _ hf
  refine ⟨?_, ?_, ?_, ?_, ?_, ?_, ?_, ?_⟩
  · simp [Stmt.exec, VarDeclStmt.defaultValue, Environment.define, bind_apply, getState,
      check_type, get_value_type_token, readEnv, writeEnv, hf, hlt]
  · simp [Stmt.exec, VarDeclStmt.defaultValue, Environment.define, bind_apply, getState,
      check_type, get_value_type_token, readEnv, writeEnv, hf, hlt]
  · simp [Stmt.exec, VarDeclStmt.defaultValue, Environment.define, bind_apply, getState,
      check_type, get_value_type_token, readEnv, writeEnv, hf, hlt]
  · simp [Stmt.exec, VarDeclStmt.defaultValue, Environment.define, bind_apply, getState,
      check_type, get_value_type_token, readEnv, writeEnv, hf, hlt]
  · simp [Stmt.exec, VarDeclStmt.defaultValue, Environment.define, bind_apply, getState,
      check_type, get_value_type_token, readEnv, writeEnv, newArray, hf, hlt]
  · simp [Stmt.exec, VarDeclStmt.defaultValue, Environment.define, bind_apply, getState,
      check_type, get_value_type_token, readEnv, writeEnv, newDict, hf, hlt]
  · simp [Stmt.exec, VarDeclStmt.defaultValue, Environment.define, bind_apply, getState,
      check_type, get_value_type_token, readEnv, writeEnv, newObject, hf, hlt]
  · simp [Stmt.exec, VarDeclStmt.defaultValue, Environment.define, bind_apply, getState,
      readEnv, writeEnv, hf, hlt]

/-- Witness of `declaration_without_initializer_binds_default`: `object o;`
executed in the frame that binds `i`. -/
theorem declaration_without_initializer_binds_default_witness :
    Stmt.exec 1 (.VarDecl "o" (some .OBJECT) none 1) 0 (Example.counterState 3)
      = .ok none
        { envs := [{ vars := [("i", { value := .int 3, static_type := none }),
                              ("o", { value := .object 0, static_type := some .OBJECT })],
                     parent := none }]
          arrays := []
          dicts := []
          objects := [{ fields := [], parent := none, klass := none }]
          callables := []
          output := [] } :=
  (declaration_without_initializer_binds_default 0 "o" 1 0 (Example.counterState 3)
    { vars := [("i", { value := .int 3, static_type := none })], parent := none }
    rfl).2.2.2.2.2.2.1.trans (by decide!)

/-! ## Conformance to a declared type (C21) -/

/-- C21. In every state and for every value, `check_type` accepts for `int`
exactly the integers, for `float` exactly the floats and the integers, for
`bool` exactly the booleans, for `string` exactly the strings, for `array`
exactly the arrays, for `dict` exactly the dictionaries, and for `object`
exactly `nil` and the object values, with or without a class; `nil` is
rejected by each of the six declared types other than `object`. -/
theorem check_type_accepts_exactly (s : State) (v : Value) :
    (check_type s .INT v = true ↔ ∃ i, v = .int i)
    ∧ (check_type s .FLOAT v = true ↔ (∃ d, v = .double d) ∨ ∃ i, v = .int i)
    ∧ (check_type s .BOOL v = true ↔ ∃ b, v = .bool b)
    ∧ (check_type s .STRING v = true ↔ ∃ str, v = .str str)
    ∧ (check_type s .ARRAY v = true ↔ ∃ a, v = .array a)
    ∧ (check_type s .DICT v = true ↔ ∃ d, v = .dict d)
    ∧ (check_type s .OBJECT v = true ↔ v = .nil ∨ ∃ o, v = .object o)
    ∧ (∀ t ∈ [TokenType.INT, .FLOAT, .BOOL, .STRING, .ARRAY, .DICT],
        check_type s t .nil = false) := by
  have hobj : ∀ p t, t ≠ TokenType.ID → t ≠ TokenType.OBJECT →
      get_value_type_token s (.object p) ≠ t := by
    intro p t h₁ h₂
    simp only [get_value_type_token]
    repeat' split
    · exact fun h => h₁ h.symm
    · exact fun h => h₂ h.symm
    · exact fun h => h₂ h.symm
  refine ⟨?_, ?_, ?_, ?_, ?_, ?_, ?_, ?_⟩
  · cases v <;> simp [check_type, get_value_type_token, Value.isInt, Value.isObject]
    exact hobj _ _ (by decide) (by decide)
  · cases v <;> simp [check_type, get_value_type_token, Value.isInt, Value.isObject]
    exact hobj _ _ (by decide) (by decide)
  · cases v <;> simp [check_type, get_value_type_token, Value.isInt, Value.isObject]
    exact hobj _ _ (by decide) (by decide)
  · cases v <;> simp [check_type, get_value_type_token, Value.isInt, Value.isObject]
    exact hobj _ _ (by decide) (by decide)
  · cases v <;> simp [check_type, get_value_type_token, Value.isInt, Value.isObject]
    exact hobj _ _ (by decide) (by decide)
  · cases v <;> simp [check_type, get_value_type_token, Value.isInt, Value.isObject]
    exact hobj _ _ (by decide) (by decide)
  · cases v <;> simp [check_type, get_value_type_token, Value.isInt, Value.isObject]
  · intro t ht
    simp only [List.mem_cons, List.mem_singleton, List.not_mem_nil, or_false] at ht
    rcases ht with rfl | rfl | rfl | rfl | rfl | rfl <;>
      simp [check_type, get_value_type_token, Value.isInt, Value.isObject]

/-! ## Assignment to a variable (C22, C23) -/

/-- The outcome of `Environment::assign` when the search finds the name in frame `f`. -/
theorem Environment.assign_found (env : Nat) (name : String) (value : Value) (s : State)
    (f : Nat) (e : Environment) (info : VariableInfo)
    (hfind : Environment.findFrame s.envs name s.envs.length env = some (some f))
    (he : s.envs[f]? = some e) (hinfo : e.vars.find name = some info) :
    Environment.assign env name value s
      = match info.static_type with
        | some t =>
          if check_type s t value then
            .ok true { s with envs := (s.envs.set f
              { e with vars := e.vars.insert name { info with value := value } }) }
          else .throw (.runtime_error
            ("Type mismatch on assignment to static variable '" ++ name ++ "'.")) s
        | none =>
          .ok true { s with envs := (s.envs.set f
            { e with vars := e.vars.insert name { info with value := value } }) } := by
  unfold Environment.assign
  simp only [hfind, he, hinfo]
  cases info.static_type with
  | none => rfl
  | some t => by_cases h : check_type s t value = true <;> simp [h]

/-- The outcome of `Environment::assign` when no frame of the chain binds the name. -/
theorem Environment.assign_not_found (env : Nat) (name : String) (value : Value) (s : State)
    (hfind : Environment.findFrame s.envs name s.envs.length env = some none) :
    Environment.assign env name value s = .ok false s := by
  unfold Environment.assign
  simp only [hfind]

/-- The outcome of `Environment::get` when the search finds the name in frame `f`. -/
theorem Environment.get_found (env : Nat) (name : String) (s : State)
    (f : Nat) (e : Environment) (info : VariableInfo)
    (hfind : Environment.findFrame s.envs name s.envs.length env = some (some f))
    (he : s.envs[f]? = some e) (hinfo : e.vars.find name = some info) :
    Environment.get env name s = .ok info.value s := by
  simp [Environment.get, Environment.getRef, bind_apply, hfind, readEnv, he, hinfo]

/-- The frame search after the binding of `name` in frame `f` got a new value. -/
theorem Environment.findFrame_assigned (s : State) (name : String) (f : Nat)
    (e : Environment) (info' : VariableInfo) (env : Nat)
    (hfind : Environment.findFrame s.envs name s.envs.length env = some (some f))
    (he : s.envs[f]? = some e) :
    Environment.findFrame (s.envs.set f { e with vars := e.vars.insert name info' }) name
      (s.envs.set f { e with vars := e.vars.insert name info' }).length env
      = some (some f) := by
  obtain ⟨e₀, he₀, hc⟩ := Environment.findFrame_found _ _ _ _ _ hfind
  rw [he] at he₀
  cases he₀
  rw [List.length_set, Environment.findFrame_set s.envs name f e
    { e with vars := e.vars.insert name info' } he rfl
    (by simp [StrMap.contains_insert_self, hc])]
  exact hfind

/-- C22. When the innermost binding of the name, found in frame `f`, has
declared type `t`: an assignment of a value that fails `check_type` throws
the type mismatch error and leaves the state as it is; an assignment of a
value that passes returns `true` in the state in which that binding holds the
new value with the same declared type `t`, every other binding of frame `f`
and every other frame are as before, and so are the other stores.  The
binding is still the innermost one of the name, so in the new state a value
that fails the check is rejected again, leaving the new state as it is, and a
value that passes is accepted. -/
theorem assign_enforces_declared_type (env : Nat) (name : String) (value : Value) (s : State)
    (f : Nat) (e : Environment) (info : VariableInfo) (t : TokenType)
    (hfind : Environment.findFrame s.envs name s.envs.length env = some (some f))
    (he : s.envs[f]? = some e) (hinfo : e.vars.find name = some info)
    (ht : info.static_type = some t) :
    (check_type s t value = false →
      Environment.assign env name value s
        = .throw (.runtime_error
            ("Type mismatch on assignment to static variable '" ++ name ++ "'.")) s)
    ∧ (check_type s t value = true →
      ∃ s' e', Environment.assign env name value s = .ok true s'
        ∧ s' = { s with envs := s.envs.set f e' }
        ∧ e'.parent = e.parent
        ∧ e'.vars.find name = some { value := value, static_type := some t }
        ∧ (∀ other, other ≠ name → e'.vars.find other = e.vars.find other)
        ∧ (∀ g, g ≠ f → s'.envs[g]? = s.envs[g]?)
        ∧ s'.envs[f]? = some e'
        ∧ Environment.findFrame s'.envs name s'.envs.length env = some (some f)
        ∧ (∀ w, check_type s' t w = false →
            Environment.assign env name w s'
              = .throw (.runtime_error
                  ("Type mismatch on assignment to static variable '" ++ name ++ "'.")) s')
        ∧ (∀ w, check_type s' t w = true →
            ∃ s'', Environment.assign env name w s' = .ok true s'')) := by
  have hlt : f < s.envs.length := getElem?_lt_length _ _ _ he
  obtain ⟨old, st⟩ := info
  simp only at ht
  subst ht
  refine ⟨?_, ?_⟩
  · intro hfail
    rw [Environment.assign_found env name value s f e _ hfind he hinfo]
    simp [hfail]
  · intro hpass
    have hfind' := Environment.findFrame_assigned s name f e
      { value := value, static_type := some t } env hfind he
    have he' : (s.envs.set f { e with vars := e.vars.insert name { value := value, static_type := some t } })[f]?
        = some { e with vars := e.vars.insert name { value := value, static_type := some t } } :=
      List.getElem?_set_self hlt
    have hinfo' : ({ e with vars := e.vars.insert name { value := value, static_type := some t } } :
        Environment).vars.find name = some { value := value, static_type := some t } :=
      StrMap.find_insert_self _ _ _
    refine ⟨_, { e with vars := e.vars.insert name { value := value, static_type := some t } }, ?_, rfl, rfl,
      ?_, ?_, ?_, he', hfind', ?_, ?_⟩
    · rw [Environment.assign_found env name value s f e _ hfind he hinfo]
      simp [hpass]
    · exact hinfo'
    · intro other hne
      exact StrMap.find_insert_ne _ _ _ _ hne
    · intro g hg
      exact List.getElem?_set_ne (Ne.symm hg)
    · intro w hw
      rw [Environment.assign_found env name w _ f _ _ hfind' he' hinfo']
      simp [hw]
    · intro w hw
      rw [Environment.assign_found env name w _ f _ _ hfind' he' hinfo']
      simp [hw]

/-- Witness of `assign_enforces_declared_type`: in frame `1` of the state
where that frame binds `n` with declared type `int`, assigning a string to
`n` throws and changes nothing. -/
theorem assign_enforces_declared_type_witness :
    Environment.findFrame Example.shadowingState.envs "n" Example.shadowingState.envs.length 1
        = some (some 1)
    ∧ check_type Example.shadowingState .INT (.str "a") = false
    ∧ Environment.assign 1 "n" (.str "a") Example.shadowingState
        = .throw (.runtime_error "Type mismatch on assignment to static variable 'n'.")
            Example.shadowingState :=
  ⟨by decide, by decide,
   (assign_enforces_declared_type 1 "n" (.str "a") Example.shadowingState 1
      { vars := [("n", { value := .int 2, static_type := some .INT })], parent := some 0 }
      { value := .int 2, static_type := some .INT } .INT (by decide) (by decide) (by decide)
      rfl).1 (by decide)⟩

/-- C23. Once the right-hand side is evaluated, an assignment to a variable and
a read of it act on the innermost frame of the scope chain that binds the
name.  When that is frame `f`: a read returns the value bound there; an
assignment that the declared type of the binding, if any, accepts returns the
value assigned, replaces the value of that binding and keeps its declared
type, every other binding of frame `f`, every other frame (so every outer
binding of the same name) and the other stores are as before, and a read
then returns the value assigned.  When no frame of the chain binds the name,
the assignment throws `RuntimeError` with the line of the variable and the
message `Undefined variable: ` followed by the name, in the state in which
the right-hand side left it: no binding is created; a read throws the same
error. -/
theorem assignment_updates_innermost_binding (n : Nat) (env : Nat) (name : String)
    (varLine line : Int) (value : Expr) (s s₁ : State) (v : Value)
    (hv : Expr.eval n value env s = .ok v s₁) :
    (∀ f e info,
      Environment.findFrame s₁.envs name s₁.envs.length env = some (some f) →
      s₁.envs[f]? = some e → e.vars.find name = some info →
      Expr.eval (n + 1) (.Var name varLine) env s₁ = .ok info.value s₁
      ∧ ((∀ t, info.static_type = some t → check_type s₁ t v = true) →
        ∃ s₂ e', Expr.eval (n + 1) (.Assign (.Var name varLine) value line) env s = .ok v s₂
          ∧ s₂ = { s₁ with envs := s₁.envs.set f e' }
          ∧ e'.parent = e.parent
          ∧ e'.vars.find name = some { value := v, static_type := info.static_type }
          ∧ (∀ other, other ≠ name → e'.vars.find other = e.vars.find other)
          ∧ (∀ g, g ≠ f → s₂.envs[g]? = s₁.envs[g]?)
          ∧ Environment.findFrame s₂.envs name s₂.envs.length env = some (some f)
          ∧ Expr.eval (n + 1) (.Var name varLine) env s₂ = .ok v s₂))
    ∧ (Environment.findFrame s₁.envs name s₁.envs.length env = some none →
      Expr.eval (n + 1) (.Assign (.Var name varLine) value line) env s
        = .throw (.RuntimeError varLine ("Undefined variable: " ++ name)) s₁
      ∧ Expr.eval (n + 1) (.Var name varLine) env s₁
        = .throw (.RuntimeError varLine ("Undefined variable: " ++ name)) s₁) := by
  refine ⟨?_, ?_⟩
  · intro f e info hfind he hinfo
    have hlt : f < s₁.envs.length := getElem?_lt_length _ _ _ he
    refine ⟨?_, ?_⟩
    · simp [Expr.eval, rethrowAt, tryCatch, Environment.get_found env name s₁ f e info hfind he hinfo]
    · intro hpass
      have hassign : Environment.assign env name v s₁ = .ok true { s₁ with envs := (s₁.envs.set f
          { e with vars := e.vars.insert name { info with value := v } }) } := by
        rw [Environment.assign_found env name v s₁ f e info hfind he hinfo]
        cases hst : info.static_type with
        | none => rfl
        | some t => simp [hpass t hst]
      have hfind' := Environment.findFrame_assigned s₁ name f e { info with value := v } env
        hfind he
      have hget := Environment.get_found env name
        { s₁ with envs := (s₁.envs.set f
          { e with vars := e.vars.insert name { info with value := v } }) } f
        { e with vars := e.vars.insert name { info with value := v } } { info with value := v }
        hfind' (List.getElem?_set_self hlt) (StrMap.find_insert_self _ _ _)
      refine ⟨_, { e with vars := e.vars.insert name { info with value := v } }, ?_, rfl, rfl,
        StrMap.find_insert_self _ _ _, ?_, ?_, hfind', ?_⟩
      · simp [Expr.eval, bind_apply, hv, hassign]
      · intro other hne
        exact StrMap.find_insert_ne _ _ _ _ hne
      · intro g hg
        exact List.getElem?_set_ne (Ne.symm hg)
      · simp [Expr.eval, rethrowAt, tryCatch, hget]
  · intro hnone
    refine ⟨?_, ?_⟩
    · simp [Expr.eval, bind_apply, hv, Environment.assign_not_found env name v s₁ hnone, raise]
    · simp [Expr.eval, rethrowAt, tryCatch, Environment.get, Environment.getRef, bind_apply,
        hnone, Exn.isRuntimeError, Exn.what, raise]

/-- Witness of `assignment_updates_innermost_binding`: in frame `1` of the
state where both frames bind `n`, `n = 7` changes the binding of frame `1`
and leaves the binding of the global frame as it is. -/
theorem assignment_updates_innermost_binding_witness :
    Expr.eval 1 (.Literal (.int 7) 1) 1 Example.shadowingState
        = .ok (.int 7) Example.shadowingState
    ∧ ∃ s₂, Expr.eval 2 (.Assign (.Var "n" 1) (.Literal (.int 7) 1) 1) 1 Example.shadowingState
          = .ok (.int 7) s₂
        ∧ s₂.envs[0]? = Example.shadowingState.envs[0]?
        ∧ Expr.eval 2 (.Var "n" 1) 1 s₂ = .ok (.int 7) s₂ := by
  obtain ⟨s₂, e', h₁, _, _, _, _, h₂, _, h₃⟩ :=
    ((assignment_updates_innermost_binding 1 1 "n" 1 1 (.Literal (.int 7) 1)
      Example.shadowingState Example.shadowingState (.int 7) (by decide!)).1 1
      { vars := [("n", { value := .int 2, static_type := some .INT })], parent := some 0 }
      { value := .int 2, static_type := some .INT } (by decide) (by decide) (by decide)).2
      (by intro t ht; cases ht; decide)
  exact ⟨by decide!, s₂, h₁, h₂ 0 (by decide), h₃⟩

/-! ## Closures (C24) -/

/-- C24. A function declaration executed in frame `env` allocates a function
value whose closure is the frame `env` itself and binds the name to it in
that frame; nothing else changes, no frame is copied.  A call of a function
value whose arguments are bound without error runs the body in a newly
allocated frame, whose parent is the closure, in the state as it is at the
call, and the state after the call is the state the body left.  Hence, with
every budget of at least 20: after `var x = 1; func set() { x = 2; } set();`
the variable `x` is `2`; after `var y = 1; func get() { return y; } y = 5;`
the call `get()` returns `5`; with
`func make() { var n = 0; func inc() { n = n + 1; return n; } func read() { return n; } return [inc, read]; }`,
after `var a = make(); var b = make(); a[0](); a[0](); b[0]();` the call
`a[1]()` returns `2` and `b[1]()` returns `1`; and after
`func f() { var k = 0; k = k + 1; return k; } f();` the call `f()` returns `1` again. -/
theorem function_shares_defining_scope (fuel : Nat) (decl : FuncStmt) (env : Nat) (s : State)
    (frame : Environment) (k : Nat) (hf : s.envs[env]? = some frame) :
    Stmt.exec (fuel + 1) (.Func decl) env s
      = .ok none { s with
          callables := s.callables ++
            [.FunctionValue decl.params decl.body env (decl.name == "init")]
          envs := (s.envs.set env { frame with
            vars := frame.vars.insert decl.name
              { value := .func (some s.callables.length), static_type := none } }) }
    ∧ (∀ func args t t₁ params body closure,
        t.callables[func]? = some (.FunctionValue params body closure false) →
        bindParams t.envs.length params args
          { t with envs := t.envs ++ [{ vars := [], parent := some closure }] } = .ok () t₁ →
        (∀ v t₂, Stmt.exec fuel (.Block body) t.envs.length t₁ = .ok (some v) t₂ →
          Callable.call (fuel + 1) func args t = .ok v t₂)
        ∧ (∀ t₂, Stmt.exec fuel (.Block body) t.envs.length t₁ = .ok none t₂ →
          Callable.call (fuel + 1) func args t = .ok .nil t₂))
    ∧ (Interpreter.evalAfter (20 + k) Example.assignInBody (.Var "x" 1)).value?
        = some (.int 2)
    ∧ (Interpreter.evalAfter (20 + k) Example.assignAfterDeclaration
        (.Call (.Var "get" 1) [] 1)).value? = some (.int 5)
    ∧ (Interpreter.evalAfter (20 + k) Example.counters (Example.readCounter "a")).value?
        = some (.int 2)
    ∧ (Interpreter.evalAfter (20 + k) Example.counters (Example.readCounter "b")).value?
        = some (.int 1)
    ∧ (Interpreter.evalAfter (20 + k) Example.localInBody (.Call (.Var "f" 1) [] 1)).value?
        = some (.int 1) := by
  have hlt : env < s.envs.length := getElem?_lt_length _ _ _ hf
  have h₁ : (Interpreter.evalAfter 20 Example.assignInBody (.Var "x" 1)).value?
      = some (.int 2) := by decide!
  have h₂ : (Interpreter.evalAfter 20 Example.assignAfterDeclaration
      (.Call (.Var "get" 1) [] 1)).value? = some (.int 5) := by decide!
  have h₃ : (Interpreter.evalAfter 20 Example.counters (Example.readCounter "a")).value?
      = some (.int 2) := by decide!
  have h₄ : (Interpreter.evalAfter 20 Example.counters (Example.readCounter "b")).value?
      = some (.int 1) := by decide!
  have h₅ : (Interpreter.evalAfter 20 Example.localInBody (.Call (.Var "f" 1) [] 1)).value?
      = some (.int 1) := by decide!
  refine ⟨?_, ?_, (Interpreter.value_stable 20 _ _ _ h₁).1 k,
    (Interpreter.value_stable 20 _ _ _ h₂).1 k, (Interpreter.value_stable 20 _ _ _ h₃).1 k,
    (Interpreter.value_stable 20 _ _ _ h₄).1 k, (Interpreter.value_stable 20 _ _ _ h₅).1 k⟩
  · simp [Stmt.exec, bind_apply, newCallable, Environment.define, getState, readEnv, writeEnv,
      hf, hlt]
  · intro func args t t₁ params body closure hc hb
    refine ⟨?_, ?_⟩
    · intro v t₂ h
      simp [Callable.call, bind_apply, readCallable, hc, newEnvironment, hb, tryCatch, h]
    · intro t₂ h
      simp [Callable.call, bind_apply, readCallable, hc, newEnvironment, hb, tryCatch, h]

/-- Witness of `function_shares_defining_scope`: `func get() { return y; }`
declared in frame `1` of the state with two frames has frame `1` as closure. -/
theorem function_shares_defining_scope_witness :
    Stmt.exec 1 (.Func (.mk "get" [] (.mk [ some (.Return (some (.Var "y" 1)) 1) ] 1) 1)) 1
        Example.shadowingState
      = .ok none { Example.shadowingState with
          callables := [.FunctionValue [] (.mk [ some (.Return (some (.Var "y" 1)) 1) ] 1) 1 false]
          envs := [ { vars := [("n", { value := .int 1, static_type := none }),
                               ("g", { value := .int 5, static_type := some .INT })],
                      parent := none },
                    { vars := [("n", { value := .int 2, static_type := some .INT }),
                               ("get", { value := .func (some 0), static_type := none })],
                      parent := some 0 } ] } :=
  (function_shares_defining_scope 0
    (.mk "get" [] (.mk [ some (.Return (some (.Var "y" 1)) 1) ] 1) 1) 1 Example.shadowingState
    { vars := [("n", { value := .int 2, static_type := some .INT })], parent := some 0 } 0
    (by decide)).1.trans (by decide!)

/-! ## Truthiness (C25) -/

/-- C25. In every state `Value::toBool` is `false` for `nil`, for the integer
`0`, for the float zero of either sign, for `false`, for the empty string,
for an array without elements, for a dictionary without entries and for the
null callable; it is `true` for every integer other than `0`, for every float
that does not compare equal to `0.0` (the finite non-zero floats, the
infinities and NaN), for `true`, for every non-empty string, for every array
with an element, every dictionary with an entry and every callable that is
not null. -/
theorem toBool_false_exactly_on_empty (s : State) :
    Value.toBool s .nil = false
    ∧ Value.toBool s (.int 0) = false
    ∧ (∀ neg, Value.toBool s (.double (Double.zero neg)) = false)
    ∧ Value.toBool s (.bool false) = false
    ∧ Value.toBool s (.str "") = false
    ∧ (∀ a, s.arrays[a]? = some [] → Value.toBool s (.array a) = false)
    ∧ (∀ d, s.dicts[d]? = some [] → Value.toBool s (.dict d) = false)
    ∧ Value.toBool s (.func none) = false
    ∧ (∀ i : Int, i ≠ 0 → Value.toBool s (.int i) = true)
    ∧ (∀ neg m e, m ≠ 0 → Value.toBool s (.double (.fin neg m e)) = true)
    ∧ (∀ neg, Value.toBool s (.double (.inf neg)) = true)
    ∧ Value.toBool s (.double .nan) = true
    ∧ (∀ d : Double, Value.toBool s (.double d) = false ↔ ∃ neg e, d = .fin neg 0 e)
    ∧ Value.toBool s (.bool true) = true
    ∧ (∀ str : String, str ≠ "" → Value.toBool s (.str str) = true)
    ∧ (∀ a x xs, s.arrays[a]? = some (x :: xs) → Value.toBool s (.array a) = true)
    ∧ (∀ d x xs, s.dicts[d]? = some (x :: xs) → Value.toBool s (.dict d) = true)
    ∧ (∀ p, Value.toBool s (.func (some p)) = true) := by
  refine ⟨rfl, rfl, ?_, rfl, rfl, ?_, ?_, rfl, ?_, ?_, ?_, ?_, ?_, rfl, ?_, ?_, ?_, ?_⟩
  · intro neg
    simp [Value.toBool, Double.isZero, Double.zero, Double.eq]
  · intro a h
    simp [Value.toBool, h]
  · intro d h
    simp [Value.toBool, h]
  · intro i hi
    simp [Value.toBool, hi]
  · intro neg m e hm
    simp [Value.toBool, Double.isZero_fin neg m e hm]
  · intro neg
    simp [Value.toBool, Double.isZero_inf]
  · simp [Value.toBool, Double.isZero, Double.eq]
  · intro d
    cases d with
    | nan => simp [Value.toBool, Double.isZero, Double.eq]
    | inf neg => simp [Value.toBool, Double.isZero_inf]
    | fin neg m e =>
      by_cases hm : m = 0
      · subst hm
        simp [Value.toBool, Double.isZero, Double.zero, Double.eq]
      · simp [Value.toBool, Double.isZero_fin neg m e hm, hm]
  · intro str h
    simp [Value.toBool, h]
  · intro a x xs h
    simp [Value.toBool, h]
  · intro d x xs h
    simp [Value.toBool, h]
  · intro p
    simp [Value.toBool]

/-! ## Logical operators (C26) -/

/-- C26. Once the left operand is evaluated: `a || b` with a truthy `a` and
`a && b` with a falsy `a` return `true` and `false` in the state the left
operand left, whatever expression `b` is, so `b` is not evaluated; otherwise
the right operand is evaluated and the result is the boolean `toBool` of its
value.  Every value either operator returns is a boolean.  With every budget
of at least 5, `1 || print(7)` is `true` and `0 && print(7)` is `false`, and nothing
is printed, while `0 || "a"` and `1 && "a"` are `true`, not the string. -/
theorem logical_operators_short_circuit (n : Nat) (left right : Expr) (line : Int) (env : Nat)
    (s s₁ : State) (l : Value) (k : Nat) (hl : Expr.eval n left env s = .ok l s₁) :
    (l.toBool s₁ = true →
      Expr.eval (n + 1) (.Binary .OR left right line) env s = .ok (.bool true) s₁)
    ∧ (l.toBool s₁ = false →
      Expr.eval (n + 1) (.Binary .AND left right line) env s = .ok (.bool false) s₁)
    ∧ (l.toBool s₁ = false → ∀ r s₂, Expr.eval n right env s₁ = .ok r s₂ →
      Expr.eval (n + 1) (.Binary .OR left right line) env s = .ok (.bool (r.toBool s₂)) s₂)
    ∧ (l.toBool s₁ = true → ∀ r s₂, Expr.eval n right env s₁ = .ok r s₂ →
      Expr.eval (n + 1) (.Binary .AND left right line) env s = .ok (.bool (r.toBool s₂)) s₂)
    ∧ (∀ v t, Expr.eval (n + 1) (.Binary .OR left right line) env s = .ok v t →
      ∃ b, v = .bool b)
    ∧ (∀ v t, Expr.eval (n + 1) (.Binary .AND left right line) env s = .ok v t →
      ∃ b, v = .bool b)
    ∧ Interpreter.evalAfter (5 + k) []
        (.Binary .OR (.Literal (.int 1) 1) (.Call (.Var "print" 1) [.Literal (.int 7) 1] 1) 1)
        = .ok (.bool true) Interpreter.initial
    ∧ Interpreter.evalAfter (5 + k) []
        (.Binary .AND (.Literal (.int 0) 1) (.Call (.Var "print" 1) [.Literal (.int 7) 1] 1) 1)
        = .ok (.bool false) Interpreter.initial
    ∧ Interpreter.evalAfter (5 + k) []
        (.Binary .OR (.Literal (.int 0) 1) (.Literal (.str "a") 1) 1)
        = .ok (.bool true) Interpreter.initial
    ∧ Interpreter.evalAfter (5 + k) []
        (.Binary .AND (.Literal (.int 1) 1) (.Literal (.str "a") 1) 1)
        = .ok (.bool true) Interpreter.initial := by
  have hor : ∀ v t, Expr.eval (n + 1) (.Binary .OR left right line) env s = .ok v t →
      ∃ b, v = .bool b := by
    intro v t h
    simp only [Expr.eval, if_true, bind_apply, hl, getState] at h
    split at h
    · cases h; exact ⟨_, rfl⟩
    · obtain ⟨r, s₂, _, h'⟩ := bind_eq_ok h
      cases h'
      exact ⟨_, rfl⟩
  have hand : ∀ v t, Expr.eval (n + 1) (.Binary .AND left right line) env s = .ok v t →
      ∃ b, v = .bool b := by
    intro v t h
    simp only [Expr.eval, if_true, bind_apply, hl, getState, reduceCtorEq, if_false] at h
    split at h
    · cases h; exact ⟨_, rfl⟩
    · obtain ⟨r, s₂, _, h'⟩ := bind_eq_ok h
      cases h'
      exact ⟨_, rfl⟩
  have e₁ : Interpreter.evalAfter 5 []
      (.Binary .OR (.Literal (.int 1) 1) (.Call (.Var "print" 1) [.Literal (.int 7) 1] 1) 1)
      = .ok (.bool true) Interpreter.initial := by decide!
  have e₂ : Interpreter.evalAfter 5 []
      (.Binary .AND (.Literal (.int 0) 1) (.Call (.Var "print" 1) [.Literal (.int 7) 1] 1) 1)
      = .ok (.bool false) Interpreter.initial := by decide!
  have e₃ : Interpreter.evalAfter 5 []
      (.Binary .OR (.Literal (.int 0) 1) (.Literal (.str "a") 1) 1)
      = .ok (.bool true) Interpreter.initial := by decide!
  have e₄ : Interpreter.evalAfter 5 []
      (.Binary .AND (.Literal (.int 1) 1) (.Literal (.str "a") 1) 1)
      = .ok (.bool true) Interpreter.initial := by decide!
  refine ⟨?_, ?_, ?_, ?_, hor, hand, ?_, ?_, ?_, ?_⟩
  · intro h
    simp [Expr.eval, bind_apply, hl, getState, h]
  · intro h
    simp [Expr.eval, bind_apply, hl, getState, h]
  · intro h r s₂ hr
    simp [Expr.eval, bind_apply, hl, getState, h, hr]
  · intro h r s₂ hr
    simp [Expr.eval, bind_apply, hl, getState, h, hr]
  · rw [Interpreter.evalAfter_add 5 k _ _ (by rw [e₁]; exact fun h => Res.noConfusion h), e₁]
  · rw [Interpreter.evalAfter_add 5 k _ _ (by rw [e₂]; exact fun h => Res.noConfusion h), e₂]
  · rw [Interpreter.evalAfter_add 5 k _ _ (by rw [e₃]; exact fun h => Res.noConfusion h), e₃]
  · rw [Interpreter.evalAfter_add 5 k _ _ (by rw [e₄]; exact fun h => Res.noConfusion h), e₄]

/-- Witness of `logical_operators_short_circuit`: `1 || n`, where `n` is not
declared, is `true`. -/
theorem logical_operators_short_circuit_witness :
    Expr.eval 1 (.Literal (.int 1) 1) 0 Interpreter.initial = .ok (.int 1) Interpreter.initial
    ∧ Expr.eval 2 (.Binary .OR (.Literal (.int 1) 1) (.Var "n" 1) 1) 0 Interpreter.initial
        = .ok (.bool true) Interpreter.initial :=
  ⟨by decide!,
   (logical_operators_short_circuit 1 (.Literal (.int 1) 1) (.Var "n" 1) 1 0
      Interpreter.initial Interpreter.initial (.int 1) 0 (by decide!)).1 (by decide)⟩

/-! ## Ordering and equality operators (C27) -/

/-- C27. Applied to two evaluated operands, in every state and leaving it as
it is: `<`, `<=`, `>`, `>=` return the boolean of the integer order for two
integers, of the order of `double` on the promoted operands when at least one
operand is a float and the other an integer or a float, and of the
lexicographic order for two strings; for every pair of operands that is
neither two numbers nor two strings they throw a `RuntimeError` at the line of
the operator.  `==` returns a boolean for every pair of values and `!=`
returns its negation.  With every budget of at least 3, `1 < 2` and
`"a" < "b"` are `true`, `true < false` throws
`Invalid operands for binary operator '<'.` and `nil == 0` is `false`. -/
theorem ordering_and_equality_operators (line : Int) (s : State) (a b : Value) (i j : Int)
    (d : Double) (n : Num) (p q : String) (k : Nat) :
    (BinaryExpr.apply .LT line (.int i) (.int j) s = .ok (.bool (decide (i < j))) s
      ∧ BinaryExpr.apply .LE line (.int i) (.int j) s = .ok (.bool (decide (i ≤ j))) s
      ∧ BinaryExpr.apply .GT line (.int i) (.int j) s = .ok (.bool (decide (j < i))) s
      ∧ BinaryExpr.apply .GE line (.int i) (.int j) s = .ok (.bool (decide (j ≤ i))) s)
    ∧ (BinaryExpr.apply .LT line (.double d) n.toValue s = .ok (.bool (d.lt n.toDouble)) s
      ∧ BinaryExpr.apply .LE line (.double d) n.toValue s = .ok (.bool (d.le n.toDouble)) s
      ∧ BinaryExpr.apply .GT line (.double d) n.toValue s = .ok (.bool (n.toDouble.lt d)) s
      ∧ BinaryExpr.apply .GE line (.double d) n.toValue s = .ok (.bool (n.toDouble.le d)) s)
    ∧ (BinaryExpr.apply .LT line n.toValue (.double d) s = .ok (.bool (n.toDouble.lt d)) s
      ∧ BinaryExpr.apply .LE line n.toValue (.double d) s = .ok (.bool (n.toDouble.le d)) s
      ∧ BinaryExpr.apply .GT line n.toValue (.double d) s = .ok (.bool (d.lt n.toDouble)) s
      ∧ BinaryExpr.apply .GE line n.toValue (.double d) s = .ok (.bool (d.le n.toDouble)) s)
    ∧ (BinaryExpr.apply .LT line (.str p) (.str q) s = .ok (.bool (decide (p < q))) s
      ∧ BinaryExpr.apply .LE line (.str p) (.str q) s = .ok (.bool (decide (p ≤ q))) s
      ∧ BinaryExpr.apply .GT line (.str p) (.str q) s = .ok (.bool (decide (q < p))) s
      ∧ BinaryExpr.apply .GE line (.str p) (.str q) s = .ok (.bool (decide (q ≤ p))) s)
    ∧ ((¬ ∃ x y : Num, a = x.toValue ∧ b = y.toValue) → (¬ ∃ u v, a = .str u ∧ b = .str v) →
        ∀ op ∈ [TokenType.LT, .LE, .GT, .GE],
          ∃ message, BinaryExpr.apply op line a b s = .throw (.RuntimeError line message) s)
    ∧ (∃ r, BinaryExpr.apply .EQ line a b s = .ok (.bool r) s
        ∧ BinaryExpr.apply .NE line a b s = .ok (.bool (!r)) s)
    ∧ Interpreter.evalAfter (3 + k) [] (.Binary .LT (.Literal (.int 1) 1) (.Literal (.int 2) 1) 1)
        = .ok (.bool true) Interpreter.initial
    ∧ Interpreter.evalAfter (3 + k) []
        (.Binary .LT (.Literal (.str "a") 1) (.Literal (.str "b") 1) 1)
        = .ok (.bool true) Interpreter.initial
    ∧ Interpreter.evalAfter (3 + k) []
        (.Binary .LT (.Literal (.bool true) 1) (.Literal (.bool false) 1) 1)
        = .throw (.RuntimeError 1 "Invalid operands for binary operator '<'.")
            Interpreter.initial
    ∧ Interpreter.evalAfter (3 + k) [] (.Binary .EQ (.Literal .nil 1) (.Literal (.int 0) 1) 1)
        = .ok (.bool false) Interpreter.initial := by
  have e₁ : Interpreter.evalAfter 3 []
      (.Binary .LT (.Literal (.int 1) 1) (.Literal (.int 2) 1) 1)
      = .ok (.bool true) Interpreter.initial := by decide!
  have e₂ : Interpreter.evalAfter 3 []
      (.Binary .LT (.Literal (.str "a") 1) (.Literal (.str "b") 1) 1)
      = .ok (.bool true) Interpreter.initial := by decide!
  have e₃ : Interpreter.evalAfter 3 []
      (.Binary .LT (.Literal (.bool true) 1) (.Literal (.bool false) 1) 1)
      = .throw (.RuntimeError 1 "Invalid operands for binary operator '<'.")
          Interpreter.initial := by decide!
  have e₄ : Interpreter.evalAfter 3 [] (.Binary .EQ (.Literal .nil 1) (.Literal (.int 0) 1) 1)
      = .ok (.bool false) Interpreter.initial := by decide!
  refine ⟨⟨rfl, rfl, rfl, rfl⟩, ?_, ?_, ⟨rfl, rfl, rfl, rfl⟩, ?_, ?_, ?_, ?_, ?_, ?_⟩
  · cases n <;> exact ⟨rfl, rfl, rfl, rfl⟩
  · cases n <;> exact ⟨rfl, rfl, rfl, rfl⟩
  · intro hnum hstr op hop
    have nn : ∀ x y : Num, ¬ (a = x.toValue ∧ b = y.toValue) := fun x y h => hnum ⟨x, y, h⟩
    have ns : ∀ u v, ¬ (a = .str u ∧ b = .str v) := fun u v h => hstr ⟨u, v, h⟩
    simp only [List.mem_cons, List.mem_singleton, List.not_mem_nil, or_false] at hop
    rcases hop with rfl | rfl | rfl | rfl <;> cases a <;> cases b <;>
      first
      | exact ⟨_, rfl⟩
      | exact absurd ⟨rfl, rfl⟩ (nn (.int _) (.int _))
      | exact absurd ⟨rfl, rfl⟩ (nn (.int _) (.double _))
      | exact absurd ⟨rfl, rfl⟩ (nn (.double _) (.int _))
      | exact absurd ⟨rfl, rfl⟩ (nn (.double _) (.double _))
      | exact absurd ⟨rfl, rfl⟩ (ns _ _)
  · cases a <;> cases b <;> exact ⟨_, rfl, rfl⟩
  · rw [Interpreter.evalAfter_add 3 k _ _ (by rw [e₁]; exact fun h => Res.noConfusion h), e₁]
  · rw [Interpreter.evalAfter_add 3 k _ _ (by rw [e₂]; exact fun h => Res.noConfusion h), e₂]
  · rw [Interpreter.evalAfter_add 3 k _ _ (by rw [e₃]; exact fun h => Res.noConfusion h), e₃]
  · rw [Interpreter.evalAfter_add 3 k _ _ (by rw [e₄]; exact fun h => Res.noConfusion h), e₄]

/-! ## The driver (C28, C29) -/

theorem Interpreter.interpret_le (n k : Nat) (ast : List (Option Stmt)) :
    M.le (Interpreter.interpret n ast) (Interpreter.interpret (n + k) ast) := by
  have hle := fuelLe_add n k
  have hrun : M.le (Interpreter.run n ast) (Interpreter.run (n + k) ast) :=
    M.le_execStatements (fun st => hle.2.1 st _) ast
  exact M.le_tryCatch (M.le_bind hrun (fun _ => M.le_rfl _)) (fun _ => M.le_rfl _)

/-- Once `main` ends without running out of fuel, every larger budget gives
the same outcome. -/
theorem main_add (n k : Nat) (ast : List (Option Stmt)) (h : main n ast ≠ .outOfFuel) :
    main (n + k) ast = main n ast := by
  unfold main at h ⊢
  rcases Interpreter.interpret_le n k ast Interpreter.initial with h' | h'
  · rw [h'] at h
    exact absurd rfl h
  · rw [h']

/-- Once `main` ends without running out of fuel, every budget either runs out
of fuel or gives the same outcome. -/
theorem main_stable (n : Nat) (ast : List (Option Stmt)) (h : main n ast ≠ .outOfFuel)
    (fuel : Nat) : main fuel ast = .outOfFuel ∨ main fuel ast = main n ast := by
  rcases Nat.le_total fuel n with hle | hle
  · obtain ⟨k, rfl⟩ := Nat.exists_eq_add_of_le hle
    by_cases h' : main fuel ast = .outOfFuel
    · exact Or.inl h'
    · exact Or.inr (main_add fuel k ast h').symm
  · obtain ⟨k, rfl⟩ := Nat.exists_eq_add_of_le hle
    exact Or.inr (main_add n k ast h)

/-- C28, the code at the failing inputs.  The program `int x = "a";` ends
with the `std::runtime_error` of `Environment::define`, which is not a
`RuntimeError` and carries no line, and the driver reports it as
`Runtime Error: Initializer type mismatch for variable 'x'.`; the program
`int x = 1;` / `x = "a";` ends likewise with the `std::runtime_error` of
`Environment::assign`.  When the declaration is on line 2, in a function
called on line 4, the error is a `RuntimeError` with line 4, the line of the
call.  An undefined variable read on line 3, in contrast, is a `RuntimeError`
with line 3.  All of this with every budget of at least 10, and no budget
gives another outcome. -/
theorem type_mismatch_error_has_no_line (k : Nat) :
    (Interpreter.evalAfter (10 + k) Example.declareIntWithString (.Literal .nil 1)).exn?
      = some (.runtime_error "Initializer type mismatch for variable 'x'.")
    ∧ (main (10 + k) Example.declareIntWithString).value?
      = some (0, ["Runtime Error: Initializer type mismatch for variable 'x'."])
    ∧ (¬ ∃ fuel line message,
        (Interpreter.evalAfter fuel Example.declareIntWithString (.Literal .nil 1)).exn?
          = some (.RuntimeError line message))
    ∧ (Interpreter.evalAfter (10 + k) Example.assignStringToInt (.Literal .nil 1)).exn?
      = some (.runtime_error "Type mismatch on assignment to static variable 'x'.")
    ∧ (main (10 + k) Example.assignStringToInt).value?
      = some (0, ["Runtime Error: Type mismatch on assignment to static variable 'x'."])
    ∧ (¬ ∃ fuel line message,
        (Interpreter.evalAfter fuel Example.assignStringToInt (.Literal .nil 1)).exn?
          = some (.RuntimeError line message))
    ∧ (Interpreter.evalAfter (10 + k) Example.declareInsideFunction (.Literal .nil 1)).exn?
      = some (.RuntimeError 4 "Initializer type mismatch for variable 'x'.")
    ∧ (Interpreter.evalAfter (10 + k) Example.readUndefined (.Literal .nil 1)).exn?
      = some (.RuntimeError 3 "Undefined variable: y") := by
  have h₁ : (Interpreter.evalAfter 10 Example.declareIntWithString (.Literal .nil 1)).exn?
      = some (.runtime_error "Initializer type mismatch for variable 'x'.") := by decide!
  have h₂ : (Interpreter.evalAfter 10 Example.assignStringToInt (.Literal .nil 1)).exn?
      = some (.runtime_error "Type mismatch on assignment to static variable 'x'.") := by
    decide!
  have h₃ : (Interpreter.evalAfter 10 Example.declareInsideFunction (.Literal .nil 1)).exn?
      = some (.RuntimeError 4 "Initializer type mismatch for variable 'x'.") := by decide!
  have h₄ : (Interpreter.evalAfter 10 Example.readUndefined (.Literal .nil 1)).exn?
      = some (.RuntimeError 3 "Undefined variable: y") := by decide!
  have m₁ : (main 10 Example.declareIntWithString).value?
      = some (0, ["Runtime Error: Initializer type mismatch for variable 'x'."]) := by decide!
  have m₂ : (main 10 Example.assignStringToInt).value?
      = some (0, ["Runtime Error: Type mismatch on assignment to static variable 'x'."]) := by
    decide!
  refine ⟨(Interpreter.exn_stable 10 _ _ _ h₁).1 k, ?_, ?_, (Interpreter.exn_stable 10 _ _ _ h₂).1 k,
    ?_, ?_, (Interpreter.exn_stable 10 _ _ _ h₃).1 k, (Interpreter.exn_stable 10 _ _ _ h₄).1 k⟩
  · rw [main_add 10 k _ (Res.ne_outOfFuel_of_value m₁)]
    exact m₁
  · rintro ⟨fuel, line, message, h⟩
    rcases Interpreter.evalAfter_stable 10 _ _ (Res.ne_outOfFuel_of_exn h₁) fuel with h' | h'
    · rw [h'] at h; cases h
    · rw [h', h₁] at h; cases h
  · rw [main_add 10 k _ (Res.ne_outOfFuel_of_value m₂)]
    exact m₂
  · rintro ⟨fuel, line, message, h⟩
    rcases Interpreter.evalAfter_stable 10 _ _ (Res.ne_outOfFuel_of_exn h₂) fuel with h' | h'
    · rw [h'] at h; cases h
    · rw [h', h₂] at h; cases h

/-- C29, the code at the failing input.  For the program `print(1);` /
`print(1 / 0);` / `print(2);`, with every budget of at least 10, `main` stops
at the second statement (only `1` is printed), reports
`Line 2: Division by zero.` on the error stream and returns exit status `0`,
and no budget makes it return another status.  A program that completes
(`print(1); print(2);`) returns `0` and reports nothing.  Only an exception
that is not a `std::runtime_error`, as the one of `break;` outside a loop,
makes `main` return `1`. -/
theorem uncaught_runtime_error_exits_with_zero (k : Nat) :
    (main (10 + k) Example.divisionByZeroProgram).value?
      = some (0, ["Line 2: Division by zero."])
    ∧ ((main (10 + k) Example.divisionByZeroProgram).state?.map fun s => s.output)
      = some [[.int 1]]
    ∧ (¬ ∃ fuel status report, status ≠ 0 ∧
        (main fuel Example.divisionByZeroProgram).value? = some (status, report))
    ∧ (main (10 + k) Example.printOneTwo).value? = some (0, [])
    ∧ ((main (10 + k) Example.printOneTwo).state?.map fun s => s.output)
      = some [[.int 1], [.int 2]]
    ∧ (main (10 + k) Example.breakAtTopLevel).value? = some (1, ["Fatal Error: std::exception"])
    ∧ ((main (10 + k) Example.breakAtTopLevel).state?.map fun s => s.output)
      = some [[.int 1]] := by
  have m₁ : (main 10 Example.divisionByZeroProgram).value?
      = some (0, ["Line 2: Division by zero."]) := by decide!
  have m₂ : (main 10 Example.printOneTwo).value? = some (0, []) := by decide!
  have m₃ : (main 10 Example.breakAtTopLevel).value?
      = some (1, ["Fatal Error: std::exception"]) := by decide!
  rw [main_add 10 k _ (Res.ne_outOfFuel_of_value m₁),
    main_add 10 k _ (Res.ne_outOfFuel_of_value m₂),
    main_add 10 k _ (Res.ne_outOfFuel_of_value m₃)]
  refine ⟨m₁, by decide!, ?_, m₂, by decide!, m₃, by decide!⟩
  rintro ⟨fuel, status, report, hne, h⟩
  rcases main_stable 10 _ (Res.ne_outOfFuel_of_value m₁) fuel with h' | h'
  · rw [h'] at h; cases h
  · rw [h', m₁] at h
    cases h
    exact hne rfl

/-! ## Throw and try/catch in the emitted program (C30) -/

namespace Transpiler

theorem run_bind_apply {α β : Type} (m : Run α) (f : α → Run β) (s : State) :
    (m >>= f) s = match m s with
      | .ok a s' => f a s'
      | .throw e s' => .throw e s'
      | .fault s' => .fault s'
      | .outOfFuel => .outOfFuel := rfl

theorem run_pure_apply {α : Type} (a : α) (s : State) : (pure a : Run α) s = .ok a s := rfl

/-- A statement that throws ends the statements of its block: the statements
after it are not run. -/
theorem StmtList.exec_head_throws (n : Nat) (head : Stmt) (tail : StmtList) (types : TypeMap)
    (scope : Scope) (s t : State) (e : Thrown)
    (h : Stmt.exec n head types scope s = .throw e t) :
    StmtList.exec (n + 1) (.cons head tail) types scope s = .throw e t := by
  simp [StmtList.exec, run_bind_apply, h]

/-- After a statement that completes without returning, the block goes on with
the statements that follow. -/
theorem StmtList.exec_head_completes (n : Nat) (head : Stmt) (tail : StmtList)
    (types types' : TypeMap) (scope scope' : Scope) (s t : State)
    (h : Stmt.exec n head types scope s = .ok (none, types', scope') t) :
    StmtList.exec (n + 1) (.cons head tail) types scope s
      = StmtList.exec n tail types' scope' t := by
  simp [StmtList.exec, run_bind_apply, h]

/-- A block whose statements throw throws. -/
theorem Stmt.exec_block_throws (n : Nat) (statements : StmtList) (types : TypeMap)
    (scope : Scope) (s t : State) (e : Thrown)
    (h : StmtList.exec n statements types scope s = .throw e t) :
    Stmt.exec (n + 1) (.BlockStmt statements) types scope s = .throw e t := by
  simp [Stmt.exec, run_bind_apply, h]

/-- An expression statement whose expression throws throws. -/
theorem Stmt.exec_expr_throws (n : Nat) (expr : Expr) (types : TypeMap) (scope : Scope)
    (s t : State) (e : Thrown) (h : Expr.eval n expr types scope s = .throw e t) :
    Stmt.exec (n + 1) (.ExprStmt expr) types scope s = .throw e t := by
  simp [Stmt.exec, run_bind_apply, h]

/-- A call of a user function whose body throws throws. -/
theorem Expr.eval_call_throws (n : Nat) (callee : String) (args : ExprList) (types : TypeMap)
    (scope : Scope) (s s₁ s₂ t : State) (func : Nat) (vals : List Value) (name : String)
    (params : List String) (body : StmtList) (ftypes : TypeMap) (captured fscope : Scope)
    (e : Thrown)
    (hcallee : VarExpr.eval callee types scope s = .ok (.func (some func)) s₁)
    (hargs : ExprList.eval (n + 1) args types scope s₁ = .ok vals s₂)
    (hc : s₂.callables[func]?
      = some (.UserFunction vals.length name params body ftypes captured))
    (hbind : bindArgs params vals captured = some fscope)
    (hbody : StmtList.exec n body (bodyTypes params ftypes) fscope s₂ = .throw e t) :
    Expr.eval (n + 2) (.CallExpr callee args) types scope s = .throw e t := by
  simp [Expr.eval, Callable.call, run_bind_apply, hcallee, hargs, readCallable, hc,
    Callable.arity, hbind, hbody]

/-- The handler of a `try` statement whose block threw the value `v`: the
`catch` block in the state the throw left, after the allocation of the cell
of the catch variable. -/
theorem Stmt.exec_try_caught (n : Nat) (try_block catch_block : StmtList) (x : String)
    (types : TypeMap) (scope : Scope) (s t : State) (v : Value)
    (h : StmtList.exec n try_block types scope s = .throw (._ThrowSignal v) t) :
    Stmt.exec (n + 1) (.TryStmt try_block x catch_block) types scope s
      = match StmtList.exec n catch_block
            (types.insert x { type_name := "Value", is_heap_allocated := true })
            (scope.insert (sanitize x) (.shared t.cells.length))
            { t with cells := t.cells ++ [v] } with
        | .ok r u => .ok (r, types, scope) u
        | .throw e u => .throw e u
        | .fault u => .fault u
        | .outOfFuel => .outOfFuel := by
  simp only [Stmt.exec, Run.tryCatch, run_bind_apply, h, newCell]
  cases StmtList.exec n catch_block
    (types.insert x { type_name := "Value", is_heap_allocated := true })
    (scope.insert (sanitize x) (.shared t.cells.length)) { t with cells := t.cells ++ [v] } <;> rfl

/-- In the handler the catch variable reads as the value in its cell. -/
theorem VarExpr.eval_catch_variable (x : String) (types : TypeMap) (scope : Scope) (t : State)
    (v : Value) :
    VarExpr.eval x (types.insert x { type_name := "Value", is_heap_allocated := true })
        (scope.insert (sanitize x) (.shared t.cells.length)) { t with cells := t.cells ++ [v] }
      = .ok v { t with cells := t.cells ++ [v] } := by
  simp [VarExpr.eval, StrMap.find_insert_self]

end Transpiler

/-! ## The budget of the emitted program -/

namespace Transpiler

theorem run_le_rfl {α : Type} (m : Run α) : Run.le m m := fun _ => Or.inr rfl

theorem run_le_bind {α β : Type} {m m' : Run α} {f f' : α → Run β} (hm : Run.le m m')
    (hf : ∀ a, Run.le (f a) (f' a)) : Run.le (m >>= f) (m' >>= f') := by
  intro s
  simp only [run_bind_apply]
  rcases hm s with h | h
  · left; rw [h]
  · rw [h]
    cases m s with
    | ok a s' => exact hf a s'
    | throw e s' => right; rfl
    | fault s' => right; rfl
    | outOfFuel => left; rfl

theorem run_le_tryCatch {α : Type} {m m' : Run α} {h h' : Thrown → Run α} (hm : Run.le m m')
    (hh : ∀ e, Run.le (h e) (h' e)) : Run.le (Run.tryCatch m h) (Run.tryCatch m' h') := by
  intro s
  simp only [Run.tryCatch]
  rcases hm s with hs | hs
  · left; rw [hs]
  · rw [hs]
    cases m s with
    | ok a s' => right; rfl
    | throw e s' => exact hh e s'
    | fault s' => right; rfl
    | outOfFuel => left; rfl

theorem budgetLe_zero (m : Nat) : BudgetLe 0 m := by
  refine ⟨?_, ?_, ?_, ?_, ?_, ?_⟩ <;> intros <;> intro s <;> left <;> rfl

theorem budgetLe_succ (n m : Nat) (ih : BudgetLe n m) : BudgetLe (n + 1) (m + 1) := by
  obtain ⟨ihE, ihL, ihP, ihS, ihB, ihC⟩ := ih
  refine ⟨?_, ?_, ?_, ?_, ?_, ?_⟩
  · intro e types scope
    cases e <;> simp only [Expr.eval] <;>
      repeat (first
        | exact run_le_rfl _
        | exact ihL _ _ _
        | exact ihP _ _ _
        | exact ihC _ _
        | refine run_le_bind ?_ (fun _ => ?_)
        | split)
  · intro l types scope
    cases l <;> simp only [ExprList.eval] <;>
      repeat (first
        | exact run_le_rfl _
        | exact ihE _ _ _
        | exact ihL _ _ _
        | refine run_le_bind ?_ (fun _ => ?_))
  · intro l types scope
    cases l <;> simp only [PairList.eval] <;>
      repeat (first
        | exact run_le_rfl _
        | exact ihE _ _ _
        | exact ihP _ _ _
        | refine run_le_bind ?_ (fun _ => ?_))
  · intro st types scope
    cases st <;> simp only [Stmt.exec] <;>
      repeat (first
        | exact run_le_rfl _
        | exact ihE _ _ _
        | exact ihB _ _ _
        | refine run_le_bind ?_ (fun _ => ?_)
        | refine run_le_tryCatch ?_ (fun _ => ?_)
        | split)
  · intro l types scope
    cases l <;> simp only [StmtList.exec] <;>
      repeat (first
        | exact run_le_rfl _
        | exact ihS _ _ _
        | exact ihB _ _ _
        | refine run_le_bind ?_ (fun _ => ?_)
        | split)
  · intro f args
    simp only [Callable.call]
    repeat (first
      | exact run_le_rfl _
      | exact ihB _ _ _
      | refine run_le_bind ?_ (fun _ => ?_)
      | split)

theorem budgetLe_add (n k : Nat) : BudgetLe n (n + k) := by
  induction n with
  | zero => exact budgetLe_zero _
  | succ n ih =>
    have := budgetLe_succ n (n + k) ih
    rwa [show n + 1 + k = n + k + 1 by omega]

/-- Once the emitted program ends without running out of fuel, every larger
budget gives the same outcome. -/
theorem Program.exec_add (n k : Nat) (ast : StmtList) (h : Program.exec n ast ≠ .outOfFuel) :
    Program.exec (n + k) ast = Program.exec n ast := by
  unfold Program.exec at h ⊢
  rcases (budgetLe_add n k).2.2.2.2.1 ast (globalTypes ast) [] initial with h' | h'
  · rw [h'] at h
    exact absurd rfl h
  · rw [h']

/-- Once the emitted program ends without running out of fuel, every budget
either runs out of fuel or gives the same outcome. -/
theorem Program.exec_stable (n : Nat) (ast : StmtList) (h : Program.exec n ast ≠ .outOfFuel)
    (fuel : Nat) : Program.exec fuel ast = .outOfFuel ∨ Program.exec fuel ast = Program.exec n ast := by
  rcases Nat.le_total fuel n with hle | hle
  · obtain ⟨k, rfl⟩ := Nat.exists_eq_add_of_le hle
    by_cases h' : Program.exec fuel ast = .outOfFuel
    · exact Or.inl h'
    · exact Or.inr (Program.exec_add fuel k ast h').symm
  · obtain ⟨k, rfl⟩ := Nat.exists_eq_add_of_le hle
    exact Or.inr (Program.exec_add n k ast h)

end Transpiler

namespace Transpiler

/-- C30. In the program that the transpiler emits, for a `try` statement
whose block throws the value `v`, whatever value it is: the handler runs in
the state the throw left, in the scope of the `try` statement extended by the
catch variable, which is a newly allocated cell holding `v` and reads as `v`;
when the handler completes, the statement completes and the scope after it is
the one before it; when the handler throws, the statement throws the same,
in particular `throw x;` on the catch variable throws `v` again, and an
enclosing `try` statement runs its own handler with its catch variable
holding that value.  When the block does not throw, the statement ends as
the block does, whatever the handler is.  A `throw` statement throws the
value of its expression; a statement that throws ends the statements of its
block, those after it are not run; a nested block, an expression statement
and a call of a function whose body throws pass it on.  With every budget of
at least 30, the tests 1 to 3 of the transpiler's test program print what
they announce, the rethrown dictionary is the dictionary thrown, and a `throw`
in a nested block of a function called from the `try` block is caught. -/
theorem try_catch_binds_thrown_value (n : Nat) (try_block catch_block : StmtList) (x : String)
    (types : TypeMap) (scope : Scope) (s t : State) (v : Value) (k : Nat)
    (hthrow : StmtList.exec n try_block types scope s = .throw (._ThrowSignal v) t) :
    (∀ r u, StmtList.exec n catch_block
          (types.insert x { type_name := "Value", is_heap_allocated := true })
          (scope.insert (sanitize x) (.shared t.cells.length))
          { t with cells := t.cells ++ [v] } = .ok r u →
        Stmt.exec (n + 1) (.TryStmt try_block x catch_block) types scope s
          = .ok (r, types, scope) u)
    ∧ VarExpr.eval x (types.insert x { type_name := "Value", is_heap_allocated := true })
          (scope.insert (sanitize x) (.shared t.cells.length)) { t with cells := t.cells ++ [v] }
        = .ok v { t with cells := t.cells ++ [v] }
    ∧ (∀ e u, StmtList.exec n catch_block
          (types.insert x { type_name := "Value", is_heap_allocated := true })
          (scope.insert (sanitize x) (.shared t.cells.length))
          { t with cells := t.cells ++ [v] } = .throw e u →
        Stmt.exec (n + 1) (.TryStmt try_block x catch_block) types scope s = .throw e u)
    ∧ (∀ m rest, n = m + 3 →
        Stmt.exec (n + 1) (.TryStmt try_block x (.cons (.ThrowStmt (.VarExpr x)) rest)) types
            scope s
          = .throw (._ThrowSignal v) { t with cells := t.cells ++ [v] })
    ∧ (∀ w u rest y handler r u',
        Stmt.exec (n + 1) (.TryStmt try_block x catch_block) types scope s
          = .throw (._ThrowSignal w) u →
        StmtList.exec (n + 2) handler
          (types.insert y { type_name := "Value", is_heap_allocated := true })
          (scope.insert (sanitize y) (.shared u.cells.length))
          { u with cells := u.cells ++ [w] } = .ok r u' →
        Stmt.exec (n + 3) (.TryStmt (.cons (.TryStmt try_block x catch_block) rest) y handler)
            types scope s
          = .ok (r, types, scope) u')
    ∧ (∀ s' r t', StmtList.exec n try_block types scope s' = .ok r t' →
        ∀ y handler, Stmt.exec (n + 1) (.TryStmt try_block y handler) types scope s'
          = .ok (r, types, scope) t')
    ∧ (∀ m e ty sc a w b, Expr.eval m e ty sc a = .ok w b →
        Stmt.exec (m + 1) (.ThrowStmt e) ty sc a = .throw (._ThrowSignal w) b)
    ∧ (∀ m head tail ty sc a e b, Stmt.exec m head ty sc a = .throw e b →
        StmtList.exec (m + 1) (.cons head tail) ty sc a = .throw e b)
    ∧ (∀ m head tail ty ty' sc sc' a b, Stmt.exec m head ty sc a = .ok (none, ty', sc') b →
        StmtList.exec (m + 1) (.cons head tail) ty sc a = StmtList.exec m tail ty' sc' b)
    ∧ (∀ m statements ty sc a e b, StmtList.exec m statements ty sc a = .throw e b →
        Stmt.exec (m + 1) (.BlockStmt statements) ty sc a = .throw e b)
    ∧ (∀ m expr ty sc a e b, Expr.eval m expr ty sc a = .throw e b →
        Stmt.exec (m + 1) (.ExprStmt expr) ty sc a = .throw e b)
    ∧ (∀ m callee args ty sc a a₁ a₂ b func vals name params body ftypes captured fscope e,
        VarExpr.eval callee ty sc a = .ok (.func (some func)) a₁ →
        ExprList.eval (m + 1) args ty sc a₁ = .ok vals a₂ →
        a₂.callables[func]?
          = some (.UserFunction vals.length name params body ftypes captured) →
        bindArgs params vals captured = some fscope →
        StmtList.exec m body (bodyTypes params ftypes) fscope a₂ = .throw e b →
        Expr.eval (m + 2) (.CallExpr callee args) ty sc a = .throw e b)
    ∧ ((Program.exec (30 + k) Example.basicThrowAndCatch).state?.map fun s => s.output)
        = some [ [.str "Test 1"], [.str "about to throw"],
                 [.str "Caught exception:", .str "This is a test exception!"],
                 [.str "Test 1 Passed."] ]
    ∧ ((Program.exec (30 + k) Example.noExceptionThrown).state?.map fun s => s.output)
        = some [ [.str "no throw"], [.str "Test 2 Passed."] ]
    ∧ ((Program.exec (30 + k) Example.nestedAndRethrow).state?.map fun s => s.output)
        = some [ [.str "outer"], [.str "inner"], [.str "Inner catch caught:", .dict 0],
                 [.str "Outer catch caught:", .dict 0], [.str "Test 3 Passed."] ]
    ∧ ((Program.exec (30 + k) Example.nestedAndRethrow).state?.map fun s => s.dicts)
        = some [ [("code", .int 404), ("message", .str "Not Found")] ]
    ∧ ((Program.exec (30 + k) Example.throwInCalledFunction).state?.map fun s => s.output)
        = some [ [.str "caught", .str "boom"] ] := by
  have hcaught := Stmt.exec_try_caught n try_block
  have e₁ : Program.exec 30 Example.basicThrowAndCatch ≠ .outOfFuel := by decide!
  have e₂ : Program.exec 30 Example.noExceptionThrown ≠ .outOfFuel := by decide!
  have e₃ : Program.exec 30 Example.nestedAndRethrow ≠ .outOfFuel := by decide!
  have e₄ : Program.exec 30 Example.throwInCalledFunction ≠ .outOfFuel := by decide!
  rw [Program.exec_add 30 k _ e₁, Program.exec_add 30 k _ e₂, Program.exec_add 30 k _ e₃,
    Program.exec_add 30 k _ e₄]
  refine ⟨?_, VarExpr.eval_catch_variable x types scope t v, ?_, ?_, ?_, ?_, ?_,
    fun m head tail ty sc a e b h => StmtList.exec_head_throws m head tail ty sc a b e h,
    StmtList.exec_head_completes,
    fun m statements ty sc a e b h => Stmt.exec_block_throws m statements ty sc a b e h,
    fun m expr ty sc a e b h => Stmt.exec_expr_throws m expr ty sc a b e h, ?_, by decide!, by decide!, by decide!, by decide!, by decide!⟩
  · intro r u h
    rw [hcaught catch_block x types scope s t v hthrow, h]
  · intro e u h
    rw [hcaught catch_block x types scope s t v hthrow, h]
  · intro m rest hn
    subst hn
    rw [hcaught _ x types scope s t v hthrow]
    simp [StmtList.exec, Stmt.exec, Expr.eval, run_bind_apply,
      VarExpr.eval_catch_variable x types scope t v, Run.raise]
  · intro w u rest y handler r u' hinner hhandler
    have hblock := StmtList.exec_head_throws (n + 1) _ rest types scope s u _ hinner
    rw [Stmt.exec_try_caught (n + 2) _ handler y types scope s u w hblock, hhandler]
  · intro s' r t' h y handler
    simp [Stmt.exec, Run.tryCatch, run_bind_apply, h, run_pure_apply]
  · intro m e ty sc a w b h
    simp [Stmt.exec, run_bind_apply, h, Run.raise]
  · intro m callee args ty sc a a₁ a₂ b func vals name params body ftypes captured fscope e
      hcallee hargs hc hbind hbody
    exact Expr.eval_call_throws m callee args ty sc a a₁ a₂ b func vals name params body ftypes
      captured fscope e hcallee hargs hc hbind hbody

/-- Witness of `try_catch_binds_thrown_value`: for `try { throw "a"; } catch (e) { }`
in the initial state, the catch variable reads `"a"` in the handler. -/
theorem try_catch_binds_thrown_value_witness :
    StmtList.exec 3 (StmtList.ofList [.ThrowStmt (Example.str "a")]) [] [] initial
        = .throw (._ThrowSignal (.str "a")) initial
    ∧ VarExpr.eval "e" [("e", { type_name := "Value", is_heap_allocated := true })]
          [("_var_e", .shared 0)] { initial with cells := [.str "a"] }
        = .ok (.str "a") { initial with cells := [.str "a"] }
    ∧ Stmt.exec 4 (.TryStmt (StmtList.ofList [.ThrowStmt (Example.str "a")]) "e" .nil) [] []
          initial
        = .ok (none, [], []) { initial with cells := [.str "a"] } :=
  ⟨by decide!,
   (try_catch_binds_thrown_value 3 (StmtList.ofList [.ThrowStmt (Example.str "a")]) .nil "e"
      [] [] initial initial (.str "a") 0 (by decide!)).2.1,
   (try_catch_binds_thrown_value 3 (StmtList.ofList [.ThrowStmt (Example.str "a")]) .nil "e"
      [] [] initial initial (.str "a") 0 (by decide!)).1 none _ (by decide!)⟩

end Transpiler

/-! ## An uncaught throw (C31) -/

namespace Transpiler

/-- Once the emitted `main` ends without running out of fuel, every larger
budget gives the same outcome. -/
theorem emitted_main_add (n k : Nat) (ast : StmtList) (h : main n ast ≠ .outOfFuel) :
    main (n + k) ast = main n ast := by
  have hp : Program.exec n ast ≠ .outOfFuel := by
    intro hp
    apply h
    unfold main
    rw [hp]
  unfold main
  rw [Program.exec_add n k ast hp]

/-- C31. In the emitted program, `throw "boom";` throws the string and the
statements after it in its block are not run, whatever they are.  When the
top-level statements end with a thrown string and no `try` statement caught
it, the emitted `main` writes `Unhandled Exception: ` followed by the string
to the error stream and returns the exit status `1`, in the state the throw
left.  For `print("before"); throw "boom"; print("after");`, with every
budget of at least 10, `main` returns `1`, reports `Unhandled Exception: boom`
and only `before` is printed. -/
theorem uncaught_throw_is_reported (n : Nat) (rest : StmtList) (types : TypeMap)
    (scope : Scope) (s : State) (k : Nat) :
    StmtList.exec (n + 3) (.cons (.ThrowStmt (.LiteralExpr (.string "boom"))) rest) types scope s
      = .throw (._ThrowSignal (.str "boom")) s
    ∧ (∀ fuel ast text t, Program.exec fuel ast = .throw (._ThrowSignal (.str text)) t →
        main fuel ast = .ok (1, ["Unhandled Exception: " ++ text]) t)
    ∧ main (10 + k) Example.uncaughtBoom
        = .ok (1, ["Unhandled Exception: boom"])
            { initial with output := [[.str "before"]] } := by
  have e₁ : main 10 Example.uncaughtBoom
      = .ok (1, ["Unhandled Exception: boom"]) { initial with output := [[.str "before"]] } := by
    decide!
  refine ⟨?_, ?_, ?_⟩
  · simp [StmtList.exec, Stmt.exec, Expr.eval, run_bind_apply, run_pure_apply, Run.raise,
      Literal.toValue]
  · intro fuel ast text t h
    simp [main, h, toString?]
  · rw [emitted_main_add 10 k _ (by rw [e₁]; exact fun h => Outcome.noConfusion h), e₁]

end Transpiler

/-! ## Strings under index assignment (C32) -/

/-- An element that occurs at most once in a list occurs at one position only. -/
theorem count_le_one_unique {α : Type} [BEq α] [LawfulBEq α] (a : α) :
    ∀ (l : List α) (i j : Nat), l.count a ≤ 1 → l[i]? = some a → l[j]? = some a → i = j := by
  intro l
  induction l with
  | nil => intro i j _ hi; simp at hi
  | cons x xs ih =>
    intro i j hc hi hj
    by_cases hx : x = a
    · subst hx
      have hxs : xs.count x = 0 := by
        rw [List.count_cons_self] at hc
        omega
      have hnot : ∀ (n : Nat), xs[n]? ≠ some x := by
        intro n hn
        have hmem : x ∈ xs := List.getElem?_mem hn
        exact (List.count_eq_zero.1 hxs) hmem
      cases i with
      | zero =>
        cases j with
        | zero => rfl
        | succ j => exact absurd (by simpa using hj) (hnot j)
      | succ i => exact absurd (by simpa using hi) (hnot i)
    · have hc' : xs.count a ≤ 1 := by
        rwa [List.count_cons_of_ne (Ne.symm hx)] at hc
      cases i with
      | zero => simp at hi; exact absurd hi hx
      | succ i =>
        cases j with
        | zero => simp at hj; exact absurd hj hx
        | succ j =>
          have := ih i j hc' (by simpa using hi) (by simpa using hj)
          omega

/-- After `writeable()` the pointer has a buffer of its own with the same
text; the other pointers and the buffers they point to are as before. -/
theorem StringData.writeable_private (h : StringHeap) (d b : Nat) (str : String)
    (hwf : h.WellFormed) (hd : h.owners[d]? = some (some b)) (hb : h.buffers[b]? = some str) :
    ∃ h₁ b₁, StringData.writeable d h = some h₁
      ∧ h₁.WellFormed
      ∧ h₁.owners[d]? = some (some b₁)
      ∧ h₁.buffers[b₁]? = some str
      ∧ h₁.owners.length = h.owners.length
      ∧ (∀ d', d' ≠ d → h₁.owners[d']? = h.owners[d']?)
      ∧ (∀ d', d' ≠ d → h₁.owners[d']? ≠ some (some b₁))
      ∧ (∀ b', b' < h.buffers.length → h₁.buffers[b']? = h.buffers[b']?)
      ∧ h.buffers.length ≤ h₁.buffers.length := by
  have hdl : d < h.owners.length := getElem?_lt_length _ _ _ hd
  by_cases hshared : h.use_count b > 1
  · refine ⟨{ h with buffers := h.buffers ++ [str],
                     owners := h.owners.set d (some h.buffers.length) },
      h.buffers.length, ?_, ?_, ?_, ?_, ?_, ?_, ?_, ?_, ?_⟩
    · simp [StringData.writeable, hd, hshared, hb]
    · intro d' b' hd'
      by_cases hdd : d' = d
      · subst hdd
        simp only [List.getElem?_set_self hdl, Option.some.injEq] at hd'
        subst hd'
        simp
      · simp only [List.getElem?_set_ne (Ne.symm hdd)] at hd'
        have := hwf d' b' hd'
        simp only [List.length_append, List.length_singleton]
        omega
    · exact List.getElem?_set_self hdl
    · simp
    · simp
    · intro d' hdd
      exact List.getElem?_set_ne (Ne.symm hdd)
    · intro d' hdd hd'
      simp only [List.getElem?_set_ne (Ne.symm hdd)] at hd'
      have := hwf d' _ hd'
      omega
    · intro b' hb'
      simp [List.getElem?_append_left hb']
    · simp
  · refine ⟨h, b, ?_, hwf, hd, hb, rfl, fun _ _ => rfl, ?_, fun _ _ => rfl, Nat.le_refl _⟩
    · simp [StringData.writeable, hd, hshared]
    · intro d' hdd hd'
      have hle : h.owners.count (some b) ≤ 1 := by
        unfold StringHeap.use_count at hshared
        omega
      exact hdd (count_le_one_unique (some b) h.owners d' d hle hd' hd)

/-- C32. On the heap of string buffers, with `s` a `StringData` that holds the
text `str`: after a copy `t` of it, as the assignment `t = s` makes, the index
assignment through `s` completes exactly when the index is within the text,
and then `s` holds the text with the character at that index replaced,
otherwise the same text; in both cases `t` still holds `str`, and every
other `StringData`, such as the one a literal of the program holds, and every
copy made of it afterwards, as the evaluation of the literal makes, hold the
text they held.  In the evaluator, which holds strings as values, after
`var s = "abc"; var t = s; s[0] = "x";` the variable `s` is `"xbc"`, `t` is
`"abc"` and the literal `"abc"` evaluates to `"abc"`, with every budget of
at least 10. -/
theorem string_index_assignment_is_private (h : StringHeap) (s : Nat) (str : String)
    (idx : Int) (c : Char) (k : Nat) (hwf : h.WellFormed)
    (hs : StringData.get s h = some str) :
    (∃ t h₁ done h₂, StringData.copy s h = some (t, h₁)
      ∧ t ≠ s
      ∧ StringData.get t h₁ = some str
      ∧ StringData.assignIndex s idx c h₁ = some (done, h₂)
      ∧ (done = true ↔ 0 ≤ idx ∧ idx < str.length)
      ∧ StringData.get s h₂
          = some (if done then String.mk (str.data.set idx.toNat c) else str)
      ∧ StringData.get t h₂ = some str
      ∧ (∀ d, d ≠ s → StringData.get d h₂ = StringData.get d h₁)
      ∧ (∀ d e h₃, d ≠ s → StringData.copy d h₂ = some (e, h₃) →
          StringData.get e h₃ = StringData.get d h₁))
    ∧ (Interpreter.evalAfter (10 + k) Example.aliasThenIndexAssign (.Var "s" 1)).value?
        = some (.str "xbc")
    ∧ (Interpreter.evalAfter (10 + k) Example.aliasThenIndexAssign (.Var "t" 1)).value?
        = some (.str "abc")
    ∧ (Interpreter.evalAfter (10 + k) Example.aliasThenIndexAssign
        (.Literal (.str "abc") 1)).value? = some (.str "abc") := by
  have e₁ : (Interpreter.evalAfter 10 Example.aliasThenIndexAssign (.Var "s" 1)).value?
      = some (.str "xbc") := by decide!
  have e₂ : (Interpreter.evalAfter 10 Example.aliasThenIndexAssign (.Var "t" 1)).value?
      = some (.str "abc") := by decide!
  have e₃ : (Interpreter.evalAfter 10 Example.aliasThenIndexAssign
      (.Literal (.str "abc") 1)).value? = some (.str "abc") := by decide!
  refine ⟨?_, (Interpreter.value_stable 10 _ _ _ e₁).1 k,
    (Interpreter.value_stable 10 _ _ _ e₂).1 k, (Interpreter.value_stable 10 _ _ _ e₃).1 k⟩
  -- the pointer `s` and its buffer
  obtain ⟨b, hsb, hbs⟩ : ∃ b, h.owners[s]? = some (some b) ∧ h.buffers[b]? = some str := by
    unfold StringData.get at hs
    split at hs
    · rename_i b hb
      exact ⟨b, hb, hs⟩
    · cases hs
  have hsl : s < h.owners.length := getElem?_lt_length _ _ _ hsb
  -- the heap after the copy
  let h₁ : StringHeap := { h with owners := h.owners ++ [some b] }
  have hcopy : StringData.copy s h = some (h.owners.length, h₁) := by
    simp [StringData.copy, hsb, h₁]
  have hts : h.owners.length ≠ s := by omega
  have hwf₁ : h₁.WellFormed := by
    intro d b' hd
    by_cases hdl : d < h.owners.length
    · have : h₁.owners[d]? = h.owners[d]? := List.getElem?_append_left hdl
      rw [this] at hd
      exact hwf d b' hd
    · have hd' : h₁.owners[d]? = [some b][d - h.owners.length]? :=
        List.getElem?_append_right (by omega)
      rw [hd'] at hd
      have hb' : some b' = some b := by
        rcases Nat.eq_zero_or_pos (d - h.owners.length) with h0 | h0
        · rw [h0] at hd
          simpa using hd.symm
        · rw [List.getElem?_eq_none (by simp only [List.length_singleton]; omega)] at hd
          cases hd
      cases hb'
      exact hwf s b hsb
  have hs₁ : h₁.owners[s]? = some (some b) := by
    show (h.owners ++ [some b])[s]? = _
    rw [List.getElem?_append_left hsl]
    exact hsb
  have ht₁ : h₁.owners[h.owners.length]? = some (some b) := by
    show (h.owners ++ [some b])[h.owners.length]? = _
    simp
  have hb₁ : h₁.buffers[b]? = some str := hbs
  obtain ⟨h₂, b₂, hw, hwf₂, hs₂, hbs₂, hlen, hother, hpriv, hbuf, hble⟩ :=
    StringData.writeable_private h₁ s b str hwf₁ hs₁ hb₁
  have hb₂l : b₂ < h₂.buffers.length := getElem?_lt_length _ _ _ hbs₂
  -- what another pointer holds after the write
  have hframe : ∀ (bufs : List String), (∀ b', b' ≠ b₂ → bufs[b']? = h₂.buffers[b']?) →
      ∀ d, d ≠ s → StringData.get d { h₂ with buffers := bufs } = StringData.get d h₁ := by
    intro bufs hbufs d hds
    unfold StringData.get
    simp only [hother d hds]
    cases hd : h₁.owners[d]? with
    | none => rfl
    | some o =>
      cases o with
      | none => rfl
      | some b' =>
        have hne : b' ≠ b₂ := by
          intro hbb
          subst hbb
          exact hpriv d hds ((hother d hds).trans hd)
        simp only [hbufs b' hne]
        exact hbuf b' (hwf₁ d b' hd)
  by_cases hin : idx < 0 || idx ≥ str.length
  · -- out of bounds
    have hassign : StringData.assignIndex s idx c h₁ = some (false, h₂) := by
      simp only [StringData.assignIndex, hw, hs₂, hbs₂, hin, if_true]
    have hget : ∀ d, d ≠ s → StringData.get d h₂ = StringData.get d h₁ :=
      fun d hds => hframe h₂.buffers (fun _ _ => rfl) d hds
    refine ⟨h.owners.length, h₁, false, h₂, hcopy, hts, ?_, hassign, ?_, ?_, ?_, hget, ?_⟩
    · simp [StringData.get, ht₁, hb₁]
    · simp only [Bool.or_eq_true, decide_eq_true_eq] at hin
      constructor
      · intro hf; cases hf
      · intro hb'; omega
    · simp [StringData.get, hs₂, hbs₂]
    · rw [hget _ hts]
      simp [StringData.get, ht₁, hb₁]
    · intro d e h₃ hds hc
      unfold StringData.copy at hc
      cases hd : h₂.owners[d]? with
      | none => rw [hd] at hc; cases hc
      | some o =>
        cases o with
        | none => rw [hd] at hc; cases hc
        | some b' =>
          rw [hd] at hc
          simp only [Option.some.injEq, Prod.mk.injEq] at hc
          obtain ⟨rfl, rfl⟩ := hc
          rw [← hget d hds]
          simp [StringData.get, hd]
  · -- within bounds
    have hassign : StringData.assignIndex s idx c h₁
        = some (true,
            { h₂ with buffers := h₂.buffers.set b₂ (String.mk (str.data.set idx.toNat c)) }) := by
      simp only [StringData.assignIndex, hw, hs₂, hbs₂, hin]
      rfl
    have hget : ∀ d, d ≠ s → StringData.get d
        { h₂ with buffers := h₂.buffers.set b₂ (String.mk (str.data.set idx.toNat c)) }
          = StringData.get d h₁ :=
      fun d hds => hframe _ (fun b' hb' => List.getElem?_set_ne (Ne.symm hb')) d hds
    refine ⟨h.owners.length, h₁, true, _, hcopy, hts, ?_, hassign, ?_, ?_, ?_, hget, ?_⟩
    · simp [StringData.get, ht₁, hb₁]
    · simp only [Bool.or_eq_true, decide_eq_true_eq, not_or, not_lt, ge_iff_le, not_le] at hin
      simp [hin.1, hin.2]
    · simp [StringData.get, hs₂, List.getElem?_set_self hb₂l]
    · rw [hget _ hts]
      simp [StringData.get, ht₁, hb₁]
    · intro d e h₃ hds hc
      unfold StringData.copy at hc
      simp only at hc
      cases hd : h₂.owners[d]? with
      | none => rw [hd] at hc; cases hc
      | some o =>
        cases o with
        | none => rw [hd] at hc; cases hc
        | some b' =>
          rw [hd] at hc
          simp only [Option.some.injEq, Prod.mk.injEq] at hc
          obtain ⟨rfl, rfl⟩ := hc
          rw [← hget d hds]
          simp [StringData.get, hd]

/-- Witness of `string_index_assignment_is_private`: on the heap with the
buffer `"abc"` owned by the pool, by a literal and by the variable `s`
(pointer `2`), after `t = s` and `s[0] = "x"` the copy still reads `"abc"`. -/
theorem string_index_assignment_is_private_witness :
    StringData.get 2 { buffers := ["abc"], owners := [some 0, some 0, some 0],
                       intern_pool := [("abc", 0)] } = some "abc"
    ∧ StringData.assignIndex 2 0 'x'
        { buffers := ["abc"], owners := [some 0, some 0, some 0, some 0],
          intern_pool := [("abc", 0)] }
      = some (true, { buffers := ["abc", "xbc"], owners := [some 0, some 0, some 1, some 0],
                      intern_pool := [("abc", 0)] })
    ∧ ∃ t h₁ done h₂,
        StringData.copy 2 { buffers := ["abc"], owners := [some 0, some 0, some 0],
                            intern_pool := [("abc", 0)] } = some (t, h₁)
        ∧ StringData.assignIndex 2 0 'x' h₁ = some (done, h₂)
        ∧ StringData.get t h₂ = some "abc" := by
  refine ⟨by decide, by decide, ?_⟩
  obtain ⟨t, h₁, done, h₂, h1, _, _, h2, _, _, h3, _⟩ :=
    (string_index_assignment_is_private
      { buffers := ["abc"], owners := [some 0, some 0, some 0], intern_pool := [("abc", 0)] }
      2 "abc" 0 'x' 0
      (by
        intro d b hd
        have : d < 3 := getElem?_lt_length _ _ _ hd
        interval_cases d <;> simp at hd <;> subst hd <;> decide)
      (by decide)).1
  exact ⟨t, h₁, done, h₂, h1, h2, h3⟩

/-! ## Array indices (C34) -/

/-- C34. Reading `array[index]` where the container is an array of `n`
elements returns element `i` when the index is the integer `i` with
`0 <= i < n`, raises "Array index out of bounds" when it is an integer below
`0` or at least `n`, and raises "Array index must be an integer." when it is
not an integer; the state is the one the operands left.  An indexed
assignment through a slot that holds an array of `n` elements stores the
value at `i` when `0 <= i < n`: the array keeps its length, holds the value at
`i` and what it held elsewhere, and nothing else in the state changes; with an
integer out of these bounds it raises
"Array index out of bounds for assignment.", with an index that is not an
integer "Array index must be an integer.", in both cases in the state as it
was.  After `var a = [10, 20, 30];`, `a[1]` is `20`; `a[3]`, `a[-1]` and
`a["1"]` raise these errors; `a[1] = 5` leaves the array `[10, 5, 30]`, and
`a[3] = 5`, `a[-1] = 5` and `a["1"] = 5` raise and leave `[10, 20, 30]`; with
every budget of at least 10. -/
theorem array_index_checks_bounds (fuel : Nat) (array index : Expr) (line : Int) (env : Nat)
    (s s₁ s₂ t : State) (a b : Nat) (elements items : List Value) (indexVal v : Value)
    (ref : SlotRef) (assignLine indexExprLine indexLine : Int) (k : Nat)
    (hc : Expr.eval fuel array env s = .ok (.array a) s₁)
    (hi : Expr.eval fuel index env s₁ = .ok indexVal s₂)
    (ha : s₂.arrays[a]? = some elements)
    (hread : ref.read t = .ok (.array b) t)
    (hb : t.arrays[b]? = some items) :
    (∀ i : Int, indexVal = .int i → 0 ≤ i → i < elements.length →
        ∃ x, elements[i.toNat]? = some x
          ∧ Expr.eval (fuel + 1) (.Index array index line) env s = .ok x s₂)
    ∧ (∀ i : Int, indexVal = .int i → (i < 0 ∨ (elements.length : Int) ≤ i) →
        Expr.eval (fuel + 1) (.Index array index line) env s
          = .throw (.RuntimeError line "Array index out of bounds") s₂)
    ∧ (indexVal.isInt = false →
        Expr.eval (fuel + 1) (.Index array index line) env s
          = .throw (.RuntimeError index.line "Array index must be an integer.") s₂)
    ∧ (∀ i : Int, 0 ≤ i → i < items.length →
        perform_set_on_ref assignLine indexExprLine indexLine (.int i) v ref t
            = .ok () { t with arrays := t.arrays.set b (items.set i.toNat v) }
          ∧ (items.set i.toNat v).length = items.length
          ∧ (items.set i.toNat v)[i.toNat]? = some v
          ∧ ∀ j : Nat, j ≠ i.toNat → (items.set i.toNat v)[j]? = items[j]?)
    ∧ (∀ i : Int, (i < 0 ∨ (items.length : Int) ≤ i) →
        perform_set_on_ref assignLine indexExprLine indexLine (.int i) v ref t
          = .throw (.RuntimeError indexExprLine "Array index out of bounds for assignment.") t)
    ∧ (∀ x : Value, x.isInt = false →
        perform_set_on_ref assignLine indexExprLine indexLine x v ref t
          = .throw (.RuntimeError indexLine "Array index must be an integer.") t)
    ∧ (Interpreter.evalAfter (10 + k) Example.declareArray
          (Example.readA (.Literal (.int 1) 2))).value? = some (.int 20)
    ∧ (Interpreter.evalAfter (10 + k) Example.declareArray
          (Example.readA (.Literal (.int 3) 2))).exn?
        = some (.RuntimeError 1 "Array index out of bounds")
    ∧ (Interpreter.evalAfter (10 + k) Example.declareArray
          (Example.readA Example.minusOne)).exn?
        = some (.RuntimeError 1 "Array index out of bounds")
    ∧ (Interpreter.evalAfter (10 + k) Example.declareArray
          (Example.readA (.Literal (.str "1") 2))).exn?
        = some (.RuntimeError 2 "Array index must be an integer.")
    ∧ ((Interpreter.evalAfter (10 + k) Example.declareArray
          (Example.assignA (.Literal (.int 1) 2))).state?.map fun u => u.arrays)
        = some [[.int 10, .int 5, .int 30]]
    ∧ (Interpreter.evalAfter (10 + k) Example.declareArray
          (Example.assignA (.Literal (.int 3) 2)))
        = .throw (.RuntimeError 3 "Array index out of bounds for assignment.")
            Example.afterDeclareArray
    ∧ ((Interpreter.evalAfter (10 + k) Example.declareArray
          (Example.assignA Example.minusOne)).state?.map fun u => u.arrays)
        = some [[.int 10, .int 20, .int 30]]
    ∧ ((Interpreter.evalAfter (10 + k) Example.declareArray
          (Example.assignA (.Literal (.str "1") 2))).state?.map fun u => u.arrays)
        = some [[.int 10, .int 20, .int 30]] := by
  have e₁ : (Interpreter.evalAfter 10 Example.declareArray
      (Example.readA (.Literal (.int 1) 2))).value? = some (.int 20) := by decide!
  have e₂ : (Interpreter.evalAfter 10 Example.declareArray
      (Example.readA (.Literal (.int 3) 2))).exn?
      = some (.RuntimeError 1 "Array index out of bounds") := by decide!
  have e₃ : (Interpreter.evalAfter 10 Example.declareArray
      (Example.readA Example.minusOne)).exn?
      = some (.RuntimeError 1 "Array index out of bounds") := by decide!
  have e₄ : (Interpreter.evalAfter 10 Example.declareArray
      (Example.readA (.Literal (.str "1") 2))).exn?
      = some (.RuntimeError 2 "Array index must be an integer.") := by decide!
  have e₅ : (Interpreter.evalAfter 10 Example.declareArray
      (Example.assignA (.Literal (.int 1) 2))).value? = some (.int 5) := by decide!
  have e₆ : (Interpreter.evalAfter 10 Example.declareArray
      (Example.assignA (.Literal (.int 3) 2))).exn?
      = some (.RuntimeError 3 "Array index out of bounds for assignment.") := by decide!
  have e₇ : (Interpreter.evalAfter 10 Example.declareArray
      (Example.assignA Example.minusOne)).exn?
      = some (.RuntimeError 3 "Array index out of bounds for assignment.") := by decide!
  have e₈ : (Interpreter.evalAfter 10 Example.declareArray
      (Example.assignA (.Literal (.str "1") 2))).exn?
      = some (.RuntimeError 2 "Array index must be an integer.") := by decide!
  have hbl : b < t.arrays.length := getElem?_lt_length _ _ _ hb
  refine ⟨?_, ?_, ?_, ?_, ?_, ?_, (Interpreter.value_stable 10 _ _ _ e₁).1 k,
    (Interpreter.exn_stable 10 _ _ _ e₂).1 k, (Interpreter.exn_stable 10 _ _ _ e₃).1 k,
    (Interpreter.exn_stable 10 _ _ _ e₄).1 k, ?_, ?_, ?_, ?_⟩
  · intro i hiv h0 hn
    subst hiv
    have hlt : i.toNat < elements.length := by omega
    refine ⟨elements[i.toNat], List.getElem?_eq_getElem hlt, ?_⟩
    rw [Expr.eval_index fuel array index line env s s₁ s₂ _ _ hc hi]
    have hcond : ¬(i < 0 ∨ (elements.length : Int) ≤ i) := by omega
    simp [IndexExpr.apply, bind_apply, readArray, ha, hcond, argAt,
      List.getElem?_eq_getElem hlt]
  · intro i hiv hout
    subst hiv
    rw [Expr.eval_index fuel array index line env s s₁ s₂ _ _ hc hi]
    have hcond : i < 0 ∨ (elements.length : Int) ≤ i := hout
    simp [IndexExpr.apply, bind_apply, readArray, ha, hcond]
  · intro hnot
    rw [Expr.eval_index fuel array index line env s s₁ s₂ _ _ hc hi]
    cases indexVal <;> simp [Value.isInt] at hnot <;> simp [IndexExpr.apply]
  · intro i h0 hn
    have hlt : i.toNat < items.length := by omega
    have hcond : ¬(i < 0 ∨ (items.length : Int) ≤ i) := by omega
    refine ⟨?_, List.length_set .., List.getElem?_set_self hlt, fun j hj =>
      List.getElem?_set_ne (Ne.symm hj)⟩
    simp [perform_set_on_ref, bind_apply, hread, readArray, hb, hcond, writeArray, hbl]
  · intro i hout
    have hcond : i < 0 ∨ (items.length : Int) ≤ i := hout
    simp [perform_set_on_ref, bind_apply, hread, readArray, hb, hcond]
  · intro x hnot
    cases x <;> simp [Value.isInt] at hnot <;> simp [perform_set_on_ref, bind_apply, hread]
  · rw [Interpreter.evalAfter_add 10 k _ _ (Res.ne_outOfFuel_of_value e₅)]
    decide!
  · rw [Interpreter.evalAfter_add 10 k _ _ (Res.ne_outOfFuel_of_exn e₆)]
    decide!
  · rw [Interpreter.evalAfter_add 10 k _ _ (Res.ne_outOfFuel_of_exn e₇)]
    decide!
  · rw [Interpreter.evalAfter_add 10 k _ _ (Res.ne_outOfFuel_of_exn e₈)]
    decide!

/-- Witness of `array_index_checks_bounds`: in the state after
`var a = [10, 20, 30];`, the expression `a[1]` and an assignment through the
variable `a`. -/
theorem array_index_checks_bounds_witness :
    (∃ x, [Value.int 10, .int 20, .int 30][(1 : Int).toNat]? = some x
      ∧ Expr.eval 3 (Example.readA (.Literal (.int 1) 2)) 0 Example.afterDeclareArray
        = .ok x Example.afterDeclareArray)
    ∧ perform_set_on_ref 1 3 2 (.int 3) (.int 5) (.var 0 "a") Example.afterDeclareArray
        = .throw (.RuntimeError 3 "Array index out of bounds for assignment.")
            Example.afterDeclareArray :=
  have h := array_index_checks_bounds 2 (.Var "a" 1) (.Literal (.int 1) 2) 1 0
    Example.afterDeclareArray Example.afterDeclareArray Example.afterDeclareArray
    Example.afterDeclareArray 0 0 [.int 10, .int 20, .int 30] [.int 10, .int 20, .int 30]
    (.int 1) (.int 5) (.var 0 "a") 1 3 2 0
    (by decide!) (by decide!) (by decide!) (by decide!) (by decide!)
  ⟨h.1 1 rfl (by decide) (by decide), h.2.2.2.2.1 3 (Or.inr (by decide))⟩

/-! ## The class that super starts from (C36) -/

/-- C36. Evaluating `super.m` in a frame from which `this` is an instance
takes the class from the instance, the superclass from that class, and looks
`m` up from the prototype of the superclass; when that finds a user-defined
function, the result is that function bound to the instance: a new function
value with the same parameters and body whose closure is a new frame under
the function's closure binding `this` to the instance.  The frame the
expression is evaluated in enters only through the value of `this`, so the
binding of `super` that the class declaration made in the closure of the
executing method plays no part.  With
`class A { func m(n) { return "A"; } }`,
`class B extends A { func m(n) { if (n == 0) { return "B"; } return super.m(n - 1); } }`
and `class C extends B { }`, `C().m(3)` returns `"B"`: each `super.m` in the
method of `B` gave the method of `B` again and the method of `A` was not
reached, while `B().m(3)` returns `"A"`; with every budget of at least 30. -/
theorem super_resolves_from_class_of_this (fuel : Nat) (method : String)
    (methodLine line : Int) (env : Nat) (s : State) (inst : Nat) (o : MutableObject)
    (klass super_class : Nat) (name superName : String) (prototype superPrototype : Nat)
    (initializer superInitializer grandparent : Option Nat) (function : Nat)
    (params : List ParamInfo) (body : BlockStmt) (closure : Nat) (is_initializer : Bool)
    (k : Nat)
    (hthis : Environment.get env "this" s = .ok (.object inst) s)
    (hinst : s.objects[inst]? = some o) (hklass : o.klass = some klass)
    (hk : s.callables[klass]? = some (.ClassValue name (some super_class) prototype initializer))
    (hsc : s.callables[super_class]?
      = some (.ClassValue superName grandparent superPrototype superInitializer))
    (hget : MutableObject.get superPrototype method s = .ok (.func (some function)) s)
    (hfn : s.callables[function]? = some (.FunctionValue params body closure is_initializer)) :
    Expr.eval (fuel + 1) (.Super method methodLine line) env s
      = .ok (.func (some s.callables.length))
          { s with
            envs := s.envs ++
              [{ vars := [("this", { value := .object inst, static_type := none })],
                 parent := some closure }],
            callables := s.callables ++
              [.FunctionValue params body s.envs.length is_initializer] }
    ∧ (Interpreter.evalAfter (30 + k) Example.superChain (Example.callMOn "C")).value?
        = some (.str "B")
    ∧ (Interpreter.evalAfter (30 + k) Example.superChain (Example.callMOn "B")).value?
        = some (.str "A") := by
  have e₁ : (Interpreter.evalAfter 30 Example.superChain (Example.callMOn "C")).value?
      = some (.str "B") := by decide!
  have e₂ : (Interpreter.evalAfter 30 Example.superChain (Example.callMOn "B")).value?
      = some (.str "A") := by decide!
  refine ⟨?_, (Interpreter.value_stable 30 _ _ _ e₁).1 k,
    (Interpreter.value_stable 30 _ _ _ e₂).1 k⟩
  simp [Expr.eval, SuperExpr.eval, bind_apply, hthis, readObject, hinst, hklass, readCallable,
    hk, hsc, tryCatch, hget, asFunctionValue, hfn, FunctionValue.bind, newEnvironment,
    Environment.define, readEnv, writeEnv, newCallable, StrMap.insert,
    set_length_append_singleton]

/-- Witness of `super_resolves_from_class_of_this`: in the state after the
three declarations and `var c = C(); var f = c.m;`, frame `4` is the closure
of the method of `B` bound to the instance of `C`; there `super` is bound to
the class `A` (callable `9`), and `super.m` is the method of `B` bound to the
instance. -/
theorem super_resolves_from_class_of_this_witness :
    Environment.get 4 "super" Example.afterBindingM = .ok (.func (some 9)) Example.afterBindingM
    ∧ Example.afterBindingM.callables[9]? = some (.ClassValue "A" none 0 none)
    ∧ Example.afterBindingM.callables[12]?
        = some (.FunctionValue [⟨"n", none⟩] Example.bodyOfBm 2 false)
    ∧ Expr.eval 1 (.Super "m" 1 1) 4 Example.afterBindingM
      = .ok (.func (some Example.afterBindingM.callables.length))
          { Example.afterBindingM with
            envs := Example.afterBindingM.envs ++
              [{ vars := [("this", { value := .object 3, static_type := none })],
                 parent := some 2 }],
            callables := Example.afterBindingM.callables ++
              [.FunctionValue [⟨"n", none⟩] Example.bodyOfBm
                Example.afterBindingM.envs.length false] } :=
  ⟨by decide!, by decide!, by decide!,
   (super_resolves_from_class_of_this 0 "m" 1 1 4 Example.afterBindingM 3
      { fields := [], parent := some 2, klass := some 13 } 13 11 "C" "B" 2 1 none none (some 9)
      12 [⟨"n", none⟩] Example.bodyOfBm 2 false 0
      (by decide!) (by decide!) rfl (by decide!) (by decide!) (by decide!) (by decide!)).1⟩

/-! ## The base of an indexed assignment (C37) -/

/-- C37. In `base[index] = value` the value is evaluated, then the index.
When the base is neither a variable nor a member access, the assignment
raises "Left-hand side of indexed assignment must be a variable or a member
access." in the state these two evaluations left: the base is not evaluated
and nothing is stored.  When the base is `object.member` and the object
operand evaluates to an object: if no object of the parent chain has the
member, the assignment raises "Property 'member' does not exist."; if the
member is found on the chain but is not an own field of the object, the test
`has` passes and the lookup in the own fields fails with the exception of
`unordered_map::at`; in both cases the state is the one the operands left;
and if the member is an own field, the store goes through that field.  When
the object operand evaluates to a dictionary without the key, the assignment
raises "Key 'member' does not exist." in the state the operands left.
After `var a = [[1, 2], [3, 4]]; func f() { return a; }`, both `a[0][1] = 9`
and `f()[0] = 9` raise the first error and leave the state as it was.  After
`var proto = Object(); proto.items = [1, 2]; var o = Object(proto);`,
`has(o, "items")` is true, `o.items[0] = 9` fails and leaves the state as it
was, and `proto.items[0] = 9` makes the array `[9, 2]`; with every budget of
at least 10. -/
theorem indexed_assignment_base (fuel : Nat) (value index object : Expr) (member : String)
    (line indexExprLine memberLine : Int) (env : Nat) (s s₁ s₂ s₃ : State) (v i : Value)
    (obj : Nat) (o : MutableObject) (k : Nat)
    (hv : Expr.eval fuel value env s = .ok v s₁)
    (hi : Expr.eval fuel index env s₁ = .ok i s₂)
    (ho : Expr.eval fuel object env s₂ = .ok (.object obj) s₃)
    (hobj : s₃.objects[obj]? = some o) :
    (∀ base : Expr, (∀ name l, base ≠ .Var name l) → (∀ e m l, base ≠ .MemberAccess e m l) →
        Expr.eval (fuel + 1) (.Assign (.Index base index indexExprLine) value line) env s
          = .throw (.RuntimeError indexExprLine
              "Left-hand side of indexed assignment must be a variable or a member access.") s₂)
    ∧ (MutableObject.getChain s₃.objects member s₃.objects.length obj = some none →
        Expr.eval (fuel + 1)
            (.Assign (.Index (.MemberAccess object member memberLine) index indexExprLine)
              value line) env s
          = .throw (.RuntimeError memberLine ("Property '" ++ member ++ "' does not exist.")) s₃)
    ∧ (∀ w, MutableObject.getChain s₃.objects member s₃.objects.length obj = some (some w) →
        o.fields.contains member = false →
        MutableObject.has obj member s₃ = .ok true s₃
          ∧ Expr.eval (fuel + 1)
              (.Assign (.Index (.MemberAccess object member memberLine) index indexExprLine)
                value line) env s
            = .throw (.other "unordered_map::at") s₃)
    ∧ (o.fields.contains member = true →
        Expr.eval (fuel + 1)
            (.Assign (.Index (.MemberAccess object member memberLine) index indexExprLine)
              value line) env s
          = (perform_set_on_ref line indexExprLine index.line i v (.field obj member)
              >>= fun _ => pure v) s₃)
    ∧ (∀ (container : Expr) (d : Nat) (t : State) (pairs : StrMap Value),
        Expr.eval fuel container env s₂ = .ok (.dict d) t → t.dicts[d]? = some pairs →
        pairs.contains member = false →
        Expr.eval (fuel + 1)
            (.Assign (.Index (.MemberAccess container member memberLine) index indexExprLine)
              value line) env s
          = .throw (.RuntimeError memberLine ("Key '" ++ member ++ "' does not exist.")) t)
    ∧ (Interpreter.evalAfter (10 + k) Example.nestedArrays Example.assignNested).exn?
        = some (.RuntimeError 2
            "Left-hand side of indexed assignment must be a variable or a member access.")
    ∧ (Interpreter.evalAfter (10 + k) Example.nestedArrays Example.assignNested).state?
        = (Interpreter.evalAfter (10 + k) Example.nestedArrays (.Literal .nil 1)).state?
    ∧ (Interpreter.evalAfter (10 + k) Example.nestedArrays Example.assignToCallResult).exn?
        = some (.RuntimeError 2
            "Left-hand side of indexed assignment must be a variable or a member access.")
    ∧ (Interpreter.evalAfter (10 + k) Example.nestedArrays Example.assignToCallResult).state?
        = (Interpreter.evalAfter (10 + k) Example.nestedArrays (.Literal .nil 1)).state?
    ∧ (Interpreter.evalAfter (10 + k) Example.inheritedItems Example.hasItems).value?
        = some (.bool true)
    ∧ (Interpreter.evalAfter (10 + k) Example.inheritedItems
          (Example.assignFirstItemOf "o")).exn? = some (.other "unordered_map::at")
    ∧ (Interpreter.evalAfter (10 + k) Example.inheritedItems
          (Example.assignFirstItemOf "o")).state?
        = (Interpreter.evalAfter (10 + k) Example.inheritedItems (.Literal .nil 1)).state?
    ∧ ((Interpreter.evalAfter (10 + k) Example.inheritedItems
          (Example.assignFirstItemOf "proto")).state?.map fun u => u.arrays)
        = some [[.int 9, .int 2]] := by
  have n₁ : (Interpreter.evalAfter 10 Example.nestedArrays (.Literal .nil 1)).value?
      = some .nil := by decide!
  have n₂ : (Interpreter.evalAfter 10 Example.inheritedItems (.Literal .nil 1)).value?
      = some .nil := by decide!
  have e₁ : (Interpreter.evalAfter 10 Example.nestedArrays Example.assignNested).exn?
      = some (.RuntimeError 2
          "Left-hand side of indexed assignment must be a variable or a member access.") := by
    decide!
  have e₂ : (Interpreter.evalAfter 10 Example.nestedArrays Example.assignToCallResult).exn?
      = some (.RuntimeError 2
          "Left-hand side of indexed assignment must be a variable or a member access.") := by
    decide!
  have e₃ : (Interpreter.evalAfter 10 Example.inheritedItems Example.hasItems).value?
      = some (.bool true) := by decide!
  have e₄ : (Interpreter.evalAfter 10 Example.inheritedItems
      (Example.assignFirstItemOf "o")).exn? = some (.other "unordered_map::at") := by decide!
  have e₅ : (Interpreter.evalAfter 10 Example.inheritedItems
      (Example.assignFirstItemOf "proto")).value? = some (.int 9) := by decide!
  have hol : obj < s₃.objects.length := getElem?_lt_length _ _ _ hobj
  refine ⟨?_, ?_, ?_, ?_, ?_, (Interpreter.exn_stable 10 _ _ _ e₁).1 k, ?_,
    (Interpreter.exn_stable 10 _ _ _ e₂).1 k, ?_, (Interpreter.value_stable 10 _ _ _ e₃).1 k,
    (Interpreter.exn_stable 10 _ _ _ e₄).1 k, ?_, ?_⟩
  · intro base hvar hmem
    cases base with
    | Var name l => exact absurd rfl (hvar name l)
    | MemberAccess e m l => exact absurd rfl (hmem e m l)
    | _ => simp [Expr.eval, bind_apply, hv, hi]
  · intro hchain
    simp [Expr.eval, bind_apply, hv, hi, ho, MutableObject.has, hchain]
  · intro w hchain hown
    have hhas : MutableObject.has obj member s₃ = .ok true s₃ := by
      simp [MutableObject.has, hchain]
    refine ⟨hhas, ?_⟩
    simp [Expr.eval, bind_apply, hv, hi, ho, hhas, readObject, hobj, hown]
  · intro hown
    obtain ⟨n, hn⟩ : ∃ n, s₃.objects.length = n + 1 := ⟨s₃.objects.length - 1, by omega⟩
    have hfind : ∃ w, o.fields.find member = some w := by
      simp only [StrMap.contains] at hown
      cases hf : o.fields.find member with
      | none => simp [hf] at hown
      | some w => exact ⟨w, rfl⟩
    obtain ⟨w, hw⟩ := hfind
    have hhas : MutableObject.has obj member s₃ = .ok true s₃ := by
      simp [MutableObject.has, hn, MutableObject.getChain, hobj, hw]
    simp [Expr.eval, bind_apply, hv, hi, ho, hhas, readObject, hobj, hown]
  · intro container d t pairs hd hpairs hkey
    simp [Expr.eval, bind_apply, hv, hi, hd, readDict, hpairs, hkey]
  · rw [Interpreter.evalAfter_add 10 k _ _ (Res.ne_outOfFuel_of_exn e₁),
      Interpreter.evalAfter_add 10 k _ _ (Res.ne_outOfFuel_of_value n₁)]
    decide!
  · rw [Interpreter.evalAfter_add 10 k _ _ (Res.ne_outOfFuel_of_exn e₂),
      Interpreter.evalAfter_add 10 k _ _ (Res.ne_outOfFuel_of_value n₁)]
    decide!
  · rw [Interpreter.evalAfter_add 10 k _ _ (Res.ne_outOfFuel_of_exn e₄),
      Interpreter.evalAfter_add 10 k _ _ (Res.ne_outOfFuel_of_value n₂)]
    decide!
  · rw [Interpreter.evalAfter_add 10 k _ _ (Res.ne_outOfFuel_of_value e₅)]
    decide!

/-- Witness of `indexed_assignment_base`: after
`var proto = Object(); proto.items = [1, 2]; var o = Object(proto);` the object
`o` has no own field, finds `items` on its parent, and `o.items[0] = 9` fails
in the state as it was. -/
theorem indexed_assignment_base_witness :
    Example.afterInheritedItems.objects[1]?
      = some { fields := [], parent := some 0, klass := none }
    ∧ MutableObject.getChain Example.afterInheritedItems.objects "items"
        Example.afterInheritedItems.objects.length 1 = some (some (.array 0))
    ∧ Expr.eval (2 + 1)
        (.Assign (.Index (.MemberAccess (.Var "o" 1) "items" 1) (.Literal (.int 0) 1) 1)
          (.Literal (.int 9) 1) 1) 0 Example.afterInheritedItems
      = .throw (.other "unordered_map::at") Example.afterInheritedItems :=
  ⟨by decide!, by decide!,
   ((indexed_assignment_base 2 (.Literal (.int 9) 1) (.Literal (.int 0) 1) (.Var "o" 1) "items"
      1 1 1 0 Example.afterInheritedItems Example.afterInheritedItems
      Example.afterInheritedItems Example.afterInheritedItems (.int 9) (.int 0) 1
      { fields := [], parent := some 0, klass := none } 0
      (by decide!) (by decide!) (by decide!) (by decide!)).2.2.1
        (.array 0) (by decide!) (by decide!)).2⟩

/-! ## Truthiness of objects (C40) -/

/-- An object that has a parent is truthy. -/
theorem Value.toBool_of_parent (s : State) (p q : Nat) (o : MutableObject)
    (ho : s.objects[p]? = some o) (hq : o.parent = some q) :
    (Value.object p).toBool s = true := by
  simp [Value.toBool, ho, hq]

/-- C40. An object is truthy exactly when it has an own field or a parent.
`Object()` returns a new object that is falsy; setting a field on an object
makes it truthy; deleting the only field of an object without parent makes it
falsy.  An object with a parent is truthy, and remains so whatever expression
is evaluated afterwards; `Object(p)` returns a new object whose parent is `p`,
which is truthy without any field; and whenever the call of a class returns,
the value it returns is truthy.
After `class K { } var o = Object();`, `bool(o)` is `false`, and `bool(K())`
and `bool(Object(o))` are `true`; after `o.x = 1;` in addition, `bool(o)` is
`true`; after `del(o, "x");` in addition, `bool(o)` is `false` again; with
every budget of at least 10. -/
theorem object_truthy_iff_field_or_parent (fuel : Nat) (s : State) (p : Nat)
    (o : MutableObject) (name : String) (v : Value) (k : Nat)
    (ho : s.objects[p]? = some o) :
    ((Value.object p).toBool s = true
      ↔ ((∃ n, o.fields.contains n = true) ∨ ∃ q, o.parent = some q))
    ∧ (NativeFunction.call fuel .Object [] s
        = .ok (.object s.objects.length)
            { s with objects := s.objects ++ [{ fields := [], parent := none, klass := none }] }
      ∧ (Value.object s.objects.length).toBool
          { s with objects := s.objects ++ [{ fields := [], parent := none, klass := none }] }
        = false)
    ∧ (∃ t, MutableObject.set p name v s = .ok () t ∧ (Value.object p).toBool t = true)
    ∧ (∀ w, o.fields = [(name, w)] → o.parent = none →
        ∃ t, NativeFunction.call fuel .del [.object p, .str name] s = .ok .nil t
          ∧ (Value.object p).toBool t = false)
    ∧ (∀ q, o.parent = some q →
        (Value.object p).toBool s = true
        ∧ ∀ n e env t, (Expr.eval n e env s).state? = some t →
            (Value.object p).toBool t = true)
    ∧ (NativeFunction.call fuel .Object [.object p] s
        = .ok (.object s.objects.length)
            { s with
              objects := s.objects ++ [{ fields := [], parent := some p, klass := none }] }
      ∧ (Value.object s.objects.length).toBool
          { s with objects := s.objects ++ [{ fields := [], parent := some p, klass := none }] }
        = true)
    ∧ (∀ n func args className superclass prototype initializer r t,
        s.callables[func]? = some (.ClassValue className superclass prototype initializer) →
        Callable.call n func args s = .ok r t → r.toBool t = true)
    ∧ (Interpreter.evalAfter (10 + k) Example.emptyObject
          (Example.boolOf (.Var "o" 1))).value? = some (.bool false)
    ∧ (Interpreter.evalAfter (10 + k) Example.emptyObject
          (Example.boolOf (.Call (.Var "K" 1) [] 1))).value? = some (.bool true)
    ∧ (Interpreter.evalAfter (10 + k) Example.emptyObject
          (Example.boolOf (.Call (.Var "Object" 1) [.Var "o" 1] 1))).value? = some (.bool true)
    ∧ (Interpreter.evalAfter (10 + k) Example.objectWithField
          (Example.boolOf (.Var "o" 1))).value? = some (.bool true)
    ∧ (Interpreter.evalAfter (10 + k) Example.objectAfterDel
          (Example.boolOf (.Var "o" 1))).value? = some (.bool false) := by
  have e₁ : (Interpreter.evalAfter 10 Example.emptyObject
      (Example.boolOf (.Var "o" 1))).value? = some (.bool false) := by decide!
  have e₂ : (Interpreter.evalAfter 10 Example.emptyObject
      (Example.boolOf (.Call (.Var "K" 1) [] 1))).value? = some (.bool true) := by decide!
  have e₃ : (Interpreter.evalAfter 10 Example.emptyObject
      (Example.boolOf (.Call (.Var "Object" 1) [.Var "o" 1] 1))).value?
      = some (.bool true) := by decide!
  have e₄ : (Interpreter.evalAfter 10 Example.objectWithField
      (Example.boolOf (.Var "o" 1))).value? = some (.bool true) := by decide!
  have e₅ : (Interpreter.evalAfter 10 Example.objectAfterDel
      (Example.boolOf (.Var "o" 1))).value? = some (.bool false) := by decide!
  have hpl : p < s.objects.length := getElem?_lt_length _ _ _ ho
  refine ⟨?_, ⟨?_, ?_⟩, ?_, ?_, ?_, ⟨?_, ?_⟩, ?_, (Interpreter.value_stable 10 _ _ _ e₁).1 k,
    (Interpreter.value_stable 10 _ _ _ e₂).1 k, (Interpreter.value_stable 10 _ _ _ e₃).1 k,
    (Interpreter.value_stable 10 _ _ _ e₄).1 k, (Interpreter.value_stable 10 _ _ _ e₅).1 k⟩
  · simp only [Value.toBool, ho, Bool.or_eq_true, Bool.not_eq_true']
    constructor
    · rintro (hf | hp)
      · left
        cases hfields : o.fields with
        | nil => simp [hfields] at hf
        | cons x rest =>
          obtain ⟨n, w⟩ := x
          exact ⟨n, by simp [StrMap.contains, StrMap.find]⟩
      · right
        cases hpar : o.parent with
        | none => simp [hpar] at hp
        | some q => exact ⟨q, rfl⟩
    · rintro (⟨n, hn⟩ | ⟨q, hq⟩)
      · left
        cases hfields : o.fields with
        | nil => simp [hfields, StrMap.contains, StrMap.find] at hn
        | cons x rest => rfl
      · right
        simp [hq]
  · simp [NativeFunction.call, bind_apply, newObject]
  · simp [Value.toBool]
  · refine ⟨{ s with objects := s.objects.set p { o with fields := o.fields.insert name v } },
      ?_, ?_⟩
    · simp [MutableObject.set, bind_apply, readObject, ho, writeObject, hpl]
    · have hne : (o.fields.insert name v).isEmpty = false := by
        cases hfields : o.fields with
        | nil => rfl
        | cons x rest =>
          obtain ⟨n, w⟩ := x
          simp only [StrMap.insert]
          split <;> rfl
      simp [Value.toBool, List.getElem?_set_self hpl, hne]
  · intro w hw hpar
    refine ⟨{ s with objects := s.objects.set p { o with fields := o.fields.erase name } },
      ?_, ?_⟩
    · simp [NativeFunction.call, bind_apply, argAt, readObject, ho, writeObject, hpl]
    · simp [Value.toBool, List.getElem?_set_self hpl, hw, StrMap.erase, hpar]
  · intro q hq
    refine ⟨Value.toBool_of_parent s p q o ho hq, ?_⟩
    intro n e env t ht
    obtain ⟨o', ho', hp', _⟩ := ((keepsObjectsAt n).1 e env).keeps s t ht p o ho
    exact Value.toBool_of_parent t p q o' ho' (hp'.trans hq)
  · simp [NativeFunction.call, bind_apply, newObject]
  · simp [Value.toBool]
  · intro n func args className superclass prototype initializer r t hc hcall
    cases n with
    | zero => simp [Callable.call, outOfFuel] at hcall
    | succ n =>
      simp only [Callable.call, bind_apply, readCallable, hc, newObject] at hcall
      have hnew : ({ s with objects := s.objects ++
          [{ fields := [], parent := some prototype, klass := some func }] } : State).objects[
            s.objects.length]?
          = some { fields := [], parent := some prototype, klass := some func } := by
        simp
      cases initializer with
      | none =>
        simp only at hcall
        split at hcall
        · cases hcall
        · cases hcall
          exact Value.toBool_of_parent _ _ prototype _ hnew rfl
      | some init =>
        simp only at hcall
        obtain ⟨bound, s₂, hb, h₂⟩ := bind_eq_ok hcall
        obtain ⟨x, s₃, hx, h₃⟩ := bind_eq_ok h₂
        cases h₃
        have k₁ := (M.KeepsObjects.keeps_functionBind init s.objects.length).keeps _ s₂
          (by rw [hb]; rfl)
        have k₂ := ((keepsObjectsAt n).2.2.2.2 bound args).keeps s₂ t (by rw [hx]; rfl)
        obtain ⟨o₂, ho₂, hp₂, _⟩ := k₁ _ _ hnew
        obtain ⟨o₃, ho₃, hp₃, _⟩ := k₂ _ _ ho₂
        exact Value.toBool_of_parent t _ prototype o₃ ho₃ (hp₃.trans hp₂)

/-- Witness of `object_truthy_iff_field_or_parent`: the object made by
`Object()` in the initial state has no field and no parent and is falsy, and
setting its field `x` makes it truthy. -/
theorem object_truthy_iff_field_or_parent_witness :
    ({ Interpreter.initial with
        objects := [{ fields := [], parent := none, klass := none }] } : State).objects[0]?
      = some { fields := [], parent := none, klass := none }
    ∧ ((Value.object 0).toBool
          { Interpreter.initial with
            objects := [{ fields := [], parent := none, klass := none }] } = true
        ↔ ((∃ n, StrMap.contains ([] : StrMap Value) n = true)
            ∨ ∃ q, (none : Option Nat) = some q))
    ∧ ∃ t, MutableObject.set 0 "x" .nil
          { Interpreter.initial with
            objects := [{ fields := [], parent := none, klass := none }] } = .ok () t
        ∧ (Value.object 0).toBool t = true :=
  have h := object_truthy_iff_field_or_parent 0
    { Interpreter.initial with objects := [{ fields := [], parent := none, klass := none }] }
    0 { fields := [], parent := none, klass := none } "x" .nil 0 rfl
  ⟨rfl, h.1, h.2.2.1⟩

/-! ## Frames keep their parent and their names

A binding is added to a frame by `Environment::define` only, which the
evaluator calls on the frame a statement runs in and on frames it has just
made; a block, a loop with its own frame and a call run their statements in
new frames.  So the frames that exist when such a computation starts keep
their parent and the names they bind. -/

theorem StrMap.contains_insert_of_contains {α : Type} (m : StrMap α) (k : String) (v : α)
    (h : m.contains k = true) (k' : String) : (m.insert k v).contains k' = m.contains k' := by
  by_cases hk : k' = k
  · subst hk
    rw [StrMap.contains_insert_self, h]
  · exact StrMap.contains_insert_ne m k k' v hk

namespace State.FramesKept

theorem frames_refl (n : Nat) (s : State) : s.FramesKept n s :=
  ⟨Nat.le_refl _, fun _ e _ h => ⟨e, h, rfl, fun _ => rfl⟩⟩

theorem frames_trans {n : Nat} {s t u : State} (h₁ : s.FramesKept n t)
    (h₂ : t.FramesKept n u) : s.FramesKept n u := by
  refine ⟨Nat.le_trans h₁.1 h₂.1, fun f e hf he => ?_⟩
  obtain ⟨e', he', hp, hc⟩ := h₁.2 f e hf he
  obtain ⟨e'', he'', hp', hc'⟩ := h₂.2 f e' hf he'
  exact ⟨e'', he'', hp'.trans hp, fun name => (hc' name).trans (hc name)⟩

theorem frames_of_envs_eq (n : Nat) {s t : State} (h : t.envs = s.envs) : s.FramesKept n t :=
  ⟨by rw [h], fun _ e _ he => ⟨e, by rw [h]; exact he, rfl, fun _ => rfl⟩⟩

theorem frames_of_append (n : Nat) (s : State) (l : List Environment) {t : State}
    (h : t.envs = s.envs ++ l) : s.FramesKept n t := by
  refine ⟨by rw [h]; simp, fun f e _ he => ⟨e, ?_, rfl, fun _ => rfl⟩⟩
  rw [h, List.getElem?_append_left (getElem?_lt_length _ _ _ he)]
  exact he

/-- A store into a frame that is not below `n`. -/
theorem frames_of_set_above (n : Nat) (s : State) (g : Nat) (e' : Environment) (hg : n ≤ g)
    {t : State} (h : t.envs = s.envs.set g e') : s.FramesKept n t := by
  refine ⟨by rw [h]; simp, fun f e hf he => ⟨e, ?_, rfl, fun _ => rfl⟩⟩
  rw [h, List.getElem?_set_ne (by omega)]
  exact he

/-- A store into a frame that changes the value of one of its bindings. -/
theorem frames_of_set_value (n : Nat) (s : State) (g : Nat) (e : Environment) (name : String)
    (info : VariableInfo) (he : s.envs[g]? = some e) (hc : e.vars.contains name = true)
    {t : State} (h : t.envs = s.envs.set g { e with vars := e.vars.insert name info }) :
    s.FramesKept n t := by
  refine ⟨by rw [h]; simp, fun f e₀ _ he₀ => ?_⟩
  rw [h]
  by_cases hfg : g = f
  · subst hfg
    rw [he] at he₀
    cases he₀
    exact ⟨_, List.getElem?_set_self (getElem?_lt_length _ _ _ he), rfl,
      fun k => StrMap.contains_insert_of_contains _ _ _ hc k⟩
  · exact ⟨e₀, by rw [List.getElem?_set_ne hfg]; exact he₀, rfl, fun _ => rfl⟩

end State.FramesKept

/-- A larger budget of the frame search finds what a smaller one found. -/
theorem Environment.findFrame_budget (envs : List Environment) (name : String) :
    ∀ (b b' : Nat) (env : Nat) (r : Option Nat), b ≤ b' →
      Environment.findFrame envs name b env = some r →
      Environment.findFrame envs name b' env = some r := by
  intro b
  induction b with
  | zero => intro b' env r _ h; simp [Environment.findFrame] at h
  | succ b ih =>
    intro b' env r hb h
    obtain ⟨c, rfl⟩ : ∃ c, b' = c + 1 := ⟨b' - 1, by omega⟩
    simp only [Environment.findFrame] at h ⊢
    cases he : envs[env]? with
    | none => simp only [he] at h; cases h
    | some e =>
      simp only [he] at h ⊢
      by_cases hc : e.vars.contains name = true
      · simp only [hc, if_true] at h ⊢
        exact h
      · simp only [hc] at h ⊢
        cases hp : e.parent with
        | none => simp only [hp] at h ⊢; exact h
        | some p =>
          simp only [hp] at h ⊢
          exact ih c p r (by omega) h

/-- The frame search from a frame of `s` gives in `t` what it gives in `s`,
when `t` keeps the frames of `s`. -/
theorem Environment.findFrame_kept (s t : State) (name : String)
    (hk : s.FramesKept s.envs.length t) :
    ∀ (b : Nat) (env : Nat) (r : Option Nat),
      Environment.findFrame s.envs name b env = some r →
      Environment.findFrame t.envs name b env = some r := by
  intro b
  induction b with
  | zero => intro env r h; simp [Environment.findFrame] at h
  | succ b ih =>
    intro env r h
    simp only [Environment.findFrame] at h ⊢
    cases he : s.envs[env]? with
    | none => simp only [he] at h; cases h
    | some e =>
      obtain ⟨e', he', hp, hc⟩ := hk.2 env e (getElem?_lt_length _ _ _ he) he
      simp only [he] at h
      simp only [he', hc name, hp]
      by_cases hcn : e.vars.contains name = true
      · simp only [hcn, if_true] at h ⊢
        exact h
      · simp only [hcn] at h ⊢
        cases hpar : e.parent with
        | none => simp only [hpar] at h ⊢; exact h
        | some p =>
          simp only [hpar] at h ⊢
          exact ih p r h

namespace M.KeepsFrames

variable {n : Nat}

instance frames_pure {α : Type} (a : α) : (pure a : M α).KeepsFrames n :=
  ⟨fun s t _ h => by cases h; exact State.FramesKept.frames_refl _ _⟩

instance frames_raise {α : Type} (e : Exn) : (raise e : M α).KeepsFrames n :=
  ⟨fun s t _ h => by cases h; exact State.FramesKept.frames_refl _ _⟩

instance frames_fault {α : Type} : (fault : M α).KeepsFrames n :=
  ⟨fun s t _ h => by cases h; exact State.FramesKept.frames_refl _ _⟩

instance frames_outOfFuel {α : Type} : (outOfFuel : M α).KeepsFrames n :=
  ⟨fun s t _ h => by cases h⟩

instance frames_getState : getState.KeepsFrames n :=
  ⟨fun s t _ h => by cases h; exact State.FramesKept.frames_refl _ _⟩

theorem frames_bind {α β : Type} {m : M α} {f : α → M β} (hm : m.KeepsFrames n)
    (hf : ∀ a, (f a).KeepsFrames n) : (m >>= f).KeepsFrames n := by
  refine ⟨fun s s' hn h => ?_⟩
  rw [bind_apply] at h
  cases hr : m s with
  | ok a t =>
    rw [hr] at h
    have h₁ := hm.keeps s t hn (by rw [hr]; rfl)
    exact h₁.frames_trans ((hf a).keeps t s' (Nat.le_trans hn h₁.1) h)
  | throw e t =>
    rw [hr] at h
    exact hm.keeps s s' hn (by rw [hr]; exact h)
  | fault t =>
    rw [hr] at h
    exact hm.keeps s s' hn (by rw [hr]; exact h)
  | outOfFuel => rw [hr] at h; cases h

instance frames_bind_inst {α β : Type} {m : M α} {f : α → M β} [hm : m.KeepsFrames n]
    [hf : ∀ a, (f a).KeepsFrames n] : (m >>= f).KeepsFrames n := frames_bind hm hf

/-- A computation that starts by making a frame runs the rest with a frame
that is not below `n`. -/
theorem frames_newEnvironment_bind {α : Type} {parent : Option Nat} {f : Nat → M α}
    (hf : ∀ b, n ≤ b → (f b).KeepsFrames n) : (newEnvironment parent >>= f).KeepsFrames n := by
  refine ⟨fun s s' hn h => ?_⟩
  simp only [bind_apply, newEnvironment] at h
  exact (State.FramesKept.frames_of_append n s [_] rfl).frames_trans
    ((hf s.envs.length hn).keeps _ s' (by simp; omega) h)

theorem frames_tryCatch {α : Type} {m : M α} {h : Exn → M α} (hm : m.KeepsFrames n)
    (hh : ∀ e, (h e).KeepsFrames n) : (tryCatch m h).KeepsFrames n := by
  refine ⟨fun s s' hn hs => ?_⟩
  unfold tryCatch at hs
  cases hr : m s with
  | ok a t =>
    rw [hr] at hs
    exact hm.keeps s s' hn (by rw [hr]; exact hs)
  | throw e t =>
    rw [hr] at hs
    have h₁ := hm.keeps s t hn (by rw [hr]; rfl)
    exact h₁.frames_trans ((hh e).keeps t s' (Nat.le_trans hn h₁.1) hs)
  | fault t =>
    rw [hr] at hs
    exact hm.keeps s s' hn (by rw [hr]; exact hs)
  | outOfFuel => rw [hr] at hs; cases hs

instance frames_tryCatch_inst {α : Type} {m : M α} {h : Exn → M α} [hm : m.KeepsFrames n]
    [hh : ∀ e, (h e).KeepsFrames n] : (tryCatch m h).KeepsFrames n := frames_tryCatch hm hh

instance frames_ite {α : Type} (c : Prop) [Decidable c] {a b : M α} [ha : a.KeepsFrames n]
    [hb : b.KeepsFrames n] : (if c then a else b).KeepsFrames n := by
  split
  · exact ha
  · exact hb

instance frames_print (args : List Value) :
    (modifyState fun s => { s with output := s.output ++ [args] }).KeepsFrames n :=
  ⟨fun s t _ h => by cases h; exact State.FramesKept.frames_of_envs_eq _ rfl⟩

instance frames_newEnvironment (parent : Option Nat) : (newEnvironment parent).KeepsFrames n :=
  ⟨fun s t _ h => by cases h; exact State.FramesKept.frames_of_append _ s [_] rfl⟩

instance frames_newArray (elements : List Value) : (newArray elements).KeepsFrames n :=
  ⟨fun s t _ h => by cases h; exact State.FramesKept.frames_of_envs_eq _ rfl⟩

instance frames_newDict (pairs : StrMap Value) : (newDict pairs).KeepsFrames n :=
  ⟨fun s t _ h => by cases h; exact State.FramesKept.frames_of_envs_eq _ rfl⟩

instance frames_newCallable (c : Callable) : (newCallable c).KeepsFrames n :=
  ⟨fun s t _ h => by cases h; exact State.FramesKept.frames_of_envs_eq _ rfl⟩

instance frames_newObject (parent klass : Option Nat) : (newObject parent klass).KeepsFrames n :=
  ⟨fun s t _ h => by cases h; exact State.FramesKept.frames_of_envs_eq _ rfl⟩

instance frames_readArray (p : Nat) : (readArray p).KeepsFrames n := by
  refine ⟨fun s t _ h => ?_⟩
  unfold readArray at h
  repeat' split at h
  all_goals cases h
  all_goals exact State.FramesKept.frames_refl _ _

instance frames_readDict (p : Nat) : (readDict p).KeepsFrames n := by
  refine ⟨fun s t _ h => ?_⟩
  unfold readDict at h
  repeat' split at h
  all_goals cases h
  all_goals exact State.FramesKept.frames_refl _ _

instance frames_readObject (p : Nat) : (readObject p).KeepsFrames n := by
  refine ⟨fun s t _ h => ?_⟩
  unfold readObject at h
  repeat' split at h
  all_goals cases h
  all_goals exact State.FramesKept.frames_refl _ _

instance frames_readCallable (p : Nat) : (readCallable p).KeepsFrames n := by
  refine ⟨fun s t _ h => ?_⟩
  unfold readCallable at h
  repeat' split at h
  all_goals cases h
  all_goals exact State.FramesKept.frames_refl _ _

instance frames_readEnv (p : Nat) : (readEnv p).KeepsFrames n := by
  refine ⟨fun s t _ h => ?_⟩
  unfold readEnv at h
  repeat' split at h
  all_goals cases h
  all_goals exact State.FramesKept.frames_refl _ _

instance frames_writeArray (p : Nat) (elements : List Value) :
    (writeArray p elements).KeepsFrames n := by
  refine ⟨fun s t _ h => ?_⟩
  unfold writeArray at h
  repeat' split at h
  all_goals cases h
  all_goals exact State.FramesKept.frames_refl _ _

instance frames_writeDict (p : Nat) (pairs : StrMap Value) :
    (writeDict p pairs).KeepsFrames n := by
  refine ⟨fun s t _ h => ?_⟩
  unfold writeDict at h
  repeat' split at h
  all_goals cases h
  all_goals exact State.FramesKept.frames_refl _ _

instance frames_writeObject (p : Nat) (o : MutableObject) :
    (writeObject p o).KeepsFrames n := by
  refine ⟨fun s t _ h => ?_⟩
  unfold writeObject at h
  repeat' split at h
  all_goals cases h
  all_goals exact State.FramesKept.frames_refl _ _

instance frames_writeCallable (p : Nat) (c : Callable) :
    (writeCallable p c).KeepsFrames n := by
  refine ⟨fun s t _ h => ?_⟩
  unfold writeCallable at h
  repeat' split at h
  all_goals cases h
  all_goals exact State.FramesKept.frames_refl _ _

instance frames_get (obj : Nat) (name : String) : (MutableObject.get obj name).KeepsFrames n := by
  refine ⟨fun s t _ h => ?_⟩
  unfold MutableObject.get at h
  repeat' split at h
  all_goals cases h
  all_goals exact State.FramesKept.frames_refl _ _

instance frames_has (obj : Nat) (name : String) : (MutableObject.has obj name).KeepsFrames n := by
  refine ⟨fun s t _ h => ?_⟩
  unfold MutableObject.has at h
  repeat' split at h
  all_goals cases h
  all_goals exact State.FramesKept.frames_refl _ _

instance frames_getRef (env : Nat) (name : String) :
    (Environment.getRef env name).KeepsFrames n := by
  refine ⟨fun s t _ h => ?_⟩
  unfold Environment.getRef at h
  repeat' split at h
  all_goals cases h
  all_goals exact State.FramesKept.frames_refl _ _

instance frames_assign (env : Nat) (name : String) (value : Value) :
    (Environment.assign env name value).KeepsFrames n := by
  refine ⟨fun s t _ h => ?_⟩
  unfold Environment.assign at h
  split at h
  · cases h; exact State.FramesKept.frames_refl _ _
  · cases h; exact State.FramesKept.frames_refl _ _
  · split at h
    · cases h; exact State.FramesKept.frames_refl _ _
    · rename_i f _ _ e he
      split at h
      · cases h; exact State.FramesKept.frames_refl _ _
      · rename_i info hinfo
        have hc : e.vars.contains name = true := by simp [StrMap.contains, hinfo]
        simp only at h
        repeat' split at h
        all_goals cases h
        all_goals first
          | exact State.FramesKept.frames_refl _ _
          | exact State.FramesKept.frames_of_set_value _ s f e name _ he hc rfl

instance frames_set (obj : Nat) (name : String) (value : Value) :
    (MutableObject.set obj name value).KeepsFrames n := by
  unfold MutableObject.set
  infer_instance

instance frames_argAt (args : List Value) (i : Nat) : (argAt args i).KeepsFrames n := by
  unfold argAt
  split <;> infer_instance

instance frames_define (env : Nat) (name : String) (value : Value) (type : Option TokenType)
    [hge : Fact (n ≤ env)] : (Environment.define env name value type).KeepsFrames n := by
  have hw : ∀ e : Environment, (writeEnv env e).KeepsFrames n := by
    intro e
    refine ⟨fun s t _ h => ?_⟩
    unfold writeEnv at h
    split at h
    · cases h
      exact State.FramesKept.frames_of_set_above _ s env e hge.out rfl
    · cases h
      exact State.FramesKept.frames_refl _ _
  unfold Environment.define
  repeat (first
    | infer_instance
    | exact hw _
    | with_reducible refine frames_bind ?_ (fun _ => ?_)
    | split)

instance frames_envGet (env : Nat) (name : String) :
    (Environment.get env name).KeepsFrames n := by
  unfold Environment.get
  repeat (first
    | infer_instance
    | with_reducible refine frames_bind ?_ (fun _ => ?_)
    | with_reducible refine frames_tryCatch ?_ (fun _ => ?_)
    | split)

instance frames_getThis (env : Nat) (name : String) (line : Int) :
    (Environment.getThis env name line).KeepsFrames n := by
  unfold Environment.getThis
  repeat (first
    | infer_instance
    | with_reducible refine frames_bind ?_ (fun _ => ?_)
    | with_reducible refine frames_tryCatch ?_ (fun _ => ?_)
    | split)

instance frames_rethrowAt {α : Type} (line : Int) {m : M α} [hm : m.KeepsFrames n] :
    (rethrowAt line m).KeepsFrames n := by
  unfold rethrowAt
  repeat (first
    | infer_instance
    | with_reducible refine frames_bind ?_ (fun _ => ?_)
    | with_reducible refine frames_tryCatch ?_ (fun _ => ?_)
    | split)

instance frames_functionBind (func instance_ : Nat) :
    (FunctionValue.bind func instance_).KeepsFrames n := by
  unfold FunctionValue.bind
  repeat (first
    | infer_instance
    | (with_reducible refine frames_newEnvironment_bind (fun b hb => ?_)
       have _ : Fact (n ≤ b) := ⟨hb⟩)
    | with_reducible refine frames_bind ?_ (fun _ => ?_)
    | with_reducible refine frames_tryCatch ?_ (fun _ => ?_)
    | split)

instance frames_intOp (op : TokenType) (line : Int) (l r : Int) :
    (BinaryExpr.intOp op line l r).KeepsFrames n := by
  unfold BinaryExpr.intOp
  repeat (first
    | infer_instance
    | with_reducible refine frames_bind ?_ (fun _ => ?_)
    | with_reducible refine frames_tryCatch ?_ (fun _ => ?_)
    | split)

instance frames_doubleOp (op : TokenType) (line : Int) (l r : Double) :
    (BinaryExpr.apply_double_op op line l r).KeepsFrames n := by
  unfold BinaryExpr.apply_double_op
  repeat (first
    | infer_instance
    | with_reducible refine frames_bind ?_ (fun _ => ?_)
    | with_reducible refine frames_tryCatch ?_ (fun _ => ?_)
    | split)

instance frames_binaryApply (op : TokenType) (line : Int) (l r : Value) :
    (BinaryExpr.apply op line l r).KeepsFrames n := by
  unfold BinaryExpr.apply
  repeat (first
    | infer_instance
    | with_reducible refine frames_bind ?_ (fun _ => ?_)
    | with_reducible refine frames_tryCatch ?_ (fun _ => ?_)
    | split)

instance frames_unaryApply (op : TokenType) (line : Int) (v : Value) :
    (UnaryExpr.apply op line v).KeepsFrames n := by
  unfold UnaryExpr.apply
  repeat (first
    | infer_instance
    | with_reducible refine frames_bind ?_ (fun _ => ?_)
    | with_reducible refine frames_tryCatch ?_ (fun _ => ?_)
    | split)

instance frames_slotRead (ref : SlotRef) : ref.read.KeepsFrames n := by
  unfold SlotRef.read
  repeat (first
    | infer_instance
    | with_reducible refine frames_bind ?_ (fun _ => ?_)
    | with_reducible refine frames_tryCatch ?_ (fun _ => ?_)
    | split)

instance frames_slotWrite (ref : SlotRef) (v : Value) : (ref.write v).KeepsFrames n := by
  cases ref with
  | var frame name =>
    refine ⟨fun s t _ h => ?_⟩
    simp only [SlotRef.write, bind_apply, readEnv] at h
    cases he : s.envs[frame]? with
    | none =>
      simp only [he] at h
      cases h
      exact State.FramesKept.frames_refl _ _
    | some e =>
      simp only [he] at h
      cases hinfo : e.vars.find name with
      | none =>
        simp only [hinfo, fault_apply] at h
        cases h
        exact State.FramesKept.frames_refl _ _
      | some info =>
        have hc : e.vars.contains name = true := by simp [StrMap.contains, hinfo]
        simp only [hinfo, writeEnv] at h
        split at h
        · cases h
          exact State.FramesKept.frames_of_set_value _ s frame e name _ he hc rfl
        · cases h
          exact State.FramesKept.frames_refl _ _
  | field obj name => exact frames_set obj name v
  | entry dict key =>
    unfold SlotRef.write
    repeat (first
      | infer_instance
      | with_reducible refine frames_bind ?_ (fun _ => ?_)
      | with_reducible refine frames_tryCatch ?_ (fun _ => ?_)
      | split)

instance frames_perform_set_on_ref (line indexExprLine indexLine : Int) (indexVal v : Value)
    (ref : SlotRef) :
    (perform_set_on_ref line indexExprLine indexLine indexVal v ref).KeepsFrames n := by
  unfold perform_set_on_ref
  repeat (first
    | infer_instance
    | with_reducible refine frames_bind ?_ (fun _ => ?_)
    | with_reducible refine frames_tryCatch ?_ (fun _ => ?_)
    | with_reducible refine @frames_rethrowAt _ _ _ _ ?_
    | split)

instance frames_indexApply (line indexLine : Int) (c i : Value) :
    (IndexExpr.apply line indexLine c i).KeepsFrames n := by
  unfold IndexExpr.apply
  repeat (first
    | infer_instance
    | with_reducible refine frames_bind ?_ (fun _ => ?_)
    | with_reducible refine frames_tryCatch ?_ (fun _ => ?_)
    | with_reducible refine @frames_rethrowAt _ _ _ _ ?_
    | split)

instance frames_memberApply (member : String) (line : Int) (v : Value) :
    (MemberAccessExpr.apply member line v).KeepsFrames n := by
  unfold MemberAccessExpr.apply
  repeat (first
    | infer_instance
    | with_reducible refine frames_bind ?_ (fun _ => ?_)
    | with_reducible refine frames_tryCatch ?_ (fun _ => ?_)
    | with_reducible refine @frames_rethrowAt _ _ _ _ ?_
    | split)

instance frames_superEval (method : String) (methodLine line : Int) (env : Nat) :
    (SuperExpr.eval method methodLine line env).KeepsFrames n := by
  unfold SuperExpr.eval
  repeat (first
    | infer_instance
    | with_reducible refine frames_bind ?_ (fun _ => ?_)
    | with_reducible refine frames_tryCatch ?_ (fun _ => ?_)
    | with_reducible refine @frames_rethrowAt _ _ _ _ ?_
    | split)

instance frames_setMember (member : String) (line : Int) (o v : Value) :
    (AssignExpr.setMember member line o v).KeepsFrames n := by
  unfold AssignExpr.setMember
  repeat (first
    | infer_instance
    | with_reducible refine frames_bind ?_ (fun _ => ?_)
    | with_reducible refine frames_tryCatch ?_ (fun _ => ?_)
    | with_reducible refine @frames_rethrowAt _ _ _ _ ?_
    | split)

instance frames_defaultValue (t : Option TokenType) :
    (VarDeclStmt.defaultValue t).KeepsFrames n := by
  unfold VarDeclStmt.defaultValue
  repeat (first
    | infer_instance
    | with_reducible refine frames_bind ?_ (fun _ => ?_)
    | with_reducible refine frames_tryCatch ?_ (fun _ => ?_)
    | with_reducible refine @frames_rethrowAt _ _ _ _ ?_
    | split)

instance frames_fetchElement (a i : Nat) : (fetchElement a i).KeepsFrames n := by
  unfold fetchElement
  repeat (first
    | infer_instance
    | with_reducible refine frames_bind ?_ (fun _ => ?_)
    | with_reducible refine frames_tryCatch ?_ (fun _ => ?_)
    | with_reducible refine @frames_rethrowAt _ _ _ _ ?_
    | split)

instance frames_forEachM {α β : Type} {f : β → α → M β} [hf : ∀ b a, (f b a).KeepsFrames n]
    (l : List α) (b : β) : (forEachM f l b).KeepsFrames n := by
  induction l generalizing b with
  | nil => exact frames_pure _
  | cons a rest ih =>
    simp only [forEachM]
    exact frames_bind (hf b a) (fun b' => ih b')

instance frames_evalAll {f : Expr → M Value} [hf : ∀ e, (f e).KeepsFrames n] (l : List Expr) :
    (evalAll f l).KeepsFrames n := by
  induction l with
  | nil => exact frames_pure _
  | cons a rest ih =>
    simp only [evalAll]
    exact frames_bind (hf a) (fun _ => frames_bind ih (fun _ => frames_pure _))

instance frames_execStatements {f : Stmt → M (Option Value)} [hf : ∀ st, (f st).KeepsFrames n]
    (l : List (Option Stmt)) : (execStatements f l).KeepsFrames n := by
  induction l with
  | nil => exact frames_pure _
  | cons a rest ih =>
    cases a with
    | none => simpa only [execStatements] using ih
    | some st =>
      simp only [execStatements]
      refine frames_bind (hf st) (fun r => ?_)
      cases r with
      | none => exact ih
      | some v => exact frames_pure _

instance frames_loopBody {m : M (Option Value)} [hm : m.KeepsFrames n] :
    (loopBody m).KeepsFrames n := by
  unfold loopBody
  refine frames_tryCatch (frames_bind hm (fun r => ?_)) (fun e => ?_)
  · cases r <;> exact frames_pure _
  · cases e <;> first | exact frames_pure _ | exact frames_raise _

theorem frames_forEachElements {f : Value → M LoopStep} (hf : ∀ v, (f v).KeepsFrames n) :
    ∀ (l : List (M Value)), (∀ m ∈ l, m.KeepsFrames n) →
      (forEachElements f l).KeepsFrames n := by
  intro l
  induction l with
  | nil => intro _; exact frames_pure _
  | cons a rest ih =>
    intro hl
    simp only [forEachElements]
    refine frames_bind (hl a (List.mem_cons_self _ _)) (fun v => frames_bind (hf v) (fun r => ?_))
    cases r with
    | next => exact ih (fun m hm => hl m (List.mem_cons_of_mem _ hm))
    | brk => exact frames_pure _
    | ret v => exact frames_pure _

instance frames_bindParams (executionEnv : Nat) [hge : Fact (n ≤ executionEnv)]
    (params : List ParamInfo) (args : List Value) :
    (bindParams executionEnv params args).KeepsFrames n := by
  induction params generalizing args with
  | nil => exact frames_pure _
  | cons p rest ih =>
    cases args with
    | nil => exact frames_fault
    | cons a as =>
      simp only [bindParams]
      repeat (first
        | infer_instance
        | exact ih _
        | with_reducible refine frames_bind ?_ (fun _ => ?_)
        | with_reducible refine frames_tryCatch ?_ (fun _ => ?_)
        | split)

instance frames_deepcopyElement {copy : Value → Memo → M (Value × Memo)}
    [h : ∀ v memo, (copy v memo).KeepsFrames n] (newArr : Nat) (memo : Memo) (elem : Value) :
    (deepcopyElement copy newArr memo elem).KeepsFrames n := by
  unfold deepcopyElement
  repeat (first
    | infer_instance
    | with_reducible refine frames_bind ?_ (fun _ => ?_)
    | with_reducible refine frames_tryCatch ?_ (fun _ => ?_)
    | split)

instance frames_deepcopyPair {copy : Value → Memo → M (Value × Memo)}
    [h : ∀ v memo, (copy v memo).KeepsFrames n] (newD : Nat) (memo : Memo)
    (pair : String × Value) : (deepcopyPair copy newD memo pair).KeepsFrames n := by
  unfold deepcopyPair
  repeat (first
    | infer_instance
    | with_reducible refine frames_bind ?_ (fun _ => ?_)
    | with_reducible refine frames_tryCatch ?_ (fun _ => ?_)
    | split)

instance frames_deepcopyField {copy : Value → Memo → M (Value × Memo)}
    [h : ∀ v memo, (copy v memo).KeepsFrames n] (newObj : Nat) (memo : Memo)
    (pair : String × Value) : (deepcopyField copy newObj memo pair).KeepsFrames n := by
  unfold deepcopyField
  repeat (first
    | infer_instance
    | with_reducible refine frames_bind ?_ (fun _ => ?_)
    | with_reducible refine frames_tryCatch ?_ (fun _ => ?_)
    | split)

instance frames_deepcopy_recursive (fuel : Nat) (val : Value) (memo : Memo) :
    (deepcopy_recursive fuel val memo).KeepsFrames n := by
  induction fuel generalizing val memo with
  | zero => exact frames_outOfFuel
  | succ k ih =>
    cases val <;> simp only [deepcopy_recursive] <;>
      repeat (first
        | infer_instance
        | with_reducible refine frames_bind ?_ (fun _ => ?_)
        | with_reducible refine frames_tryCatch ?_ (fun _ => ?_)
        | with_reducible refine @frames_forEachM _ _ _ _ (fun _ _ => ?_) _ _
        | split)

instance frames_native (fuel : Nat) (fn : NativeFn) (args : List Value) :
    (NativeFunction.call fuel fn args).KeepsFrames n := by
  cases fn <;> simp only [NativeFunction.call] <;>
    repeat (first
      | infer_instance
      | with_reducible refine frames_bind ?_ (fun _ => ?_)
      | with_reducible refine frames_tryCatch ?_ (fun _ => ?_)
      | with_reducible refine @frames_forEachM _ _ _ _ (fun _ _ => ?_) _ _
      | split)

theorem frames_at_zero : KeepsFramesAt n 0 := by
  refine ⟨?_, ?_, ?_, ?_, ?_⟩ <;> intros <;> exact frames_outOfFuel

theorem frames_eval_step (m : Nat) (ih : KeepsFramesAt n m) :
    ∀ e env, (Expr.eval (m + 1) e env).KeepsFrames n := by
  obtain ⟨ihE, ihS, ihW, ihF, ihC⟩ := ih
  intro e env
  cases e <;> simp only [Expr.eval] <;>
    repeat (first
      | infer_instance
      | with_reducible refine frames_bind ?_ (fun _ => ?_)
      | with_reducible refine frames_tryCatch ?_ (fun _ => ?_)
      | with_reducible refine @frames_rethrowAt _ _ _ _ ?_
      | with_reducible refine @frames_loopBody _ _ ?_
      | with_reducible refine @frames_forEachM _ _ _ _ (fun _ _ => ?_) _ _
      | with_reducible refine @frames_evalAll _ _ (fun _ => ?_) _
      | with_reducible refine @frames_execStatements _ _ (fun _ => ?_) _
      | split)

theorem frames_fetchList (a : Nat) (l : List Nat) :
    ∀ m ∈ l.map (fetchElement a), m.KeepsFrames n := by
  intro m hm
  obtain ⟨i, _, rfl⟩ := List.mem_map.1 hm
  exact frames_fetchElement a i

theorem frames_charList (l : List Char) :
    ∀ m ∈ l.map (fun c => (pure (.str (String.singleton c)) : M Value)), m.KeepsFrames n := by
  intro m hm
  obtain ⟨c, _, rfl⟩ := List.mem_map.1 hm
  exact frames_pure _

theorem frames_exec_step (m : Nat) (ih : KeepsFramesAt n m) :
    ∀ st env [Fact (n ≤ env)], (Stmt.exec (m + 1) st env).KeepsFrames n := by
  obtain ⟨ihE, ihS, ihW, ihF, ihC⟩ := ih
  intro st env henv
  cases st <;> simp only [Stmt.exec] <;>
    repeat (first
      | infer_instance
      | exact frames_forEachElements (fun _ => inferInstance) _ (frames_fetchList _ _)
      | exact frames_forEachElements (fun _ => inferInstance) _ (frames_charList _)
      | (with_reducible refine frames_newEnvironment_bind (fun b hb => ?_)
         have _ : Fact (n ≤ b) := ⟨hb⟩)
      | with_reducible refine frames_bind ?_ (fun _ => ?_)
      | with_reducible refine frames_tryCatch ?_ (fun _ => ?_)
      | with_reducible refine @frames_rethrowAt _ _ _ _ ?_
      | with_reducible refine @frames_loopBody _ _ ?_
      | with_reducible refine @frames_forEachM _ _ _ _ (fun _ _ => ?_) _ _
      | with_reducible refine @frames_evalAll _ _ (fun _ => ?_) _
      | with_reducible refine @frames_execStatements _ _ (fun _ => ?_) _
      | split)

theorem frames_while_step (m : Nat) (ih : KeepsFramesAt n m) :
    ∀ c b env [Fact (n ≤ env)], (WhileStmt.loop (m + 1) c b env).KeepsFrames n := by
  obtain ⟨ihE, ihS, ihW, ihF, ihC⟩ := ih
  intro c b env henv
  simp only [WhileStmt.loop]
  repeat (first
    | infer_instance
    | with_reducible refine frames_bind ?_ (fun _ => ?_)
    | with_reducible refine frames_tryCatch ?_ (fun _ => ?_)
    | with_reducible refine @frames_loopBody _ _ ?_
    | split)

theorem frames_for_step (m : Nat) (ih : KeepsFramesAt n m) :
    ∀ c i b env [Fact (n ≤ env)], (ForStmt.loop (m + 1) c i b env).KeepsFrames n := by
  obtain ⟨ihE, ihS, ihW, ihF, ihC⟩ := ih
  intro c i b env henv
  simp only [ForStmt.loop]
  repeat (first
    | infer_instance
    | with_reducible refine frames_bind ?_ (fun _ => ?_)
    | with_reducible refine frames_tryCatch ?_ (fun _ => ?_)
    | with_reducible refine @frames_loopBody _ _ ?_
    | split)

theorem frames_call_step (m : Nat) (ih : KeepsFramesAt n m) :
    ∀ f args, (Callable.call (m + 1) f args).KeepsFrames n := by
  obtain ⟨ihE, ihS, ihW, ihF, ihC⟩ := ih
  intro f args
  simp only [Callable.call]
  repeat (first
    | infer_instance
    | (with_reducible refine frames_newEnvironment_bind (fun b hb => ?_)
       have _ : Fact (n ≤ b) := ⟨hb⟩)
    | with_reducible refine frames_bind ?_ (fun _ => ?_)
    | with_reducible refine frames_tryCatch ?_ (fun _ => ?_)
    | with_reducible refine @frames_rethrowAt _ _ _ _ ?_
    | with_reducible refine @frames_loopBody _ _ ?_
    | with_reducible refine @frames_forEachM _ _ _ _ (fun _ _ => ?_) _ _
    | with_reducible refine @frames_evalAll _ _ (fun _ => ?_) _
    | with_reducible refine @frames_execStatements _ _ (fun _ => ?_) _
    | split)

end M.KeepsFrames

/-- With every budget the evaluator keeps the frames below `n`. -/
theorem keepsFramesAt (n m : Nat) : KeepsFramesAt n m := by
  induction m with
  | zero => exact M.KeepsFrames.frames_at_zero
  | succ m ih =>
    exact ⟨M.KeepsFrames.frames_eval_step m ih, M.KeepsFrames.frames_exec_step m ih,
      M.KeepsFrames.frames_while_step m ih, M.KeepsFrames.frames_for_step m ih,
      M.KeepsFrames.frames_call_step m ih⟩

/-! ## The frames of a for loop (C33) -/

/-- A `for` statement keeps the frames that exist when it starts, the frame it
runs in among them. -/
theorem ForStmt.for_keepsFrames (n m : Nat) (initializer : Option Stmt)
    (condition increment : Option Expr) (body : Stmt) (line : Int) (env : Nat) :
    (Stmt.exec m (.For initializer condition increment body line) env).KeepsFrames n := by
  cases m with
  | zero => exact M.KeepsFrames.frames_outOfFuel
  | succ m =>
    obtain ⟨ihE, ihS, ihW, ihF, ihC⟩ := keepsFramesAt n m
    simp only [Stmt.exec]
    refine M.KeepsFrames.frames_newEnvironment_bind (fun b hb => ?_)
    have _ : Fact (n ≤ b) := ⟨hb⟩
    repeat (first
      | infer_instance
      | with_reducible refine M.KeepsFrames.frames_bind ?_ (fun _ => ?_)
      | split)

/-- A block keeps the frames that exist when it starts, the frame it runs in
among them. -/
theorem BlockStmt.block_keepsFrames (n m : Nat) (block : BlockStmt) (env : Nat) :
    (Stmt.exec m (.Block block) env).KeepsFrames n := by
  cases m with
  | zero => exact M.KeepsFrames.frames_outOfFuel
  | succ m =>
    obtain ⟨ihE, ihS, ihW, ihF, ihC⟩ := keepsFramesAt n m
    simp only [Stmt.exec]
    refine M.KeepsFrames.frames_newEnvironment_bind (fun b hb => ?_)
    have _ : Fact (n ≤ b) := ⟨hb⟩
    infer_instance

/-- C33. A `for` statement run in frame `env` creates one frame, the loop
frame, as a child of `env`; with the initializer `var name = e`, the
expression is evaluated in the loop frame and the binding is written into
the loop frame, no other frame being touched by the declaration, and the
loop then runs in the loop frame.  A pass of the loop evaluates the condition
in the loop frame, runs the body in the loop frame, evaluates the increment
in the loop frame and goes on with the loop.  A block run in the loop frame
creates a frame of its own, a child of the loop frame, each time it is run,
and its statements run in that frame.  Whatever a `for` statement or a block
runs and however it ends, with any budget, every frame that existed when it
started, the frame it runs in among them, has in the end the parent and
exactly the names it had: no binding is added to it.
After `var n = 0; for (var i = 0; i < 3; i = i + 1) { var x = i; n = n + x; }`
the variable `n` is `3`, reading `i` fails with `Undefined variable: i`, and
the global frame binds what it bound before and `n`.  The increment of
`for (var i = 0; i < 2; i = i + x) { var x = 1; }` fails with
`Undefined variable: x`, as does the second test of the condition of
`for (var i = 0; i == 0 or x < 2; i = i + 1) { var x = 1; }` and the second
pass of `for (var i = 0; i < 2; i = i + 1) { if (i == 1) print(x); var x = 5; }`.
The examples hold with every budget of at least 20. -/
theorem for_loop_frames (fuel : Nat) (name : String) (e : Expr) (declLine line : Int)
    (condition increment : Option Expr) (c inc : Expr) (body : Stmt) (block : BlockStmt)
    (env loopEnv : Nat) (s s₁ t t₁ t₂ t₃ : State) (frame : Environment) (v cv w : Value)
    (k : Nat)
    (hinit : Expr.eval fuel e s.envs.length
        { s with envs := s.envs ++ [{ vars := [], parent := some env }] } = .ok v s₁)
    (hframe : s₁.envs[s.envs.length]? = some frame)
    (hc : Expr.eval fuel c loopEnv t = .ok cv t₁) (htrue : cv.toBool t₁ = true)
    (hbody : Stmt.exec fuel body loopEnv t₁ = .ok none t₂)
    (hinc : Expr.eval fuel inc loopEnv t₂ = .ok w t₃) :
    Stmt.exec (fuel + 2)
        (.For (some (.VarDecl name none (some e) declLine)) condition increment body line) env s
      = ForStmt.loop (fuel + 1) condition increment body s.envs.length
          { s₁ with
            envs := s₁.envs.set s.envs.length
              { frame with vars := frame.vars.insert name { value := v, static_type := none } } }
    ∧ ForStmt.loop (fuel + 1) (some c) (some inc) body loopEnv t
        = ForStmt.loop fuel (some c) (some inc) body loopEnv t₃
    ∧ Stmt.exec (fuel + 1) (.Block block) loopEnv t₁
        = execStatements (fun st => Stmt.exec fuel st t₁.envs.length) block.statements
            { t₁ with envs := t₁.envs ++ [{ vars := [], parent := some loopEnv }] }
    ∧ (∀ m initializer u,
        (Stmt.exec m (.For initializer condition increment body line) env s).state? = some u →
        s.FramesKept s.envs.length u)
    ∧ (∀ m u, (Stmt.exec m (.Block block) loopEnv t₁).state? = some u →
        t₁.FramesKept t₁.envs.length u)
    ∧ (Interpreter.evalAfter (20 + k) Example.sumInForLoop (.Var "n" 1)).value?
        = some (.int 3)
    ∧ (Interpreter.evalAfter (20 + k) Example.sumInForLoop (.Var "i" 1)).exn?
        = some (.RuntimeError 1 "Undefined variable: i")
    ∧ ((Interpreter.evalAfter (20 + k) Example.sumInForLoop (.Literal .nil 1)).state?.bind
          fun u => u.envs[0]?)
        = some { vars := Interpreter.globals.insert "n" { value := .int 3, static_type := none },
                 parent := none }
    ∧ (Interpreter.evalAfter (20 + k) [some Example.incrementReadsBodyVariable]
          (.Literal .nil 1)).exn? = some (.RuntimeError 2 "Undefined variable: x")
    ∧ (Interpreter.evalAfter (20 + k) [some Example.conditionReadsBodyVariable]
          (.Literal .nil 1)).exn? = some (.RuntimeError 3 "Undefined variable: x")
    ∧ (Interpreter.evalAfter (20 + k) [some Example.bodyReadsEarlierPass]
          (.Literal .nil 1)).exn? = some (.RuntimeError 4 "Undefined variable: x") := by
  have e₁ : (Interpreter.evalAfter 20 Example.sumInForLoop (.Var "n" 1)).value?
      = some (.int 3) := by decide!
  have e₂ : (Interpreter.evalAfter 20 Example.sumInForLoop (.Var "i" 1)).exn?
      = some (.RuntimeError 1 "Undefined variable: i") := by decide!
  have e₃ : (Interpreter.evalAfter 20 Example.sumInForLoop (.Literal .nil 1)).value?
      = some .nil := by decide!
  have e₄ : (Interpreter.evalAfter 20 [some Example.incrementReadsBodyVariable]
      (.Literal .nil 1)).exn? = some (.RuntimeError 2 "Undefined variable: x") := by decide!
  have e₅ : (Interpreter.evalAfter 20 [some Example.conditionReadsBodyVariable]
      (.Literal .nil 1)).exn? = some (.RuntimeError 3 "Undefined variable: x") := by decide!
  have e₆ : (Interpreter.evalAfter 20 [some Example.bodyReadsEarlierPass]
      (.Literal .nil 1)).exn? = some (.RuntimeError 4 "Undefined variable: x") := by decide!
  have hloop : loopBody (Stmt.exec fuel body loopEnv) t₁ = .ok .next t₂ := by
    simp [loopBody, tryCatch, bind_apply, hbody]
  have hlen : s.envs.length < s₁.envs.length := getElem?_lt_length _ _ _ hframe
  refine ⟨?_, ?_, ?_,
    fun m initializer u hu =>
      (ForStmt.for_keepsFrames s.envs.length m initializer condition increment body line
        env).keeps s u (Nat.le_refl _) hu,
    fun m u hu =>
      (BlockStmt.block_keepsFrames t₁.envs.length m block loopEnv).keeps t₁ u (Nat.le_refl _) hu,
    (Interpreter.value_stable 20 _ _ _ e₁).1 k,
    (Interpreter.exn_stable 20 _ _ _ e₂).1 k, ?_, (Interpreter.exn_stable 20 _ _ _ e₄).1 k,
    (Interpreter.exn_stable 20 _ _ _ e₅).1 k, (Interpreter.exn_stable 20 _ _ _ e₆).1 k⟩
  · simp [Stmt.exec, bind_apply, newEnvironment, hinit, Environment.define, readEnv, writeEnv,
      hframe, hlen]
  · simp [ForStmt.loop, bind_apply, hc, htrue, hloop, hinc]
  · simp [Stmt.exec, bind_apply, newEnvironment]
  · rw [Interpreter.evalAfter_add 20 k _ _ (Res.ne_outOfFuel_of_value e₃)]
    decide!

/-- Witness of `for_loop_frames`: the statement
`for (var i = 0; i < 3; i = i + 1) i;` run in the only frame of a state, and
one pass of its loop. -/
theorem for_loop_frames_witness :
    Expr.eval 3 (.Literal (.int 0) 1) 1
        { Example.counterState 1 with
          envs := (Example.counterState 1).envs ++ [{ vars := [], parent := some 0 }] }
      = .ok (.int 0) { Example.counterState 1 with
          envs := (Example.counterState 1).envs ++ [{ vars := [], parent := some 0 }] }
    ∧ Stmt.exec 3 (.ExprStmt (.Var "i" 1) 1) 0 (Example.counterState 1)
        = .ok none (Example.counterState 1)
    ∧ Stmt.exec 5
        (.For (some (.VarDecl "i" none (some (.Literal (.int 0) 1)) 1))
          (some (.Binary .LT (.Var "i" 1) (.Literal (.int 3) 1) 1)) (some Example.incrementI)
          (.ExprStmt (.Var "i" 1) 1) 1) 0 (Example.counterState 1)
      = ForStmt.loop 4 (some (.Binary .LT (.Var "i" 1) (.Literal (.int 3) 1) 1))
          (some Example.incrementI) (.ExprStmt (.Var "i" 1) 1) 1
          { Example.counterState 1 with
            envs := (Example.counterState 1).envs
              ++ [{ vars := [("i", { value := .int 0, static_type := none })],
                    parent := some 0 }] }
    ∧ ForStmt.loop 4 (some (.Binary .LT (.Var "i" 1) (.Literal (.int 3) 1) 1))
        (some Example.incrementI) (.ExprStmt (.Var "i" 1) 1) 0 (Example.counterState 1)
      = ForStmt.loop 3 (some (.Binary .LT (.Var "i" 1) (.Literal (.int 3) 1) 1))
        (some Example.incrementI) (.ExprStmt (.Var "i" 1) 1) 0 (Example.counterState 2) :=
  have h := for_loop_frames 3 "i" (.Literal (.int 0) 1) 1 1
    (some (.Binary .LT (.Var "i" 1) (.Literal (.int 3) 1) 1)) (some Example.incrementI)
    (.Binary .LT (.Var "i" 1) (.Literal (.int 3) 1) 1) Example.incrementI
    (.ExprStmt (.Var "i" 1) 1) (.mk [] 1) 0 0 (Example.counterState 1)
    { Example.counterState 1 with
      envs := (Example.counterState 1).envs ++ [{ vars := [], parent := some 0 }] }
    (Example.counterState 1) (Example.counterState 1) (Example.counterState 1)
    (Example.counterState 2) { vars := [], parent := some 0 } (.int 0) (.bool true) (.int 2) 0
    (by decide!) (by decide!) (by decide!) (by decide!) (by decide!) (by decide!)
  ⟨by decide!, by decide!, h.1, h.2.1⟩

/-! ## A function named init outside a class (C35) -/

/-- When `this` cannot be reached from a frame, reading `this` from it for an
initializer raises the runtime error of `getThis`, in any later state that
keeps the frames. -/
theorem Environment.getThis_unreachable (s t : State) (closure : Nat) (line : Int)
    (hthis : Environment.findFrame s.envs "this" s.envs.length closure = some none)
    (hk : s.FramesKept s.envs.length t) :
    Environment.getThis closure "this" line t
      = .throw (.RuntimeError line "Cannot use 'this' outside of a class method.") t := by
  have h₁ := Environment.findFrame_kept s t "this" hk _ _ _ hthis
  have h₂ := Environment.findFrame_budget t.envs "this" _ t.envs.length _ _ hk.1 h₁
  simp [Environment.getThis, tryCatch, Environment.get, bind_apply, Environment.getRef, h₂,
    Exn.isRuntimeError]

/-- C35. A function statement makes a function value whose initializer flag
is the test `name == "init"`, whatever the frame it is declared in.  Take a
function value with the flag set whose closure is a frame from which no
binding of `this` can be reached.  A call of it never returns a value, with
any arguments and any budget; and whenever its parameters are bound and its
body finishes, by a `return` or by reaching its end, the call raises
"Cannot use 'this' outside of a class method." on the line of the body, in
the state the body left.  After `func init() { return 5; }` at top level the
call `init()` raises this error, as it does after `func init() { print(1); }`,
where `1` is printed first; after `func start() { return 5; }` the call
`start()` returns `5`; with every budget of at least 10. -/
theorem init_outside_class_never_returns (fuel : Nat) (decl : FuncStmt) (env : Nat)
    (u : State) (func : Nat) (args : List Value) (s : State) (params : List ParamInfo)
    (body : BlockStmt) (closure : Nat) (k : Nat)
    (hfn : s.callables[func]? = some (.FunctionValue params body closure true))
    (hthis : Environment.findFrame s.envs "this" s.envs.length closure = some none) :
    Stmt.exec (fuel + 1) (.Func decl) env u
      = (Environment.define env decl.name (.func (some u.callables.length)) none
          >>= fun _ => pure none)
        { u with
          callables := u.callables ++
            [.FunctionValue decl.params decl.body env (decl.name == "init")] }
    ∧ (∀ v t, Callable.call fuel func args s ≠ .ok v t)
    ∧ (∀ s₂ r s₃,
        bindParams s.envs.length params args
            { s with envs := s.envs ++ [{ vars := [], parent := some closure }] } = .ok () s₂ →
        Stmt.exec fuel (.Block body) s.envs.length s₂ = .ok r s₃ →
        Callable.call (fuel + 1) func args s
          = .throw (.RuntimeError body.line "Cannot use 'this' outside of a class method.") s₃)
    ∧ (Interpreter.evalAfter (10 + k) Example.initReturning (.Call (.Var "init" 1) [] 3)).exn?
        = some (.RuntimeError 2 "Cannot use 'this' outside of a class method.")
    ∧ (Interpreter.evalAfter (10 + k) Example.initFallingThrough
          (.Call (.Var "init" 1) [] 3)).exn?
        = some (.RuntimeError 2 "Cannot use 'this' outside of a class method.")
    ∧ ((Interpreter.evalAfter (10 + k) Example.initFallingThrough
          (.Call (.Var "init" 1) [] 3)).state?.map fun t => t.output) = some [[.int 1]]
    ∧ (Interpreter.evalAfter (10 + k) Example.startReturning
          (.Call (.Var "start" 1) [] 3)).value? = some (.int 5) := by
  have e₁ : (Interpreter.evalAfter 10 Example.initReturning (.Call (.Var "init" 1) [] 3)).exn?
      = some (.RuntimeError 2 "Cannot use 'this' outside of a class method.") := by decide!
  have e₂ : (Interpreter.evalAfter 10 Example.initFallingThrough
      (.Call (.Var "init" 1) [] 3)).exn?
      = some (.RuntimeError 2 "Cannot use 'this' outside of a class method.") := by decide!
  have e₃ : (Interpreter.evalAfter 10 Example.startReturning
      (.Call (.Var "start" 1) [] 3)).value? = some (.int 5) := by decide!
  -- the frames of `s` are kept until the body has finished
  have hkept : ∀ m s₂ r s₃,
      bindParams s.envs.length params args
          { s with envs := s.envs ++ [{ vars := [], parent := some closure }] } = r →
      r.state? = some s₂ →
      ∀ r', Stmt.exec m (.Block body) s.envs.length s₂ = r' → r'.state? = some s₃ →
      s.FramesKept s.envs.length s₂ ∧ s.FramesKept s.envs.length s₃ := by
    intro m s₂ r s₃ hb hbs r' he hes
    have _ : Fact (s.envs.length ≤ s.envs.length) := ⟨Nat.le_refl _⟩
    have k₀ : s.FramesKept s.envs.length
        { s with envs := s.envs ++ [{ vars := [], parent := some closure }] } :=
      State.FramesKept.frames_of_append _ s [_] rfl
    have k₁ := (M.KeepsFrames.frames_bindParams s.envs.length params args).keeps _ s₂
      k₀.1 (by rw [hb]; exact hbs)
    have k₂ := ((keepsFramesAt s.envs.length m).2.1 (.Block body) s.envs.length).keeps s₂ s₃
      (Nat.le_trans k₀.1 k₁.1) (by rw [he]; exact hes)
    exact ⟨k₀.frames_trans k₁, (k₀.frames_trans k₁).frames_trans k₂⟩
  -- the call, case by case
  have hcall : ∀ m, Callable.call (m + 1) func args s
      = match bindParams s.envs.length params args
          { s with envs := s.envs ++ [{ vars := [], parent := some closure }] } with
        | .ok _ s₂ =>
          (match Stmt.exec m (.Block body) s.envs.length s₂ with
          | .ok _ s₃ =>
            .throw (.RuntimeError body.line "Cannot use 'this' outside of a class method.") s₃
          | .throw .BreakSignal s₃ =>
            .throw (.RuntimeError body.line "Cannot 'break' from a function.") s₃
          | .throw .ContinueSignal s₃ =>
            .throw (.RuntimeError body.line "Cannot 'continue' from a function.") s₃
          | .throw e s₃ => .throw e s₃
          | .fault s₃ => .fault s₃
          | .outOfFuel => .outOfFuel)
        | .throw e s₂ => .throw e s₂
        | .fault s₂ => .fault s₂
        | .outOfFuel => .outOfFuel := by
    intro m
    simp only [Callable.call, bind_apply, readCallable, hfn, newEnvironment]
    cases hb : bindParams s.envs.length params args
        { s with envs := s.envs ++ [{ vars := [], parent := some closure }] } with
    | ok x s₂ =>
      simp only [tryCatch, bind_apply]
      cases he : Stmt.exec m (.Block body) s.envs.length s₂ with
      | ok r s₃ =>
        have hk := (hkept m s₂ _ s₃ hb rfl _ he rfl).2
        have hg := Environment.getThis_unreachable s s₃ closure body.line hthis hk
        cases r <;> simp [bind_apply, hg]
      | throw e s₃ => cases e <;> simp
      | fault s₃ => simp
      | outOfFuel => simp
    | throw e s₂ => simp
    | fault s₂ => simp
    | outOfFuel => simp
  refine ⟨?_, ?_, ?_, (Interpreter.exn_stable 10 _ _ _ e₁).1 k,
    (Interpreter.exn_stable 10 _ _ _ e₂).1 k, ?_, (Interpreter.value_stable 10 _ _ _ e₃).1 k⟩
  · simp [Stmt.exec, bind_apply, newCallable]
  · intro v t h
    cases fuel with
    | zero => simp [Callable.call, outOfFuel] at h
    | succ m =>
      rw [hcall m] at h
      split at h
      · split at h <;> cases h
      · cases h
      · cases h
      · cases h
  · intro s₂ r s₃ hb he
    rw [hcall fuel, hb]
    simp only [he]
  · rw [Interpreter.evalAfter_add 10 k _ _ (Res.ne_outOfFuel_of_exn e₂)]
    decide!

/-- Witness of `init_outside_class_never_returns`: after
`func init() { return 5; }` the function value `init` is flagged, its closure
is the global frame, which does not bind `this`, and a call of it does not
return. -/
theorem init_outside_class_never_returns_witness :
    Example.afterInitReturning.callables[9]?
      = some (.FunctionValue [] Example.returnFive 0 true)
    ∧ Environment.findFrame Example.afterInitReturning.envs "this"
        Example.afterInitReturning.envs.length 0 = some none
    ∧ ∀ v t, Callable.call 5 9 [] Example.afterInitReturning ≠ .ok v t :=
  ⟨by decide!, by decide!,
   (init_outside_class_never_returns 5 (.mk "init" [] Example.returnFive 1) 0
      Interpreter.initial 9 [] Example.afterInitReturning [] Example.returnFive 0 0
      (by decide!) (by decide!)).2.1⟩

/-! ## The loop variable of a foreach loop (C39) -/

theorem Validity.lift {α : Type} [Validity α] {k k' : Nat} {a : α}
    (h : Validity.valid k' a) (hk : k' ≤ k) : Validity.valid k a :=
  Validity.mono k' k a hk h

theorem Value.valid_of_not_object (n : Nat) (v : Value) (h : v.isObject = false) :
    Value.Valid n v := by
  cases v <;> simp [Value.isObject] at h <;> trivial

theorem StrMap.mem_insert {α : Type} (m : StrMap α) (k : String) (v : α) (kv : String × α)
    (h : kv ∈ m.insert k v) : kv ∈ m ∨ kv = (k, v) := by
  induction m with
  | nil =>
    simp only [StrMap.insert, List.mem_singleton] at h
    exact Or.inr h
  | cons x rest ih =>
    obtain ⟨k', v'⟩ := x
    simp only [StrMap.insert] at h
    split at h
    · rcases List.mem_cons.1 h with h | h
      · exact Or.inr h
      · exact Or.inl (List.mem_cons_of_mem _ h)
    · rcases List.mem_cons.1 h with h | h
      · exact Or.inl (h ▸ List.mem_cons_self _ _)
      · rcases ih h with h | h
        · exact Or.inl (List.mem_cons_of_mem _ h)
        · exact Or.inr h

theorem StrMap.mem_erase {α : Type} (m : StrMap α) (k : String) (kv : String × α)
    (h : kv ∈ m.erase k) : kv ∈ m := by
  induction m with
  | nil => simp [StrMap.erase] at h
  | cons x rest ih =>
    obtain ⟨k', v'⟩ := x
    simp only [StrMap.erase] at h
    split at h
    · exact List.mem_cons_of_mem _ h
    · rcases List.mem_cons.1 h with h | h
      · exact h ▸ List.mem_cons_self _ _
      · exact List.mem_cons_of_mem _ (ih h)

theorem StrMap.mem_of_find {α : Type} (m : StrMap α) (k : String) (v : α)
    (h : m.find k = some v) : (k, v) ∈ m := by
  induction m with
  | nil => simp [StrMap.find] at h
  | cons x rest ih =>
    obtain ⟨k', v'⟩ := x
    simp only [StrMap.find] at h
    split at h
    · rename_i hk
      cases h
      subst hk
      exact List.mem_cons_self _ _
    · exact List.mem_cons_of_mem _ (ih h)

theorem StrMap.valid_insert {α : Type} [Validity α] (n : Nat) (m : StrMap α) (k : String)
    (v : α) (hm : Validity.valid n m) (hv : Validity.valid n v) :
    Validity.valid n (m.insert k v) := by
  intro kv hkv
  rcases StrMap.mem_insert m k v kv hkv with h | h
  · exact hm kv h
  · subst h
    exact ⟨trivial, hv⟩

theorem StrMap.valid_erase {α : Type} [Validity α] (n : Nat) (m : StrMap α) (k : String)
    (hm : Validity.valid n m) : Validity.valid n (m.erase k) :=
  fun kv hkv => hm kv (StrMap.mem_erase m k kv hkv)

theorem StrMap.valid_find {α : Type} [Validity α] (n : Nat) (m : StrMap α) (k : String)
    (v : α) (hm : Validity.valid n m) (h : m.find k = some v) : Validity.valid n v :=
  (hm (k, v) (StrMap.mem_of_find m k v h)).2

theorem getElem?_set_cases {α : Type} (l : List α) (i j : Nat) (a b : α)
    (h : (l.set i a)[j]? = some b) : b = a ∨ l[j]? = some b := by
  by_cases hij : i = j
  · subst hij
    by_cases hlt : i < l.length
    · rw [List.getElem?_set_self hlt] at h
      exact Or.inl (Option.some.inj h).symm
    · rw [List.getElem?_eq_none (by simp; omega)] at h
      cases h
  · rw [List.getElem?_set_ne hij] at h
    exact Or.inr h

theorem getElem?_append_cases {α : Type} (l : List α) (j : Nat) (a b : α)
    (h : (l ++ [a])[j]? = some b) : (b = a ∧ j = l.length) ∨ l[j]? = some b := by
  by_cases hlt : j < l.length
  · rw [List.getElem?_append_left hlt] at h
    exact Or.inr h
  · rw [List.getElem?_append_right (by omega)] at h
    rcases Nat.eq_zero_or_pos (j - l.length) with h0 | h0
    · rw [h0] at h
      exact Or.inl ⟨(Option.some.inj h).symm, by omega⟩
    · rw [List.getElem?_eq_none (by simp only [List.length_singleton]; omega)] at h
      cases h

namespace State.WF

/-- A state with the same objects whose other stores are in order is in order. -/
theorem of_objects_eq {s t : State} (h : s.WF) (hobj : t.objects = s.objects)
    (henv : ∀ (f : Nat) (e : Environment), t.envs[f]? = some e →
      Validity.valid s.objects.length e)
    (harr : ∀ (a : Nat) (l : List Value), t.arrays[a]? = some l →
      Validity.valid s.objects.length l)
    (hdict : ∀ (d : Nat) (m : StrMap Value), t.dicts[d]? = some m →
      Validity.valid s.objects.length m)
    (hcall : ∀ (c : Nat) (x : Callable), t.callables[c]? = some x →
      Validity.valid s.objects.length x) : t.WF where
  parents := by rw [hobj]; exact h.parents
  objects := by rw [hobj]; exact h.objects
  envs := by rw [hobj]; exact henv
  arrays := by rw [hobj]; exact harr
  dicts := by rw [hobj]; exact hdict
  callables := by rw [hobj]; exact hcall

/-- A new object whose parent exists keeps the stores in order. -/
theorem append_object {s : State} (h : s.WF) (parent klass : Option Nat)
    (hp : ∀ q, parent = some q → q < s.objects.length) :
    ({ s with objects := s.objects ++ [{ fields := [], parent := parent, klass := klass }] } :
      State).WF where
  parents := by
    intro p o ho q hq
    rcases getElem?_append_cases _ _ _ _ ho with ⟨rfl, rfl⟩ | ho
    · exact hp q hq
    · exact h.parents p o ho q hq
  objects := by
    intro p o ho
    simp only [List.length_append, List.length_singleton]
    rcases getElem?_append_cases _ _ _ _ ho with ⟨rfl, rfl⟩ | ho
    · exact And.intro (fun _ hkv => (List.not_mem_nil _ hkv).elim)
        (fun q hq => Nat.lt_succ_of_lt (hp q hq))
    · exact Validity.lift (h.objects p o ho) (Nat.le_succ _)
  envs := by
    intro f e he
    simp only [List.length_append, List.length_singleton]
    exact Validity.lift (h.envs f e he) (Nat.le_succ _)
  arrays := by
    intro a l hl
    simp only [List.length_append, List.length_singleton]
    exact Validity.lift (h.arrays a l hl) (Nat.le_succ _)
  dicts := by
    intro d m hm
    simp only [List.length_append, List.length_singleton]
    exact Validity.lift (h.dicts d m hm) (Nat.le_succ _)
  callables := by
    intro c x hx
    simp only [List.length_append, List.length_singleton]
    exact Validity.lift (h.callables c x hx) (Nat.le_succ _)

/-- Other fields for an object, none of which points outside the objects,
keep the stores in order. -/
theorem set_fields {s : State} (h : s.WF) (p : Nat) (o : MutableObject)
    (fields : StrMap Value) (ho : s.objects[p]? = some o)
    (hf : Validity.valid s.objects.length fields) :
    ({ s with objects := s.objects.set p { o with fields := fields } } : State).WF where
  parents := by
    intro p' o' ho' q hq
    rcases getElem?_set_cases _ _ _ _ _ ho' with rfl | ho'
    · by_cases hpp : p = p'
      · subst hpp
        exact h.parents p o ho q hq
      · rw [List.getElem?_set_ne hpp] at ho'
        exact h.parents p' _ ho' q hq
    · exact h.parents p' o' ho' q hq
  objects := by
    intro p' o' ho'
    simp only [List.length_set]
    rcases getElem?_set_cases _ _ _ _ _ ho' with rfl | ho'
    · exact And.intro hf (h.objects p o ho).2
    · exact h.objects p' o' ho'
  envs := by simp only [List.length_set]; exact h.envs
  arrays := by simp only [List.length_set]; exact h.arrays
  dicts := by simp only [List.length_set]; exact h.dicts
  callables := by simp only [List.length_set]; exact h.callables

end State.WF

theorem Res.Sound.of_le {α : Type} [Validity α] {s t : State} {r : Res α}
    (h : r.Sound t) (hle : s.objects.length ≤ t.objects.length) : r.Sound s := by
  cases r with
  | ok a u => exact ⟨h.1, Nat.le_trans hle h.2.1, h.2.2⟩
  | throw e u => exact ⟨h.1, Nat.le_trans hle h.2⟩
  | fault u => exact ⟨h.1, Nat.le_trans hle h.2⟩
  | outOfFuel => trivial

namespace M.Sound

variable {n : Nat}

theorem sound_mono {α : Type} [Validity α] {m : M α} {k : Nat} (h : m.Sound n) (hk : n ≤ k) :
    m.Sound k :=
  ⟨fun s hwf hn => h.sound s hwf (Nat.le_trans hk hn)⟩

theorem sound_pure {α : Type} [Validity α] {a : α} (h : Validity.valid n a) :
    (pure a : M α).Sound n :=
  ⟨fun s hwf hn => ⟨hwf, Nat.le_refl _, Validity.lift h hn⟩⟩

instance sound_pure_unit (a : Unit) : (pure a : M Unit).Sound n := sound_pure trivial

instance sound_pure_bool (a : Bool) : (pure a : M Bool).Sound n := sound_pure trivial

instance sound_raise {α : Type} [Validity α] (e : Exn) : (raise e : M α).Sound n :=
  ⟨fun s hwf _ => ⟨hwf, Nat.le_refl _⟩⟩

instance sound_fault {α : Type} [Validity α] : (fault : M α).Sound n :=
  ⟨fun s hwf _ => ⟨hwf, Nat.le_refl _⟩⟩

instance sound_outOfFuel {α : Type} [Validity α] : (outOfFuel : M α).Sound n :=
  ⟨fun _ _ _ => trivial⟩

instance sound_getState : getState.Sound n :=
  ⟨fun s hwf _ => ⟨hwf, Nat.le_refl _, trivial⟩⟩

theorem sound_bind {α β : Type} [Validity α] [Validity β] {m : M α} {f : α → M β}
    (hm : m.Sound n) (hf : ∀ a k, n ≤ k → Validity.valid k a → (f a).Sound k) :
    (m >>= f).Sound n := by
  refine ⟨fun s hwf hn => ?_⟩
  have h := hm.sound s hwf hn
  rw [bind_apply]
  cases hr : m s with
  | ok a t =>
    rw [hr] at h
    exact ((hf a t.objects.length (Nat.le_trans hn h.2.1) h.2.2).sound t h.1
      (Nat.le_refl _)).of_le h.2.1
  | throw e t => rw [hr] at h; exact h
  | fault t => rw [hr] at h; exact h
  | outOfFuel => trivial

theorem sound_tryCatch {α : Type} [Validity α] {m : M α} {h : Exn → M α}
    (hm : m.Sound n) (hh : ∀ e k, n ≤ k → (h e).Sound k) : (tryCatch m h).Sound n := by
  refine ⟨fun s hwf hn => ?_⟩
  have hs := hm.sound s hwf hn
  unfold tryCatch
  cases hr : m s with
  | ok a t => rw [hr] at hs; exact hs
  | throw e t =>
    rw [hr] at hs
    exact ((hh e t.objects.length (Nat.le_trans hn hs.2)).sound t hs.1 (Nat.le_refl _)).of_le
      hs.2
  | fault t => rw [hr] at hs; exact hs
  | outOfFuel => trivial

/-- A computation that starts by making an object whose parent exists runs
the rest with a pointer to an object. -/
theorem sound_newObject_bind {β : Type} [Validity β] {parent klass : Option Nat}
    {f : Nat → M β} (hp : ∀ q, parent = some q → q < n)
    (hf : ∀ o k, n ≤ k → o < k → (f o).Sound k) : (newObject parent klass >>= f).Sound n := by
  refine ⟨fun s hwf hn => ?_⟩
  simp only [bind_apply, newObject]
  have hwf' := hwf.append_object parent klass (fun q hq => Nat.lt_of_lt_of_le (hp q hq) hn)
  refine ((hf s.objects.length _ ?_ ?_).sound _ hwf' (Nat.le_refl _)).of_le ?_
  · simp only [List.length_append, List.length_singleton]; omega
  · simp only [List.length_append, List.length_singleton]; omega
  · simp only [List.length_append, List.length_singleton]; omega

/-- A computation that leaves the objects as they are and keeps the other
stores in order. -/
theorem sound_of_step {α : Type} [Validity α] {m : M α}
    (h : ∀ s, s.WF → n ≤ s.objects.length →
      match m s with
      | .ok a t => t.objects = s.objects ∧ t.WF ∧ Validity.valid s.objects.length a
      | .throw _ t => t = s
      | .fault t => t = s
      | .outOfFuel => True) : m.Sound n := by
  refine ⟨fun s hwf hn => ?_⟩
  have hs := h s hwf hn
  cases hr : m s with
  | ok a t =>
    rw [hr] at hs
    exact ⟨hs.2.1, by rw [hs.1], by rw [hs.1]; exact hs.2.2⟩
  | throw e t => rw [hr] at hs; subst hs; exact ⟨hwf, Nat.le_refl _⟩
  | fault t => rw [hr] at hs; subst hs; exact ⟨hwf, Nat.le_refl _⟩
  | outOfFuel => trivial

instance sound_print (args : List Value) :
    (modifyState fun s => { s with output := s.output ++ [args] }).Sound n :=
  sound_of_step fun s hwf _ =>
    ⟨rfl, hwf.of_objects_eq rfl hwf.envs hwf.arrays hwf.dicts hwf.callables, trivial⟩

instance sound_newEnvironment (parent : Option Nat) : (newEnvironment parent).Sound n :=
  sound_of_step fun s hwf _ =>
    ⟨rfl, hwf.of_objects_eq rfl
      (fun f e he => by
        rcases getElem?_append_cases _ _ _ _ he with ⟨rfl, _⟩ | he
        · exact fun _ hkv => (List.not_mem_nil _ hkv).elim
        · exact hwf.envs f e he)
      hwf.arrays hwf.dicts hwf.callables, trivial⟩

theorem sound_newArray {elements : List Value} (h : Validity.valid n elements) :
    (newArray elements).Sound n :=
  sound_of_step fun s hwf hn =>
    ⟨rfl, hwf.of_objects_eq rfl hwf.envs
      (fun a l hl => by
        rcases getElem?_append_cases _ _ _ _ hl with ⟨rfl, _⟩ | hl
        · exact Validity.lift h hn
        · exact hwf.arrays a l hl)
      hwf.dicts hwf.callables, trivial⟩

instance sound_newArray_nil : (newArray []).Sound n :=
  sound_newArray (fun _ h => (List.not_mem_nil _ h).elim)

theorem sound_newDict {pairs : StrMap Value} (h : Validity.valid n pairs) :
    (newDict pairs).Sound n :=
  sound_of_step fun s hwf hn =>
    ⟨rfl, hwf.of_objects_eq rfl hwf.envs hwf.arrays
      (fun d m hm => by
        rcases getElem?_append_cases _ _ _ _ hm with ⟨rfl, _⟩ | hm
        · exact Validity.lift h hn
        · exact hwf.dicts d m hm)
      hwf.callables, trivial⟩

instance sound_newDict_nil : (newDict []).Sound n :=
  sound_newDict (fun _ h => (List.not_mem_nil _ h).elim)

theorem sound_newCallable {c : Callable} (h : Validity.valid n c) : (newCallable c).Sound n :=
  sound_of_step fun s hwf hn =>
    ⟨rfl, hwf.of_objects_eq rfl hwf.envs hwf.arrays hwf.dicts
      (fun c' x hx => by
        rcases getElem?_append_cases _ _ _ _ hx with ⟨rfl, _⟩ | hx
        · exact Validity.lift h hn
        · exact hwf.callables c' x hx), trivial⟩

instance sound_readArray (p : Nat) : (readArray p).Sound n :=
  sound_of_step fun s hwf _ => by
    cases hl : s.arrays[p]? with
    | none => simp only [readArray, hl]
    | some l =>
      simp only [readArray, hl]
      exact ⟨trivial, hwf, hwf.arrays p l hl⟩

instance sound_readDict (p : Nat) : (readDict p).Sound n :=
  sound_of_step fun s hwf _ => by
    cases hl : s.dicts[p]? with
    | none => simp only [readDict, hl]
    | some l =>
      simp only [readDict, hl]
      exact ⟨trivial, hwf, hwf.dicts p l hl⟩

instance sound_readObject (p : Nat) : (readObject p).Sound n :=
  sound_of_step fun s hwf _ => by
    cases hl : s.objects[p]? with
    | none => simp only [readObject, hl]
    | some l =>
      simp only [readObject, hl]
      exact ⟨trivial, hwf, hwf.objects p l hl⟩

instance sound_readCallable (p : Nat) : (readCallable p).Sound n :=
  sound_of_step fun s hwf _ => by
    cases hl : s.callables[p]? with
    | none => simp only [readCallable, hl]
    | some l =>
      simp only [readCallable, hl]
      exact ⟨trivial, hwf, hwf.callables p l hl⟩

instance sound_readEnv (p : Nat) : (readEnv p).Sound n :=
  sound_of_step fun s hwf _ => by
    cases hl : s.envs[p]? with
    | none => simp only [readEnv, hl]
    | some l =>
      simp only [readEnv, hl]
      exact ⟨trivial, hwf, hwf.envs p l hl⟩

theorem sound_writeArray {p : Nat} {elements : List Value} (h : Validity.valid n elements) :
    (writeArray p elements).Sound n :=
  sound_of_step fun s hwf hn => by
    by_cases hp : p < s.arrays.length
    · simp only [writeArray, hp, if_true]
      refine ⟨trivial, hwf.of_objects_eq rfl hwf.envs (fun a l hl => ?_) hwf.dicts hwf.callables,
        trivial⟩
      rcases getElem?_set_cases _ _ _ _ _ hl with rfl | hl
      · exact Validity.lift h hn
      · exact hwf.arrays a l hl
    · simp only [writeArray, hp, if_false]

theorem sound_writeDict {p : Nat} {pairs : StrMap Value} (h : Validity.valid n pairs) :
    (writeDict p pairs).Sound n :=
  sound_of_step fun s hwf hn => by
    by_cases hp : p < s.dicts.length
    · simp only [writeDict, hp, if_true]
      refine ⟨trivial, hwf.of_objects_eq rfl hwf.envs hwf.arrays (fun a l hl => ?_) hwf.callables,
        trivial⟩
      rcases getElem?_set_cases _ _ _ _ _ hl with rfl | hl
      · exact Validity.lift h hn
      · exact hwf.dicts a l hl
    · simp only [writeDict, hp, if_false]

theorem sound_writeCallable {p : Nat} {c : Callable} (h : Validity.valid n c) :
    (writeCallable p c).Sound n :=
  sound_of_step fun s hwf hn => by
    by_cases hp : p < s.callables.length
    · simp only [writeCallable, hp, if_true]
      refine ⟨trivial, hwf.of_objects_eq rfl hwf.envs hwf.arrays hwf.dicts (fun a l hl => ?_),
        trivial⟩
      rcases getElem?_set_cases _ _ _ _ _ hl with rfl | hl
      · exact Validity.lift h hn
      · exact hwf.callables a l hl
    · simp only [writeCallable, hp, if_false]

theorem sound_writeEnv {p : Nat} {e : Environment} (h : Validity.valid n e) :
    (writeEnv p e).Sound n :=
  sound_of_step fun s hwf hn => by
    by_cases hp : p < s.envs.length
    · simp only [writeEnv, hp, if_true]
      refine ⟨trivial, hwf.of_objects_eq rfl (fun a l hl => ?_) hwf.arrays hwf.dicts hwf.callables,
        trivial⟩
      rcases getElem?_set_cases _ _ _ _ _ hl with rfl | hl
      · exact Validity.lift h hn
      · exact hwf.envs a l hl
    · simp only [writeEnv, hp, if_false]

end M.Sound

theorem Value.valid_object_iff (n p : Nat) :
    Validity.valid n (Value.object p) ↔ p < n := Iff.rfl

theorem Validity.valid_append {α : Type} [Validity α] {n : Nat} {l l' : List α}
    (h : Validity.valid n l) (h' : Validity.valid n l') : Validity.valid n (l ++ l') := by
  intro a ha
  rcases List.mem_append.1 ha with ha | ha
  · exact h a ha
  · exact h' a ha

theorem Validity.valid_snoc {α : Type} [Validity α] {n : Nat} {l : List α} {a : α}
    (h : Validity.valid n l) (h' : Validity.valid n a) : Validity.valid n (l ++ [a]) :=
  Validity.valid_append h (fun b hb => by rw [List.mem_singleton.1 hb]; exact h')

theorem Validity.valid_none {α : Type} [Validity α] {n : Nat} :
    Validity.valid n (none : Option α) := fun _ h => nomatch h

theorem Validity.valid_some {α : Type} [Validity α] {n : Nat} {a : α}
    (h : Validity.valid n a) : Validity.valid n (some a) :=
  fun b hb => by cases hb; exact h

theorem Validity.valid_nil {α : Type} [Validity α] {n : Nat} :
    Validity.valid n ([] : List α) := fun _ h => (List.not_mem_nil _ h).elim

theorem Validity.valid_cons {α : Type} [Validity α] {n : Nat} {a : α} {l : List α}
    (h : Validity.valid n a) (h' : Validity.valid n l) : Validity.valid n (a :: l) := by
  intro b hb
  rcases List.mem_cons.1 hb with rfl | hb
  · exact h
  · exact h' b hb

theorem Validity.valid_pair {α β : Type} [Validity α] [Validity β] {n : Nat} {a : α} {b : β}
    (h : Validity.valid n a) (h' : Validity.valid n b) : Validity.valid n (a, b) :=
  ⟨h, h'⟩

theorem Validity.valid_ret {n : Nat} {v : Value} (h : Validity.valid n v) :
    Validity.valid n (LoopStep.ret v) :=
  fun w hw => by cases hw; exact h

/-- An optional index of another store holds no pointer to an object. -/
theorem Validity.valid_plain (n : Nat) (o : Option Nat) : Validity.valid n o :=
  fun _ _ => trivial

theorem MutableObject.valid_field {n : Nat} {o : MutableObject} {name : String} {v : Value}
    (ho : Validity.valid n o) (hf : o.fields.find name = some v) : Validity.valid n v :=
  StrMap.valid_find n o.fields name v ho.1 hf

theorem Validity.valid_set {α : Type} [Validity α] {n : Nat} {l : List α} {a : α} (i : Nat)
    (h : Validity.valid n l) (h' : Validity.valid n a) : Validity.valid n (l.set i a) := by
  intro b hb
  obtain ⟨j, hj⟩ := List.getElem?_of_mem hb
  rcases getElem?_set_cases _ _ _ _ _ hj with rfl | hj
  · exact h'
  · exact h b (List.getElem?_mem hj)

namespace M.Sound

variable {n : Nat}

theorem sound_newObject_none_bind {β : Type} [Validity β] {klass : Option Nat}
    {f : Nat → M β} (hf : ∀ o k, n ≤ k → o < k → (f o).Sound k) :
    (newObject none klass >>= f).Sound n :=
  sound_newObject_bind (fun _ h => by cases h) hf

theorem sound_newObject_some_bind {β : Type} [Validity β] {p : Nat} {klass : Option Nat}
    {f : Nat → M β} (hp : p < n) (hf : ∀ o k, n ≤ k → o < k → (f o).Sound k) :
    (newObject (some p) klass >>= f).Sound n :=
  sound_newObject_bind (fun _ h => by cases h; exact hp) hf

theorem sound_argAt {args : List Value} {i : Nat} (h : Validity.valid n args) :
    (argAt args i).Sound n := by
  unfold argAt
  cases hi : args[i]? with
  | none => exact sound_fault
  | some v => exact sound_pure (h v (List.getElem?_mem hi))

theorem sound_define {env : Nat} {name : String} {value : Value} {type : Option TokenType}
    (h : Validity.valid n value) : (Environment.define env name value type).Sound n := by
  unfold Environment.define
  repeat (first
      | infer_instance
      | assumption
      | exact trivial
      | omega
      | exact Validity.lift (by assumption) (by omega)
      | (simp only [Value.valid_object_iff] at *; omega)
      | with_reducible refine sound_newObject_none_bind (fun _ _ _ _ => ?_)
      | with_reducible refine sound_newObject_some_bind ?_ (fun _ _ _ _ => ?_)
      | with_reducible refine sound_bind ?_ (fun _ _ _ _ => ?_)
      | with_reducible refine sound_tryCatch ?_ (fun _ _ _ => ?_)
      | exact sound_writeEnv (StrMap.valid_insert _ _ _ _ (by assumption) (Validity.lift h (by omega)))
      | split)

theorem sound_assign {env : Nat} {name : String} {value : Value}
    (h : Validity.valid n value) : (Environment.assign env name value).Sound n :=
  sound_of_step fun s hwf hn => by
    unfold Environment.assign
    cases hf : Environment.findFrame s.envs name s.envs.length env with
    | none => simp only
    | some r =>
      cases r with
      | none => exact ⟨rfl, hwf, trivial⟩
      | some f =>
        simp only
        cases he : s.envs[f]? with
        | none => simp only
        | some e =>
          simp only
          cases hi : e.vars.find name with
          | none => simp only
          | some info =>
            obtain ⟨old, st⟩ := info
            have hwf' : State.WF
                { s with
                  envs := s.envs.set f
                    { e with
                      vars := e.vars.insert name { value := value, static_type := st } } } := by
              refine hwf.of_objects_eq rfl (fun a l hl => ?_) hwf.arrays hwf.dicts hwf.callables
              rcases getElem?_set_cases _ _ _ _ _ hl with rfl | hl
              · exact StrMap.valid_insert _ e.vars name _ (hwf.envs f e he)
                  (Validity.lift h hn)
              · exact hwf.envs a l hl
            cases st with
            | none => exact ⟨rfl, hwf', trivial⟩
            | some t =>
              simp only
              by_cases hc : (!check_type s t value) = true
              · simp only [hc, if_true]
              · simp only [hc, if_false]
                exact ⟨rfl, hwf', trivial⟩

instance sound_getRef (env : Nat) (name : String) : (Environment.getRef env name).Sound n :=
  sound_of_step fun s hwf _ => by
    unfold Environment.getRef
    cases hf : Environment.findFrame s.envs name s.envs.length env with
    | none => simp only
    | some r =>
      cases r with
      | none => simp only
      | some f => exact ⟨rfl, hwf, trivial⟩

instance sound_envGet (env : Nat) (name : String) : (Environment.get env name).Sound n := by
  unfold Environment.get
  refine sound_bind (sound_getRef env name) (fun f k hk _ =>
    sound_bind (sound_readEnv f) (fun e k₁ hk₁ he => ?_))
  cases hi : e.vars.find name with
  | none => exact sound_fault
  | some info => exact sound_pure (StrMap.valid_find k₁ e.vars name info he hi)

instance sound_getThis (env : Nat) (name : String) (line : Int) :
    (Environment.getThis env name line).Sound n := by
  unfold Environment.getThis
  refine sound_tryCatch (sound_envGet env name) (fun e k hk => ?_)
  split <;> infer_instance

theorem sound_rethrowAt {α : Type} [Validity α] {line : Int} {m : M α} (hm : m.Sound n) :
    (rethrowAt line m).Sound n := by
  unfold rethrowAt
  refine sound_tryCatch hm (fun e k hk => ?_)
  split <;> infer_instance

/-- A value found along the parent chain is a field of an object of the store. -/
theorem getChain_valid (s : State) (hwf : s.WF) (name : String) :
    ∀ (budget obj : Nat) (v : Value),
      MutableObject.getChain s.objects name budget obj = some (some v) →
      Validity.valid s.objects.length v := by
  intro budget
  induction budget with
  | zero => intro obj v h; simp [MutableObject.getChain] at h
  | succ b ih =>
    intro obj v h
    simp only [MutableObject.getChain] at h
    cases ho : s.objects[obj]? with
    | none => simp only [ho] at h; cases h
    | some o =>
      simp only [ho] at h
      cases hf : o.fields.find name with
      | some w =>
        simp only [hf] at h
        cases h
        exact StrMap.valid_find _ o.fields name v (hwf.objects obj o ho).1 hf
      | none =>
        simp only [hf] at h
        cases hp : o.parent with
        | none => simp only [hp] at h; cases h
        | some p =>
          simp only [hp] at h
          exact ih p v h

instance sound_get (obj : Nat) (name : String) : (MutableObject.get obj name).Sound n :=
  sound_of_step fun s hwf _ => by
    unfold MutableObject.get
    cases hc : MutableObject.getChain s.objects name s.objects.length obj with
    | none => simp only
    | some r =>
      cases r with
      | none => simp only
      | some v => exact ⟨rfl, hwf, getChain_valid s hwf name _ _ v hc⟩

instance sound_has (obj : Nat) (name : String) : (MutableObject.has obj name).Sound n :=
  sound_of_step fun s hwf _ => by
    unfold MutableObject.has
    cases hc : MutableObject.getChain s.objects name s.objects.length obj with
    | none => simp only
    | some r =>
      cases r with
      | none => exact ⟨rfl, hwf, trivial⟩
      | some v => exact ⟨rfl, hwf, trivial⟩

/-- Reading an object and storing it back with fields in order keeps the
stores in order. -/
theorem sound_updateFields {α : Type} [Validity α] (p : Nat)
    (g : MutableObject → StrMap Value) (k : Unit → M α)
    (hg : ∀ (o : MutableObject) (j : Nat), n ≤ j → Validity.valid j o →
      Validity.valid j (g o))
    (hk : ∀ u j, n ≤ j → (k u).Sound j) :
    (readObject p >>= fun o => writeObject p { o with fields := g o } >>= k).Sound n := by
  refine ⟨fun s hwf hn => ?_⟩
  simp only [bind_apply, readObject, writeObject]
  cases ho : s.objects[p]? with
  | none => exact ⟨hwf, Nat.le_refl _⟩
  | some o =>
    have hlt := getElem?_lt_length _ _ _ ho
    simp only [hlt, if_true]
    have hwf' := hwf.set_fields p o (g o) ho (hg o _ hn (hwf.objects p o ho))
    refine ((hk () s.objects.length hn).sound _ hwf' (by simp)).of_le (by simp)

theorem sound_set {obj : Nat} {name : String} {value : Value}
    (h : Validity.valid n value) : (MutableObject.set obj name value).Sound n := by
  have hu := sound_updateFields (n := n) obj (fun o => o.fields.insert name value)
    (fun _ => (pure () : M Unit))
    (fun o j hj ho => StrMap.valid_insert j o.fields name value ho.1 (Validity.lift h hj))
    (fun _ _ _ => sound_pure_unit ())
  refine ⟨fun s hwf hn => ?_⟩
  have hs := hu.sound s hwf hn
  simp only [MutableObject.set, bind_apply] at hs ⊢
  cases hr : readObject obj s with
  | ok a t =>
    simp only [hr] at hs ⊢
    cases hw : writeObject obj { a with fields := a.fields.insert name value } t <;>
      simp only [hw] at hs ⊢ <;> exact hs
  | throw e t => simp only [hr] at hs ⊢; exact hs
  | fault t => simp only [hr] at hs ⊢; exact hs
  | outOfFuel => trivial

theorem sound_functionBind {func instance_ : Nat} (h : instance_ < n) :
    (FunctionValue.bind func instance_).Sound n := by
  unfold FunctionValue.bind
  refine sound_bind (sound_readCallable func) (fun c k hk hc => ?_)
  cases c with
  | FunctionValue params body closure is_initializer =>
    simp only
    refine sound_bind (sound_newEnvironment _) (fun environment k₁ hk₁ _ =>
      sound_bind (sound_define ?_) (fun _ k₂ hk₂ _ => sound_newCallable hc))
    exact (Value.valid_object_iff k₁ instance_).2 (by omega)
  | ClassValue name superclass prototype initializer => exact sound_fault
  | NativeFunction function arity name => exact sound_fault

instance sound_slotRead (ref : SlotRef) : ref.read.Sound n := by
  cases ref with
  | var frame name =>
    simp only [SlotRef.read]
    refine sound_bind (sound_readEnv frame) (fun e k hk he => ?_)
    cases hi : e.vars.find name with
    | none => exact sound_fault
    | some info => exact sound_pure (StrMap.valid_find k e.vars name info he hi)
  | field obj name =>
    simp only [SlotRef.read]
    refine sound_bind (sound_readObject obj) (fun o k hk ho => ?_)
    cases hi : o.fields.find name with
    | none => exact sound_fault
    | some v => exact sound_pure (StrMap.valid_find k o.fields name v ho.1 hi)
  | entry dict key =>
    simp only [SlotRef.read]
    refine sound_bind (sound_readDict dict) (fun pairs k hk hp => ?_)
    cases hi : pairs.find key with
    | none => exact sound_fault
    | some v => exact sound_pure (StrMap.valid_find k pairs key v hp hi)

theorem sound_slotWrite {ref : SlotRef} {v : Value} (h : Validity.valid n v) :
    (ref.write v).Sound n := by
  cases ref with
  | var frame name =>
    simp only [SlotRef.write]
    refine sound_bind (sound_readEnv frame) (fun e k hk he => ?_)
    cases hi : e.vars.find name with
    | none => exact sound_fault
    | some info =>
      exact sound_writeEnv (StrMap.valid_insert k e.vars name _ he (Validity.lift h hk))
  | field obj name => exact sound_set h
  | entry dict key =>
    simp only [SlotRef.write]
    exact sound_bind (sound_readDict dict) (fun pairs k hk hp =>
      sound_writeDict (StrMap.valid_insert k pairs key v hp (Validity.lift h hk)))

theorem sound_perform_set_on_ref {line indexExprLine indexLine : Int} {indexVal v : Value}
    {ref : SlotRef} (hi : Validity.valid n indexVal) (hv : Validity.valid n v) :
    (perform_set_on_ref line indexExprLine indexLine indexVal v ref).Sound n := by
  unfold perform_set_on_ref
  repeat (first
      | infer_instance
      | assumption
      | exact trivial
      | omega
      | exact Validity.lift (by assumption) (by omega)
      | (simp only [Value.valid_object_iff] at *; omega)
      | with_reducible refine sound_newObject_none_bind (fun _ _ _ _ => ?_)
      | with_reducible refine sound_newObject_some_bind ?_ (fun _ _ _ _ => ?_)
      | with_reducible refine sound_bind ?_ (fun _ _ _ _ => ?_)
      | with_reducible refine sound_tryCatch ?_ (fun _ _ _ => ?_)
      | with_reducible refine sound_pure ?_
      | with_reducible refine sound_argAt ?_
      | with_reducible refine sound_define ?_
      | with_reducible refine sound_assign ?_
      | with_reducible refine sound_set ?_
      | with_reducible refine sound_functionBind ?_
      | with_reducible refine sound_newArray ?_
      | with_reducible refine sound_newDict ?_
      | with_reducible refine sound_writeArray ?_
      | with_reducible refine sound_writeDict ?_
      | with_reducible refine sound_slotWrite ?_
      | with_reducible refine sound_perform_set_on_ref ?_ ?_
      | with_reducible refine @sound_rethrowAt _ _ _ _ _ ?_
      | exact Validity.valid_none
      | exact Validity.valid_nil
      | exact Validity.valid_plain _ _
      | refine Validity.valid_some ?_
      | refine Validity.valid_cons ?_ ?_
      | refine Validity.valid_pair ?_ ?_
      | refine Validity.valid_ret ?_
      | refine Validity.valid_snoc ?_ ?_
      | refine Validity.valid_append ?_ ?_
      | refine Validity.valid_set _ ?_ ?_
      | refine StrMap.valid_insert _ _ _ _ ?_ ?_
      | refine StrMap.valid_erase _ _ _ ?_
      | exact StrMap.valid_find _ _ _ _ (by assumption) (by assumption)
      | exact MutableObject.valid_field (by assumption) (by assumption)
      | exact Validity.lift (StrMap.valid_find _ _ _ _ (by assumption) (by assumption)) (by omega)
      | exact Validity.lift (MutableObject.valid_field (by assumption) (by assumption)) (by omega)
      | split)

theorem sound_indexApply {line indexLine : Int} {c i : Value}
    (hc : Validity.valid n c) (hi : Validity.valid n i) :
    (IndexExpr.apply line indexLine c i).Sound n := by
  unfold IndexExpr.apply
  repeat (first
      | infer_instance
      | assumption
      | exact trivial
      | omega
      | exact Validity.lift (by assumption) (by omega)
      | (simp only [Value.valid_object_iff] at *; omega)
      | with_reducible refine sound_newObject_none_bind (fun _ _ _ _ => ?_)
      | with_reducible refine sound_newObject_some_bind ?_ (fun _ _ _ _ => ?_)
      | with_reducible refine sound_bind ?_ (fun _ _ _ _ => ?_)
      | with_reducible refine sound_tryCatch ?_ (fun _ _ _ => ?_)
      | with_reducible refine sound_pure ?_
      | with_reducible refine sound_argAt ?_
      | with_reducible refine sound_define ?_
      | with_reducible refine sound_assign ?_
      | with_reducible refine sound_set ?_
      | with_reducible refine sound_functionBind ?_
      | with_reducible refine sound_newArray ?_
      | with_reducible refine sound_newDict ?_
      | with_reducible refine sound_writeArray ?_
      | with_reducible refine sound_writeDict ?_
      | with_reducible refine sound_slotWrite ?_
      | with_reducible refine sound_perform_set_on_ref ?_ ?_
      | with_reducible refine @sound_rethrowAt _ _ _ _ _ ?_
      | exact Validity.valid_none
      | exact Validity.valid_nil
      | exact Validity.valid_plain _ _
      | refine Validity.valid_some ?_
      | refine Validity.valid_cons ?_ ?_
      | refine Validity.valid_pair ?_ ?_
      | refine Validity.valid_ret ?_
      | refine Validity.valid_snoc ?_ ?_
      | refine Validity.valid_append ?_ ?_
      | refine Validity.valid_set _ ?_ ?_
      | refine StrMap.valid_insert _ _ _ _ ?_ ?_
      | refine StrMap.valid_erase _ _ _ ?_
      | exact StrMap.valid_find _ _ _ _ (by assumption) (by assumption)
      | exact MutableObject.valid_field (by assumption) (by assumption)
      | exact Validity.lift (StrMap.valid_find _ _ _ _ (by assumption) (by assumption)) (by omega)
      | exact Validity.lift (MutableObject.valid_field (by assumption) (by assumption)) (by omega)
      | split)

theorem sound_memberApply {member : String} {line : Int} {v : Value}
    (hv : Validity.valid n v) : (MemberAccessExpr.apply member line v).Sound n := by
  unfold MemberAccessExpr.apply
  repeat (first
      | infer_instance
      | assumption
      | exact trivial
      | omega
      | exact Validity.lift (by assumption) (by omega)
      | (simp only [Value.valid_object_iff] at *; omega)
      | with_reducible refine sound_newObject_none_bind (fun _ _ _ _ => ?_)
      | with_reducible refine sound_newObject_some_bind ?_ (fun _ _ _ _ => ?_)
      | with_reducible refine sound_bind ?_ (fun _ _ _ _ => ?_)
      | with_reducible refine sound_tryCatch ?_ (fun _ _ _ => ?_)
      | with_reducible refine sound_pure ?_
      | with_reducible refine sound_argAt ?_
      | with_reducible refine sound_define ?_
      | with_reducible refine sound_assign ?_
      | with_reducible refine sound_set ?_
      | with_reducible refine sound_functionBind ?_
      | with_reducible refine sound_newArray ?_
      | with_reducible refine sound_newDict ?_
      | with_reducible refine sound_writeArray ?_
      | with_reducible refine sound_writeDict ?_
      | with_reducible refine sound_slotWrite ?_
      | with_reducible refine sound_perform_set_on_ref ?_ ?_
      | with_reducible refine @sound_rethrowAt _ _ _ _ _ ?_
      | exact Validity.valid_none
      | exact Validity.valid_nil
      | exact Validity.valid_plain _ _
      | refine Validity.valid_some ?_
      | refine Validity.valid_cons ?_ ?_
      | refine Validity.valid_pair ?_ ?_
      | refine Validity.valid_ret ?_
      | refine Validity.valid_snoc ?_ ?_
      | refine Validity.valid_append ?_ ?_
      | refine Validity.valid_set _ ?_ ?_
      | refine StrMap.valid_insert _ _ _ _ ?_ ?_
      | refine StrMap.valid_erase _ _ _ ?_
      | exact StrMap.valid_find _ _ _ _ (by assumption) (by assumption)
      | exact MutableObject.valid_field (by assumption) (by assumption)
      | exact Validity.lift (StrMap.valid_find _ _ _ _ (by assumption) (by assumption)) (by omega)
      | exact Validity.lift (MutableObject.valid_field (by assumption) (by assumption)) (by omega)
      | split)

instance sound_superEval (method : String) (methodLine line : Int) (env : Nat) :
    (SuperExpr.eval method methodLine line env).Sound n := by
  unfold SuperExpr.eval
  repeat (first
      | infer_instance
      | assumption
      | exact trivial
      | omega
      | exact Validity.lift (by assumption) (by omega)
      | (simp only [Value.valid_object_iff] at *; omega)
      | with_reducible refine sound_newObject_none_bind (fun _ _ _ _ => ?_)
      | with_reducible refine sound_newObject_some_bind ?_ (fun _ _ _ _ => ?_)
      | with_reducible refine sound_bind ?_ (fun _ _ _ _ => ?_)
      | with_reducible refine sound_tryCatch ?_ (fun _ _ _ => ?_)
      | with_reducible refine sound_pure ?_
      | with_reducible refine sound_argAt ?_
      | with_reducible refine sound_define ?_
      | with_reducible refine sound_assign ?_
      | with_reducible refine sound_set ?_
      | with_reducible refine sound_functionBind ?_
      | with_reducible refine sound_newArray ?_
      | with_reducible refine sound_newDict ?_
      | with_reducible refine sound_writeArray ?_
      | with_reducible refine sound_writeDict ?_
      | with_reducible refine sound_slotWrite ?_
      | with_reducible refine sound_perform_set_on_ref ?_ ?_
      | with_reducible refine @sound_rethrowAt _ _ _ _ _ ?_
      | exact Validity.valid_none
      | exact Validity.valid_nil
      | exact Validity.valid_plain _ _
      | refine Validity.valid_some ?_
      | refine Validity.valid_cons ?_ ?_
      | refine Validity.valid_pair ?_ ?_
      | refine Validity.valid_ret ?_
      | refine Validity.valid_snoc ?_ ?_
      | refine Validity.valid_append ?_ ?_
      | refine Validity.valid_set _ ?_ ?_
      | refine StrMap.valid_insert _ _ _ _ ?_ ?_
      | refine StrMap.valid_erase _ _ _ ?_
      | exact StrMap.valid_find _ _ _ _ (by assumption) (by assumption)
      | exact MutableObject.valid_field (by assumption) (by assumption)
      | exact Validity.lift (StrMap.valid_find _ _ _ _ (by assumption) (by assumption)) (by omega)
      | exact Validity.lift (MutableObject.valid_field (by assumption) (by assumption)) (by omega)
      | split)

theorem sound_setMember {member : String} {line : Int} {o v : Value}
    (ho : Validity.valid n o) (hv : Validity.valid n v) :
    (AssignExpr.setMember member line o v).Sound n := by
  unfold AssignExpr.setMember
  repeat (first
      | infer_instance
      | assumption
      | exact trivial
      | omega
      | exact Validity.lift (by assumption) (by omega)
      | (simp only [Value.valid_object_iff] at *; omega)
      | with_reducible refine sound_newObject_none_bind (fun _ _ _ _ => ?_)
      | with_reducible refine sound_newObject_some_bind ?_ (fun _ _ _ _ => ?_)
      | with_reducible refine sound_bind ?_ (fun _ _ _ _ => ?_)
      | with_reducible refine sound_tryCatch ?_ (fun _ _ _ => ?_)
      | with_reducible refine sound_pure ?_
      | with_reducible refine sound_argAt ?_
      | with_reducible refine sound_define ?_
      | with_reducible refine sound_assign ?_
      | with_reducible refine sound_set ?_
      | with_reducible refine sound_functionBind ?_
      | with_reducible refine sound_newArray ?_
      | with_reducible refine sound_newDict ?_
      | with_reducible refine sound_writeArray ?_
      | with_reducible refine sound_writeDict ?_
      | with_reducible refine sound_slotWrite ?_
      | with_reducible refine sound_perform_set_on_ref ?_ ?_
      | with_reducible refine @sound_rethrowAt _ _ _ _ _ ?_
      | exact Validity.valid_none
      | exact Validity.valid_nil
      | exact Validity.valid_plain _ _
      | refine Validity.valid_some ?_
      | refine Validity.valid_cons ?_ ?_
      | refine Validity.valid_pair ?_ ?_
      | refine Validity.valid_ret ?_
      | refine Validity.valid_snoc ?_ ?_
      | refine Validity.valid_append ?_ ?_
      | refine Validity.valid_set _ ?_ ?_
      | refine StrMap.valid_insert _ _ _ _ ?_ ?_
      | refine StrMap.valid_erase _ _ _ ?_
      | exact StrMap.valid_find _ _ _ _ (by assumption) (by assumption)
      | exact MutableObject.valid_field (by assumption) (by assumption)
      | exact Validity.lift (StrMap.valid_find _ _ _ _ (by assumption) (by assumption)) (by omega)
      | exact Validity.lift (MutableObject.valid_field (by assumption) (by assumption)) (by omega)
      | split)

instance sound_defaultValue (t : Option TokenType) :
    (VarDeclStmt.defaultValue t).Sound n := by
  unfold VarDeclStmt.defaultValue
  repeat (first
      | infer_instance
      | assumption
      | exact trivial
      | omega
      | exact Validity.lift (by assumption) (by omega)
      | (simp only [Value.valid_object_iff] at *; omega)
      | with_reducible refine sound_newObject_none_bind (fun _ _ _ _ => ?_)
      | with_reducible refine sound_newObject_some_bind ?_ (fun _ _ _ _ => ?_)
      | with_reducible refine sound_bind ?_ (fun _ _ _ _ => ?_)
      | with_reducible refine sound_tryCatch ?_ (fun _ _ _ => ?_)
      | with_reducible refine sound_pure ?_
      | with_reducible refine sound_argAt ?_
      | with_reducible refine sound_define ?_
      | with_reducible refine sound_assign ?_
      | with_reducible refine sound_set ?_
      | with_reducible refine sound_functionBind ?_
      | with_reducible refine sound_newArray ?_
      | with_reducible refine sound_newDict ?_
      | with_reducible refine sound_writeArray ?_
      | with_reducible refine sound_writeDict ?_
      | with_reducible refine sound_slotWrite ?_
      | with_reducible refine sound_perform_set_on_ref ?_ ?_
      | with_reducible refine @sound_rethrowAt _ _ _ _ _ ?_
      | exact Validity.valid_none
      | exact Validity.valid_nil
      | exact Validity.valid_plain _ _
      | refine Validity.valid_some ?_
      | refine Validity.valid_cons ?_ ?_
      | refine Validity.valid_pair ?_ ?_
      | refine Validity.valid_ret ?_
      | refine Validity.valid_snoc ?_ ?_
      | refine Validity.valid_append ?_ ?_
      | refine Validity.valid_set _ ?_ ?_
      | refine StrMap.valid_insert _ _ _ _ ?_ ?_
      | refine StrMap.valid_erase _ _ _ ?_
      | exact StrMap.valid_find _ _ _ _ (by assumption) (by assumption)
      | exact MutableObject.valid_field (by assumption) (by assumption)
      | exact Validity.lift (StrMap.valid_find _ _ _ _ (by assumption) (by assumption)) (by omega)
      | exact Validity.lift (MutableObject.valid_field (by assumption) (by assumption)) (by omega)
      | split)

instance sound_fetchElement (a i : Nat) : (fetchElement a i).Sound n := by
  unfold fetchElement
  repeat (first
      | infer_instance
      | assumption
      | exact trivial
      | omega
      | exact Validity.lift (by assumption) (by omega)
      | (simp only [Value.valid_object_iff] at *; omega)
      | with_reducible refine sound_newObject_none_bind (fun _ _ _ _ => ?_)
      | with_reducible refine sound_newObject_some_bind ?_ (fun _ _ _ _ => ?_)
      | with_reducible refine sound_bind ?_ (fun _ _ _ _ => ?_)
      | with_reducible refine sound_tryCatch ?_ (fun _ _ _ => ?_)
      | with_reducible refine sound_pure ?_
      | with_reducible refine sound_argAt ?_
      | with_reducible refine sound_define ?_
      | with_reducible refine sound_assign ?_
      | with_reducible refine sound_set ?_
      | with_reducible refine sound_functionBind ?_
      | with_reducible refine sound_newArray ?_
      | with_reducible refine sound_newDict ?_
      | with_reducible refine sound_writeArray ?_
      | with_reducible refine sound_writeDict ?_
      | with_reducible refine sound_slotWrite ?_
      | with_reducible refine sound_perform_set_on_ref ?_ ?_
      | with_reducible refine @sound_rethrowAt _ _ _ _ _ ?_
      | exact Validity.valid_none
      | exact Validity.valid_nil
      | exact Validity.valid_plain _ _
      | refine Validity.valid_some ?_
      | refine Validity.valid_cons ?_ ?_
      | refine Validity.valid_pair ?_ ?_
      | refine Validity.valid_ret ?_
      | refine Validity.valid_snoc ?_ ?_
      | refine Validity.valid_append ?_ ?_
      | refine Validity.valid_set _ ?_ ?_
      | refine StrMap.valid_insert _ _ _ _ ?_ ?_
      | refine StrMap.valid_erase _ _ _ ?_
      | exact StrMap.valid_find _ _ _ _ (by assumption) (by assumption)
      | exact MutableObject.valid_field (by assumption) (by assumption)
      | exact Validity.lift (StrMap.valid_find _ _ _ _ (by assumption) (by assumption)) (by omega)
      | exact Validity.lift (MutableObject.valid_field (by assumption) (by assumption)) (by omega)
      | split)

instance sound_intOp (op : TokenType) (line : Int) (l r : Int) :
    (BinaryExpr.intOp op line l r).Sound n := by
  unfold BinaryExpr.intOp
  repeat (first
      | infer_instance
      | assumption
      | exact trivial
      | omega
      | exact Validity.lift (by assumption) (by omega)
      | (simp only [Value.valid_object_iff] at *; omega)
      | with_reducible refine sound_newObject_none_bind (fun _ _ _ _ => ?_)
      | with_reducible refine sound_newObject_some_bind ?_ (fun _ _ _ _ => ?_)
      | with_reducible refine sound_bind ?_ (fun _ _ _ _ => ?_)
      | with_reducible refine sound_tryCatch ?_ (fun _ _ _ => ?_)
      | with_reducible refine sound_pure ?_
      | with_reducible refine sound_argAt ?_
      | with_reducible refine sound_define ?_
      | with_reducible refine sound_assign ?_
      | with_reducible refine sound_set ?_
      | with_reducible refine sound_functionBind ?_
      | with_reducible refine sound_newArray ?_
      | with_reducible refine sound_newDict ?_
      | with_reducible refine sound_writeArray ?_
      | with_reducible refine sound_writeDict ?_
      | with_reducible refine sound_slotWrite ?_
      | with_reducible refine sound_perform_set_on_ref ?_ ?_
      | with_reducible refine @sound_rethrowAt _ _ _ _ _ ?_
      | exact Validity.valid_none
      | exact Validity.valid_nil
      | exact Validity.valid_plain _ _
      | refine Validity.valid_some ?_
      | refine Validity.valid_cons ?_ ?_
      | refine Validity.valid_pair ?_ ?_
      | refine Validity.valid_ret ?_
      | refine Validity.valid_snoc ?_ ?_
      | refine Validity.valid_append ?_ ?_
      | refine Validity.valid_set _ ?_ ?_
      | refine StrMap.valid_insert _ _ _ _ ?_ ?_
      | refine StrMap.valid_erase _ _ _ ?_
      | exact StrMap.valid_find _ _ _ _ (by assumption) (by assumption)
      | exact MutableObject.valid_field (by assumption) (by assumption)
      | exact Validity.lift (StrMap.valid_find _ _ _ _ (by assumption) (by assumption)) (by omega)
      | exact Validity.lift (MutableObject.valid_field (by assumption) (by assumption)) (by omega)
      | split)

instance sound_doubleOp (op : TokenType) (line : Int) (l r : Double) :
    (BinaryExpr.apply_double_op op line l r).Sound n := by
  unfold BinaryExpr.apply_double_op
  repeat (first
      | infer_instance
      | assumption
      | exact trivial
      | omega
      | exact Validity.lift (by assumption) (by omega)
      | (simp only [Value.valid_object_iff] at *; omega)
      | with_reducible refine sound_newObject_none_bind (fun _ _ _ _ => ?_)
      | with_reducible refine sound_newObject_some_bind ?_ (fun _ _ _ _ => ?_)
      | with_reducible refine sound_bind ?_ (fun _ _ _ _ => ?_)
      | with_reducible refine sound_tryCatch ?_ (fun _ _ _ => ?_)
      | with_reducible refine sound_pure ?_
      | with_reducible refine sound_argAt ?_
      | with_reducible refine sound_define ?_
      | with_reducible refine sound_assign ?_
      | with_reducible refine sound_set ?_
      | with_reducible refine sound_functionBind ?_
      | with_reducible refine sound_newArray ?_
      | with_reducible refine sound_newDict ?_
      | with_reducible refine sound_writeArray ?_
      | with_reducible refine sound_writeDict ?_
      | with_reducible refine sound_slotWrite ?_
      | with_reducible refine sound_perform_set_on_ref ?_ ?_
      | with_reducible refine @sound_rethrowAt _ _ _ _ _ ?_
      | exact Validity.valid_none
      | exact Validity.valid_nil
      | exact Validity.valid_plain _ _
      | refine Validity.valid_some ?_
      | refine Validity.valid_cons ?_ ?_
      | refine Validity.valid_pair ?_ ?_
      | refine Validity.valid_ret ?_
      | refine Validity.valid_snoc ?_ ?_
      | refine Validity.valid_append ?_ ?_
      | refine Validity.valid_set _ ?_ ?_
      | refine StrMap.valid_insert _ _ _ _ ?_ ?_
      | refine StrMap.valid_erase _ _ _ ?_
      | exact StrMap.valid_find _ _ _ _ (by assumption) (by assumption)
      | exact MutableObject.valid_field (by assumption) (by assumption)
      | exact Validity.lift (StrMap.valid_find _ _ _ _ (by assumption) (by assumption)) (by omega)
      | exact Validity.lift (MutableObject.valid_field (by assumption) (by assumption)) (by omega)
      | split)

instance sound_binaryApply (op : TokenType) (line : Int) (l r : Value) :
    (BinaryExpr.apply op line l r).Sound n := by
  unfold BinaryExpr.apply
  repeat (first
      | infer_instance
      | assumption
      | exact trivial
      | omega
      | exact Validity.lift (by assumption) (by omega)
      | (simp only [Value.valid_object_iff] at *; omega)
      | with_reducible refine sound_newObject_none_bind (fun _ _ _ _ => ?_)
      | with_reducible refine sound_newObject_some_bind ?_ (fun _ _ _ _ => ?_)
      | with_reducible refine sound_bind ?_ (fun _ _ _ _ => ?_)
      | with_reducible refine sound_tryCatch ?_ (fun _ _ _ => ?_)
      | with_reducible refine sound_pure ?_
      | with_reducible refine sound_argAt ?_
      | with_reducible refine sound_define ?_
      | with_reducible refine sound_assign ?_
      | with_reducible refine sound_set ?_
      | with_reducible refine sound_functionBind ?_
      | with_reducible refine sound_newArray ?_
      | with_reducible refine sound_newDict ?_
      | with_reducible refine sound_writeArray ?_
      | with_reducible refine sound_writeDict ?_
      | with_reducible refine sound_slotWrite ?_
      | with_reducible refine sound_perform_set_on_ref ?_ ?_
      | with_reducible refine @sound_rethrowAt _ _ _ _ _ ?_
      | exact Validity.valid_none
      | exact Validity.valid_nil
      | exact Validity.valid_plain _ _
      | refine Validity.valid_some ?_
      | refine Validity.valid_cons ?_ ?_
      | refine Validity.valid_pair ?_ ?_
      | refine Validity.valid_ret ?_
      | refine Validity.valid_snoc ?_ ?_
      | refine Validity.valid_append ?_ ?_
      | refine Validity.valid_set _ ?_ ?_
      | refine StrMap.valid_insert _ _ _ _ ?_ ?_
      | refine StrMap.valid_erase _ _ _ ?_
      | exact StrMap.valid_find _ _ _ _ (by assumption) (by assumption)
      | exact MutableObject.valid_field (by assumption) (by assumption)
      | exact Validity.lift (StrMap.valid_find _ _ _ _ (by assumption) (by assumption)) (by omega)
      | exact Validity.lift (MutableObject.valid_field (by assumption) (by assumption)) (by omega)
      | split)

instance sound_unaryApply (op : TokenType) (line : Int) (v : Value) :
    (UnaryExpr.apply op line v).Sound n := by
  unfold UnaryExpr.apply
  repeat (first
      | infer_instance
      | assumption
      | exact trivial
      | omega
      | exact Validity.lift (by assumption) (by omega)
      | (simp only [Value.valid_object_iff] at *; omega)
      | with_reducible refine sound_newObject_none_bind (fun _ _ _ _ => ?_)
      | with_reducible refine sound_newObject_some_bind ?_ (fun _ _ _ _ => ?_)
      | with_reducible refine sound_bind ?_ (fun _ _ _ _ => ?_)
      | with_reducible refine sound_tryCatch ?_ (fun _ _ _ => ?_)
      | with_reducible refine sound_pure ?_
      | with_reducible refine sound_argAt ?_
      | with_reducible refine sound_define ?_
      | with_reducible refine sound_assign ?_
      | with_reducible refine sound_set ?_
      | with_reducible refine sound_functionBind ?_
      | with_reducible refine sound_newArray ?_
      | with_reducible refine sound_newDict ?_
      | with_reducible refine sound_writeArray ?_
      | with_reducible refine sound_writeDict ?_
      | with_reducible refine sound_slotWrite ?_
      | with_reducible refine sound_perform_set_on_ref ?_ ?_
      | with_reducible refine @sound_rethrowAt _ _ _ _ _ ?_
      | exact Validity.valid_none
      | exact Validity.valid_nil
      | exact Validity.valid_plain _ _
      | refine Validity.valid_some ?_
      | refine Validity.valid_cons ?_ ?_
      | refine Validity.valid_pair ?_ ?_
      | refine Validity.valid_ret ?_
      | refine Validity.valid_snoc ?_ ?_
      | refine Validity.valid_append ?_ ?_
      | refine Validity.valid_set _ ?_ ?_
      | refine StrMap.valid_insert _ _ _ _ ?_ ?_
      | refine StrMap.valid_erase _ _ _ ?_
      | exact StrMap.valid_find _ _ _ _ (by assumption) (by assumption)
      | exact MutableObject.valid_field (by assumption) (by assumption)
      | exact Validity.lift (StrMap.valid_find _ _ _ _ (by assumption) (by assumption)) (by omega)
      | exact Validity.lift (MutableObject.valid_field (by assumption) (by assumption)) (by omega)
      | split)

end M.Sound

theorem Expr.pointerFree_of_mem {l : List Expr} {e : Expr}
    (hl : Expr.pointerFreeList l = true) (he : e ∈ l) : e.pointerFree = true := by
  induction l with
  | nil => cases he
  | cons a rest ih =>
    simp only [Expr.pointerFreeList, Bool.and_eq_true] at hl
    rcases List.mem_cons.1 he with rfl | he
    · exact hl.1
    · exact ih hl.2 he

theorem Expr.pointerFree_of_mem_pairs {l : List (String × Expr)} {p : String × Expr}
    (hl : Expr.pointerFreePairs l = true) (hp : p ∈ l) : p.2.pointerFree = true := by
  induction l with
  | nil => cases hp
  | cons a rest ih =>
    obtain ⟨k, e⟩ := a
    simp only [Expr.pointerFreePairs, Bool.and_eq_true] at hl
    rcases List.mem_cons.1 hp with rfl | hp
    · exact hl.1
    · exact ih hl.2 hp

theorem FuncStmt.pointerFree_of_mem_methods {l : List FuncStmt} {d : FuncStmt}
    (hl : FuncStmt.pointerFreeList l = true) (hd : d ∈ l) : d.pointerFree = true := by
  induction l with
  | nil => cases hd
  | cons a rest ih =>
    simp only [FuncStmt.pointerFreeList, Bool.and_eq_true] at hl
    rcases List.mem_cons.1 hd with rfl | hd
    · exact hl.1
    · exact ih hl.2 hd

theorem FuncStmt.body_pointerFree {d : FuncStmt} (h : d.pointerFree = true) :
    d.body.pointerFree = true := by
  cases d
  simpa only [FuncStmt.pointerFree, FuncStmt.body] using h

theorem BlockStmt.statements_pointerFree {b : BlockStmt} (h : b.pointerFree = true) :
    Stmt.pointerFreeOptions b.statements = true := by
  cases b
  simpa only [BlockStmt.pointerFree, BlockStmt.statements] using h

theorem Callable.valid_function_iff (n : Nat) (params : List ParamInfo) (body : BlockStmt)
    (closure : Nat) (is_initializer : Bool) :
    Validity.valid n (Callable.FunctionValue params body closure is_initializer) ↔
      body.pointerFree = true := Iff.rfl

theorem Callable.valid_class_iff (n : Nat) (name : String) (superclass : Option Nat)
    (prototype : Nat) (initializer : Option Nat) :
    Validity.valid n (Callable.ClassValue name superclass prototype initializer) ↔
      prototype < n := Iff.rfl

theorem Memo.valid_memo_insert {n : Nat} {memo : Memo} {k v : Value}
    (hm : Validity.valid n memo) (hk : Validity.valid n k) (hv : Validity.valid n v) :
    Validity.valid n (memo.insert k v) := by
  induction memo with
  | nil =>
    intro kv hkv
    simp only [Memo.insert, List.mem_singleton] at hkv
    subst hkv
    exact ⟨hk, hv⟩
  | cons x rest ih =>
    obtain ⟨k', v'⟩ := x
    intro kv hkv
    simp only [Memo.insert] at hkv
    split at hkv
    · rcases List.mem_cons.1 hkv with rfl | hkv
      · exact ⟨hk, hv⟩
      · exact hm kv (List.mem_cons_of_mem _ hkv)
    · rcases List.mem_cons.1 hkv with rfl | hkv
      · exact hm _ (List.mem_cons_self _ _)
      · exact ih (fun a ha => hm a (List.mem_cons_of_mem _ ha)) kv hkv

theorem Memo.valid_memo_find {n : Nat} {memo : Memo} {k v : Value}
    (hm : Validity.valid n memo) (h : memo.find k = some v) : Validity.valid n v := by
  induction memo with
  | nil => simp [Memo.find] at h
  | cons x rest ih =>
    obtain ⟨k', v'⟩ := x
    simp only [Memo.find] at h
    split at h
    · cases h
      exact (hm _ (List.mem_cons_self _ _)).2
    · exact ih (fun a ha => hm a (List.mem_cons_of_mem _ ha)) h

namespace M.Sound

variable {n : Nat}

theorem sound_pure_bind {α β : Type} [Validity β] {a : α} {f : α → M β}
    (h : (f a).Sound n) : (pure a >>= f).Sound n :=
  ⟨fun s hwf hn => h.sound s hwf hn⟩

theorem sound_bind_assoc {α β γ : Type} [Validity γ] {m : M α} {g : α → M β} {f : β → M γ}
    (h : (m >>= fun a => g a >>= f).Sound n) : ((m >>= g) >>= f).Sound n := by
  refine ⟨fun s hwf hn => ?_⟩
  have hs := h.sound s hwf hn
  simp only [bind_apply] at hs ⊢
  cases hm : m s <;> simp only [hm] at hs ⊢ <;> exact hs

/-- A loop over a list whose elements all satisfy `P`. -/
theorem sound_forEachM {α β : Type} [Validity β] {f : β → α → M β} (P : α → Prop)
    (hf : ∀ b a k, P a → n ≤ k → Validity.valid k b → (f b a).Sound k) :
    ∀ (l : List α) (b : β) (k : Nat), n ≤ k → (∀ a ∈ l, P a) → Validity.valid k b →
      (forEachM f l b).Sound k
  | [], b, k, _, _, hb => sound_pure hb
  | a :: rest, b, k, hk, hl, hb => by
    simp only [forEachM]
    exact sound_bind (hf b a k (hl a (List.mem_cons_self _ _)) hk hb)
      (fun b' k' hk' hb' => sound_forEachM P hf rest b' k' (by omega)
        (fun a' ha' => hl a' (List.mem_cons_of_mem _ ha')) hb')

theorem sound_forEachM_exprs {f : Unit → Expr → M Unit} {l : List Expr}
    (hl : Expr.pointerFreeList l = true)
    (hf : ∀ u e k, n ≤ k → e.pointerFree = true → (f u e).Sound k) :
    (forEachM f l ()).Sound n :=
  sound_forEachM (fun e => e.pointerFree = true) (fun u e k he hk _ => hf u e k hk he)
    l () n (Nat.le_refl _) (fun _ he => Expr.pointerFree_of_mem hl he) trivial

theorem sound_forEachM_pairs {f : Unit → String × Expr → M Unit} {l : List (String × Expr)}
    (hl : Expr.pointerFreePairs l = true)
    (hf : ∀ u p k, n ≤ k → p.2.pointerFree = true → (f u p).Sound k) :
    (forEachM f l ()).Sound n :=
  sound_forEachM (fun p => p.2.pointerFree = true) (fun u p k hp hk _ => hf u p k hk hp)
    l () n (Nat.le_refl _) (fun _ hp => Expr.pointerFree_of_mem_pairs hl hp) trivial

theorem sound_forEachM_methods {f : Unit → FuncStmt → M Unit} {l : List FuncStmt}
    (hl : FuncStmt.pointerFreeList l = true)
    (hf : ∀ u d k, n ≤ k → d.pointerFree = true → (f u d).Sound k) :
    (forEachM f l ()).Sound n :=
  sound_forEachM (fun d => d.pointerFree = true) (fun u d k hd hk _ => hf u d k hk hd)
    l () n (Nat.le_refl _) (fun _ hd => FuncStmt.pointerFree_of_mem_methods hl hd) trivial

theorem sound_forEachM_values {α β : Type} [Validity α] [Validity β] {f : β → α → M β}
    {l : List α} {b : β} (hl : Validity.valid n l) (hb : Validity.valid n b)
    (hf : ∀ b a k, n ≤ k → Validity.valid k a → Validity.valid k b → (f b a).Sound k) :
    (forEachM f l b).Sound n :=
  sound_forEachM (fun a => Validity.valid n a)
    (fun b a k ha hk hb => hf b a k hk (Validity.lift ha hk) hb)
    l b n (Nat.le_refl _) hl hb

theorem sound_evalAll {f : Expr → M Value}
    (hf : ∀ e k, n ≤ k → e.pointerFree = true → (f e).Sound k) :
    ∀ (l : List Expr) (k : Nat), n ≤ k → Expr.pointerFreeList l = true →
      (evalAll f l).Sound k
  | [], _, _, _ => sound_pure Validity.valid_nil
  | e :: rest, k, hk, hl => by
    simp only [Expr.pointerFreeList, Bool.and_eq_true] at hl
    simp only [evalAll]
    exact sound_bind (hf e k hk hl.1) (fun v k₁ hk₁ hv =>
      sound_bind (sound_evalAll hf rest k₁ (by omega) hl.2) (fun vs k₂ hk₂ hvs =>
        sound_pure (Validity.valid_cons (Validity.lift hv hk₂) hvs)))

theorem sound_execStatements {f : Stmt → M (Option Value)}
    (hf : ∀ st k, n ≤ k → st.pointerFree = true → (f st).Sound k) :
    ∀ (l : List (Option Stmt)) (k : Nat), n ≤ k → Stmt.pointerFreeOptions l = true →
      (execStatements f l).Sound k
  | [], _, _, _ => sound_pure Validity.valid_none
  | none :: rest, k, hk, hl => by
    simp only [Stmt.pointerFreeOptions, Bool.and_eq_true] at hl
    simp only [execStatements]
    exact sound_execStatements hf rest k hk hl.2
  | some st :: rest, k, hk, hl => by
    simp only [Stmt.pointerFreeOptions, Stmt.pointerFreeOption, Bool.and_eq_true] at hl
    simp only [execStatements]
    refine sound_bind (hf st k hk hl.1) (fun r k₁ hk₁ hr => ?_)
    cases r with
    | some v => exact sound_pure hr
    | none => exact sound_execStatements hf rest k₁ (by omega) hl.2

theorem sound_loopBody {body : M (Option Value)} (h : body.Sound n) :
    (loopBody body).Sound n := by
  unfold loopBody
  refine sound_tryCatch (sound_bind h (fun r k hk hr => ?_)) (fun e k hk => ?_)
  · cases r with
    | some v => exact sound_pure (Validity.valid_ret (hr v rfl))
    | none => exact sound_pure (fun _ h => nomatch h)
  · split
    · exact sound_pure (fun _ h => nomatch h)
    · exact sound_pure (fun _ h => nomatch h)
    · infer_instance

theorem sound_forEachElements {iter_body : Value → M LoopStep}
    (hf : ∀ v k, n ≤ k → Validity.valid k v → (iter_body v).Sound k) :
    ∀ (l : List (M Value)) (k : Nat), n ≤ k → (∀ m ∈ l, ∀ j, k ≤ j → m.Sound j) →
      (forEachElements iter_body l).Sound k
  | [], _, _, _ => sound_pure Validity.valid_none
  | fetch :: rest, k, hk, hl => by
    simp only [forEachElements]
    refine sound_bind (hl fetch (List.mem_cons_self _ _) k (Nat.le_refl _))
      (fun v k₁ hk₁ hv => sound_bind (hf v k₁ (by omega) hv) (fun r k₂ hk₂ hr => ?_))
    cases r with
    | ret v => exact sound_pure (Validity.valid_some (hr v rfl))
    | brk => exact sound_pure Validity.valid_none
    | next =>
      exact sound_forEachElements hf rest k₂ (by omega)
        (fun m hm j hj => hl m (List.mem_cons_of_mem _ hm) j (by omega))

theorem sound_fetchList (a : Nat) (l : List Nat) :
    ∀ m ∈ l.map (fetchElement a), ∀ j, n ≤ j → m.Sound j := by
  intro m hm j _
  obtain ⟨i, _, rfl⟩ := List.mem_map.1 hm
  exact sound_fetchElement a i

theorem sound_charList (l : List Char) :
    ∀ m ∈ l.map (fun c => (pure (.str (String.singleton c)) : M Value)),
      ∀ j, n ≤ j → m.Sound j := by
  intro m hm j _
  obtain ⟨c, _, rfl⟩ := List.mem_map.1 hm
  exact sound_pure trivial

theorem sound_bindParams (env : Nat) :
    ∀ (params : List ParamInfo) (args : List Value) (k : Nat), Validity.valid k args →
      (bindParams env params args).Sound k
  | [], _, _, _ => sound_pure trivial
  | _ :: _, [], _, _ => sound_fault
  | param :: params, arg :: args, k, h => by
    have harg : Validity.valid k arg := h arg (List.mem_cons_self _ _)
    have hargs : Validity.valid k args := fun a ha => h a (List.mem_cons_of_mem _ ha)
    have hrest : ∀ (u : Unit) (j : Nat), k ≤ j → Validity.valid j u →
        (Environment.define env param.name arg none >>= fun _ =>
          bindParams env params args).Sound j :=
      fun _ j hj _ => sound_bind (sound_define (Validity.lift harg hj))
        (fun _ j' hj' _ => sound_bindParams env params args j' (Validity.lift hargs (by omega)))
    simp only [bindParams]
    cases param.type with
    | none => exact sound_bind (sound_pure trivial) hrest
    | some t =>
      refine sound_bind sound_getState (fun s j hj _ => ?_)
      split
      · exact sound_bind (sound_raise _) (fun u j' hj' hu => hrest u j' (by omega) hu)
      · exact sound_bind (sound_pure trivial) (fun u j' hj' hu => hrest u j' (by omega) hu)

theorem sound_deepcopyElement {copy : Value → Memo → M (Value × Memo)}
    (hc : ∀ v memo k, n ≤ k → Validity.valid k v → Validity.valid k memo →
      (copy v memo).Sound k)
    {newArr : Nat} {memo : Memo} {elem : Value}
    (hm : Validity.valid n memo) (he : Validity.valid n elem) :
    (deepcopyElement copy newArr memo elem).Sound n := by
  unfold deepcopyElement
  refine sound_bind (hc _ _ _ (Nat.le_refl _) he hm) (fun x k hk hx => ?_)
  obtain ⟨c, memo'⟩ := x
  obtain ⟨hc', hm'⟩ := hx
  exact sound_bind (sound_readArray _) (fun cur k₁ hk₁ hcur =>
    sound_bind (sound_writeArray (Validity.valid_snoc hcur (Validity.lift hc' hk₁)))
      (fun _ k₂ hk₂ _ => sound_pure (Validity.lift hm' (by omega))))

theorem sound_deepcopyPair {copy : Value → Memo → M (Value × Memo)}
    (hc : ∀ v memo k, n ≤ k → Validity.valid k v → Validity.valid k memo →
      (copy v memo).Sound k)
    {newDictionary : Nat} {memo : Memo} {pair : String × Value}
    (hm : Validity.valid n memo) (hp : Validity.valid n pair) :
    (deepcopyPair copy newDictionary memo pair).Sound n := by
  unfold deepcopyPair
  refine sound_bind (hc _ _ _ (Nat.le_refl _) hp.2 hm) (fun x k hk hx => ?_)
  obtain ⟨c, memo'⟩ := x
  obtain ⟨hc', hm'⟩ := hx
  exact sound_bind (sound_readDict _) (fun cur k₁ hk₁ hcur =>
    sound_bind (sound_writeDict (StrMap.valid_insert _ _ _ _ hcur (Validity.lift hc' hk₁)))
      (fun _ k₂ hk₂ _ => sound_pure (Validity.lift hm' (by omega))))

theorem sound_deepcopyField {copy : Value → Memo → M (Value × Memo)}
    (hc : ∀ v memo k, n ≤ k → Validity.valid k v → Validity.valid k memo →
      (copy v memo).Sound k)
    {newObj : Nat} {memo : Memo} {pair : String × Value}
    (hm : Validity.valid n memo) (hp : Validity.valid n pair) :
    (deepcopyField copy newObj memo pair).Sound n := by
  unfold deepcopyField
  refine sound_bind (hc _ _ _ (Nat.le_refl _) hp.2 hm) (fun x k hk hx => ?_)
  obtain ⟨c, memo'⟩ := x
  obtain ⟨hc', hm'⟩ := hx
  exact sound_bind (sound_set hc')
    (fun _ k₂ hk₂ _ => sound_pure (Validity.lift hm' (by omega)))

/-- The copy of an object is made with the copy of its parent, an object
that exists by then, and receives the copies of the fields. -/
theorem sound_copyFields {copy : Value → Memo → M (Value × Memo)}
    (hc : ∀ v memo k, n ≤ k → Validity.valid k v → Validity.valid k memo →
      (copy v memo).Sound k)
    {newParent : Option Nat} {o : MutableObject} {val : Value} {memo : Memo}
    (hnp : ∀ q, newParent = some q → q < n) (ho : Validity.valid n o)
    (hval : Validity.valid n val) (hm : Validity.valid n memo) :
    (newObject newParent o.klass >>= fun newObj =>
      forEachM (deepcopyField copy newObj) o.fields (memo.insert val (.object newObj))
        >>= fun memo => pure (Value.object newObj, memo)).Sound n :=
  sound_newObject_bind hnp (fun newObj k hk hlt =>
    sound_bind
      (sound_forEachM_values (Validity.lift ho.1 hk)
        (Memo.valid_memo_insert (Validity.lift hm hk) (Validity.lift hval hk)
          ((Value.valid_object_iff k newObj).2 hlt))
        (fun b a j hj ha hb =>
          sound_deepcopyField (fun v memo j' hj' => hc v memo j' (by omega)) hb ha))
      (fun memo' k' hk' hm' =>
        sound_pure ⟨(Value.valid_object_iff k' newObj).2 (by omega), hm'⟩))

theorem sound_deepcopy_recursive :
    ∀ (fuel : Nat) (v : Value) (memo : Memo) (k : Nat), Validity.valid k v →
      Validity.valid k memo → (deepcopy_recursive fuel v memo).Sound k := by
  intro fuel
  induction fuel with
  | zero => intro v memo k _ _; exact sound_outOfFuel
  | succ fuel ih =>
    intro v memo k hv hm
    have hc : ∀ (j : Nat) v memo k, j ≤ k → Validity.valid k v → Validity.valid k memo →
        (deepcopy_recursive fuel v memo).Sound k := fun _ v memo k _ => ih v memo k
    cases v with
    | array arr =>
      simp only [deepcopy_recursive]
      cases hf : memo.find (.array arr) with
      | some c => exact sound_pure ⟨Memo.valid_memo_find hm hf, hm⟩
      | none =>
        exact sound_bind (sound_readArray arr) (fun elements k₁ hk₁ hel =>
          sound_bind sound_newArray_nil (fun newArr k₂ hk₂ _ =>
            sound_bind
              (sound_forEachM_values (Validity.lift hel hk₂)
                (Memo.valid_memo_insert (Validity.lift hm (by omega)) trivial trivial)
                (fun b a j hj ha hb => sound_deepcopyElement (hc j) hb ha))
              (fun memo' k₃ hk₃ hm' => sound_pure ⟨trivial, hm'⟩)))
    | dict d =>
      simp only [deepcopy_recursive]
      cases hf : memo.find (.dict d) with
      | some c => exact sound_pure ⟨Memo.valid_memo_find hm hf, hm⟩
      | none =>
        exact sound_bind (sound_readDict d) (fun pairs k₁ hk₁ hel =>
          sound_bind sound_newDict_nil (fun newD k₂ hk₂ _ =>
            sound_bind
              (sound_forEachM_values (Validity.lift hel hk₂)
                (Memo.valid_memo_insert (Validity.lift hm (by omega)) trivial trivial)
                (fun b a j hj ha hb => sound_deepcopyPair (hc j) hb ha))
              (fun memo' k₃ hk₃ hm' => sound_pure ⟨trivial, hm'⟩)))
    | object obj =>
      simp only [deepcopy_recursive]
      cases hf : memo.find (.object obj) with
      | some c => exact sound_pure ⟨Memo.valid_memo_find hm hf, hm⟩
      | none =>
        refine sound_bind (sound_readObject obj) (fun o k₁ hk₁ ho => ?_)
        cases hpar : o.parent with
        | none =>
          exact sound_pure_bind (sound_copyFields (hc k₁) (fun _ h => nomatch h) ho
            (Validity.lift hv hk₁) (Validity.lift hm hk₁))
        | some parent =>
          refine sound_bind_assoc (sound_bind
            (ih (.object parent) memo k₁ (ho.2 parent hpar) (Validity.lift hm hk₁))
            (fun x k₂ hk₂ hx => ?_))
          obtain ⟨parentCopy, memo'⟩ := x
          obtain ⟨hpc, hm'⟩ := hx
          cases parentCopy with
          | object q =>
            exact sound_pure_bind (sound_copyFields (hc k₂)
              (fun q' h => by cases h; exact hpc) (Validity.lift ho hk₂)
              (Validity.lift hv (by omega)) hm')
          | _ =>
            exact sound_pure_bind (sound_copyFields (hc k₂) (fun _ h => nomatch h)
              (Validity.lift ho hk₂) (Validity.lift hv (by omega)) hm')
    | _ => exact sound_pure ⟨hv, hm⟩

theorem sound_native (fuel : Nat) (fn : NativeFn) {args : List Value}
    (h : Validity.valid n args) : (NativeFunction.call fuel fn args).Sound n := by
  cases fn with
  | deepcopy =>
    simp only [NativeFunction.call]
    refine sound_bind (sound_argAt h) (fun v k hk hv =>
      sound_bind (sound_deepcopy_recursive fuel v [] k hv Validity.valid_nil)
        (fun x k' hk' hx => ?_))
    obtain ⟨c, m⟩ := x
    exact sound_pure hx.1
  | Object =>
    simp only [NativeFunction.call]
    split
    · infer_instance
    · split
      · exact sound_newObject_none_bind (fun o k hk ho =>
          sound_pure ((Value.valid_object_iff k o).2 ho))
      · rename_i parent tail _
        exact sound_newObject_some_bind (h (.object parent) (List.mem_cons_self _ _))
          (fun o k hk ho => sound_pure ((Value.valid_object_iff k o).2 ho))
      · infer_instance
  | _ =>
    simp only [NativeFunction.call]
    repeat (first
        | infer_instance
        | assumption
        | exact trivial
        | omega
        | exact Validity.lift (by assumption) (by omega)
        | (simp only [Value.valid_object_iff] at *; omega)
        | exact sound_updateFields _ (fun o => o.fields.erase _) _ (fun o j _ ho => StrMap.valid_erase j o.fields _ ho.1) (fun _ _ _ => sound_pure trivial)
        | with_reducible refine sound_newObject_none_bind (fun _ _ _ _ => ?_)
        | with_reducible refine sound_newObject_some_bind ?_ (fun _ _ _ _ => ?_)
        | with_reducible refine sound_bind ?_ (fun _ _ _ _ => ?_)
        | with_reducible refine sound_tryCatch ?_ (fun _ _ _ => ?_)
        | with_reducible refine sound_pure ?_
        | with_reducible refine sound_argAt ?_
        | with_reducible refine sound_define ?_
        | with_reducible refine sound_assign ?_
        | with_reducible refine sound_set ?_
        | with_reducible refine sound_functionBind ?_
        | with_reducible refine sound_newArray ?_
        | with_reducible refine sound_newDict ?_
        | with_reducible refine sound_writeArray ?_
        | with_reducible refine sound_writeDict ?_
        | with_reducible refine sound_slotWrite ?_
        | with_reducible refine sound_perform_set_on_ref ?_ ?_
        | with_reducible refine @sound_rethrowAt _ _ _ _ _ ?_
        | exact Validity.valid_none
        | exact Validity.valid_nil
        | exact Validity.valid_plain _ _
        | refine Validity.valid_some ?_
        | refine Validity.valid_cons ?_ ?_
        | refine Validity.valid_pair ?_ ?_
        | refine Validity.valid_ret ?_
        | refine Validity.valid_snoc ?_ ?_
        | refine Validity.valid_append ?_ ?_
        | refine Validity.valid_set _ ?_ ?_
        | refine StrMap.valid_insert _ _ _ _ ?_ ?_
        | refine StrMap.valid_erase _ _ _ ?_
        | exact StrMap.valid_find _ _ _ _ (by assumption) (by assumption)
        | exact MutableObject.valid_field (by assumption) (by assumption)
        | exact Validity.lift (StrMap.valid_find _ _ _ _ (by assumption) (by assumption)) (by omega)
        | exact Validity.lift (MutableObject.valid_field (by assumption) (by assumption)) (by omega)
        | split)

end M.Sound

theorem FuncStmt.body_pointerFree_eq (d : FuncStmt) :
    d.body.pointerFree = d.pointerFree := by
  cases d
  simp only [FuncStmt.pointerFree, FuncStmt.body]

theorem BlockStmt.statements_pointerFree_eq (b : BlockStmt) :
    Stmt.pointerFreeOptions b.statements = b.pointerFree := by
  cases b
  simp only [BlockStmt.pointerFree, BlockStmt.statements]

theorem Validity.valid_of_ret {n : Nat} {v : Value}
    (h : Validity.valid n (LoopStep.ret v)) : Validity.valid n v := h v rfl

theorem Validity.valid_of_some {α : Type} [Validity α] {n : Nat} {a : α}
    (h : Validity.valid n (some a)) : Validity.valid n a := h a rfl

namespace M.Sound

variable {n : Nat}

theorem sound_fault_bind {α β : Type} [Validity β] {f : α → M β} :
    ((fault : M α) >>= f).Sound n :=
  ⟨fun _ hwf _ => ⟨hwf, Nat.le_refl _⟩⟩

theorem sound_evalAll_here {f : Expr → M Value} {l : List Expr}
    (hl : Expr.pointerFreeList l = true)
    (hf : ∀ e k, n ≤ k → e.pointerFree = true → (f e).Sound k) : (evalAll f l).Sound n :=
  sound_evalAll hf l n (Nat.le_refl _) hl

theorem sound_execStatements_here {f : Stmt → M (Option Value)} {l : List (Option Stmt)}
    (hl : Stmt.pointerFreeOptions l = true)
    (hf : ∀ st k, n ≤ k → st.pointerFree = true → (f st).Sound k) :
    (execStatements f l).Sound n :=
  sound_execStatements hf l n (Nat.le_refl _) hl

theorem sound_forEachElements_here {iter_body : Value → M LoopStep} {l : List (M Value)}
    (hf : ∀ v k, n ≤ k → Validity.valid k v → (iter_body v).Sound k)
    (hl : ∀ m ∈ l, ∀ j, n ≤ j → m.Sound j) : (forEachElements iter_body l).Sound n :=
  sound_forEachElements hf l n (Nat.le_refl _) hl

theorem sound_at_zero : SoundAt 0 := by
  refine ⟨?_, ?_, ?_, ?_, ?_⟩ <;> intros <;> exact sound_outOfFuel

theorem sound_eval_step (m : Nat) (ih : SoundAt m) :
    ∀ e env k, e.pointerFree = true → (Expr.eval (m + 1) e env).Sound k := by
  obtain ⟨ihE, ihS, ihW, ihF, ihC⟩ := ih
  intro e env k hp
  cases e with
  | Literal value line =>
    simp only [Expr.eval]
    exact sound_pure (Value.valid_of_not_object _ _
      (by simpa only [Expr.pointerFree, Bool.not_eq_true'] using hp))
  | _ =>
    simp only [Expr.eval]
    repeat (first
        | infer_instance
        | assumption
        | exact trivial
        | omega
        | exact Validity.lift (by assumption) (by omega)
        | (simp only [Value.valid_object_iff] at *; omega)
        | (simp only [Value.valid_object_iff, Callable.valid_class_iff] at *; omega)
        | with_reducible refine ihE _ _ _ ?_
        | with_reducible refine ihS _ _ _ ?_
        | with_reducible refine ihW _ _ _ _ ?_ ?_
        | with_reducible refine ihF _ _ _ _ _ ?_ ?_ ?_
        | with_reducible refine ihC _ _ _ ?_
        | with_reducible refine sound_loopBody ?_
        | with_reducible refine sound_forEachM_exprs ?_ (fun _ _ _ _ _ => ?_)
        | with_reducible refine sound_forEachM_pairs ?_ (fun _ _ _ _ _ => ?_)
        | with_reducible refine sound_forEachM_methods ?_ (fun _ _ _ _ _ => ?_)
        | with_reducible refine sound_evalAll_here ?_ (fun _ _ _ _ => ?_)
        | with_reducible refine sound_execStatements_here ?_ (fun _ _ _ _ => ?_)
        | with_reducible refine sound_forEachElements_here (fun _ _ _ _ => ?_) (sound_fetchList _ _)
        | with_reducible refine sound_forEachElements_here (fun _ _ _ _ => ?_) (sound_charList _)
        | with_reducible refine sound_native _ _ ?_
        | with_reducible refine sound_bindParams _ _ _ _ ?_
        | with_reducible refine sound_newCallable ?_
        | with_reducible refine sound_writeCallable ?_
        | with_reducible refine sound_memberApply ?_
        | with_reducible refine sound_indexApply ?_ ?_
        | with_reducible refine sound_setMember ?_ ?_
        | exact Validity.valid_of_ret (by assumption)
        | exact Validity.valid_of_some (by assumption)
        | exact Validity.lift (Validity.valid_of_ret (by assumption)) (by omega)
        | exact Validity.lift (Validity.valid_of_some (by assumption)) (by omega)
        | refine (Callable.valid_class_iff _ _ _ _ _).2 ?_
        | refine (Callable.valid_function_iff _ _ _ _ _).2 ?_
        | (show (_ : Bool) = true
           (try simp only [Expr.pointerFree, Stmt.pointerFree, BlockStmt.pointerFree, FuncStmt.pointerFree, Expr.pointerFreeList, FuncStmt.pointerFreeList, Stmt.pointerFreeOptions, Expr.pointerFreePairs, Expr.pointerFreeOption, Stmt.pointerFreeOption, FuncStmt.body_pointerFree_eq, BlockStmt.statements_pointerFree_eq, Callable.valid_function_iff, Bool.and_eq_true] at *); simp_all only [and_self, and_true, true_and])
        | with_reducible refine sound_newObject_none_bind (fun _ _ _ _ => ?_)
        | with_reducible refine sound_newObject_some_bind ?_ (fun _ _ _ _ => ?_)
        | with_reducible refine sound_bind ?_ (fun _ _ _ _ => ?_)
        | with_reducible refine sound_tryCatch ?_ (fun _ _ _ => ?_)
        | with_reducible refine sound_pure ?_
        | with_reducible refine sound_argAt ?_
        | with_reducible refine sound_define ?_
        | with_reducible refine sound_assign ?_
        | with_reducible refine sound_set ?_
        | with_reducible refine sound_functionBind ?_
        | with_reducible refine sound_newArray ?_
        | with_reducible refine sound_newDict ?_
        | with_reducible refine sound_writeArray ?_
        | with_reducible refine sound_writeDict ?_
        | with_reducible refine sound_slotWrite ?_
        | with_reducible refine sound_perform_set_on_ref ?_ ?_
        | with_reducible refine @sound_rethrowAt _ _ _ _ _ ?_
        | exact Validity.valid_none
        | exact Validity.valid_nil
        | exact Validity.valid_plain _ _
        | refine Validity.valid_some ?_
        | refine Validity.valid_cons ?_ ?_
        | refine Validity.valid_pair ?_ ?_
        | refine Validity.valid_ret ?_
        | refine Validity.valid_snoc ?_ ?_
        | refine Validity.valid_append ?_ ?_
        | refine Validity.valid_set _ ?_ ?_
        | refine StrMap.valid_insert _ _ _ _ ?_ ?_
        | refine StrMap.valid_erase _ _ _ ?_
        | exact StrMap.valid_find _ _ _ _ (by assumption) (by assumption)
        | exact MutableObject.valid_field (by assumption) (by assumption)
        | exact Validity.lift (StrMap.valid_find _ _ _ _ (by assumption) (by assumption)) (by omega)
        | exact Validity.lift (MutableObject.valid_field (by assumption) (by assumption)) (by omega)
        | split)

theorem sound_while_step (m : Nat) (ih : SoundAt m) :
    ∀ c b env k, c.pointerFree = true → b.pointerFree = true →
      (WhileStmt.loop (m + 1) c b env).Sound k := by
  obtain ⟨ihE, ihS, ihW, ihF, ihC⟩ := ih
  intro c b env k hc hb
  simp only [WhileStmt.loop]
  repeat (first
      | infer_instance
      | assumption
      | exact trivial
      | omega
      | exact Validity.lift (by assumption) (by omega)
      | (simp only [Value.valid_object_iff] at *; omega)
      | (simp only [Value.valid_object_iff, Callable.valid_class_iff] at *; omega)
      | with_reducible refine ihE _ _ _ ?_
      | with_reducible refine ihS _ _ _ ?_
      | with_reducible refine ihW _ _ _ _ ?_ ?_
      | with_reducible refine ihF _ _ _ _ _ ?_ ?_ ?_
      | with_reducible refine ihC _ _ _ ?_
      | with_reducible refine sound_loopBody ?_
      | with_reducible refine sound_forEachM_exprs ?_ (fun _ _ _ _ _ => ?_)
      | with_reducible refine sound_forEachM_pairs ?_ (fun _ _ _ _ _ => ?_)
      | with_reducible refine sound_forEachM_methods ?_ (fun _ _ _ _ _ => ?_)
      | with_reducible refine sound_evalAll_here ?_ (fun _ _ _ _ => ?_)
      | with_reducible refine sound_execStatements_here ?_ (fun _ _ _ _ => ?_)
      | with_reducible refine sound_forEachElements_here (fun _ _ _ _ => ?_) (sound_fetchList _ _)
      | with_reducible refine sound_forEachElements_here (fun _ _ _ _ => ?_) (sound_charList _)
      | with_reducible refine sound_native _ _ ?_
      | with_reducible refine sound_bindParams _ _ _ _ ?_
      | with_reducible refine sound_newCallable ?_
      | with_reducible refine sound_writeCallable ?_
      | with_reducible refine sound_memberApply ?_
      | with_reducible refine sound_indexApply ?_ ?_
      | with_reducible refine sound_setMember ?_ ?_
      | exact Validity.valid_of_ret (by assumption)
      | exact Validity.valid_of_some (by assumption)
      | exact Validity.lift (Validity.valid_of_ret (by assumption)) (by omega)
      | exact Validity.lift (Validity.valid_of_some (by assumption)) (by omega)
      | refine (Callable.valid_class_iff _ _ _ _ _).2 ?_
      | refine (Callable.valid_function_iff _ _ _ _ _).2 ?_
      | (show (_ : Bool) = true
         (try simp only [Expr.pointerFree, Stmt.pointerFree, BlockStmt.pointerFree, FuncStmt.pointerFree, Expr.pointerFreeList, FuncStmt.pointerFreeList, Stmt.pointerFreeOptions, Expr.pointerFreePairs, Expr.pointerFreeOption, Stmt.pointerFreeOption, FuncStmt.body_pointerFree_eq, BlockStmt.statements_pointerFree_eq, Callable.valid_function_iff, Bool.and_eq_true] at *); simp_all only [and_self, and_true, true_and])
      | with_reducible refine sound_newObject_none_bind (fun _ _ _ _ => ?_)
      | with_reducible refine sound_newObject_some_bind ?_ (fun _ _ _ _ => ?_)
      | with_reducible refine sound_bind ?_ (fun _ _ _ _ => ?_)
      | with_reducible refine sound_tryCatch ?_ (fun _ _ _ => ?_)
      | with_reducible refine sound_pure ?_
      | with_reducible refine sound_argAt ?_
      | with_reducible refine sound_define ?_
      | with_reducible refine sound_assign ?_
      | with_reducible refine sound_set ?_
      | with_reducible refine sound_functionBind ?_
      | with_reducible refine sound_newArray ?_
      | with_reducible refine sound_newDict ?_
      | with_reducible refine sound_writeArray ?_
      | with_reducible refine sound_writeDict ?_
      | with_reducible refine sound_slotWrite ?_
      | with_reducible refine sound_perform_set_on_ref ?_ ?_
      | with_reducible refine @sound_rethrowAt _ _ _ _ _ ?_
      | exact Validity.valid_none
      | exact Validity.valid_nil
      | exact Validity.valid_plain _ _
      | refine Validity.valid_some ?_
      | refine Validity.valid_cons ?_ ?_
      | refine Validity.valid_pair ?_ ?_
      | refine Validity.valid_ret ?_
      | refine Validity.valid_snoc ?_ ?_
      | refine Validity.valid_append ?_ ?_
      | refine Validity.valid_set _ ?_ ?_
      | refine StrMap.valid_insert _ _ _ _ ?_ ?_
      | refine StrMap.valid_erase _ _ _ ?_
      | exact StrMap.valid_find _ _ _ _ (by assumption) (by assumption)
      | exact MutableObject.valid_field (by assumption) (by assumption)
      | exact Validity.lift (StrMap.valid_find _ _ _ _ (by assumption) (by assumption)) (by omega)
      | exact Validity.lift (MutableObject.valid_field (by assumption) (by assumption)) (by omega)
      | split)

theorem sound_for_step (m : Nat) (ih : SoundAt m) :
    ∀ c i b env k, Expr.pointerFreeOption c = true → Expr.pointerFreeOption i = true →
      b.pointerFree = true → (ForStmt.loop (m + 1) c i b env).Sound k := by
  obtain ⟨ihE, ihS, ihW, ihF, ihC⟩ := ih
  intro c i b env k hc hi hb
  simp only [ForStmt.loop]
  repeat (first
      | infer_instance
      | assumption
      | exact trivial
      | omega
      | exact Validity.lift (by assumption) (by omega)
      | (simp only [Value.valid_object_iff] at *; omega)
      | (simp only [Value.valid_object_iff, Callable.valid_class_iff] at *; omega)
      | with_reducible refine ihE _ _ _ ?_
      | with_reducible refine ihS _ _ _ ?_
      | with_reducible refine ihW _ _ _ _ ?_ ?_
      | with_reducible refine ihF _ _ _ _ _ ?_ ?_ ?_
      | with_reducible refine ihC _ _ _ ?_
      | with_reducible refine sound_loopBody ?_
      | with_reducible refine sound_forEachM_exprs ?_ (fun _ _ _ _ _ => ?_)
      | with_reducible refine sound_forEachM_pairs ?_ (fun _ _ _ _ _ => ?_)
      | with_reducible refine sound_forEachM_methods ?_ (fun _ _ _ _ _ => ?_)
      | with_reducible refine sound_evalAll_here ?_ (fun _ _ _ _ => ?_)
      | with_reducible refine sound_execStatements_here ?_ (fun _ _ _ _ => ?_)
      | with_reducible refine sound_forEachElements_here (fun _ _ _ _ => ?_) (sound_fetchList _ _)
      | with_reducible refine sound_forEachElements_here (fun _ _ _ _ => ?_) (sound_charList _)
      | with_reducible refine sound_native _ _ ?_
      | with_reducible refine sound_bindParams _ _ _ _ ?_
      | with_reducible refine sound_newCallable ?_
      | with_reducible refine sound_writeCallable ?_
      | with_reducible refine sound_memberApply ?_
      | with_reducible refine sound_indexApply ?_ ?_
      | with_reducible refine sound_setMember ?_ ?_
      | exact Validity.valid_of_ret (by assumption)
      | exact Validity.valid_of_some (by assumption)
      | exact Validity.lift (Validity.valid_of_ret (by assumption)) (by omega)
      | exact Validity.lift (Validity.valid_of_some (by assumption)) (by omega)
      | refine (Callable.valid_class_iff _ _ _ _ _).2 ?_
      | refine (Callable.valid_function_iff _ _ _ _ _).2 ?_
      | (show (_ : Bool) = true
         (try simp only [Expr.pointerFree, Stmt.pointerFree, BlockStmt.pointerFree, FuncStmt.pointerFree, Expr.pointerFreeList, FuncStmt.pointerFreeList, Stmt.pointerFreeOptions, Expr.pointerFreePairs, Expr.pointerFreeOption, Stmt.pointerFreeOption, FuncStmt.body_pointerFree_eq, BlockStmt.statements_pointerFree_eq, Callable.valid_function_iff, Bool.and_eq_true] at *); simp_all only [and_self, and_true, true_and])
      | with_reducible refine sound_newObject_none_bind (fun _ _ _ _ => ?_)
      | with_reducible refine sound_newObject_some_bind ?_ (fun _ _ _ _ => ?_)
      | with_reducible refine sound_bind ?_ (fun _ _ _ _ => ?_)
      | with_reducible refine sound_tryCatch ?_ (fun _ _ _ => ?_)
      | with_reducible refine sound_pure ?_
      | with_reducible refine sound_argAt ?_
      | with_reducible refine sound_define ?_
      | with_reducible refine sound_assign ?_
      | with_reducible refine sound_set ?_
      | with_reducible refine sound_functionBind ?_
      | with_reducible refine sound_newArray ?_
      | with_reducible refine sound_newDict ?_
      | with_reducible refine sound_writeArray ?_
      | with_reducible refine sound_writeDict ?_
      | with_reducible refine sound_slotWrite ?_
      | with_reducible refine sound_perform_set_on_ref ?_ ?_
      | with_reducible refine @sound_rethrowAt _ _ _ _ _ ?_
      | exact Validity.valid_none
      | exact Validity.valid_nil
      | exact Validity.valid_plain _ _
      | refine Validity.valid_some ?_
      | refine Validity.valid_cons ?_ ?_
      | refine Validity.valid_pair ?_ ?_
      | refine Validity.valid_ret ?_
      | refine Validity.valid_snoc ?_ ?_
      | refine Validity.valid_append ?_ ?_
      | refine Validity.valid_set _ ?_ ?_
      | refine StrMap.valid_insert _ _ _ _ ?_ ?_
      | refine StrMap.valid_erase _ _ _ ?_
      | exact StrMap.valid_find _ _ _ _ (by assumption) (by assumption)
      | exact MutableObject.valid_field (by assumption) (by assumption)
      | exact Validity.lift (StrMap.valid_find _ _ _ _ (by assumption) (by assumption)) (by omega)
      | exact Validity.lift (MutableObject.valid_field (by assumption) (by assumption)) (by omega)
      | split)

theorem sound_call_step (m : Nat) (ih : SoundAt m) :
    ∀ f args k, Validity.valid k args → (Callable.call (m + 1) f args).Sound k := by
  obtain ⟨ihE, ihS, ihW, ihF, ihC⟩ := ih
  intro f args k hargs
  simp only [Callable.call]
  repeat (first
      | infer_instance
      | assumption
      | exact trivial
      | omega
      | exact Validity.lift (by assumption) (by omega)
      | (simp only [Value.valid_object_iff] at *; omega)
      | (simp only [Value.valid_object_iff, Callable.valid_class_iff] at *; omega)
      | with_reducible refine ihE _ _ _ ?_
      | with_reducible refine ihS _ _ _ ?_
      | with_reducible refine ihW _ _ _ _ ?_ ?_
      | with_reducible refine ihF _ _ _ _ _ ?_ ?_ ?_
      | with_reducible refine ihC _ _ _ ?_
      | with_reducible refine sound_loopBody ?_
      | with_reducible refine sound_forEachM_exprs ?_ (fun _ _ _ _ _ => ?_)
      | with_reducible refine sound_forEachM_pairs ?_ (fun _ _ _ _ _ => ?_)
      | with_reducible refine sound_forEachM_methods ?_ (fun _ _ _ _ _ => ?_)
      | with_reducible refine sound_evalAll_here ?_ (fun _ _ _ _ => ?_)
      | with_reducible refine sound_execStatements_here ?_ (fun _ _ _ _ => ?_)
      | with_reducible refine sound_forEachElements_here (fun _ _ _ _ => ?_) (sound_fetchList _ _)
      | with_reducible refine sound_forEachElements_here (fun _ _ _ _ => ?_) (sound_charList _)
      | with_reducible refine sound_native _ _ ?_
      | with_reducible refine sound_bindParams _ _ _ _ ?_
      | with_reducible refine sound_newCallable ?_
      | with_reducible refine sound_writeCallable ?_
      | with_reducible refine sound_memberApply ?_
      | with_reducible refine sound_indexApply ?_ ?_
      | with_reducible refine sound_setMember ?_ ?_
      | exact Validity.valid_of_ret (by assumption)
      | exact Validity.valid_of_some (by assumption)
      | exact Validity.lift (Validity.valid_of_ret (by assumption)) (by omega)
      | exact Validity.lift (Validity.valid_of_some (by assumption)) (by omega)
      | refine (Callable.valid_class_iff _ _ _ _ _).2 ?_
      | refine (Callable.valid_function_iff _ _ _ _ _).2 ?_
      | (show (_ : Bool) = true
         (try simp only [Expr.pointerFree, Stmt.pointerFree, BlockStmt.pointerFree, FuncStmt.pointerFree, Expr.pointerFreeList, FuncStmt.pointerFreeList, Stmt.pointerFreeOptions, Expr.pointerFreePairs, Expr.pointerFreeOption, Stmt.pointerFreeOption, FuncStmt.body_pointerFree_eq, BlockStmt.statements_pointerFree_eq, Callable.valid_function_iff, Bool.and_eq_true] at *); simp_all only [and_self, and_true, true_and])
      | with_reducible refine sound_newObject_none_bind (fun _ _ _ _ => ?_)
      | with_reducible refine sound_newObject_some_bind ?_ (fun _ _ _ _ => ?_)
      | with_reducible refine sound_bind ?_ (fun _ _ _ _ => ?_)
      | with_reducible refine sound_tryCatch ?_ (fun _ _ _ => ?_)
      | with_reducible refine sound_pure ?_
      | with_reducible refine sound_argAt ?_
      | with_reducible refine sound_define ?_
      | with_reducible refine sound_assign ?_
      | with_reducible refine sound_set ?_
      | with_reducible refine sound_functionBind ?_
      | with_reducible refine sound_newArray ?_
      | with_reducible refine sound_newDict ?_
      | with_reducible refine sound_writeArray ?_
      | with_reducible refine sound_writeDict ?_
      | with_reducible refine sound_slotWrite ?_
      | with_reducible refine sound_perform_set_on_ref ?_ ?_
      | with_reducible refine @sound_rethrowAt _ _ _ _ _ ?_
      | exact Validity.valid_none
      | exact Validity.valid_nil
      | exact Validity.valid_plain _ _
      | refine Validity.valid_some ?_
      | refine Validity.valid_cons ?_ ?_
      | refine Validity.valid_pair ?_ ?_
      | refine Validity.valid_ret ?_
      | refine Validity.valid_snoc ?_ ?_
      | refine Validity.valid_append ?_ ?_
      | refine Validity.valid_set _ ?_ ?_
      | refine StrMap.valid_insert _ _ _ _ ?_ ?_
      | refine StrMap.valid_erase _ _ _ ?_
      | exact StrMap.valid_find _ _ _ _ (by assumption) (by assumption)
      | exact MutableObject.valid_field (by assumption) (by assumption)
      | exact Validity.lift (StrMap.valid_find _ _ _ _ (by assumption) (by assumption)) (by omega)
      | exact Validity.lift (MutableObject.valid_field (by assumption) (by assumption)) (by omega)
      | split)

theorem sound_exec_step (m : Nat) (ih : SoundAt m) :
    ∀ st env k, st.pointerFree = true → (Stmt.exec (m + 1) st env).Sound k := by
  obtain ⟨ihE, ihS, ihW, ihF, ihC⟩ := ih
  intro st env k hp
  cases st with
  | Class name superclass methods line =>
    simp only [Stmt.exec]
    refine sound_bind ?_ (fun sv k₁ hk₁ _ =>
      sound_bind (sound_define trivial) (fun _ k₂ hk₂ _ =>
        sound_bind (sound_newEnvironment _) (fun class_env k₃ hk₃ _ => ?_)))
    ·
      repeat (first
          | infer_instance
          | assumption
          | exact trivial
          | omega
          | exact Validity.lift (by assumption) (by omega)
          | (simp only [Value.valid_object_iff] at *; omega)
          | (simp only [Value.valid_object_iff, Callable.valid_class_iff] at *; omega)
          | with_reducible refine ihE _ _ _ ?_
          | with_reducible refine ihS _ _ _ ?_
          | with_reducible refine ihW _ _ _ _ ?_ ?_
          | with_reducible refine ihF _ _ _ _ _ ?_ ?_ ?_
          | with_reducible refine ihC _ _ _ ?_
          | with_reducible refine sound_loopBody ?_
          | with_reducible refine sound_forEachM_exprs ?_ (fun _ _ _ _ _ => ?_)
          | with_reducible refine sound_forEachM_pairs ?_ (fun _ _ _ _ _ => ?_)
          | with_reducible refine sound_forEachM_methods ?_ (fun _ _ _ _ _ => ?_)
          | with_reducible refine sound_evalAll_here ?_ (fun _ _ _ _ => ?_)
          | with_reducible refine sound_execStatements_here ?_ (fun _ _ _ _ => ?_)
          | with_reducible refine sound_forEachElements_here (fun _ _ _ _ => ?_) (sound_fetchList _ _)
          | with_reducible refine sound_forEachElements_here (fun _ _ _ _ => ?_) (sound_charList _)
          | with_reducible refine sound_native _ _ ?_
          | with_reducible refine sound_bindParams _ _ _ _ ?_
          | with_reducible refine sound_newCallable ?_
          | with_reducible refine sound_writeCallable ?_
          | with_reducible refine sound_memberApply ?_
          | with_reducible refine sound_indexApply ?_ ?_
          | with_reducible refine sound_setMember ?_ ?_
          | exact Validity.valid_of_ret (by assumption)
          | exact Validity.valid_of_some (by assumption)
          | exact Validity.lift (Validity.valid_of_ret (by assumption)) (by omega)
          | exact Validity.lift (Validity.valid_of_some (by assumption)) (by omega)
          | refine (Callable.valid_class_iff _ _ _ _ _).2 ?_
          | refine (Callable.valid_function_iff _ _ _ _ _).2 ?_
          | (show (_ : Bool) = true
             (try simp only [Expr.pointerFree, Stmt.pointerFree, BlockStmt.pointerFree, FuncStmt.pointerFree, Expr.pointerFreeList, FuncStmt.pointerFreeList, Stmt.pointerFreeOptions, Expr.pointerFreePairs, Expr.pointerFreeOption, Stmt.pointerFreeOption, FuncStmt.body_pointerFree_eq, BlockStmt.statements_pointerFree_eq, Callable.valid_function_iff, Bool.and_eq_true] at *); simp_all only [and_self, and_true, true_and])
          | with_reducible refine sound_newObject_none_bind (fun _ _ _ _ => ?_)
          | with_reducible refine sound_newObject_some_bind ?_ (fun _ _ _ _ => ?_)
          | with_reducible refine sound_bind ?_ (fun _ _ _ _ => ?_)
          | with_reducible refine sound_tryCatch ?_ (fun _ _ _ => ?_)
          | with_reducible refine sound_pure ?_
          | with_reducible refine sound_argAt ?_
          | with_reducible refine sound_define ?_
          | with_reducible refine sound_assign ?_
          | with_reducible refine sound_set ?_
          | with_reducible refine sound_functionBind ?_
          | with_reducible refine sound_newArray ?_
          | with_reducible refine sound_newDict ?_
          | with_reducible refine sound_writeArray ?_
          | with_reducible refine sound_writeDict ?_
          | with_reducible refine sound_slotWrite ?_
          | with_reducible refine sound_perform_set_on_ref ?_ ?_
          | with_reducible refine @sound_rethrowAt _ _ _ _ _ ?_
          | exact Validity.valid_none
          | exact Validity.valid_nil
          | exact Validity.valid_plain _ _
          | refine Validity.valid_some ?_
          | refine Validity.valid_cons ?_ ?_
          | refine Validity.valid_pair ?_ ?_
          | refine Validity.valid_ret ?_
          | refine Validity.valid_snoc ?_ ?_
          | refine Validity.valid_append ?_ ?_
          | refine Validity.valid_set _ ?_ ?_
          | refine StrMap.valid_insert _ _ _ _ ?_ ?_
          | refine StrMap.valid_erase _ _ _ ?_
          | exact StrMap.valid_find _ _ _ _ (by assumption) (by assumption)
          | exact MutableObject.valid_field (by assumption) (by assumption)
          | exact Validity.lift (StrMap.valid_find _ _ _ _ (by assumption) (by assumption)) (by omega)
          | exact Validity.lift (MutableObject.valid_field (by assumption) (by assumption)) (by omega)
          | split)
    · cases sv with
      | none =>
        refine sound_pure_bind (sound_pure_bind ?_)
        repeat (first
            | infer_instance
            | assumption
            | exact trivial
            | omega
            | exact Validity.lift (by assumption) (by omega)
            | (simp only [Value.valid_object_iff] at *; omega)
            | (simp only [Value.valid_object_iff, Callable.valid_class_iff] at *; omega)
            | with_reducible refine ihE _ _ _ ?_
            | with_reducible refine ihS _ _ _ ?_
            | with_reducible refine ihW _ _ _ _ ?_ ?_
            | with_reducible refine ihF _ _ _ _ _ ?_ ?_ ?_
            | with_reducible refine ihC _ _ _ ?_
            | with_reducible refine sound_loopBody ?_
            | with_reducible refine sound_forEachM_exprs ?_ (fun _ _ _ _ _ => ?_)
            | with_reducible refine sound_forEachM_pairs ?_ (fun _ _ _ _ _ => ?_)
            | with_reducible refine sound_forEachM_methods ?_ (fun _ _ _ _ _ => ?_)
            | with_reducible refine sound_evalAll_here ?_ (fun _ _ _ _ => ?_)
            | with_reducible refine sound_execStatements_here ?_ (fun _ _ _ _ => ?_)
            | with_reducible refine sound_forEachElements_here (fun _ _ _ _ => ?_) (sound_fetchList _ _)
            | with_reducible refine sound_forEachElements_here (fun _ _ _ _ => ?_) (sound_charList _)
            | with_reducible refine sound_native _ _ ?_
            | with_reducible refine sound_bindParams _ _ _ _ ?_
            | with_reducible refine sound_newCallable ?_
            | with_reducible refine sound_writeCallable ?_
            | with_reducible refine sound_memberApply ?_
            | with_reducible refine sound_indexApply ?_ ?_
            | with_reducible refine sound_setMember ?_ ?_
            | exact Validity.valid_of_ret (by assumption)
            | exact Validity.valid_of_some (by assumption)
            | exact Validity.lift (Validity.valid_of_ret (by assumption)) (by omega)
            | exact Validity.lift (Validity.valid_of_some (by assumption)) (by omega)
            | refine (Callable.valid_class_iff _ _ _ _ _).2 ?_
            | refine (Callable.valid_function_iff _ _ _ _ _).2 ?_
            | (show (_ : Bool) = true
               (try simp only [Expr.pointerFree, Stmt.pointerFree, BlockStmt.pointerFree, FuncStmt.pointerFree, Expr.pointerFreeList, FuncStmt.pointerFreeList, Stmt.pointerFreeOptions, Expr.pointerFreePairs, Expr.pointerFreeOption, Stmt.pointerFreeOption, FuncStmt.body_pointerFree_eq, BlockStmt.statements_pointerFree_eq, Callable.valid_function_iff, Bool.and_eq_true] at *); simp_all only [and_self, and_true, true_and])
            | with_reducible refine sound_newObject_none_bind (fun _ _ _ _ => ?_)
            | with_reducible refine sound_newObject_some_bind ?_ (fun _ _ _ _ => ?_)
            | with_reducible refine sound_bind ?_ (fun _ _ _ _ => ?_)
            | with_reducible refine sound_tryCatch ?_ (fun _ _ _ => ?_)
            | with_reducible refine sound_pure ?_
            | with_reducible refine sound_argAt ?_
            | with_reducible refine sound_define ?_
            | with_reducible refine sound_assign ?_
            | with_reducible refine sound_set ?_
            | with_reducible refine sound_functionBind ?_
            | with_reducible refine sound_newArray ?_
            | with_reducible refine sound_newDict ?_
            | with_reducible refine sound_writeArray ?_
            | with_reducible refine sound_writeDict ?_
            | with_reducible refine sound_slotWrite ?_
            | with_reducible refine sound_perform_set_on_ref ?_ ?_
            | with_reducible refine @sound_rethrowAt _ _ _ _ _ ?_
            | exact Validity.valid_none
            | exact Validity.valid_nil
            | exact Validity.valid_plain _ _
            | refine Validity.valid_some ?_
            | refine Validity.valid_cons ?_ ?_
            | refine Validity.valid_pair ?_ ?_
            | refine Validity.valid_ret ?_
            | refine Validity.valid_snoc ?_ ?_
            | refine Validity.valid_append ?_ ?_
            | refine Validity.valid_set _ ?_ ?_
            | refine StrMap.valid_insert _ _ _ _ ?_ ?_
            | refine StrMap.valid_erase _ _ _ ?_
            | exact StrMap.valid_find _ _ _ _ (by assumption) (by assumption)
            | exact MutableObject.valid_field (by assumption) (by assumption)
            | exact Validity.lift (StrMap.valid_find _ _ _ _ (by assumption) (by assumption)) (by omega)
            | exact Validity.lift (MutableObject.valid_field (by assumption) (by assumption)) (by omega)
            | split)
      | some sc =>
        refine sound_bind (sound_define trivial) (fun _ k₄ hk₄ _ =>
          sound_bind_assoc (sound_bind (sound_readCallable sc) (fun c k₅ hk₅ hc => ?_)))
        cases c with
        | ClassValue cname csuper prototype initializer =>
          refine sound_pure_bind ?_
          repeat (first
              | infer_instance
              | assumption
              | exact trivial
              | omega
              | exact Validity.lift (by assumption) (by omega)
              | (simp only [Value.valid_object_iff] at *; omega)
              | (simp only [Value.valid_object_iff, Callable.valid_class_iff] at *; omega)
              | with_reducible refine ihE _ _ _ ?_
              | with_reducible refine ihS _ _ _ ?_
              | with_reducible refine ihW _ _ _ _ ?_ ?_
              | with_reducible refine ihF _ _ _ _ _ ?_ ?_ ?_
              | with_reducible refine ihC _ _ _ ?_
              | with_reducible refine sound_loopBody ?_
              | with_reducible refine sound_forEachM_exprs ?_ (fun _ _ _ _ _ => ?_)
              | with_reducible refine sound_forEachM_pairs ?_ (fun _ _ _ _ _ => ?_)
              | with_reducible refine sound_forEachM_methods ?_ (fun _ _ _ _ _ => ?_)
              | with_reducible refine sound_evalAll_here ?_ (fun _ _ _ _ => ?_)
              | with_reducible refine sound_execStatements_here ?_ (fun _ _ _ _ => ?_)
              | with_reducible refine sound_forEachElements_here (fun _ _ _ _ => ?_) (sound_fetchList _ _)
              | with_reducible refine sound_forEachElements_here (fun _ _ _ _ => ?_) (sound_charList _)
              | with_reducible refine sound_native _ _ ?_
              | with_reducible refine sound_bindParams _ _ _ _ ?_
              | with_reducible refine sound_newCallable ?_
              | with_reducible refine sound_writeCallable ?_
              | with_reducible refine sound_memberApply ?_
              | with_reducible refine sound_indexApply ?_ ?_
              | with_reducible refine sound_setMember ?_ ?_
              | exact Validity.valid_of_ret (by assumption)
              | exact Validity.valid_of_some (by assumption)
              | exact Validity.lift (Validity.valid_of_ret (by assumption)) (by omega)
              | exact Validity.lift (Validity.valid_of_some (by assumption)) (by omega)
              | refine (Callable.valid_class_iff _ _ _ _ _).2 ?_
              | refine (Callable.valid_function_iff _ _ _ _ _).2 ?_
              | (show (_ : Bool) = true
                 (try simp only [Expr.pointerFree, Stmt.pointerFree, BlockStmt.pointerFree, FuncStmt.pointerFree, Expr.pointerFreeList, FuncStmt.pointerFreeList, Stmt.pointerFreeOptions, Expr.pointerFreePairs, Expr.pointerFreeOption, Stmt.pointerFreeOption, FuncStmt.body_pointerFree_eq, BlockStmt.statements_pointerFree_eq, Callable.valid_function_iff, Bool.and_eq_true] at *); simp_all only [and_self, and_true, true_and])
              | with_reducible refine sound_newObject_none_bind (fun _ _ _ _ => ?_)
              | with_reducible refine sound_newObject_some_bind ?_ (fun _ _ _ _ => ?_)
              | with_reducible refine sound_bind ?_ (fun _ _ _ _ => ?_)
              | with_reducible refine sound_tryCatch ?_ (fun _ _ _ => ?_)
              | with_reducible refine sound_pure ?_
              | with_reducible refine sound_argAt ?_
              | with_reducible refine sound_define ?_
              | with_reducible refine sound_assign ?_
              | with_reducible refine sound_set ?_
              | with_reducible refine sound_functionBind ?_
              | with_reducible refine sound_newArray ?_
              | with_reducible refine sound_newDict ?_
              | with_reducible refine sound_writeArray ?_
              | with_reducible refine sound_writeDict ?_
              | with_reducible refine sound_slotWrite ?_
              | with_reducible refine sound_perform_set_on_ref ?_ ?_
              | with_reducible refine @sound_rethrowAt _ _ _ _ _ ?_
              | exact Validity.valid_none
              | exact Validity.valid_nil
              | exact Validity.valid_plain _ _
              | refine Validity.valid_some ?_
              | refine Validity.valid_cons ?_ ?_
              | refine Validity.valid_pair ?_ ?_
              | refine Validity.valid_ret ?_
              | refine Validity.valid_snoc ?_ ?_
              | refine Validity.valid_append ?_ ?_
              | refine Validity.valid_set _ ?_ ?_
              | refine StrMap.valid_insert _ _ _ _ ?_ ?_
              | refine StrMap.valid_erase _ _ _ ?_
              | exact StrMap.valid_find _ _ _ _ (by assumption) (by assumption)
              | exact MutableObject.valid_field (by assumption) (by assumption)
              | exact Validity.lift (StrMap.valid_find _ _ _ _ (by assumption) (by assumption)) (by omega)
              | exact Validity.lift (MutableObject.valid_field (by assumption) (by assumption)) (by omega)
              | split)
        | _ => exact sound_fault_bind
  | _ =>
    simp only [Stmt.exec]
    repeat (first
        | infer_instance
        | assumption
        | exact trivial
        | omega
        | exact Validity.lift (by assumption) (by omega)
        | (simp only [Value.valid_object_iff] at *; omega)
        | (simp only [Value.valid_object_iff, Callable.valid_class_iff] at *; omega)
        | with_reducible refine ihE _ _ _ ?_
        | with_reducible refine ihS _ _ _ ?_
        | with_reducible refine ihW _ _ _ _ ?_ ?_
        | with_reducible refine ihF _ _ _ _ _ ?_ ?_ ?_
        | with_reducible refine ihC _ _ _ ?_
        | with_reducible refine sound_loopBody ?_
        | with_reducible refine sound_forEachM_exprs ?_ (fun _ _ _ _ _ => ?_)
        | with_reducible refine sound_forEachM_pairs ?_ (fun _ _ _ _ _ => ?_)
        | with_reducible refine sound_forEachM_methods ?_ (fun _ _ _ _ _ => ?_)
        | with_reducible refine sound_evalAll_here ?_ (fun _ _ _ _ => ?_)
        | with_reducible refine sound_execStatements_here ?_ (fun _ _ _ _ => ?_)
        | with_reducible refine sound_forEachElements_here (fun _ _ _ _ => ?_) (sound_fetchList _ _)
        | with_reducible refine sound_forEachElements_here (fun _ _ _ _ => ?_) (sound_charList _)
        | with_reducible refine sound_native _ _ ?_
        | with_reducible refine sound_bindParams _ _ _ _ ?_
        | with_reducible refine sound_newCallable ?_
        | with_reducible refine sound_writeCallable ?_
        | with_reducible refine sound_memberApply ?_
        | with_reducible refine sound_indexApply ?_ ?_
        | with_reducible refine sound_setMember ?_ ?_
        | exact Validity.valid_of_ret (by assumption)
        | exact Validity.valid_of_some (by assumption)
        | exact Validity.lift (Validity.valid_of_ret (by assumption)) (by omega)
        | exact Validity.lift (Validity.valid_of_some (by assumption)) (by omega)
        | refine (Callable.valid_class_iff _ _ _ _ _).2 ?_
        | refine (Callable.valid_function_iff _ _ _ _ _).2 ?_
        | (show (_ : Bool) = true
           (try simp only [Expr.pointerFree, Stmt.pointerFree, BlockStmt.pointerFree, FuncStmt.pointerFree, Expr.pointerFreeList, FuncStmt.pointerFreeList, Stmt.pointerFreeOptions, Expr.pointerFreePairs, Expr.pointerFreeOption, Stmt.pointerFreeOption, FuncStmt.body_pointerFree_eq, BlockStmt.statements_pointerFree_eq, Callable.valid_function_iff, Bool.and_eq_true] at *); simp_all only [and_self, and_true, true_and])
        | with_reducible refine sound_newObject_none_bind (fun _ _ _ _ => ?_)
        | with_reducible refine sound_newObject_some_bind ?_ (fun _ _ _ _ => ?_)
        | with_reducible refine sound_bind ?_ (fun _ _ _ _ => ?_)
        | with_reducible refine sound_tryCatch ?_ (fun _ _ _ => ?_)
        | with_reducible refine sound_pure ?_
        | with_reducible refine sound_argAt ?_
        | with_reducible refine sound_define ?_
        | with_reducible refine sound_assign ?_
        | with_reducible refine sound_set ?_
        | with_reducible refine sound_functionBind ?_
        | with_reducible refine sound_newArray ?_
        | with_reducible refine sound_newDict ?_
        | with_reducible refine sound_writeArray ?_
        | with_reducible refine sound_writeDict ?_
        | with_reducible refine sound_slotWrite ?_
        | with_reducible refine sound_perform_set_on_ref ?_ ?_
        | with_reducible refine @sound_rethrowAt _ _ _ _ _ ?_
        | exact Validity.valid_none
        | exact Validity.valid_nil
        | exact Validity.valid_plain _ _
        | refine Validity.valid_some ?_
        | refine Validity.valid_cons ?_ ?_
        | refine Validity.valid_pair ?_ ?_
        | refine Validity.valid_ret ?_
        | refine Validity.valid_snoc ?_ ?_
        | refine Validity.valid_append ?_ ?_
        | refine Validity.valid_set _ ?_ ?_
        | refine StrMap.valid_insert _ _ _ _ ?_ ?_
        | refine StrMap.valid_erase _ _ _ ?_
        | exact StrMap.valid_find _ _ _ _ (by assumption) (by assumption)
        | exact MutableObject.valid_field (by assumption) (by assumption)
        | exact Validity.lift (StrMap.valid_find _ _ _ _ (by assumption) (by assumption)) (by omega)
        | exact Validity.lift (MutableObject.valid_field (by assumption) (by assumption)) (by omega)
        | split)

theorem soundAt (m : Nat) : SoundAt m := by
  induction m with
  | zero => exact sound_at_zero
  | succ m ih =>
    exact ⟨sound_eval_step m ih, sound_exec_step m ih, sound_while_step m ih,
      sound_for_step m ih, sound_call_step m ih⟩

end M.Sound

/-! ## The parent chain of an object (C38) -/

theorem Interpreter.initial_wf : Interpreter.initial.WF := by
  refine ⟨?_, ?_, ?_, ?_, ?_, ?_⟩
  · intro p o h
    simp [Interpreter.initial] at h
  · intro p o h
    simp [Interpreter.initial] at h
  · intro f e he kv hkv
    have he' : e = { vars := Interpreter.globals, parent := none } := by
      cases f with
      | zero => simpa [Interpreter.initial] using he.symm
      | succ f => simp [Interpreter.initial] at he
    subst he'
    refine ⟨trivial, ?_⟩
    simp only [Interpreter.globals, nativeFunctions] at hkv
    simp only [List.length_cons, List.length_nil, List.range, List.range.loop, List.zipWith,
      List.mem_cons, List.mem_nil_iff, or_false] at hkv
    rcases hkv with h | h | h | h | h | h | h | h | h <;> subst h <;> trivial
  · intro a l h
    simp [Interpreter.initial] at h
  · intro d m h
    simp [Interpreter.initial] at h
  · intro c x h
    have hx := List.getElem?_mem h
    simp only [Interpreter.initial, List.mem_map] at hx
    obtain ⟨fn, _, rfl⟩ := hx
    trivial

theorem State.WF.parentsOlder {s : State} (h : s.WF) : s.ParentsOlder :=
  fun p o q ho hq => h.parents p o ho q hq

theorem Res.Sound.wf_of_state {α : Type} [Validity α] {s t : State} {r : Res α}
    (h : r.Sound s) (ht : r.state? = some t) : t.WF := by
  cases r with
  | ok a u =>
    simp only [Res.state?, Option.some.injEq] at ht
    subst ht
    exact h.1
  | throw e u =>
    simp only [Res.state?, Option.some.injEq] at ht
    subst ht
    exact h.1
  | fault u =>
    simp only [Res.state?, Option.some.injEq] at ht
    subst ht
    exact h.1
  | outOfFuel => simp [Res.state?] at ht

/-- The top-level statements of a program without a literal that is a pointer
to an object end in order. -/
theorem Interpreter.run_sound (fuel : Nat) (ast : List (Option Stmt))
    (hast : Stmt.pointerFreeOptions ast = true) : (Interpreter.run fuel ast).Sound 0 :=
  M.Sound.sound_execStatements_here hast
    (fun st k _ hst => (M.Sound.soundAt fuel).2.1 st _ k hst)

/-- The recursion of `MutableObject::get` ends with one result under every
budget beyond the index of the object. -/
theorem State.ParentsOlder.lookup_ends {u : State} (h : u.ParentsOlder) (name : String) :
    ∀ p, p < u.objects.length →
      ∃ r, ∀ b, p < b → MutableObject.getChain u.objects name b p = some r := by
  intro p
  induction p using Nat.strong_induction_on with
  | _ p ih =>
    intro hp
    obtain ⟨o, ho⟩ : ∃ o, u.objects[p]? = some o :=
      ⟨u.objects[p], List.getElem?_eq_getElem hp⟩
    cases hf : o.fields.find name with
    | some v =>
      refine ⟨some v, fun b hb => ?_⟩
      obtain ⟨b', rfl⟩ : ∃ b', b = b' + 1 := ⟨b - 1, by omega⟩
      simp only [MutableObject.getChain, ho, hf]
    | none =>
      cases hq : o.parent with
      | none =>
        refine ⟨none, fun b hb => ?_⟩
        obtain ⟨b', rfl⟩ : ∃ b', b = b' + 1 := ⟨b - 1, by omega⟩
        simp only [MutableObject.getChain, ho, hf, hq]
      | some q =>
        have hlt := h p o q ho hq
        obtain ⟨r, hr⟩ := ih q hlt (by omega)
        refine ⟨r, fun b hb => ?_⟩
        obtain ⟨b', rfl⟩ : ∃ b', b = b' + 1 := ⟨b - 1, by omega⟩
        simp only [MutableObject.getChain, ho, hf, hq]
        exact hr b' (by omega)

/-- The objects of a parent chain are each older than the one before. -/
theorem State.ParentsOlder.chain_decreasing {u : State} (h : u.ParentsOlder) :
    ∀ b p, (∀ x ∈ MutableObject.chain u.objects b p, x ≤ p)
      ∧ (MutableObject.chain u.objects b p).Pairwise (fun x y => y < x)
      ∧ (MutableObject.chain u.objects b p).length ≤ p + 1 := by
  intro b
  induction b with
  | zero =>
    intro p
    simp [MutableObject.chain]
  | succ b ih =>
    intro p
    cases ho : u.objects[p]? with
    | none => simp [MutableObject.chain, ho]
    | some o =>
      cases hq : o.parent with
      | none => simp [MutableObject.chain, ho, hq]
      | some q =>
        have hlt := h p o q ho hq
        obtain ⟨h₁, h₂, h₃⟩ := ih q
        simp only [MutableObject.chain, ho, hq, List.mem_cons, List.pairwise_cons,
          List.length_cons]
        refine ⟨?_, ⟨?_, h₂⟩, by omega⟩
        · rintro x (rfl | hx)
          · exact Nat.le_refl _
          · have := h₁ x hx
            omega
        · intro x hx
          have := h₁ x hx
          omega

theorem State.ParentsOlder.lookups_end {u : State} (h : u.ParentsOlder) : u.LookupsEnd := by
  intro p hp
  refine ⟨fun b => ⟨(h.chain_decreasing b p).2.1, (h.chain_decreasing b p).2.2⟩,
    fun name => ?_⟩
  obtain ⟨r, hr⟩ := h.lookup_ends name p hp
  refine ⟨⟨r, hr⟩, ?_, ?_⟩
  · have hr' := hr u.objects.length hp
    cases r with
    | none => exact Or.inr (by simp only [MutableObject.get, hr'])
    | some v => exact Or.inl ⟨v, by simp only [MutableObject.get, hr']⟩
  · have hr' := hr u.objects.length hp
    cases r with
    | none => exact ⟨false, by simp only [MutableObject.has, hr']⟩
    | some v => exact ⟨true, by simp only [MutableObject.has, hr']⟩

/-- C38: in every state in which a run of a program ends or stops, with any
budget, the parent of each object is an object made before it, so that the
parent chain of an object is strictly decreasing and ends: the lookups `get`
and `has` from every object of the store end, for every name.  A statement
run in such a state keeps every object with the parent it has and leads to
a state of the same kind: an object gets its parent when it is made, by the
declaration of a class, the call of a class, `Object()`, `deepcopy` or the
declaration of a variable of type object, and keeps it.  The program and
the statement hold no literal that is a pointer to an object, as is the case
of every syntax tree that the parser builds. -/
theorem parent_chain_is_finite_and_acyclic (fuel : Nat) (ast : List (Option Stmt)) (s : State)
    (hast : Stmt.pointerFreeOptions ast = true)
    (hs : (Interpreter.run fuel ast Interpreter.initial).state? = some s) :
    s.ParentsOlder
    ∧ s.LookupsEnd
    ∧ ∀ m st env t, st.pointerFree = true → (Stmt.exec m st env s).state? = some t →
        s.ObjectsKept t ∧ t.ParentsOlder ∧ t.LookupsEnd := by
  have hwf : s.WF :=
    ((Interpreter.run_sound fuel ast hast).sound _ Interpreter.initial_wf
      (Nat.zero_le _)).wf_of_state hs
  refine ⟨hwf.parentsOlder, State.ParentsOlder.lookups_end hwf.parentsOlder, ?_⟩
  intro m st env t hst ht
  have hwf' : t.WF :=
    (((M.Sound.soundAt m).2.1 st env s.objects.length hst).sound s hwf
      (Nat.le_refl _)).wf_of_state ht
  exact ⟨((keepsObjectsAt m).2.1 st env).keeps s t ht, hwf'.parentsOlder,
    State.ParentsOlder.lookups_end hwf'.parentsOlder⟩

/-- Witness of `parent_chain_is_finite_and_acyclic`: the program
`class A { }  class B extends A { }  var x = B();  var o = Object(x);  var c = deepcopy(o);`
and the state it leaves, with eight objects. -/
theorem parent_chain_is_finite_and_acyclic_witness :
    Stmt.pointerFreeOptions Example.objectChain = true
    ∧ (Interpreter.run 7 Example.objectChain Interpreter.initial).state?
        = some Example.afterObjectChain
    ∧ Example.afterObjectChain.ParentsOlder
    ∧ Example.afterObjectChain.LookupsEnd :=
  have h := parent_chain_is_finite_and_acyclic 7 Example.objectChain Example.afterObjectChain
    (by decide!) (by decide!)
  ⟨by decide!, by decide!, h.1, h.2.1⟩

end MiniLang
